import Mathlib

/-!
# karpenter-provider-ovhcloud: a shallow embedding and its verified properties

The development embeds the elastic pool orchestrator of the provider
(`pkg/cloudprovider/cloudprovider.go`), the retry executor of its API client
(`pkg/client/client.go`) and the pricing cache (`pkg/client/pricing.go`) as
executable Lean functions, and proves the properties the specification states
about them.

Conventions of the embedding.

* A Go `string` is a Lean `String`.  The string routines used by the code
  (`strings.ReplaceAll`, `strings.Contains`, `fmt.Sprintf` with `%s`) are
  written out over the character list of the string; on UTF-8 text they
  agree with the byte-wise routines of Go.
* A Go `error` is a value of an inductive type; `nil` is `none`.  Errors of
  the client package and errors of the orchestrator are two types: the client
  package does not import the framework, so none of its errors is a
  `NodeClaimNotFoundError`.
* A Go `int` is an `Int`; additions and subtractions on pool sizes wrap at 64
  bits (`int64Add`, `int64Sub`).  The attempt counter of the retry loop runs
  from 0 to `MaxRetries` and is kept in `Nat`.
* A Go `float64` is the rational number it denotes and float arithmetic is
  exact; the conversion of a float to a duration truncates toward zero and
  is implementation-dependent outside the range of `int64`.
  `strings.ToLower` is modelled on ASCII letters.
* Logging and metrics do not influence any value modelled here and are left
  out.  Clock readings, random draws, the order in which a `select` takes its
  branches, the answer of the pricing endpoint and the lookups of the
  Kubernetes client are arguments of the functions that depend on them.
* A Go `map[string]string` is an association list; the order of the list is
  the order in which a `range` loop visits the entries (Go leaves that order
  unspecified, and every statement below is quantified over all lists).
* The remote control plane is a transition system over an arbitrary state
  type: every client method takes the remote state and returns its answer
  together with the next state.  Each orchestrator operation returns the
  transcript of the client calls it issued, in the order it issued them.
* The package constants `ProviderPrefix`, `PoolNamePrefix`,
  `DefaultDesiredNodes` and the API group are parameters (`Constants`).
-/

namespace OVH

/-! ## Go strings -/

/-- Scan of `strings.ReplaceAll` for a non-empty `old`: `skip` characters of a
match already replaced are still to be dropped; otherwise the leftmost match
at the current position is replaced by `new` and scanning resumes behind it. -/
def replaceScan (old new : List Char) : Nat → List Char → List Char
  | _, [] => []
  | skip + 1, _ :: cs => replaceScan old new skip cs
  | 0, c :: cs =>
    if old.isPrefixOf (c :: cs) then new ++ replaceScan old new (old.length - 1) cs
    else c :: replaceScan old new 0 cs

/-- Go `strings.ReplaceAll(s, old, new)`: every non-overlapping instance of
`old`, leftmost first, is replaced by `new`; an empty `old` matches before
every character and at the end of the string. -/
def ReplaceAll (s old new : String) : String :=
  if old.data = [] then ⟨new.data ++ s.data.flatMap (fun c => c :: new.data)⟩
  else ⟨replaceScan old.data new.data 0 s.data⟩

/-- Whether `sub` occurs in `s` at some position (`sub` is a prefix of a suffix of `s`). -/
def containsChars (sub : List Char) : List Char → Bool
  | [] => sub.isPrefixOf []
  | c :: cs => sub.isPrefixOf (c :: cs) || containsChars sub cs

/-- Go `strings.Contains(s, substr)`. -/
def Contains (s substr : String) : Bool :=
  containsChars substr.data s.data

/-- Go `fmt.Sprintf("%d", n)` for an integer. -/
def formatInt (n : Int) : String :=
  toString n

/-! ## Machine integers -/

/-- Two-complement wrap of an integer into the range of Go `int` (64 bit). -/
def wrapInt64 (n : Int) : Int :=
  (n + 2 ^ 63) % 2 ^ 64 - 2 ^ 63

/-- Go `a + b` on `int`. -/
def int64Add (a b : Int) : Int :=
  wrapInt64 (a + b)

/-- Go `a - b` on `int`. -/
def int64Sub (a b : Int) : Int :=
  wrapInt64 (a - b)

/-- The values a Go `int` can hold. -/
def IsInt64 (n : Int) : Prop :=
  -(2 ^ 63) ≤ n ∧ n < 2 ^ 63

/-! ## pkg/client: errors and the retry executor -/

/-- An error value of the client package: an error produced by the SDK or
the context (`leaf`, with its message), or `fmt.Errorf(pre + "%w", inner)`,
which wraps `inner` and whose message is `pre` followed by the message of
`inner`. -/
inductive ClientError where
  | leaf (msg : String)
  | wrapf (pre : String) (inner : ClientError)
  deriving DecidableEq, Repr, Inhabited

/-- Go `err.Error()`. -/
def ClientError.Error : ClientError → String
  | .leaf msg => msg
  | .wrapf pre inner => pre ++ inner.Error

/-- Go `errors.Unwrap(err)`. -/
def ClientError.Unwrap : ClientError → Option ClientError
  | .leaf _ => none
  | .wrapf _ inner => some inner

/-- RetryConfig defines retry behavior for API calls.  Durations are in
nanoseconds; the backoff factor is kept as a rational number.  The loop
counter of the retry executor never exceeds `MaxRetries + 1`, so for every
`MaxRetries` below the largest Go `int` it cannot overflow. -/
structure RetryConfig where
  MaxRetries : Int
  InitialBackoff : Int
  MaxBackoff : Int
  BackoffFactor : ℚ
  deriving DecidableEq, Repr

/-- DefaultRetryConfig provides sensible defaults for retry behavior. -/
def DefaultRetryConfig : RetryConfig :=
  { MaxRetries := 3, InitialBackoff := 1000000000, MaxBackoff := 30000000000, BackoffFactor := 2 }

/-- The function isRetryableError checks if an error is worth retrying. -/
def isRetryableError (err : Option ClientError) : Bool :=
  match err with
  | none => false
  | some e =>
    let errStr := e.Error
    if Contains errStr "429" || Contains errStr "Too Many Requests" then true
    else if Contains errStr "500" || Contains errStr "502" ||
        Contains errStr "503" || Contains errStr "504" then true
    else if Contains errStr "connection refused" ||
        Contains errStr "connection reset" ||
        Contains errStr "timeout" ||
        Contains errStr "temporary failure" then true
    else false

/-- What a run of the retry executor produced: the returned pair and the
number of times the wrapped call was invoked. -/
structure RetryOutcome (T : Type) where
  result : T
  err : Option ClientError
  invocations : Nat
  deriving DecidableEq, Repr

/-- The error returned when the attempt budget is exhausted:
`fmt.Errorf("%s failed after %d retries: %w", operation, MaxRetries+1, lastErr)`.
With a nil `lastErr` (possible only when the loop body never ran) the verb
`%w` prints `%!w(<nil>)` and nothing is wrapped. -/
def exhaustedError (config : RetryConfig) (operation : String) (lastErr : Option ClientError) : ClientError :=
  let pre := operation ++ " failed after " ++ formatInt (config.MaxRetries + 1) ++ " retries: "
  match lastErr with
  | some e => .wrapf pre e
  | none => .leaf (pre ++ "%!w(<nil>)")

/-- The loop of retryableAPICall.  The Go loop
`for attempt := 0; attempt <= config.MaxRetries; attempt++` runs its body for
`attempt = 0, 1, ..., MaxRetries` unless the body returns; `remaining` is the
number of iterations still to run.  `fn i` is what the invocation number `i`
(counted from 0) of the wrapped call returns; `ctxDone a = some e` says that
during the backoff wait after attempt `a` the `select` took the branch
`<-ctx.Done()` and `ctx.Err()` was `e`, `none` that the timer fired.  The
length of a wait (`calculateBackoff`) does not influence the result. -/
def retryLoop {T : Type} (config : RetryConfig) (operation : String)
    (fn : Nat → T × Option ClientError) (ctxDone : Nat → Option ClientError) :
    Nat → Nat → T → Option ClientError → RetryOutcome T
  | 0, attempt, result, lastErr =>
    { result := result, err := some (exhaustedError config operation lastErr), invocations := attempt }
  | remaining + 1, attempt, _, _ =>
    let (result, lastErr) := fn attempt
    if lastErr = none then
      { result := result, err := none, invocations := attempt + 1 }
    else if !isRetryableError lastErr then
      { result := result, err := lastErr, invocations := attempt + 1 }
    else if (attempt : Int) < config.MaxRetries then
      match ctxDone attempt with
      | some ctxErr => { result := result, err := some ctxErr, invocations := attempt + 1 }
      | none => retryLoop config operation fn ctxDone remaining (attempt + 1) result lastErr
    else retryLoop config operation fn ctxDone remaining (attempt + 1) result lastErr

/-- The function retryableAPICall wraps an API call with retry logic. -/
def retryableAPICall {T : Type} [Inhabited T] (config : RetryConfig) (operation : String)
    (fn : Nat → T × Option ClientError) (ctxDone : Nat → Option ClientError) : RetryOutcome T :=
  retryLoop config operation fn ctxDone (config.MaxRetries + 1).toNat 0 default none

/-- The loop of retryableVoidCall: the loop of retryableAPICall without a
result value. -/
def retryVoidLoop (config : RetryConfig) (operation : String)
    (fn : Nat → Option ClientError) (ctxDone : Nat → Option ClientError) :
    Nat → Nat → Option ClientError → RetryOutcome Unit
  | 0, attempt, lastErr =>
    { result := (), err := some (exhaustedError config operation lastErr), invocations := attempt }
  | remaining + 1, attempt, _ =>
    let lastErr := fn attempt
    if lastErr = none then
      { result := (), err := none, invocations := attempt + 1 }
    else if !isRetryableError lastErr then
      { result := (), err := lastErr, invocations := attempt + 1 }
    else if (attempt : Int) < config.MaxRetries then
      match ctxDone attempt with
      | some ctxErr => { result := (), err := some ctxErr, invocations := attempt + 1 }
      | none => retryVoidLoop config operation fn ctxDone remaining (attempt + 1) lastErr
    else retryVoidLoop config operation fn ctxDone remaining (attempt + 1) lastErr

/-- The function retryableVoidCall wraps a void API call with retry logic. -/
def retryableVoidCall (config : RetryConfig) (operation : String)
    (fn : Nat → Option ClientError) (ctxDone : Nat → Option ClientError) : RetryOutcome Unit :=
  retryVoidLoop config operation fn ctxDone (config.MaxRetries + 1).toNat 0 none

/-! ## Go maps -/

/-- A Go `map[string]string`; a nil map is the empty list. -/
abbrev GoMap := List (String × String)

/-- The two-valued index expression `v, ok := m[k]`. -/
def GoMap.get? (m : GoMap) (k : String) : Option String :=
  m.lookup k

/-- The index expression `m[k]`, which is the zero value for a missing key. -/
def GoMap.get (m : GoMap) (k : String) : String :=
  (m.get? k).getD ""

/-- The builtin `delete(m, k)`. -/
def GoMap.delete (m : GoMap) (k : String) : GoMap :=
  m.filter (fun e => e.1 != k)

/-- The assignment `m[k] = v`. -/
def GoMap.set (m : GoMap) (k v : String) : GoMap :=
  (k, v) :: m.delete k

/-- A list is a well-formed Go map when no key occurs twice. -/
def GoMap.WF (m : GoMap) : Prop :=
  (m.map Prod.fst).Nodup

instance GoMap.decidableWF (m : GoMap) : Decidable m.WF := by
  unfold GoMap.WF
  infer_instance

/-! ## pkg/client: types -/

/-- A Kubernetes taint (`corev1.Taint`). -/
structure Taint where
  Key : String := ""
  Value : String := ""
  Effect : String := ""
  TimeAdded : Option String := none
  deriving DecidableEq, Repr, Inhabited

/-- NodePoolTemplateMetadata defines metadata for nodes. -/
structure NodePoolTemplateMetadata where
  Labels : GoMap := []
  Annotations : GoMap := []
  Finalizers : List String := []
  deriving DecidableEq, Repr, Inhabited

/-- NodePoolTemplateSpec defines spec for nodes. -/
structure NodePoolTemplateSpec where
  Taints : List Taint := []
  Unschedulable : Bool := false
  deriving DecidableEq, Repr, Inhabited

/-- NodePoolTemplate defines the template for nodes in a pool. -/
structure NodePoolTemplate where
  Metadata : NodePoolTemplateMetadata := {}
  Spec : NodePoolTemplateSpec := {}
  deriving DecidableEq, Repr, Inhabited

/-- NodePool represents an OVH MKS Node Pool. -/
structure NodePool where
  ID : String := ""
  Name : String := ""
  FlavorName : String := ""
  DesiredNodes : Int := 0
  CurrentNodes : Int := 0
  MinNodes : Int := 0
  MaxNodes : Int := 0
  Autoscale : Bool := false
  MonthlyBilled : Bool := false
  AntiAffinity : Bool := false
  Status : String := ""
  AvailabilityZone : String := ""
  Template : Option NodePoolTemplate := none
  CreatedAt : String := ""
  UpdatedAt : String := ""
  deriving DecidableEq, Repr, Inhabited

/-- CreateNodePoolRequest is the request body for creating a node pool. -/
structure CreateNodePoolRequest where
  Name : String := ""
  FlavorName : String := ""
  DesiredNodes : Int := 0
  MinNodes : Int := 0
  MaxNodes : Int := 0
  Autoscale : Bool := false
  MonthlyBilled : Bool := false
  AntiAffinity : Bool := false
  AvailabilityZones : List String := []
  Template : Option NodePoolTemplate := none
  deriving DecidableEq, Repr, Inhabited

/-- UpdateNodePoolRequest is the request body for updating a node pool. -/
structure UpdateNodePoolRequest where
  DesiredNodes : Int := 0
  deriving DecidableEq, Repr, Inhabited

/-- Node represents an OVH MKS Node. -/
structure Node where
  ID : String := ""
  PoolID : String := ""
  InstanceID : String := ""
  Name : String := ""
  Status : String := ""
  Flavor : String := ""
  Version : String := ""
  CreatedAt : String := ""
  IsUpToDate : Bool := false
  deriving DecidableEq, Repr, Inhabited

deriving instance DecidableEq for Except

/-- The methods of `OVHClient` the orchestrator calls, over a remote control
plane with state `σ`: each takes the current remote state and returns the
answer (a result or an error, never both) and the next state. -/
structure OVHClient (σ : Type) where
  GetNodePool : σ → String → Except ClientError NodePool × σ
  ListNodePools : σ → Except ClientError (List NodePool) × σ
  CreateNodePool : σ → CreateNodePoolRequest → Except ClientError NodePool × σ
  UpdateNodePool : σ → String → UpdateNodePoolRequest → Except ClientError NodePool × σ
  DeleteNodePool : σ → String → Option ClientError × σ
  ListPoolNodes : σ → String → Except ClientError (List Node) × σ
  region : String

/-- One entry of a transcript: a client call with its arguments and answer. -/
inductive Event where
  | GetNodePool (poolID : String) (res : Except ClientError NodePool)
  | ListNodePools (res : Except ClientError (List NodePool))
  | CreateNodePool (req : CreateNodePoolRequest) (res : Except ClientError NodePool)
  | UpdateNodePool (poolID : String) (req : UpdateNodePoolRequest) (res : Except ClientError NodePool)
  | DeleteNodePool (poolID : String) (res : Option ClientError)
  | ListPoolNodes (poolID : String) (res : Except ClientError (List Node))
  deriving DecidableEq

/-- The calls that change the remote: create, update and delete of a pool. -/
def Event.isMutating : Event → Bool
  | .CreateNodePool _ _ => true
  | .UpdateNodePool _ _ _ => true
  | .DeleteNodePool _ _ => true
  | _ => false

/-- A CreateNodePool call that the remote answered with a pool. -/
def Event.isPoolCreation : Event → Bool
  | .CreateNodePool _ (.ok _) => true
  | _ => false

/-- A CreateNodePool call, whatever its answer. -/
def Event.isCreateCall : Event → Bool
  | .CreateNodePool _ _ => true
  | _ => false

/-- An UpdateNodePool call, whatever its answer. -/
def Event.isUpdateCall : Event → Bool
  | .UpdateNodePool _ _ _ => true
  | _ => false

/-- A DeleteNodePool call, whatever its answer. -/
def Event.isDeleteCall : Event → Bool
  | .DeleteNodePool _ _ => true
  | _ => false

/-! ## pkg/apis and the framework types -/

/-- The package constants whose declarations are outside the embedded files. -/
structure Constants where
  ProviderPrefix : String
  PoolNamePrefix : String
  DefaultDesiredNodes : Int
  Group : String

/-- The annotation key `AnnotationOVHPoolID = apis.Group + "/pool-id"`. -/
def AnnotationOVHPoolID (K : Constants) : String :=
  K.Group ++ "/pool-id"

/-- The annotation key `AnnotationOVHNodeID = apis.Group + "/node-id"`. -/
def AnnotationOVHNodeID (K : Constants) : String :=
  K.Group ++ "/node-id"

/-- The annotation key `AnnotationOVHNodeName = apis.Group + "/node-name"`. -/
def AnnotationOVHNodeName (K : Constants) : String :=
  K.Group ++ "/node-name"

/-- The label key `corev1.LabelInstanceTypeStable`. -/
def LabelInstanceTypeStable : String := "node.kubernetes.io/instance-type"

/-- The label key `corev1.LabelTopologyZone`. -/
def LabelTopologyZone : String := "topology.kubernetes.io/zone"

/-- The label key `corev1.LabelArchStable`. -/
def LabelArchStable : String := "kubernetes.io/arch"

/-- The label key `corev1.LabelOSStable`. -/
def LabelOSStable : String := "kubernetes.io/os"

/-- The label key `v1.CapacityTypeLabelKey`. -/
def CapacityTypeLabelKey : String := "karpenter.sh/capacity-type"

/-- The label key `v1.NodePoolLabelKey`. -/
def NodePoolLabelKey : String := "karpenter.sh/nodepool"

/-- The label value `v1.CapacityTypeOnDemand`. -/
def CapacityTypeOnDemand : String := "on-demand"

/-- The label value `v1.ArchitectureAmd64`. -/
def ArchitectureAmd64 : String := "amd64"

/-- The label value `string(corev1.Linux)`. -/
def Linux : String := "linux"

/-- OVHNodeClassSpec defines the desired state of OVHNodeClass. -/
structure OVHNodeClassSpec where
  ServiceName : String := ""
  KubeID : String := ""
  Region : String := ""
  MonthlyBilled : Bool := false
  AntiAffinity : Bool := false
  Tags : GoMap := []
  deriving DecidableEq, Repr, Inhabited

/-- A status condition (`status.Condition` of the operator package); `CondType`
is its field `Type`. -/
structure Condition where
  CondType : String := ""
  Status : String := ""
  Reason : String := ""
  Message : String := ""
  deriving DecidableEq, Repr, Inhabited

/-- OVHNodeClassStatus contains the resolved state of the OVHNodeClass. -/
structure OVHNodeClassStatus where
  Conditions : List Condition := []
  DiscoveredFlavors : List String := []
  deriving DecidableEq, Repr, Inhabited

/-- OVHNodeClass is the Schema for the OVHNodeClass API. -/
structure OVHNodeClass where
  Name : String := ""
  Spec : OVHNodeClassSpec := {}
  Status : OVHNodeClassStatus := {}
  deriving DecidableEq, Repr, Inhabited

/-- A Kubernetes resource list (`corev1.ResourceList`): resource name to
quantity, the quantity kept as the rational number it denotes. -/
abbrev ResourceList := List (String × ℚ)

/-- A requirement of a node claim (`v1.NodeSelectorRequirementWithMinValues`). -/
structure NodeSelectorRequirement where
  Key : String := ""
  Operator : String := ""
  Values : List String := []
  deriving DecidableEq, Repr, Inhabited

/-- The fields of the framework type `v1.NodeClaim` that the provider reads or writes. -/
structure NodeClaim where
  Name : String := ""
  Annotations : GoMap := []
  Labels : GoMap := []
  NodeClassRefName : String := ""
  Requirements : List NodeSelectorRequirement := []
  Taints : List Taint := []
  ProviderID : String := ""
  NodeName : String := ""
  Capacity : ResourceList := []
  Allocatable : ResourceList := []
  deriving DecidableEq, Repr, Inhabited

/-! ## pkg/cloudprovider: errors -/

/-- An error value returned by the orchestrator: an error handed up by the
client or the context (`client`), an error of the Kubernetes client with the
verdict of `errors.IsNotFound` on it (`kube`), `fmt.Errorf` or `errors.New`
without `%w` (`errorf`), `fmt.Errorf(pre + "%w", inner)` (`wrapf`), or a
framework error built by `cloudprovider.NewNodeClaimNotFoundError(inner)`,
`cloudprovider.NewInsufficientCapacityError(inner)` or
`cloudprovider.NewNodeClassNotReadyError(inner)`. -/
inductive CPError where
  | client (e : ClientError)
  | kube (notFound : Bool) (msg : String)
  | errorf (msg : String)
  | wrapf (pre : String) (inner : CPError)
  | nodeClaimNotFound (inner : CPError)
  | insufficientCapacity (inner : CPError)
  | nodeClassNotReady (inner : CPError)
  deriving DecidableEq, Repr, Inhabited

/-- The framework predicate `cloudprovider.IsNodeClaimNotFoundError`, which is
`errors.As` for the not-found error type: it follows the chain of wrapped
errors. -/
def CPError.IsNodeClaimNotFoundError : CPError → Bool
  | .client _ => false
  | .kube _ _ => false
  | .errorf _ => false
  | .wrapf _ inner => inner.IsNodeClaimNotFoundError
  | .nodeClaimNotFound _ => true
  | .insufficientCapacity inner => inner.IsNodeClaimNotFoundError
  | .nodeClassNotReady inner => inner.IsNodeClaimNotFoundError

/-- The same predicate on a Go `error`, which may be nil. -/
def IsNodeClaimNotFoundError (err : Option CPError) : Bool :=
  match err with
  | none => false
  | some e => e.IsNodeClaimNotFoundError

/-! ## pkg/cloudprovider: the orchestrator -/

/-- What an orchestrator operation leaves behind: its return value, the pool
cache and the remote state after it, and the client calls it issued, oldest
first. -/
structure Step (σ α : Type) where
  result : α
  poolCache : GoMap
  remote : σ
  calls : List Event

/-- The method poolName: the pool name of a flavor and a zone. -/
def poolName (K : Constants) (flavor zone : String) : String :=
  let safeFlavor := ReplaceAll flavor "." "-"
  if zone ≠ "" then K.PoolNamePrefix ++ safeFlavor ++ "-" ++ zone
  else K.PoolNamePrefix ++ safeFlavor

/-- The labels of the node template that getOrCreatePool builds. -/
def templateLabels (flavor zone : String) (nodeClass : OVHNodeClass)
    (nodeClaim : Option NodeClaim) : GoMap :=
  let labels : GoMap := []
  let labels := labels.set "managed-by" "karpenter"
  let labels := labels.set LabelInstanceTypeStable flavor
  let labels := labels.set LabelTopologyZone zone
  let labels := labels.set CapacityTypeLabelKey CapacityTypeOnDemand
  let labels := labels.set LabelArchStable ArchitectureAmd64
  let labels := labels.set LabelOSStable Linux
  let labels := labels.set "karpenter.sh/registered" "true"
  let labels :=
    match nodeClaim with
    | some nc =>
      match nc.Labels.get? NodePoolLabelKey with
      | some nodePoolName => labels.set NodePoolLabelKey nodePoolName
      | none => labels
    | none => labels
  nodeClass.Spec.Tags.foldl (fun acc kv => acc.set kv.1 kv.2) labels

/-- The taints of the node template that getOrCreatePool builds. -/
def templateTaints (nodeClaim : Option NodeClaim) : List Taint :=
  match nodeClaim with
  | some nc => [] ++ nc.Taints
  | none => []

/-- The pool-creation request that getOrCreatePool builds. -/
def createRequest (K : Constants) (poolName flavor zone : String) (nodeClass : OVHNodeClass)
    (nodeClaim : Option NodeClaim) : CreateNodePoolRequest :=
  { Name := poolName
    FlavorName := flavor
    DesiredNodes := K.DefaultDesiredNodes
    Autoscale := false
    MonthlyBilled := nodeClass.Spec.MonthlyBilled
    AntiAffinity := nodeClass.Spec.AntiAffinity
    AvailabilityZones := if zone ≠ "" then [zone] else []
    Template := some
      { Metadata :=
          { Labels := templateLabels flavor zone nodeClass nodeClaim
            Annotations := []
            Finalizers := [] }
        Spec := { Taints := templateTaints nodeClaim } } }

/-- The part of getOrCreatePool behind the cache check: list the remote pools,
scale the first pool of that name if there is one, create a pool otherwise.
`pre` holds the calls the cache check issued. -/
def listThenScaleOrCreate {σ : Type} (K : Constants) (c : OVHClient σ) (poolCache : GoMap)
    (s : σ) (pre : List Event) (poolName flavor zone : String) (nodeClass : OVHNodeClass)
    (nodeClaim : Option NodeClaim) : Step σ (Except CPError NodePool) :=
  match c.ListNodePools s with
  | (.error err, s1) =>
    { result := .error (.wrapf "listing pools: " (.client err)), poolCache := poolCache,
      remote := s1, calls := pre ++ [.ListNodePools (.error err)] }
  | (.ok pools, s1) =>
    match pools.find? (fun pool => pool.Name == poolName) with
    | some pool =>
      let poolCache := poolCache.set poolName pool.ID
      let req : UpdateNodePoolRequest := { DesiredNodes := int64Add pool.DesiredNodes 1 }
      match c.UpdateNodePool s1 pool.ID req with
      | (.error err, s2) =>
        { result := .error (.wrapf "scaling up existing pool: " (.client err)),
          poolCache := poolCache, remote := s2,
          calls := pre ++ [.ListNodePools (.ok pools), .UpdateNodePool pool.ID req (.error err)] }
      | (.ok updated, s2) =>
        { result := .ok { pool with DesiredNodes := int64Add pool.DesiredNodes 1 },
          poolCache := poolCache, remote := s2,
          calls := pre ++ [.ListNodePools (.ok pools), .UpdateNodePool pool.ID req (.ok updated)] }
    | none =>
      let req := createRequest K poolName flavor zone nodeClass nodeClaim
      match c.CreateNodePool s1 req with
      | (.error err, s2) =>
        { result := .error (.wrapf "creating pool: " (.client err)), poolCache := poolCache,
          remote := s2,
          calls := pre ++ [.ListNodePools (.ok pools), .CreateNodePool req (.error err)] }
      | (.ok pool, s2) =>
        { result := .ok pool, poolCache := poolCache.set poolName pool.ID, remote := s2,
          calls := pre ++ [.ListNodePools (.ok pools), .CreateNodePool req (.ok pool)] }

/-- The method getOrCreatePool.  It runs under the provider mutex from its
first to its last statement. -/
def getOrCreatePool {σ : Type} (K : Constants) (c : OVHClient σ) (poolCache : GoMap) (s : σ)
    (poolName flavor zone : String) (nodeClass : OVHNodeClass) (nodeClaim : Option NodeClaim) :
    Step σ (Except CPError NodePool) :=
  match poolCache.get? poolName with
  | some poolID =>
    match c.GetNodePool s poolID with
    | (.ok pool, s1) =>
      let req : UpdateNodePoolRequest := { DesiredNodes := int64Add pool.DesiredNodes 1 }
      match c.UpdateNodePool s1 poolID req with
      | (.error err, s2) =>
        { result := .error (.wrapf "scaling up pool: " (.client err)), poolCache := poolCache,
          remote := s2,
          calls := [.GetNodePool poolID (.ok pool), .UpdateNodePool poolID req (.error err)] }
      | (.ok updated, s2) =>
        { result := .ok { pool with DesiredNodes := int64Add pool.DesiredNodes 1 },
          poolCache := poolCache, remote := s2,
          calls := [.GetNodePool poolID (.ok pool), .UpdateNodePool poolID req (.ok updated)] }
    | (.error err, s1) =>
      listThenScaleOrCreate K c (poolCache.delete poolName) s1 [.GetNodePool poolID (.error err)]
        poolName flavor zone nodeClass nodeClaim
  | none =>
    listThenScaleOrCreate K c poolCache s [] poolName flavor zone nodeClass nodeClaim

/-- The eviction loop of Delete: `for name, id := range c.poolCache`, deleting
the first visited entry whose value is `poolID` and leaving the loop. -/
def evictPoolID (poolCache : GoMap) (poolID : String) : GoMap :=
  match poolCache.find? (fun e => e.2 == poolID) with
  | some e => poolCache.delete e.1
  | none => poolCache

/-- The method Delete removes a NodeClaim by scaling down or deleting the OVH
Node Pool.  Its result is the returned `error`. -/
def Delete {σ : Type} (K : Constants) (c : OVHClient σ) (poolCache : GoMap) (s : σ)
    (nodeClaim : NodeClaim) : Step σ (Option CPError) :=
  let poolID := nodeClaim.Annotations.get (AnnotationOVHPoolID K)
  if poolID = "" then
    { result := some (.nodeClaimNotFound (.errorf "no pool ID annotation")),
      poolCache := poolCache, remote := s, calls := [] }
  else
    match c.GetNodePool s poolID with
    | (.error err, s1) =>
      { result := some (.nodeClaimNotFound (.wrapf "pool not found: " (.client err))),
        poolCache := poolCache, remote := s1, calls := [.GetNodePool poolID (.error err)] }
    | (.ok pool, s1) =>
      if pool.DesiredNodes ≤ 1 then
        match c.DeleteNodePool s1 poolID with
        | (some err, s2) =>
          { result := some (.wrapf "deleting pool: " (.client err)), poolCache := poolCache,
            remote := s2,
            calls := [.GetNodePool poolID (.ok pool), .DeleteNodePool poolID (some err)] }
        | (none, s2) =>
          { result := some (.nodeClaimNotFound (.errorf "instance terminated")),
            poolCache := evictPoolID poolCache poolID, remote := s2,
            calls := [.GetNodePool poolID (.ok pool), .DeleteNodePool poolID none] }
      else
        let req : UpdateNodePoolRequest := { DesiredNodes := int64Sub pool.DesiredNodes 1 }
        match c.UpdateNodePool s1 poolID req with
        | (.error err, s2) =>
          { result := some (.wrapf "scaling down pool: " (.client err)), poolCache := poolCache,
            remote := s2,
            calls := [.GetNodePool poolID (.ok pool), .UpdateNodePool poolID req (.error err)] }
        | (.ok updated, s2) =>
          { result := some (.nodeClaimNotFound (.errorf "instance terminated")),
            poolCache := poolCache, remote := s2,
            calls := [.GetNodePool poolID (.ok pool), .UpdateNodePool poolID req (.ok updated)] }

/-! ## Specification-side definitions and scenarios -/

/-- The sanitized flavor in the words of the specification: the flavor with
every `.` replaced by `-`, character by character. -/
def sanitizedFlavor (flavor : String) : String :=
  ⟨flavor.data.map (fun ch => if ch = '.' then '-' else ch)⟩

/-- The pool naming convention in the words of the specification:
`<fixed-prefix><sanitized-flavor>[-<zone>]`. -/
def poolNameConvention (K : Constants) (flavor zone : String) : String :=
  K.PoolNamePrefix ++ sanitizedFlavor flavor ++ (if zone = "" then "" else "-" ++ zone)

/-- Sequential calls of getOrCreatePool for one flavor and zone, each call
starting from the cache and the remote state the previous one left; the
calls may carry different node classes and claims.  The transcript is the
concatenation of the transcripts of the calls. -/
def getOrCreatePoolSeq {σ : Type} (K : Constants) (c : OVHClient σ) (flavor zone : String) :
    List (OVHNodeClass × Option NodeClaim) → GoMap → σ → Step σ (List (Except CPError NodePool))
  | [], poolCache, s => { result := [], poolCache := poolCache, remote := s, calls := [] }
  | (nodeClass, nodeClaim) :: rest, poolCache, s =>
    let first := getOrCreatePool K c poolCache s (poolName K flavor zone) flavor zone nodeClass nodeClaim
    let others := getOrCreatePoolSeq K c flavor zone rest first.poolCache first.remote
    { result := first.result :: others.result, poolCache := others.poolCache,
      remote := others.remote, calls := first.calls ++ others.calls }

/-- One move of the remote under a call that getOrCreatePool can issue. -/
inductive RemoteStep {σ : Type} (c : OVHClient σ) : σ → σ → Prop where
  | get (s : σ) (poolID : String) : RemoteStep c s (c.GetNodePool s poolID).2
  | list (s : σ) : RemoteStep c s (c.ListNodePools s).2
  | update (s : σ) (poolID : String) (req : UpdateNodePoolRequest) :
      RemoteStep c s (c.UpdateNodePool s poolID req).2
  | create (s : σ) (req : CreateNodePoolRequest) : RemoteStep c s (c.CreateNodePool s req).2

/-- A remote whose listing reflects earlier creations: once CreateNodePool has
answered with a pool, every later successful listing (later by any number of
get, list, update and create calls) contains a pool of the requested name. -/
def ListingReflectsCreations {σ : Type} (c : OVHClient σ) : Prop :=
  ∀ (s : σ) (req : CreateNodePoolRequest) (p : NodePool) (s1 : σ),
    c.CreateNodePool s req = (.ok p, s1) →
    ∀ s2, Relation.ReflTransGen (RemoteStep c) s1 s2 →
      ∀ (pools : List NodePool) (s3 : σ), c.ListNodePools s2 = (.ok pools, s3) →
        ∃ q, q ∈ pools ∧ q.Name = req.Name

/-- A pool of the given name has been created on the way to remote state `s`. -/
def CreatedBefore {σ : Type} (c : OVHClient σ) (name : String) (s : σ) : Prop :=
  ∃ (s0 : σ) (req : CreateNodePoolRequest) (p : NodePool) (s1 : σ),
    c.CreateNodePool s0 req = (.ok p, s1) ∧ req.Name = name ∧
      Relation.ReflTransGen (RemoteStep c) s1 s

/-! ### Concrete scenarios -/

/-- Constants used in the concrete scenarios. -/
def scenarioConstants : Constants :=
  { ProviderPrefix := "openstack:///", PoolNamePrefix := "karpenter-",
    DefaultDesiredNodes := 1, Group := "karpenter.ovhcloud.sh" }

/-- A consistent in-memory remote used in the concrete scenarios: its state is
the list of live pools; creation appends a pool with a fresh ID, update sets
the desired count, delete removes the pool. -/
def memClient : OVHClient (List NodePool) where
  GetNodePool s poolID :=
    match s.find? (fun p => p.ID == poolID) with
    | some p => (.ok p, s)
    | none => (.error (.leaf "404 pool not found"), s)
  ListNodePools s := (.ok s, s)
  CreateNodePool s req :=
    let p : NodePool :=
      { ID := "pool-" ++ toString s.length, Name := req.Name, FlavorName := req.FlavorName,
        DesiredNodes := req.DesiredNodes, MonthlyBilled := req.MonthlyBilled,
        AntiAffinity := req.AntiAffinity, Template := req.Template }
    (.ok p, s ++ [p])
  UpdateNodePool s poolID req :=
    match s.find? (fun p => p.ID == poolID) with
    | some p =>
      (.ok { p with DesiredNodes := req.DesiredNodes },
        s.map (fun q => if q.ID == poolID then { q with DesiredNodes := req.DesiredNodes } else q))
    | none => (.error (.leaf "404 pool not found"), s)
  DeleteNodePool s poolID := (none, s.filter (fun p => p.ID != poolID))
  ListPoolNodes s _ := (.ok [], s)
  region := "GRA7"

/-- A remote that answers every call with a server error. -/
def failingClient : OVHClient Unit where
  GetNodePool s _ := (.error (.leaf "500 internal error"), s)
  ListNodePools s := (.error (.leaf "500 internal error"), s)
  CreateNodePool s _ := (.error (.leaf "500 internal error"), s)
  UpdateNodePool s _ _ := (.error (.leaf "500 internal error"), s)
  DeleteNodePool s _ := (some (.leaf "500 internal error"), s)
  ListPoolNodes s _ := (.error (.leaf "500 internal error"), s)
  region := "GRA7"

/-- A wrapped call that fails twice with a retryable error and then returns 7. -/
def failsTwiceThenSucceeds : Nat → Nat × Option ClientError :=
  fun i => if i < 2 then (0, some (.leaf "listing node pools: HTTP 503")) else (7, none)

/-- A wrapped call that always fails with a terminal error. -/
def failsTerminally : Nat → Nat × Option ClientError :=
  fun _ => (0, some (.leaf "getting node pool p1: HTTP 404"))

/-- A wrapped void call that always fails with a terminal error. -/
def failsTerminallyVoid : Nat → Option ClientError :=
  fun _ => some (.leaf "deleting node pool p1: HTTP 404")

/-- A wrapped call that always fails with a retryable error. -/
def failsAlways : Nat → Nat × Option ClientError :=
  fun i => (i, some (.leaf "connection refused"))

/-- A context that is never cancelled. -/
def neverCancelled : Nat → Option ClientError :=
  fun _ => none

/-- A context that is cancelled during the wait after the second attempt. -/
def cancelledInSecondWait : Nat → Option ClientError :=
  fun i => if i = 1 then some (.leaf "context canceled") else none

/-- A claim bound to pool `pool-0` in the concrete scenarios. -/
def scenarioClaim : NodeClaim :=
  { Name := "claim-a", Annotations := [("karpenter.ovhcloud.sh/pool-id", "pool-0")] }

/-- A pool with one desired node. -/
def scenarioPoolOne : NodePool :=
  { ID := "pool-0", Name := "karpenter-b3-8-gra7-a", FlavorName := "b3-8", DesiredNodes := 1 }

/-- A pool with three desired nodes. -/
def scenarioPoolThree : NodePool :=
  { ID := "pool-0", Name := "karpenter-b3-8-gra7-a", FlavorName := "b3-8", DesiredNodes := 3 }

/-! ## More Go strings -/

/-- Go `strings.HasPrefix(s, pre)`. -/
def HasPrefix (s pre : String) : Bool :=
  pre.data.isPrefixOf s.data

/-- Go `strings.TrimPrefix(s, pre)`: `s` without the leading `pre`, or `s`
itself when it does not start with `pre`. -/
def TrimPrefix (s pre : String) : String :=
  if HasPrefix s pre then ⟨s.data.drop pre.data.length⟩ else s

/-- Go `strings.ToLower(s)` on ASCII text: the letters `A` to `Z` are mapped
to lower case, every other character is kept. -/
def ToLower (s : String) : String :=
  ⟨s.data.map Char.toLower⟩

/-- Scan of `strings.Split` for a non-empty separator: the head of the result
is the part under construction; `skip` characters of a separator already
found are still to be dropped. -/
def splitScan (sep : List Char) : Nat → List Char → List (List Char)
  | _, [] => [[]]
  | skip + 1, _ :: cs => splitScan sep skip cs
  | 0, c :: cs =>
    if sep.isPrefixOf (c :: cs) then [] :: splitScan sep (sep.length - 1) cs
    else
      match splitScan sep 0 cs with
      | [] => [[c]]
      | part :: parts => (c :: part) :: parts

/-- Go `strings.Split(s, sep)`: the parts of `s` between the non-overlapping
occurrences of `sep`; an empty `sep` splits after every character. -/
def Split (s sep : String) : List String :=
  if sep.data = [] then s.data.map (fun c => String.mk [c])
  else (splitScan sep.data 0 s.data).map String.mk

/-- Go `strings.Join(parts, sep)`. -/
def Join (parts : List String) (sep : String) : String :=
  match parts with
  | [] => ""
  | p :: ps => ps.foldl (fun acc q => acc ++ sep ++ q) p

/-! ## pkg/client: backoff -/

/-- Truncation toward zero: the fraction is discarded.  It is what the
conversion of a float to an integer type in Go yields when the truncated
value is in the range of that type. -/
def truncateToInt (x : ℚ) : Int :=
  if 0 ≤ x then ⌊x⌋ else ⌈x⌉

/-- Go `time.Duration(x)` for a float `x`, a conversion to `int64`: the
truncation of `x` toward zero when that is an `int64`.  Otherwise the result
is implementation-dependent; `outOfRange x` is what the platform yields. -/
def toDuration (outOfRange : ℚ → Int) (x : ℚ) : Int :=
  if -(2 ^ 63) ≤ truncateToInt x ∧ truncateToInt x < 2 ^ 63 then truncateToInt x
  else outOfRange x

/-- The result of an out-of-range conversion of a float to `int64` on amd64:
the smallest `int64`. -/
def outOfRangeAmd64 (_ : ℚ) : Int := -(2 ^ 63)

/-- The capped exponential backoff that calculateBackoff computes before it
adds the jitter: `InitialBackoff * BackoffFactor ^ attempt`, at most
`MaxBackoff`. -/
def cappedBackoff (attempt : Int) (config : RetryConfig) : ℚ :=
  let backoff := (config.InitialBackoff : ℚ) * config.BackoffFactor ^ attempt
  if backoff > (config.MaxBackoff : ℚ) then (config.MaxBackoff : ℚ) else backoff

/-- The value `backoff + jitter` of calculateBackoff before its conversion to
a duration; `draw` is the value of `rand.Float64()`. -/
def jitteredBackoff (attempt : Int) (config : RetryConfig) (draw : ℚ) : ℚ :=
  let backoff := cappedBackoff attempt config
  let jitter := backoff * (1 / 4) * (draw * 2 - 1)
  backoff + jitter

/-- The function calculateBackoff computes the backoff duration for a given
retry attempt.  The float arithmetic is taken over the rationals; `draw` is
the value of `rand.Float64()`, which lies in `[0, 1)`; the returned
`time.Duration` is an `int64`, and `outOfRange` gives the result of the
conversion for a value outside its range. -/
def calculateBackoff (outOfRange : ℚ → Int) (attempt : Int) (config : RetryConfig)
    (draw : ℚ) : Int :=
  toDuration outOfRange (jitteredBackoff attempt config draw)

/-! ## pkg/client: pricing -/

/-- PricingDetail contains pricing information. -/
structure PricingDetail where
  Capacities : List String := []
  Description : String := ""
  Duration : String := ""
  Interval : Int := 0
  MinimumRepeat : Int := 0
  MaximumRepeat : Option Int := none
  Price : Int := 0
  PriceInUcents : Int := 0
  Tax : Int := 0
  deriving DecidableEq, Repr, Inhabited

/-- PricingAddon represents an addon (like instance flavors) in the catalog. -/
structure PricingAddon where
  PlanCode : String := ""
  InvoiceName : String := ""
  Pricings : List PricingDetail := []
  deriving DecidableEq, Repr, Inhabited

/-- PricingPlan represents a plan in the catalog. -/
structure PricingPlan where
  PlanCode : String := ""
  InvoiceName : String := ""
  Pricings : List PricingDetail := []
  deriving DecidableEq, Repr, Inhabited

/-- PricingLocale contains locale information. -/
structure PricingLocale where
  CurrencyCode : String := ""
  Subsidiary : String := ""
  deriving DecidableEq, Repr, Inhabited

/-- PricingCatalog represents the OVH public cloud pricing catalog. -/
structure PricingCatalog where
  CatalogID : Int := 0
  Locale : PricingLocale := {}
  Plans : List PricingPlan := []
  Addons : List PricingAddon := []
  deriving DecidableEq, Repr, Inhabited

/-- A Go `map[string]float64`, a price kept as the rational number it denotes. -/
abbrev PriceMap := List (String × ℚ)

/-- The two-valued index expression `price, ok := m[k]`. -/
def PriceMap.get? (m : PriceMap) (k : String) : Option ℚ :=
  m.lookup k

/-- The assignment `m[k] = price`. -/
def PriceMap.set (m : PriceMap) (k : String) (price : ℚ) : PriceMap :=
  (k, price) :: m.filter (fun e => e.1 != k)

/-- The cache fields of PricingClient.  Times are in nanoseconds; a nil
`catalog` is `none`. -/
structure PricingClient where
  subsidiary : String := "FR"
  catalog : Option PricingCatalog := none
  lastRefresh : Int := 0
  cacheTTL : Int := 21600000000000
  flavorPrices : PriceMap := []
  deriving DecidableEq, Repr, Inhabited

/-- The function extractFlavorFromPlanCode extracts the flavor name from an OVH plan code. -/
def extractFlavorFromPlanCode (planCode : String) : String :=
  let planCode := ToLower planCode
  let planCode := TrimPrefix planCode "instance-"
  let parts := Split planCode "."
  match parts with
  | first :: _ => first
  | [] => ""

/-- The body of the loop over the pricings of one addon in extractFlavorPrices. -/
def extractPricing (planCode : String) (prices : PriceMap) (pricing : PricingDetail) : PriceMap :=
  let isHourly := Contains pricing.Duration "P1H" ||
    Contains pricing.Description "hour" ||
    pricing.Interval == 1
  let hasConsumption := pricing.Capacities.any (fun cap => cap == "consumption")
  if isHourly && hasConsumption && decide (pricing.Price > 0) then
    let flavorName := extractFlavorFromPlanCode planCode
    if flavorName ≠ "" then
      let priceEUR : ℚ := (pricing.Price : ℚ) / 100000000
      let prices := prices.set flavorName priceEUR
      prices.set planCode priceEUR
    else prices
  else prices

/-- The body of the loop over the addons in extractFlavorPrices. -/
def extractAddon (prices : PriceMap) (addon : PricingAddon) : PriceMap :=
  let planCode := ToLower addon.PlanCode
  if !Contains planCode "instance" then prices
  else addon.Pricings.foldl (extractPricing planCode) prices

/-- The method extractFlavorPrices parses the catalog and extracts hourly
prices for flavors; the result is the new `flavorPrices` map. -/
def extractFlavorPrices (catalog : PricingCatalog) : PriceMap :=
  catalog.Addons.foldl extractAddon []

/-- The table of estimatePrice. -/
def estimateTable : PriceMap :=
  [("b2-7", 0.0283), ("b2-15", 0.0567), ("b2-30", 0.1134), ("b2-60", 0.2268), ("b2-120", 0.4536),
   ("b3-8", 0.0340), ("b3-16", 0.0680), ("b3-32", 0.1360), ("b3-64", 0.2720), ("b3-128", 0.5440),
   ("c2-7", 0.0340), ("c2-15", 0.0680), ("c2-30", 0.1360), ("c2-60", 0.2720), ("c2-120", 0.5440),
   ("c3-8", 0.0408), ("c3-16", 0.0816), ("c3-32", 0.1632), ("c3-64", 0.3264), ("c3-128", 0.6528),
   ("r2-15", 0.0567), ("r2-30", 0.0850), ("r2-60", 0.1700), ("r2-120", 0.3400), ("r2-240", 0.6800),
   ("r3-16", 0.0680), ("r3-32", 0.1020), ("r3-64", 0.2040), ("r3-128", 0.4080), ("r3-256", 0.8160),
   ("t1-45", 0.90), ("t1-90", 1.80), ("t1-180", 3.60),
   ("t2-45", 1.10), ("t2-90", 2.20), ("t2-180", 4.40)]

/-- The method estimatePrice provides a fallback price estimation when the API
is unavailable. -/
def estimatePrice (flavorName : String) : ℚ :=
  match estimateTable.get? flavorName with
  | some price => price
  | none => 0.10

/-- The clock readings of one GetFlavorPrice call: `time.Since` in
refreshCacheIfNeeded (`check`), `time.Since` behind the write lock in
refreshCache (`recheck`) and `time.Now()` for `lastRefresh` (`stamp`). -/
structure Clock where
  check : Int
  recheck : Int
  stamp : Int
  deriving DecidableEq, Repr

/-- The method refreshCache fetches fresh pricing data from the OVH API.
`fetch` is the outcome of building the request, sending it, checking the
status and decoding the body: the catalog, or the error that refreshCache
returns.  The result is the returned error and the client afterwards. -/
def refreshCache (p : PricingClient) (clock : Clock)
    (fetch : Except ClientError PricingCatalog) : Option ClientError × PricingClient :=
  if p.catalog ≠ none ∧ clock.recheck - p.lastRefresh ≤ p.cacheTTL then (none, p)
  else
    match fetch with
    | .error err => (some err, p)
    | .ok catalog =>
      (none, { p with catalog := some catalog, lastRefresh := clock.stamp,
                      flavorPrices := extractFlavorPrices catalog })

/-- The method refreshCacheIfNeeded refreshes the pricing cache if it is stale. -/
def refreshCacheIfNeeded (p : PricingClient) (clock : Clock)
    (fetch : Except ClientError PricingCatalog) : Option ClientError × PricingClient :=
  let needsRefresh := p.catalog = none ∨ clock.check - p.lastRefresh > p.cacheTTL
  if ¬ needsRefresh then (none, p)
  else refreshCache p clock fetch

/-- The lookup of GetFlavorPrice in a price map, in the order of its four
strategies, with the static estimate behind them. -/
def lookupFlavorPrice (flavorPrices : PriceMap) (flavorName region : String) : ℚ :=
  let regionLower := ToLower region
  match flavorPrices.get? flavorName with
  | some price => price
  | none =>
    let regionKey := regionLower ++ "." ++ flavorName
    match flavorPrices.get? regionKey with
    | some price => price
    | none =>
      let catalogKey := "instance-" ++ flavorName ++ "." ++ regionLower ++ ".hour.consumption"
      match flavorPrices.get? catalogKey with
      | some price => price
      | none =>
        let globalKey := "instance-" ++ flavorName ++ ".hour.consumption"
        match flavorPrices.get? globalKey with
        | some price => price
        | none => estimatePrice flavorName

/-- The method GetFlavorPrice returns the hourly price for a flavor in EUR:
the returned pair and the client afterwards. -/
def GetFlavorPrice (p : PricingClient) (clock : Clock)
    (fetch : Except ClientError PricingCatalog) (flavorName region : String) :
    (ℚ × Option ClientError) × PricingClient :=
  match refreshCacheIfNeeded p clock fetch with
  | (some _, p1) => ((estimatePrice flavorName, none), p1)
  | (none, p1) => ((lookupFlavorPrice p1.flavorPrices flavorName region, none), p1)

/-! ## pkg/cloudprovider: reading operations -/

/-- What an operation that leaves the pool cache alone produces: its return
value, the remote state after it, and the client calls it issued, oldest
first. -/
structure Run (σ α : Type) where
  result : α
  remote : σ
  calls : List Event

/-- The cache fallback of extractZoneFromPoolName: the loop
`for name, id := range c.poolCache`, which returns the last four
`-`-separated segments of the first visited name that is cached for `poolID`
and has at least four segments, and the empty string when there is none. -/
def zoneFromCache : GoMap → String → String
  | [], _ => ""
  | (name, id) :: rest, poolID =>
    if id == poolID then
      let parts := Split name "-"
      if parts.length ≥ 4 then Join (parts.drop (parts.length - 4)) "-"
      else zoneFromCache rest poolID
    else zoneFromCache rest poolID

/-- The method extractZoneFromPoolName extracts the zone from a pool name or ID. -/
def extractZoneFromPoolName {σ : Type} (c : OVHClient σ) (poolCache : GoMap) (s : σ)
    (poolID : String) : Run σ String :=
  match c.GetNodePool s poolID with
  | (.ok pool, s1) =>
    if pool.AvailabilityZone ≠ "" then
      { result := pool.AvailabilityZone, remote := s1, calls := [.GetNodePool poolID (.ok pool)] }
    else
      { result := zoneFromCache poolCache poolID, remote := s1,
        calls := [.GetNodePool poolID (.ok pool)] }
  | (.error err, s1) =>
    { result := zoneFromCache poolCache poolID, remote := s1,
      calls := [.GetNodePool poolID (.error err)] }

/-- The method nodeToNodeClaim; its error is always nil. -/
def nodeToNodeClaim {σ : Type} (K : Constants) (c : OVHClient σ) (poolCache : GoMap) (s : σ)
    (node : Node) (poolID : String) : Run σ (Except CPError NodeClaim) :=
  let z := extractZoneFromPoolName c poolCache s poolID
  let zone := if z.result = "" then ToLower c.region ++ "-a" else z.result
  { result := .ok
      { Name := node.Name
        Annotations :=
          [(AnnotationOVHPoolID K, poolID), (AnnotationOVHNodeID K, node.ID),
           (AnnotationOVHNodeName K, node.Name)]
        Labels :=
          [(LabelInstanceTypeStable, node.Flavor), (LabelTopologyZone, zone),
           (CapacityTypeLabelKey, CapacityTypeOnDemand), (LabelArchStable, ArchitectureAmd64),
           (LabelOSStable, Linux)]
        NodeName := node.Name
        ProviderID := K.ProviderPrefix ++ node.InstanceID },
    remote := z.remote, calls := z.calls }

/-- The loop of Get over the pools: the first node with the instance ID, in
pool order then node order, among the pools whose name has the prefix and
whose nodes can be listed. -/
def getScan {σ : Type} (K : Constants) (c : OVHClient σ) (poolCache : GoMap)
    (instanceID : String) : List NodePool → σ → Run σ (Except CPError NodeClaim)
  | [], s =>
    { result := .error (.nodeClaimNotFound (.errorf "node not found")), remote := s, calls := [] }
  | pool :: rest, s =>
    if !HasPrefix pool.Name K.PoolNamePrefix then getScan K c poolCache instanceID rest s
    else
      match c.ListPoolNodes s pool.ID with
      | (.error err, s1) =>
        let r := getScan K c poolCache instanceID rest s1
        { result := r.result, remote := r.remote,
          calls := .ListPoolNodes pool.ID (.error err) :: r.calls }
      | (.ok nodes, s1) =>
        match nodes.find? (fun node => node.InstanceID == instanceID) with
        | some node =>
          let r := nodeToNodeClaim K c poolCache s1 node pool.ID
          { result := r.result, remote := r.remote,
            calls := .ListPoolNodes pool.ID (.ok nodes) :: r.calls }
        | none =>
          let r := getScan K c poolCache instanceID rest s1
          { result := r.result, remote := r.remote,
            calls := .ListPoolNodes pool.ID (.ok nodes) :: r.calls }

/-- The method Get retrieves a NodeClaim by provider ID. -/
def Get {σ : Type} (K : Constants) (c : OVHClient σ) (poolCache : GoMap) (s : σ)
    (providerID : String) : Run σ (Except CPError NodeClaim) :=
  let instanceID := TrimPrefix providerID K.ProviderPrefix
  if instanceID = "" ∨ instanceID = providerID then
    { result := .error (.nodeClaimNotFound (.errorf ("invalid provider ID format: " ++ providerID))),
      remote := s, calls := [] }
  else
    match c.ListNodePools s with
    | (.error err, s1) =>
      { result := .error (.nodeClaimNotFound (.wrapf "listing pools: " (.client err))),
        remote := s1, calls := [.ListNodePools (.error err)] }
    | (.ok pools, s1) =>
      let r := getScan K c poolCache instanceID pools s1
      { result := r.result, remote := r.remote, calls := .ListNodePools (.ok pools) :: r.calls }

/-- The inner loop of List: one claim per node, a node whose conversion fails
being skipped. -/
def listNodes {σ : Type} (K : Constants) (c : OVHClient σ) (poolCache : GoMap)
    (poolID : String) : List Node → σ → Run σ (List NodeClaim)
  | [], s => { result := [], remote := s, calls := [] }
  | node :: rest, s =>
    let r := nodeToNodeClaim K c poolCache s node poolID
    let rs := listNodes K c poolCache poolID rest r.remote
    match r.result with
    | .error _ => { result := rs.result, remote := rs.remote, calls := r.calls ++ rs.calls }
    | .ok nc => { result := nc :: rs.result, remote := rs.remote, calls := r.calls ++ rs.calls }

/-- The outer loop of List over the pools. -/
def listPools {σ : Type} (K : Constants) (c : OVHClient σ) (poolCache : GoMap) :
    List NodePool → σ → Run σ (List NodeClaim)
  | [], s => { result := [], remote := s, calls := [] }
  | pool :: rest, s =>
    if !HasPrefix pool.Name K.PoolNamePrefix then listPools K c poolCache rest s
    else
      match c.ListPoolNodes s pool.ID with
      | (.error err, s1) =>
        let r := listPools K c poolCache rest s1
        { result := r.result, remote := r.remote,
          calls := .ListPoolNodes pool.ID (.error err) :: r.calls }
      | (.ok nodes, s1) =>
        let r1 := listNodes K c poolCache pool.ID nodes s1
        let r2 := listPools K c poolCache rest r1.remote
        { result := r1.result ++ r2.result, remote := r2.remote,
          calls := .ListPoolNodes pool.ID (.ok nodes) :: (r1.calls ++ r2.calls) }

/-- The method List retrieves all Karpenter-managed NodeClaims. -/
def CloudProvider.List {σ : Type} (K : Constants) (c : OVHClient σ) (poolCache : GoMap) (s : σ) :
    Run σ (Except CPError (List NodeClaim)) :=
  match c.ListNodePools s with
  | (.error err, s1) =>
    { result := .error (.wrapf "listing pools: " (.client err)), remote := s1,
      calls := [.ListNodePools (.error err)] }
  | (.ok pools, s1) =>
    let r := listPools K c poolCache pools s1
    { result := .ok r.result, remote := r.remote, calls := .ListNodePools (.ok pools) :: r.calls }

/-- The Kubernetes client as the provider uses it: the lookup of a node class
by name. -/
abbrev KubeClient := String → Except CPError OVHNodeClass

/-- The method resolveNodeClass. -/
def resolveNodeClass (kubeClient : KubeClient) (nodeClaim : NodeClaim) :
    Except CPError OVHNodeClass :=
  kubeClient nodeClaim.NodeClassRefName

/-- The method IsDrifted checks if a NodeClaim has drifted from its NodeClass.
The result is the returned pair of drift reason and error. -/
def IsDrifted {σ : Type} (K : Constants) (c : OVHClient σ) (kubeClient : KubeClient) (s : σ)
    (nodeClaim : NodeClaim) : Run σ (String × Option CPError) :=
  match resolveNodeClass kubeClient nodeClaim with
  | .error _ => { result := ("", none), remote := s, calls := [] }
  | .ok nodeClass =>
    let poolID := nodeClaim.Annotations.get (AnnotationOVHPoolID K)
    if poolID = "" then { result := ("", none), remote := s, calls := [] }
    else
      match c.GetNodePool s poolID with
      | (.error err, s1) =>
        { result := ("", none), remote := s1, calls := [.GetNodePool poolID (.error err)] }
      | (.ok pool, s1) =>
        if pool.MonthlyBilled ≠ nodeClass.Spec.MonthlyBilled then
          { result := ("MonthlyBillingChanged", none), remote := s1,
            calls := [.GetNodePool poolID (.ok pool)] }
        else if pool.AntiAffinity ≠ nodeClass.Spec.AntiAffinity then
          { result := ("AntiAffinityChanged", none), remote := s1,
            calls := [.GetNodePool poolID (.ok pool)] }
        else
          { result := ("", none), remote := s1, calls := [.GetNodePool poolID (.ok pool)] }

/-! ## pkg/cloudprovider: Create -/

/-- The fields of the framework type `cloudprovider.InstanceType` that the
provider reads; `allocatable` is the value of its method `Allocatable()`. -/
structure InstanceType where
  Name : String := ""
  Capacity : ResourceList := []
  allocatable : ResourceList := []
  deriving DecidableEq, Repr, Inhabited

/-- The Kubernetes predicate `errors.IsNotFound`, which follows wrapped errors. -/
def CPError.IsNotFound : CPError → Bool
  | .kube notFound _ => notFound
  | .wrapf _ inner => inner.IsNotFound
  | _ => false

/-- The condition `nodeClass.StatusConditions().Get(status.ConditionReady)`:
the first condition of type `Ready`, if any. -/
def readyCondition (nodeClass : OVHNodeClass) : Option Condition :=
  nodeClass.Status.Conditions.find? (fun cond => cond.CondType == "Ready")

/-- The method `IsFalse` of a condition pointer, which is false on nil. -/
def conditionIsFalse (cond : Option Condition) : Bool :=
  match cond with
  | none => false
  | some cnd => cnd.Status == "False"

/-- The method selectFlavor. -/
def selectFlavor (nodeClaim : NodeClaim) : Except CPError String :=
  match nodeClaim.Requirements.find?
      (fun req => req.Key == LabelInstanceTypeStable && decide (req.Values.length > 0)) with
  | some req => .ok (req.Values.headD "")
  | none => .error (.errorf "no instance type requirement found")

/-- The method selectZone. -/
def selectZone {σ : Type} (c : OVHClient σ) (nodeClaim : NodeClaim) : String :=
  match nodeClaim.Requirements.find?
      (fun req => req.Key == LabelTopologyZone && decide (req.Values.length > 0)) with
  | some req => req.Values.headD ""
  | none => ToLower c.region ++ "-a"

/-- How the wait for a node ends when no tick finds one: the context is
cancelled (`ctx.Err()` is the carried error) or the ten-minute timer fires. -/
inductive WaitEnding where
  | cancelled (ctxErr : ClientError)
  | timeout
  deriving DecidableEq, Repr

/-- The order in which the `select` of waitForNewNode takes its branches: the
ticker `ticks` times, then the branch of `ending`. -/
structure WaitSchedule where
  ticks : Nat
  ending : WaitEnding
  deriving DecidableEq, Repr

/-- The method waitForNewNode: at every tick the nodes of the pool are listed
and the first node that is `READY` and has an instance ID is returned; a
failed listing is passed over. -/
def waitForNewNode {σ : Type} (c : OVHClient σ) (poolID : String) (previousCount : Int)
    (ending : WaitEnding) : Nat → σ → Run σ (Except CPError Node)
  | 0, s =>
    match ending with
    | .cancelled ctxErr => { result := .error (.client ctxErr), remote := s, calls := [] }
    | .timeout =>
      { result := .error (.errorf "timeout waiting for new node"), remote := s, calls := [] }
  | ticks + 1, s =>
    match c.ListPoolNodes s poolID with
    | (.error err, s1) =>
      let r := waitForNewNode c poolID previousCount ending ticks s1
      { result := r.result, remote := r.remote,
        calls := .ListPoolNodes poolID (.error err) :: r.calls }
    | (.ok nodes, s1) =>
      match nodes.find? (fun node => node.Status == "READY" && node.InstanceID != "") with
      | some node =>
        { result := .ok node, remote := s1, calls := [.ListPoolNodes poolID (.ok nodes)] }
      | none =>
        let r := waitForNewNode c poolID previousCount ending ticks s1
        { result := r.result, remote := r.remote,
          calls := .ListPoolNodes poolID (.ok nodes) :: r.calls }

/-- The method getInstanceType; the error of a missing type is `none`. -/
def getInstanceType (instanceTypes : List InstanceType) (name : String) : Option InstanceType :=
  instanceTypes.find? (fun it => it.Name == name)

/-- The method getCapacityForFlavor. -/
def getCapacityForFlavor (instanceType : Option InstanceType) : ResourceList :=
  match instanceType with
  | none => []
  | some it => it.Capacity

/-- The method getAllocatableForFlavor. -/
def getAllocatableForFlavor (instanceType : Option InstanceType) : ResourceList :=
  match instanceType with
  | none => []
  | some it => it.allocatable

/-- The response that Create builds once the pool and the node are known. -/
def createdClaim (K : Constants) (instanceTypes : List InstanceType) (nodeClaim : NodeClaim)
    (flavor zone : String) (pool : NodePool) (node : Node) : NodeClaim :=
  let instanceType := getInstanceType instanceTypes flavor
  let annotations := nodeClaim.Annotations.set (AnnotationOVHPoolID K) pool.ID
  let annotations := annotations.set (AnnotationOVHNodeID K) node.ID
  let annotations := annotations.set (AnnotationOVHNodeName K) node.Name
  let labels := nodeClaim.Labels.set LabelInstanceTypeStable flavor
  let labels := labels.set LabelTopologyZone zone
  let labels := labels.set CapacityTypeLabelKey CapacityTypeOnDemand
  { nodeClaim with
    ProviderID := K.ProviderPrefix ++ node.InstanceID
    Capacity := getCapacityForFlavor instanceType
    Allocatable := getAllocatableForFlavor instanceType
    Annotations := annotations
    Labels := labels }

/-- The method Create launches a NodeClaim by creating or scaling up an OVH
Node Pool. -/
def Create {σ : Type} (K : Constants) (c : OVHClient σ) (kubeClient : KubeClient)
    (instanceTypes : List InstanceType) (poolCache : GoMap) (s : σ) (nodeClaim : NodeClaim)
    (schedule : WaitSchedule) : Step σ (Except CPError NodeClaim) :=
  match resolveNodeClass kubeClient nodeClaim with
  | .error err =>
    if err.IsNotFound then
      { result := .error (.insufficientCapacity (.wrapf "resolving node class: " err)),
        poolCache := poolCache, remote := s, calls := [] }
    else
      { result := .error (.wrapf "resolving node class: " err),
        poolCache := poolCache, remote := s, calls := [] }
  | .ok nodeClass =>
    if conditionIsFalse (readyCondition nodeClass) then
      { result := .error (.nodeClassNotReady
          (.errorf (((readyCondition nodeClass).map (fun cnd => cnd.Message)).getD ""))),
        poolCache := poolCache, remote := s, calls := [] }
    else
      match selectFlavor nodeClaim with
      | .error err =>
        { result := .error (.wrapf "selecting flavor: " err), poolCache := poolCache,
          remote := s, calls := [] }
      | .ok flavor =>
        let zone := selectZone c nodeClaim
        let name := poolName K flavor zone
        let r1 := getOrCreatePool K c poolCache s name flavor zone nodeClass (some nodeClaim)
        match r1.result with
        | .error err =>
          { result := .error (.wrapf "getting/creating pool: " err), poolCache := r1.poolCache,
            remote := r1.remote, calls := r1.calls }
        | .ok pool =>
          let r2 := waitForNewNode c pool.ID pool.CurrentNodes schedule.ending schedule.ticks
            r1.remote
          match r2.result with
          | .error err =>
            { result := .error (.wrapf "waiting for new node: " err), poolCache := r1.poolCache,
              remote := r2.remote, calls := r1.calls ++ r2.calls }
          | .ok node =>
            { result := .ok (createdClaim K instanceTypes nodeClaim flavor zone pool node),
              poolCache := r1.poolCache, remote := r2.remote, calls := r1.calls ++ r2.calls }

/-! ### More concrete scenarios -/

/-- A retry configuration whose capped backoff is one nanosecond. -/
def nanosecondConfig : RetryConfig :=
  { MaxRetries := 3, InitialBackoff := 1, MaxBackoff := 1, BackoffFactor := 1 }

/-- The node listings of the managed pools, in pool order: every pool whose
name starts with `PoolNamePrefix`, with the answer of ListPoolNodes for it,
the listings being made one after the other from remote state `s`. -/
def poolNodeListings {σ : Type} (K : Constants) (c : OVHClient σ) :
    List NodePool → σ → List (NodePool × Except ClientError (List Node))
  | [], _ => []
  | pool :: rest, s =>
    if HasPrefix pool.Name K.PoolNamePrefix then
      (pool, (c.ListPoolNodes s pool.ID).1)
        :: poolNodeListings K c rest (c.ListPoolNodes s pool.ID).2
    else poolNodeListings K c rest s

/-- The first node with the given instance ID, in pool order then node order,
among the listings that succeeded. -/
def firstNodeWithInstanceID (instanceID : String) :
    List (NodePool × Except ClientError (List Node)) → Option (NodePool × Node)
  | [] => none
  | (_, .error _) :: rest => firstNodeWithInstanceID instanceID rest
  | (pool, .ok nodes) :: rest =>
    match nodes.find? (fun node => node.InstanceID == instanceID) with
    | some node => some (pool, node)
    | none => firstNodeWithInstanceID instanceID rest

/-- The nodes that the successful node listings of a transcript reported, each
with the ID of the pool that was listed, in the order of the transcript. -/
def listedNodes : List Event → List (String × Node)
  | [] => []
  | .ListPoolNodes poolID (.ok nodes) :: rest =>
    nodes.map (fun node => (poolID, node)) ++ listedNodes rest
  | _ :: rest => listedNodes rest

/-- The pool IDs of the ListPoolNodes calls of a transcript, failed or not. -/
def listedPoolIDs : List Event → List String
  | [] => []
  | .ListPoolNodes poolID _ :: rest => poolID :: listedPoolIDs rest
  | _ :: rest => listedPoolIDs rest

/-- The identity of a claim as nodeToNodeClaim sets it: name, provider ID and
annotations. -/
def claimIdentity (claim : NodeClaim) : String × String × GoMap :=
  (claim.Name, claim.ProviderID, claim.Annotations)

/-- The identity that nodeToNodeClaim gives to the claim of a node of a pool. -/
def nodeIdentity (K : Constants) (poolID : String) (node : Node) : String × String × GoMap :=
  (node.Name, K.ProviderPrefix ++ node.InstanceID,
    [(AnnotationOVHPoolID K, poolID), (AnnotationOVHNodeID K, node.ID),
     (AnnotationOVHNodeName K, node.Name)])

/-- The pools of the listing scenario: two managed pools around a foreign one. -/
def scenarioPoolList : List NodePool :=
  [{ ID := "p1", Name := "karpenter-b3-8-gra7-a" }, { ID := "p2", Name := "default" },
   { ID := "p3", Name := "karpenter-c3-16-gra7-a" }]

/-- The nodes of pool `p3` in the listing scenario. -/
def scenarioNodeList : List Node :=
  [{ ID := "n1", InstanceID := "abc123", Name := "node-1", Status := "READY", Flavor := "c3-16" },
   { ID := "n2", InstanceID := "def456", Name := "node-2", Status := "READY", Flavor := "c3-16" }]

/-- A remote with two managed pools and one foreign pool; the node listing of
the first managed pool fails. -/
def nodesClient : OVHClient Unit where
  GetNodePool s poolID :=
    (.ok { ID := poolID, Name := "karpenter-b3-8-gra7-a", AvailabilityZone := "gra7-a" }, s)
  ListNodePools s := (.ok scenarioPoolList, s)
  CreateNodePool s _ := (.error (.leaf "500 internal error"), s)
  UpdateNodePool s _ _ := (.error (.leaf "500 internal error"), s)
  DeleteNodePool s _ := (some (.leaf "500 internal error"), s)
  ListPoolNodes s poolID :=
    if poolID = "p3" then (.ok scenarioNodeList, s)
    else (.error (.leaf "500 internal error"), s)
  region := "GRA7"

/-- The lookup keys of GetFlavorPrice in the order of its four strategies:
the flavor name, the region-prefixed key, the catalog key with region and
the catalog key without region. -/
def flavorPriceKeys (flavorName region : String) : List String :=
  [flavorName,
   ToLower region ++ "." ++ flavorName,
   "instance-" ++ flavorName ++ "." ++ ToLower region ++ ".hour.consumption",
   "instance-" ++ flavorName ++ ".hour.consumption"]

/-- The value of the first key of the list that is present in the price map. -/
def firstPresentPrice (m : PriceMap) (keys : List String) : Option ℚ :=
  keys.findSome? (fun k => m.get? k)

/-- A Kubernetes client that resolves every node class reference to a class
with monthly billing and anti-affinity. -/
def scenarioKube : KubeClient :=
  fun name => .ok { Name := name, Spec := { MonthlyBilled := true, AntiAffinity := true } }

/-- A Kubernetes client that finds no node class. -/
def emptyKube : KubeClient :=
  fun name => .error (.kube true ("ovhnodeclass " ++ name ++ " not found"))

/-- A stale pricing client that still holds a price for `b3-8`. -/
def stalePricing : PricingClient :=
  { catalog := some {}, lastRefresh := 0, flavorPrices := [("b3-8", 5)] }

/-- A fresh pricing client holding the three entries of the lookup example. -/
def freshPricing : PricingClient :=
  { catalog := some {}, lastRefresh := 0,
    flavorPrices := [("b3-8", 5), ("gra7.b3-8", 6), ("instance-c3-16.gra7.hour.consumption", 7)] }

/-- The in-memory remote with a node listing that reports one ready node. -/
def provisionClient : OVHClient (List NodePool) :=
  { memClient with
    ListPoolNodes := fun s poolID =>
      (.ok [{ ID := "n1", PoolID := poolID, InstanceID := "i-1", Name := "node-1",
              Status := "READY", Flavor := "b3-8" }], s) }

/-- A request for flavor `b3-8` in zone `gra7-a` with annotations and labels of its own. -/
def scenarioRequest : NodeClaim :=
  { Name := "claim-a", NodeClassRefName := "default",
    Annotations := [("owner", "team-a")], Labels := [("karpenter.sh/nodepool", "np")],
    Requirements :=
      [{ Key := "node.kubernetes.io/instance-type", Operator := "In", Values := ["b3-8"] },
       { Key := "topology.kubernetes.io/zone", Operator := "In", Values := ["gra7-a"] }] }

/-- The response of Create to `scenarioRequest` in the provisioning scenario. -/
def scenarioCreated : NodeClaim :=
  { scenarioRequest with
    Annotations :=
      [("karpenter.ovhcloud.sh/node-name", "node-1"), ("karpenter.ovhcloud.sh/node-id", "n1"),
       ("karpenter.ovhcloud.sh/pool-id", "pool-0"), ("owner", "team-a")]
    Labels :=
      [("karpenter.sh/capacity-type", "on-demand"), ("topology.kubernetes.io/zone", "gra7-a"),
       ("node.kubernetes.io/instance-type", "b3-8"), ("karpenter.sh/nodepool", "np")]
    ProviderID := "openstack:///i-1" }

/-- A retry configuration whose backoffs are the largest duration. -/
def largestConfig : RetryConfig :=
  { MaxRetries := 3, InitialBackoff := 9223372036854775807,
    MaxBackoff := 9223372036854775807, BackoffFactor := 1 }

/-! ## pkg/cloudprovider: the wait for a node as a step function -/

/-- The branches that the `select` of waitForNewNode can take in one iteration
of its loop. -/
inductive WaitEvent where
  | cancel (ctxErr : ClientError)
  | timeout
  | tick
  deriving DecidableEq, Repr

/-- One iteration of the loop of waitForNewNode on the branch the `select`
takes: `some r` when the method returns `r`, `none` when the loop goes on
(the `continue` after a failed listing, or the end of the body when no node of
the listing is ready); the second component is the remote afterwards. -/
def waitStep {σ : Type} (c : OVHClient σ) (poolID : String) (s : σ) :
    WaitEvent → Option (Except CPError Node) × σ
  | .cancel ctxErr => (some (.error (.client ctxErr)), s)
  | .timeout => (some (.error (.errorf "timeout waiting for new node")), s)
  | .tick =>
    match c.ListPoolNodes s poolID with
    | (.error _, s1) => (none, s1)
    | (.ok nodes, s1) =>
      match nodes.find? (fun node => node.Status == "READY" && node.InstanceID != "") with
      | some node => (some (.ok node), s1)
      | none => (none, s1)

/-- The loop of waitForNewNode over a finite sequence of branches: it stops at
the first iteration that returns; `none` says that it is still running after
the last one. -/
def waitLoop {σ : Type} (c : OVHClient σ) (poolID : String) :
    σ → List WaitEvent → Option (Except CPError Node) × σ
  | s, [] => (none, s)
  | s, e :: rest =>
    match waitStep c poolID s e with
    | (some r, s1) => (some r, s1)
    | (none, s1) => waitLoop c poolID s1 rest

/-- The branch on which a wait ends. -/
def WaitEnding.event : WaitEnding → WaitEvent
  | .cancelled ctxErr => .cancel ctxErr
  | .timeout => .timeout

/-- The branches of a schedule in order: its ticks, then its ending. -/
def WaitSchedule.events (schedule : WaitSchedule) : List WaitEvent :=
  List.replicate schedule.ticks .tick ++ [schedule.ending.event]

/-- A node is what waitForNewNode looks for: `READY` with an instance ID. -/
def Node.isReady (node : Node) : Bool :=
  node.Status == "READY" && node.InstanceID != ""

/-- The ready node that the provisioning remote reports for pool `pool-0`. -/
def scenarioReadyNode : Node :=
  { ID := "n1", PoolID := "pool-0", InstanceID := "i-1", Name := "node-1",
    Status := "READY", Flavor := "b3-8" }

/-! ## pkg/client: flavors -/

/-- An OVH instance flavor of the cluster-scoped endpoint (`Flavor`); `RAM` is
in MiB and `Disk` in GiB. -/
structure Flavor where
  Name : String := ""
  Category : String := ""
  VCPUs : Int := 0
  RAM : Int := 0
  Disk : Int := 0
  GPUs : Int := 0
  Available : Bool := false
  State : String := ""
  deriving DecidableEq, Repr, Inhabited

/-- A flavor of the capabilities endpoint (`KubeFlavorCapability`); `RAM` is in
GiB. -/
structure KubeFlavorCapability where
  Name : String := ""
  Category : String := ""
  VCPUs : Int := 0
  RAM : Int := 0
  GPUs : Int := 0
  State : String := ""
  deriving DecidableEq, Repr, Inhabited

/-! ## pkg/cloudprovider: the instance catalog -/

/-- The largest magnitude that a `resource.Quantity` holds (`maxAllowed`). -/
def maxAllowed : ℚ := 2 ^ 63 - 1

/-- The cap of `resource.ParseQuantity` on a number written with a binary
suffix: its magnitude is at most `maxAllowed`. -/
def capQuantity (amount : ℚ) : ℚ :=
  if amount > maxAllowed then maxAllowed
  else if amount < -maxAllowed then -maxAllowed
  else amount

/-- The quantity `resource.MustParse(fmt.Sprintf("%d", n))`. -/
def quantityInt (n : Int) : ℚ := n

/-- The quantity `resource.MustParse(fmt.Sprintf("%dMi", n))`, in bytes. -/
def quantityMi (n : Int) : ℚ := capQuantity (n * 2 ^ 20)

/-- The quantity `resource.MustParse(fmt.Sprintf("%dGi", n))`, in bytes. -/
def quantityGi (n : Int) : ℚ := capQuantity (n * 2 ^ 30)

/-- The resource names `corev1.ResourceCPU`, `corev1.ResourceMemory`,
`corev1.ResourcePods` and `corev1.ResourceEphemeralStorage`. -/
def ResourceCPU : String := "cpu"

/-- See `ResourceCPU`. -/
def ResourceMemory : String := "memory"

/-- See `ResourceCPU`. -/
def ResourcePods : String := "pods"

/-- See `ResourceCPU`. -/
def ResourceEphemeralStorage : String := "ephemeral-storage"

/-- The function buildInstanceType creates a single InstanceType from a Flavor.
Of the record it builds, the name, the capacity and the value of
`Allocatable()` are kept; `Allocatable` is that framework method as a function
of the capacity and of the overhead (here the `KubeReserved` list).  The
requirements and the offerings of the record are not among the fields that
`InstanceType` keeps. -/
def buildInstanceType (Allocatable : ResourceList → ResourceList → ResourceList)
    (flavor : Flavor) (ramInGiB : Bool) : InstanceType :=
  let memory := if ramInGiB then quantityGi flavor.RAM else quantityMi flavor.RAM
  let capacity : ResourceList :=
    [(ResourceCPU, quantityInt flavor.VCPUs),
     (ResourceMemory, memory),
     (ResourcePods, quantityInt 110),
     (ResourceEphemeralStorage, quantityGi flavor.Disk)]
  let capacity :=
    if flavor.GPUs > 0 then capacity ++ [("nvidia.com/gpu", quantityInt flavor.GPUs)]
    else capacity
  { Name := flavor.Name
    Capacity := capacity
    allocatable := Allocatable capacity
      [(ResourceCPU, quantityInt 100 / 1000), (ResourceMemory, quantityMi 100)] }

/-- The conversion of a capability to the internal Flavor type in
buildInstanceTypesFromCapabilities; the RAM stays in GiB and `Disk` is not set. -/
def KubeFlavorCapability.toFlavor (capFlavor : KubeFlavorCapability) : Flavor :=
  { Name := capFlavor.Name
    Category := capFlavor.Category
    VCPUs := capFlavor.VCPUs
    RAM := capFlavor.RAM
    GPUs := capFlavor.GPUs
    Available := true
    State := capFlavor.State }

/-- The body of the loop of buildInstanceTypesFromCapabilities. -/
def appendFromCapability (Allocatable : ResourceList → ResourceList → ResourceList)
    (instanceTypes : List InstanceType) (capFlavor : KubeFlavorCapability) :
    List InstanceType :=
  if capFlavor.State ≠ "available" ∨ capFlavor.VCPUs = 0 then instanceTypes
  else
    let flavor := capFlavor.toFlavor
    let it := buildInstanceType Allocatable flavor true
    instanceTypes ++ [it]

/-- The function buildInstanceTypesFromCapabilities builds instance types from
the answer of the capabilities endpoint; the error it returns is always nil. -/
def buildInstanceTypesFromCapabilities
    (Allocatable : ResourceList → ResourceList → ResourceList)
    (capFlavors : List KubeFlavorCapability) : List InstanceType :=
  capFlavors.foldl (appendFromCapability Allocatable) []

/-- The body of the loop of buildInstanceTypesFromClusterFlavors. -/
def appendFromClusterFlavor (Allocatable : ResourceList → ResourceList → ResourceList)
    (instanceTypes : List InstanceType) (flavor : Flavor) : List InstanceType :=
  if flavor.VCPUs = 0 then instanceTypes
  else
    let it := buildInstanceType Allocatable flavor false
    instanceTypes ++ [it]

/-- The function buildInstanceTypesFromClusterFlavors builds instance types
from the answer of the cluster-scoped flavors endpoint; the error it returns
is always nil. -/
def buildInstanceTypesFromClusterFlavors
    (Allocatable : ResourceList → ResourceList → ResourceList)
    (flavors : List Flavor) : List InstanceType :=
  flavors.foldl (appendFromClusterFlavor Allocatable) []

/-- The memory capacity of an instance type, if it states one. -/
def InstanceType.memory (it : InstanceType) : Option ℚ :=
  it.Capacity.lookup ResourceMemory

/-- The framework method `Allocatable` as capacity minus overhead, resource by
resource; used in the concrete scenarios only. -/
def scenarioAllocatable (capacity overhead : ResourceList) : ResourceList :=
  capacity.map (fun kv => (kv.1, kv.2 - (overhead.lookup kv.1).getD 0))

/-- A flavor of 2^33 GiB of RAM, as the capabilities endpoint would state it. -/
def hugeFlavor : Flavor :=
  { Name := "x1-huge", Category := "x", VCPUs := 1, RAM := 8589934592, Available := true,
    State := "available" }

/-- A capability of 8 GiB of RAM. -/
def scenarioCapability : KubeFlavorCapability :=
  { Name := "b3-8", Category := "b", VCPUs := 2, RAM := 8, State := "available" }

/-- The flavor `b3-8` as the cluster-scoped endpoint states it, RAM in MiB. -/
def scenarioFlavor : Flavor :=
  { Name := "b3-8", Category := "b", VCPUs := 2, RAM := 8192, Disk := 50, Available := true,
    State := "available" }

/-- A node class with one tag of its own. -/
def taggedNodeClass : OVHNodeClass :=
  { Name := "default", Spec := { Tags := [("team", "ops")] } }

/-- A node class whose tag uses the key `managed-by`. -/
def overridingNodeClass : OVHNodeClass :=
  { Name := "default", Spec := { Tags := [("managed-by", "ops")] } }

/-- A request with a taint. -/
def taintedRequest : NodeClaim :=
  { scenarioRequest with Taints := [{ Key := "dedicated", Value := "gpu", Effect := "NoSchedule" }] }

/-- The pool-creation request for `taintedRequest` under `taggedNodeClass`. -/
def taggedCreateRequest : CreateNodePoolRequest :=
  createRequest scenarioConstants "karpenter-b3-8-gra7-a" "b3-8" "gra7-a" taggedNodeClass
    (some taintedRequest)

/-- The pool-creation request for `taintedRequest` under `overridingNodeClass`. -/
def overridingCreateRequest : CreateNodePoolRequest :=
  createRequest scenarioConstants "karpenter-b3-8-gra7-a" "b3-8" "gra7-a" overridingNodeClass
    (some taintedRequest)

/-- A request without requirements. -/
def emptyRequest : NodeClaim :=
  { Name := "claim-b", NodeClassRefName := "default" }

/-- The node class that `scenarioKube` resolves the reference `default` to. -/
def scenarioNodeClass : OVHNodeClass :=
  { Name := "default", Spec := { MonthlyBilled := true, AntiAffinity := true } }

/-- An available capability without CPU information. -/
def cpulessCapability : KubeFlavorCapability :=
  { Name := "b3-8", Category := "b", VCPUs := 0, RAM := 8, State := "available" }

/-- An available cluster flavor without CPU information. -/
def cpulessFlavor : Flavor :=
  { Name := "b3-8", Category := "b", VCPUs := 0, RAM := 8192, Disk := 50, Available := true,
    State := "available" }

/-- A cluster flavor that is not available. -/
def unavailableFlavor : Flavor :=
  { Name := "c3-16", Category := "c", VCPUs := 4, RAM := 16384, Disk := 100,
    Available := false, State := "unavailable" }

/-- A catalog with one hourly consumption entry for `b3-8` whose price is
1000000. -/
def microCatalog : PricingCatalog :=
  { Addons :=
      [{ PlanCode := "instance-b3-8.gra7.hour.consumption"
         Pricings := [{ Capacities := ["consumption"], Duration := "P1H", Price := 1000000 }] }] }

/-- A second request for flavor `b3-8` in zone `gra7-a`. -/
def secondRequest : NodeClaim :=
  { scenarioRequest with Name := "claim-c" }

/-- The response of Create to `secondRequest` after `scenarioRequest`. -/
def secondCreated : NodeClaim :=
  { scenarioCreated with Name := "claim-c" }

/-- The parts `parts` put together with the character `c` between them, as
`strings.Join` does with a separator of one character. -/
def joinChars (c : Char) : List (List Char) → List Char
  | [] => []
  | [p] => p
  | p :: q :: rest => p ++ c :: joinChars c (q :: rest)

/-! ## The entries of a catalog that extractFlavorPrices stores -/

/-- The condition under which extractFlavorPrices stores a pricing of an addon
whose lower-cased plan code is `planCode`: hourly, with the capacity
`consumption`, a price above zero and a flavor key that is not empty. -/
def qualifies (planCode : String) (pricing : PricingDetail) : Bool :=
  (Contains pricing.Duration "P1H" || Contains pricing.Description "hour"
    || pricing.Interval == 1)
  && pricing.Capacities.any (fun cap => cap == "consumption")
  && decide (pricing.Price > 0)
  && (extractFlavorFromPlanCode planCode != "")

/-- The qualifying entries of one addon, in order: the lower-cased plan code
with the price of each qualifying pricing. -/
def addonEntries (addon : PricingAddon) : List (String × Int) :=
  if Contains (ToLower addon.PlanCode) "instance" then
    (addon.Pricings.filter (qualifies (ToLower addon.PlanCode))).map
      (fun pricing => (ToLower addon.PlanCode, pricing.Price))
  else []

/-- The qualifying entries of a catalog, in catalog order. -/
def qualifyingEntries (catalog : PricingCatalog) : List (String × Int) :=
  catalog.Addons.flatMap addonEntries

/-- What extractFlavorPrices does with a qualifying entry: the price divided
by 100000000 goes under the flavor key, then under the plan code. -/
def storeEntry (prices : PriceMap) (entry : String × Int) : PriceMap :=
  (prices.set (extractFlavorFromPlanCode entry.1) ((entry.2 : ℚ) / 100000000)).set entry.1
    ((entry.2 : ℚ) / 100000000)

/-- A catalog in which the plan code of the second entry is the flavor key of
the first. -/
def collidingCatalog : PricingCatalog :=
  { Addons :=
      [{ PlanCode := "instance-instance-x.gra.hour.consumption"
         Pricings := [{ Capacities := ["consumption"], Duration := "P1H", Price := 100000000 }] },
       { PlanCode := "instance-x"
         Pricings := [{ Capacities := ["consumption"], Duration := "P1H", Price := 200000000 }] }] }

/-- A fresh pricing client that holds the prices of `collidingCatalog`. -/
def collidingPricing : PricingClient :=
  { catalog := some collidingCatalog, lastRefresh := 0,
    flavorPrices := extractFlavorPrices collidingCatalog }

/-- A fresh pricing client that holds the prices of `microCatalog`. -/
def microPricing : PricingClient :=
  { catalog := some microCatalog, lastRefresh := 0,
    flavorPrices := extractFlavorPrices microCatalog }

/-! ## Transcripts against the remote -/

/-- The call that an event records, made on the remote in state `s`: the state
afterwards when the client answers the call as the event says, `none` when
its answer is another one. -/
def Event.run {σ : Type} (c : OVHClient σ) (s : σ) : Event → Option σ
  | .GetNodePool poolID res =>
    if (c.GetNodePool s poolID).1 = res then some (c.GetNodePool s poolID).2 else none
  | .ListNodePools res =>
    if (c.ListNodePools s).1 = res then some (c.ListNodePools s).2 else none
  | .CreateNodePool req res =>
    if (c.CreateNodePool s req).1 = res then some (c.CreateNodePool s req).2 else none
  | .UpdateNodePool poolID req res =>
    if (c.UpdateNodePool s poolID req).1 = res then some (c.UpdateNodePool s poolID req).2
    else none
  | .DeleteNodePool poolID res =>
    if (c.DeleteNodePool s poolID).1 = res then some (c.DeleteNodePool s poolID).2 else none
  | .ListPoolNodes poolID res =>
    if (c.ListPoolNodes s poolID).1 = res then some (c.ListPoolNodes s poolID).2 else none

/-- The calls of a transcript made on the remote one after the other from
state `s`: the state after the last one when every call is answered as the
transcript says, `none` otherwise. -/
def replay {σ : Type} (c : OVHClient σ) : σ → List Event → Option σ
  | s, [] => some s
  | s, e :: rest =>
    match e.run c s with
    | some s1 => replay c s1 rest
    | none => none

/-- The remote after the zone lookups that List makes for the nodes of one
pool: a GetNodePool of the pool for every node. -/
def afterZoneLookups {σ : Type} (c : OVHClient σ) (poolID : String) : List Node → σ → σ
  | [], s => s
  | _ :: rest, s => afterZoneLookups c poolID rest (c.GetNodePool s poolID).2

/-- The nodes that the remote reports to List, each with the ID of its pool,
in pool order then node order: for every pool whose name starts with
`PoolNamePrefix`, in the order of the pool listing, the answer of
ListPoolNodes when it is a listing, the remote moving on through that call
and through the zone lookups for the nodes listed. -/
def managedNodes {σ : Type} (K : Constants) (c : OVHClient σ) :
    List NodePool → σ → List (String × Node)
  | [], _ => []
  | pool :: rest, s =>
    if HasPrefix pool.Name K.PoolNamePrefix then
      match (c.ListPoolNodes s pool.ID).1 with
      | .error _ => managedNodes K c rest (c.ListPoolNodes s pool.ID).2
      | .ok nodes =>
        nodes.map (fun node => (pool.ID, node))
          ++ managedNodes K c rest
              (afterZoneLookups c pool.ID nodes (c.ListPoolNodes s pool.ID).2)
    else managedNodes K c rest s

/-- A remote that reads pools but refuses every change: the pool `pool-3` has
three desired nodes, any other pool one. -/
def stuckClient : OVHClient Unit where
  GetNodePool s poolID :=
    (.ok { ID := poolID, Name := "karpenter-b3-8-gra7-a",
           DesiredNodes := if poolID = "pool-3" then 3 else 1 }, s)
  ListNodePools s := (.ok [], s)
  CreateNodePool s _ := (.error (.leaf "500 internal error"), s)
  UpdateNodePool s _ _ := (.error (.leaf "500 internal error"), s)
  DeleteNodePool s _ := (some (.leaf "500 internal error"), s)
  ListPoolNodes s _ := (.ok [], s)
  region := "GRA7"

/-- A claim bound to the pool `pool-3`. -/
def scenarioClaimThree : NodeClaim :=
  { Name := "claim-3", Annotations := [("karpenter.ovhcloud.sh/pool-id", "pool-3")] }

/-- The state and the calls with which getOrCreatePool reaches the listing: on
a cache miss the state it was called in and no call, on a stale cache entry
the state after the failed read of the cached ID and that read. -/
def ReachesListing {σ : Type} (c : OVHClient σ) (poolCache : GoMap) (s : σ) (name : String)
    (pre : List Event) (s0 : σ) : Prop :=
  (poolCache.get? name = none ∧ pre = [] ∧ s0 = s)
    ∨ ∃ id e, poolCache.get? name = some id ∧ c.GetNodePool s id = (.error e, s0) ∧
        pre = [.GetNodePool id (.error e)]


/-! # Theorems -/

/-! ## Pool naming -/

theorem isPrefixOf_dot (c : Char) (cs : List Char) :
    List.isPrefixOf ['.'] (c :: cs) = decide (c = '.') := by
  by_cases h : c = '.'
  · subst h; simp [List.isPrefixOf]
  · simp [List.isPrefixOf, h]
    intro h2; exact h h2.symm

theorem replaceScan_dot (s : List Char) :
    replaceScan ['.'] ['-'] 0 s = s.map (fun ch => if ch = '.' then '-' else ch) := by
  induction s with
  | nil => rfl
  | cons c cs ih =>
    rw [replaceScan, isPrefixOf_dot]
    by_cases h : c = '.'
    · simp [h, ih]
    · simp [h, ih]

theorem ReplaceAll_dot (s : String) : ReplaceAll s "." "-" = sanitizedFlavor s := by
  unfold ReplaceAll sanitizedFlavor
  have h : ¬ ("." : String).data = [] := by decide
  rw [if_neg h]
  exact congrArg String.mk (replaceScan_dot s.data)

/-- C1: for every flavor `f` and zone `z`, `poolName f z` is `PoolNamePrefix`
followed by `f` with every `.` replaced by `-`, followed by `-` and `z` when
`z` is non-empty and by nothing when `z` is empty; the sanitized flavor has
the length of `f` and differs from it exactly at the dots. -/
theorem poolName_follows_convention (K : Constants) (f z : String) :
    poolName K f z = K.PoolNamePrefix ++ sanitizedFlavor f ++ (if z = "" then "" else "-" ++ z)
    ∧ poolName K f z = poolNameConvention K f z
    ∧ (sanitizedFlavor f).data.length = f.data.length
    ∧ ∀ i : Nat, (sanitizedFlavor f).data[i]?
        = (f.data[i]?).map (fun ch => if ch = '.' then '-' else ch) := by
  have key : poolName K f z
      = K.PoolNamePrefix ++ sanitizedFlavor f ++ (if z = "" then "" else "-" ++ z) := by
    unfold poolName
    simp only [ReplaceAll_dot]
    by_cases hz : z = ""
    · simp [hz]
    · simp [hz, String.append_assoc]
  refine ⟨key, key, ?_, ?_⟩
  · simp [sanitizedFlavor]
  · intro i
    simp [sanitizedFlavor]

/-! ## The retry executor -/

theorem isRetryableError_ne_none {e : Option ClientError} (h : isRetryableError e = true) :
    e ≠ none := by
  intro h0; subst h0; simp [isRetryableError] at h

/-- While the wrapped call keeps failing with retryable errors and no wait is
cancelled, the loop advances one attempt per iteration. -/
theorem retryLoop_skip {T : Type} (config : RetryConfig) (operation : String)
    (fn : Nat → T × Option ClientError) (ctxDone : Nat → Option ClientError) (r : Nat) :
    ∀ (j a : Nat) (res : T) (le : Option ClientError),
      (∀ i, a ≤ i → i < a + j →
        isRetryableError (fn i).2 = true ∧ ((i : Int) < config.MaxRetries → ctxDone i = none)) →
      retryLoop config operation fn ctxDone (j + r) a res le
        = retryLoop config operation fn ctxDone r (a + j)
            (if j = 0 then res else (fn (a + j - 1)).1)
            (if j = 0 then le else (fn (a + j - 1)).2) := by
  intro j
  induction j with
  | zero => intro a res le _; simp
  | succ j ih =>
    intro a res le h
    have ha := h a (Nat.le_refl a) (by omega)
    have hne : (fn a).2 ≠ none := isRetryableError_ne_none ha.1
    have hstep : retryLoop config operation fn ctxDone (j + 1 + r) a res le
        = retryLoop config operation fn ctxDone (j + r) (a + 1) (fn a).1 (fn a).2 := by
      have e1 : j + 1 + r = (j + r) + 1 := by omega
      rw [e1, retryLoop]
      simp only [hne, if_false, ha.1, Bool.not_true]
      by_cases hlt : (a : Int) < config.MaxRetries
      · simp [hlt, ha.2 hlt]
      · simp [hlt]
    rw [hstep, ih (a + 1) (fn a).1 (fn a).2 (fun i h1 h2 => h i (by omega) (by omega))]
    have e2 : a + 1 + j = a + (j + 1) := by omega
    have e3 : a + (j + 1) - 1 = a + j := by omega
    rw [e2, e3]
    by_cases hj : j = 0
    · subst hj; simp
    · have e4 : a + 1 + j - 1 = a + j := by omega
      simp [hj, e4]

/-- The wrapped call is never invoked more often than the loop has iterations. -/
theorem retryLoop_invocations_le {T : Type} (config : RetryConfig) (operation : String)
    (fn : Nat → T × Option ClientError) (ctxDone : Nat → Option ClientError) :
    ∀ (r a : Nat) (res : T) (le : Option ClientError),
      (retryLoop config operation fn ctxDone r a res le).invocations ≤ a + r := by
  intro r
  induction r with
  | zero => intro a res le; simp [retryLoop]
  | succ r ih =>
    intro a res le
    rw [retryLoop]
    have h1 := ih (a + 1) (fn a).1 (fn a).2
    by_cases hn : (fn a).2 = none
    · simp [hn]
    · by_cases hre : isRetryableError (fn a).2 = true
      · by_cases hlt : (a : Int) < config.MaxRetries
        · cases hc : ctxDone a with
          | none => simp [hn, hre, hlt, hc]; omega
          | some ce => simp [hn, hre, hlt, hc]
        · simp [hn, hre, hlt]; omega
      · simp [hn, hre]

theorem retryVoidLoop_invocations_le (config : RetryConfig) (operation : String)
    (fn : Nat → Option ClientError) (ctxDone : Nat → Option ClientError) :
    ∀ (r a : Nat) (le : Option ClientError),
      (retryVoidLoop config operation fn ctxDone r a le).invocations ≤ a + r := by
  intro r
  induction r with
  | zero => intro a le; simp [retryVoidLoop]
  | succ r ih =>
    intro a le
    rw [retryVoidLoop]
    have h1 := ih (a + 1) (fn a)
    by_cases hn : fn a = none
    · simp [hn]
    · by_cases hre : isRetryableError (fn a) = true
      · by_cases hlt : (a : Int) < config.MaxRetries
        · cases hc : ctxDone a with
          | none => simp [hn, hre, hlt, hc]; omega
          | some ce => simp [hn, hre, hlt, hc]
        · simp [hn, hre, hlt]; omega
      · simp [hn, hre]

theorem retry_success_after_failures {T : Type} [Inhabited T] (config : RetryConfig)
    (operation : String) (fn : Nat → T × Option ClientError)
    (ctxDone : Nat → Option ClientError) (k : Nat) (v : T)
    (hk : (k : Int) ≤ config.MaxRetries)
    (hfail : ∀ i, i < k → isRetryableError (fn i).2 = true)
    (hsucc : fn k = (v, none))
    (hctx : ∀ i, i < k → ctxDone i = none) :
    retryableAPICall config operation fn ctxDone = { result := v, err := none, invocations := k + 1 } := by
  unfold retryableAPICall
  obtain ⟨r, hr⟩ : ∃ r, (config.MaxRetries + 1).toNat = k + (r + 1) :=
    ⟨(config.MaxRetries + 1).toNat - (k + 1), by omega⟩
  rw [hr, retryLoop_skip config operation fn ctxDone (r + 1) k 0 default none
    (fun i _ h2 => ⟨hfail i (by omega), fun _ => hctx i (by omega)⟩)]
  rw [retryLoop]
  simp [hsucc]

theorem retry_terminal_error_once {T : Type} [Inhabited T] (config : RetryConfig)
    (operation : String) (fn : Nat → T × Option ClientError)
    (ctxDone : Nat → Option ClientError) (e : ClientError)
    (h0 : 0 ≤ config.MaxRetries) (herr : (fn 0).2 = some e)
    (hterm : isRetryableError (some e) = false) :
    retryableAPICall config operation fn ctxDone
      = { result := (fn 0).1, err := some e, invocations := 1 } := by
  unfold retryableAPICall
  obtain ⟨r, hr⟩ : ∃ r, (config.MaxRetries + 1).toNat = r + 1 :=
    ⟨(config.MaxRetries + 1).toNat - 1, by omega⟩
  rw [hr, retryLoop]
  simp [herr, hterm]

theorem retryVoid_terminal_error_once (config : RetryConfig)
    (operation : String) (fn : Nat → Option ClientError)
    (ctxDone : Nat → Option ClientError) (e : ClientError)
    (h0 : 0 ≤ config.MaxRetries) (herr : fn 0 = some e)
    (hterm : isRetryableError (some e) = false) :
    retryableVoidCall config operation fn ctxDone
      = { result := (), err := some e, invocations := 1 } := by
  unfold retryableVoidCall
  obtain ⟨r, hr⟩ : ∃ r, (config.MaxRetries + 1).toNat = r + 1 :=
    ⟨(config.MaxRetries + 1).toNat - 1, by omega⟩
  rw [hr, retryVoidLoop]
  simp [herr, hterm]

theorem retry_exhausted {T : Type} [Inhabited T] (config : RetryConfig)
    (operation : String) (fn : Nat → T × Option ClientError)
    (ctxDone : Nat → Option ClientError)
    (h0 : 0 ≤ config.MaxRetries)
    (hfail : ∀ i, isRetryableError (fn i).2 = true)
    (hctx : ∀ i, ctxDone i = none) :
    retryableAPICall config operation fn ctxDone
      = { result := (fn config.MaxRetries.toNat).1,
          err := some (exhaustedError config operation (fn config.MaxRetries.toNat).2),
          invocations := config.MaxRetries.toNat + 1 } := by
  unfold retryableAPICall
  have hr : (config.MaxRetries + 1).toNat = (config.MaxRetries.toNat + 1) + 0 := by omega
  rw [hr, retryLoop_skip config operation fn ctxDone 0 (config.MaxRetries.toNat + 1) 0 default none
    (fun i _ _ => ⟨hfail i, fun _ => hctx i⟩)]
  simp [retryLoop]

theorem retry_cancelled_in_wait {T : Type} [Inhabited T] (config : RetryConfig)
    (operation : String) (fn : Nat → T × Option ClientError)
    (ctxDone : Nat → Option ClientError) (k : Nat) (ctxErr : ClientError)
    (hk : (k : Int) < config.MaxRetries)
    (hprev : ∀ i, i < k → isRetryableError (fn i).2 = true ∧ ctxDone i = none)
    (hfail : isRetryableError (fn k).2 = true)
    (hcancel : ctxDone k = some ctxErr) :
    retryableAPICall config operation fn ctxDone
      = { result := (fn k).1, err := some ctxErr, invocations := k + 1 } := by
  unfold retryableAPICall
  obtain ⟨r, hr⟩ : ∃ r, (config.MaxRetries + 1).toNat = k + (r + 1) :=
    ⟨(config.MaxRetries + 1).toNat - (k + 1), by omega⟩
  rw [hr, retryLoop_skip config operation fn ctxDone (r + 1) k 0 default none
    (fun i _ h2 => ⟨(hprev i (by omega)).1, fun _ => (hprev i (by omega)).2⟩)]
  rw [retryLoop]
  have hne : (fn k).2 ≠ none := isRetryableError_ne_none hfail
  simp [hne, hfail, hk, hcancel]

/-! ## Machine integers -/

theorem int64Add_one_exact (d : Int) (h : IsInt64 d) (hmax : d ≠ 2 ^ 63 - 1) :
    int64Add d 1 = d + 1 := by
  unfold IsInt64 at h
  unfold int64Add wrapInt64
  norm_num at h hmax ⊢
  omega

theorem int64Sub_one_exact (d : Int) (h : IsInt64 d) (hmin : 1 < d) :
    int64Sub d 1 = d - 1 := by
  unfold IsInt64 at h
  unfold int64Sub wrapInt64
  norm_num at h ⊢
  omega

/-! ## Go maps -/

theorem GoMap.get?_set_self (m : GoMap) (k v : String) : (m.set k v).get? k = some v := by
  simp [GoMap.set, GoMap.get?, List.lookup]

theorem GoMap.get?_delete_self (m : GoMap) (k : String) : (m.delete k).get? k = none := by
  unfold GoMap.delete GoMap.get?
  induction m with
  | nil => rfl
  | cons e m ih =>
    obtain ⟨a, b⟩ := e
    by_cases h : a = k
    · rw [List.filter_cons_of_neg (by simp [h])]
      exact ih
    · rw [List.filter_cons_of_pos (by simp [h]), List.lookup_cons]
      have h2 : (k == a) = false := by simp; exact fun h3 => h h3.symm
      simp only [h2]
      exact ih

theorem GoMap.get?_delete_other (m : GoMap) (k n : String) (h : n ≠ k) :
    (m.delete k).get? n = m.get? n := by
  unfold GoMap.delete GoMap.get?
  induction m with
  | nil => rfl
  | cons e m ih =>
    obtain ⟨a, b⟩ := e
    by_cases h1 : a = k
    · rw [List.filter_cons_of_neg (by simp [h1]), List.lookup_cons]
      have h2 : (n == a) = false := by simp [h1, h]
      simp only [h2]
      exact ih
    · rw [List.filter_cons_of_pos (by simp [h1]), List.lookup_cons, List.lookup_cons]
      cases (n == a)
      · exact ih
      · rfl

/-! ## getOrCreatePool: the shape of a call -/

/-- The three ways the listing part of getOrCreatePool can go. -/
theorem listThenScaleOrCreate_cases {σ : Type} (K : Constants) (c : OVHClient σ)
    (poolCache : GoMap) (s : σ) (pre : List Event) (name flavor zone : String)
    (nodeClass : OVHNodeClass) (nodeClaim : Option NodeClaim) :
    (∃ e s1, c.ListNodePools s = (.error e, s1) ∧
      listThenScaleOrCreate K c poolCache s pre name flavor zone nodeClass nodeClaim
        = { result := .error (.wrapf "listing pools: " (.client e)), poolCache := poolCache,
            remote := s1, calls := pre ++ [.ListNodePools (.error e)] })
    ∨ (∃ pools s1 q r s2, c.ListNodePools s = (.ok pools, s1) ∧
        pools.find? (fun pool => pool.Name == name) = some q ∧
        c.UpdateNodePool s1 q.ID { DesiredNodes := int64Add q.DesiredNodes 1 } = (r, s2) ∧
        listThenScaleOrCreate K c poolCache s pre name flavor zone nodeClass nodeClaim
          = { result :=
                (match r with
                 | .error e => .error (.wrapf "scaling up existing pool: " (.client e))
                 | .ok _ => .ok { q with DesiredNodes := int64Add q.DesiredNodes 1 }),
              poolCache := poolCache.set name q.ID, remote := s2,
              calls := pre ++ [.ListNodePools (.ok pools),
                .UpdateNodePool q.ID { DesiredNodes := int64Add q.DesiredNodes 1 } r] })
    ∨ (∃ pools s1 r s2, c.ListNodePools s = (.ok pools, s1) ∧
        pools.find? (fun pool => pool.Name == name) = none ∧
        c.CreateNodePool s1 (createRequest K name flavor zone nodeClass nodeClaim) = (r, s2) ∧
        listThenScaleOrCreate K c poolCache s pre name flavor zone nodeClass nodeClaim
          = { result :=
                (match r with
                 | .error e => .error (.wrapf "creating pool: " (.client e))
                 | .ok p => .ok p),
              poolCache :=
                (match r with
                 | .error _ => poolCache
                 | .ok p => poolCache.set name p.ID),
              remote := s2,
              calls := pre ++ [.ListNodePools (.ok pools),
                .CreateNodePool (createRequest K name flavor zone nodeClass nodeClaim) r] }) := by
  rcases hl : c.ListNodePools s with ⟨rl, s1⟩
  cases rl with
  | error e =>
    left
    exact ⟨e, s1, rfl, by simp [listThenScaleOrCreate, hl]⟩
  | ok pools =>
    right
    cases hf : pools.find? (fun pool => pool.Name == name) with
    | some q =>
      left
      rcases hu : c.UpdateNodePool s1 q.ID { DesiredNodes := int64Add q.DesiredNodes 1 } with ⟨r, s2⟩
      refine ⟨pools, s1, q, r, s2, rfl, hf, hu, ?_⟩
      cases r <;> simp [listThenScaleOrCreate, hl, hf, hu]
    | none =>
      right
      rcases hcr : c.CreateNodePool s1 (createRequest K name flavor zone nodeClass nodeClaim) with ⟨r, s2⟩
      refine ⟨pools, s1, r, s2, rfl, hf, hcr, ?_⟩
      cases r <;> simp [listThenScaleOrCreate, hl, hf, hcr]

/-- The three ways the cache check of getOrCreatePool can go. -/
theorem getOrCreatePool_cases {σ : Type} (K : Constants) (c : OVHClient σ)
    (poolCache : GoMap) (s : σ) (name flavor zone : String)
    (nodeClass : OVHNodeClass) (nodeClaim : Option NodeClaim) :
    (∃ id q s1 r s2, poolCache.get? name = some id ∧ c.GetNodePool s id = (.ok q, s1) ∧
        c.UpdateNodePool s1 id { DesiredNodes := int64Add q.DesiredNodes 1 } = (r, s2) ∧
        getOrCreatePool K c poolCache s name flavor zone nodeClass nodeClaim
          = { result :=
                (match r with
                 | .error e => .error (.wrapf "scaling up pool: " (.client e))
                 | .ok _ => .ok { q with DesiredNodes := int64Add q.DesiredNodes 1 }),
              poolCache := poolCache, remote := s2,
              calls := [.GetNodePool id (.ok q),
                .UpdateNodePool id { DesiredNodes := int64Add q.DesiredNodes 1 } r] })
    ∨ (∃ id e s1, poolCache.get? name = some id ∧ c.GetNodePool s id = (.error e, s1) ∧
        getOrCreatePool K c poolCache s name flavor zone nodeClass nodeClaim
          = listThenScaleOrCreate K c (poolCache.delete name) s1 [.GetNodePool id (.error e)]
              name flavor zone nodeClass nodeClaim)
    ∨ (poolCache.get? name = none ∧
        getOrCreatePool K c poolCache s name flavor zone nodeClass nodeClaim
          = listThenScaleOrCreate K c poolCache s [] name flavor zone nodeClass nodeClaim) := by
  cases hc : poolCache.get? name with
  | none =>
    right; right
    exact ⟨rfl, by simp [getOrCreatePool, hc]⟩
  | some id =>
    rcases hg : c.GetNodePool s id with ⟨rg, s1⟩
    cases rg with
    | error e =>
      right; left
      exact ⟨id, e, s1, rfl, hg, by simp [getOrCreatePool, hc, hg]⟩
    | ok q =>
      left
      rcases hu : c.UpdateNodePool s1 id { DesiredNodes := int64Add q.DesiredNodes 1 } with ⟨r, s2⟩
      refine ⟨id, q, s1, r, s2, rfl, hg, hu, ?_⟩
      cases r <;> simp [getOrCreatePool, hc, hg, hu]

/-- The three transcripts a successful call can have.  The calls issued before
the listing are none on a cache miss and the failed read of the cached ID on a
stale cache entry. -/
theorem getOrCreatePool_ok_shape {σ : Type} (K : Constants) (c : OVHClient σ)
    (poolCache : GoMap) (s : σ) (name flavor zone : String)
    (nodeClass : OVHNodeClass) (nodeClaim : Option NodeClaim) (p : NodePool)
    (hok : (getOrCreatePool K c poolCache s name flavor zone nodeClass nodeClaim).result = .ok p) :
    (∃ id q u, poolCache.get? name = some id ∧
        (getOrCreatePool K c poolCache s name flavor zone nodeClass nodeClaim).calls
          = [.GetNodePool id (.ok q),
             .UpdateNodePool id { DesiredNodes := int64Add q.DesiredNodes 1 } (.ok u)] ∧
        p = { q with DesiredNodes := int64Add q.DesiredNodes 1 } ∧
        (getOrCreatePool K c poolCache s name flavor zone nodeClass nodeClaim).poolCache = poolCache)
    ∨ (∃ pre pools q u,
        ((pre = [] ∧ poolCache.get? name = none) ∨
          ∃ id e, poolCache.get? name = some id ∧ pre = [.GetNodePool id (.error e)]) ∧
        (getOrCreatePool K c poolCache s name flavor zone nodeClass nodeClaim).calls
          = pre ++ [.ListNodePools (.ok pools),
             .UpdateNodePool q.ID { DesiredNodes := int64Add q.DesiredNodes 1 } (.ok u)] ∧
        pools.find? (fun pool => pool.Name == name) = some q ∧
        p = { q with DesiredNodes := int64Add q.DesiredNodes 1 } ∧
        (getOrCreatePool K c poolCache s name flavor zone nodeClass nodeClaim).poolCache.get? name
          = some q.ID)
    ∨ (∃ pre pools,
        ((pre = [] ∧ poolCache.get? name = none) ∨
          ∃ id e, poolCache.get? name = some id ∧ pre = [.GetNodePool id (.error e)]) ∧
        (getOrCreatePool K c poolCache s name flavor zone nodeClass nodeClaim).calls
          = pre ++ [.ListNodePools (.ok pools),
             .CreateNodePool (createRequest K name flavor zone nodeClass nodeClaim) (.ok p)] ∧
        pools.find? (fun pool => pool.Name == name) = none ∧
        (getOrCreatePool K c poolCache s name flavor zone nodeClass nodeClaim).poolCache.get? name
          = some p.ID) := by
  have listing : ∀ (cache0 : GoMap) (s0 : σ) (pre : List Event),
      (listThenScaleOrCreate K c cache0 s0 pre name flavor zone nodeClass nodeClaim).result = .ok p →
      (∃ pools q u,
        (listThenScaleOrCreate K c cache0 s0 pre name flavor zone nodeClass nodeClaim).calls
          = pre ++ [.ListNodePools (.ok pools),
             .UpdateNodePool q.ID { DesiredNodes := int64Add q.DesiredNodes 1 } (.ok u)] ∧
        pools.find? (fun pool => pool.Name == name) = some q ∧
        p = { q with DesiredNodes := int64Add q.DesiredNodes 1 } ∧
        (listThenScaleOrCreate K c cache0 s0 pre name flavor zone nodeClass nodeClaim).poolCache.get? name
          = some q.ID)
      ∨ (∃ pools,
        (listThenScaleOrCreate K c cache0 s0 pre name flavor zone nodeClass nodeClaim).calls
          = pre ++ [.ListNodePools (.ok pools),
             .CreateNodePool (createRequest K name flavor zone nodeClass nodeClaim) (.ok p)] ∧
        pools.find? (fun pool => pool.Name == name) = none ∧
        (listThenScaleOrCreate K c cache0 s0 pre name flavor zone nodeClass nodeClaim).poolCache.get? name
          = some p.ID) := by
    intro cache0 s0 pre h
    rcases listThenScaleOrCreate_cases K c cache0 s0 pre name flavor zone nodeClass nodeClaim with
      ⟨e, s1, _, heq⟩ | ⟨pools, s1, q, r, s2, _, hf, _, heq⟩ | ⟨pools, s1, r, s2, _, hf, _, heq⟩
    · rw [heq] at h; simp at h
    · rw [heq] at h ⊢
      cases r with
      | error e => simp at h
      | ok u =>
        left
        simp only [Except.ok.injEq] at h
        exact ⟨pools, q, u, rfl, hf, h.symm, GoMap.get?_set_self _ _ _⟩
    · rw [heq] at h ⊢
      cases r with
      | error e => simp at h
      | ok p0 =>
        right
        simp only [Except.ok.injEq] at h
        subst h
        exact ⟨pools, rfl, hf, GoMap.get?_set_self _ _ _⟩
  rcases getOrCreatePool_cases K c poolCache s name flavor zone nodeClass nodeClaim with
    ⟨id, q, s1, r, s2, hc, _, _, heq⟩ | ⟨id, e, s1, hc, _, heq⟩ | ⟨hc, heq⟩
  · rw [heq] at hok ⊢
    cases r with
    | error e => simp at hok
    | ok u =>
      left
      simp only [Except.ok.injEq] at hok
      exact ⟨id, q, u, hc, rfl, hok.symm, rfl⟩
  · rw [heq] at hok ⊢
    rcases listing _ _ _ hok with ⟨pools, q, u, h1, h2, h3, h4⟩ | ⟨pools, h1, h2, h3⟩
    · right; left
      exact ⟨_, pools, q, u, Or.inr ⟨id, e, hc, rfl⟩, h1, h2, h3, h4⟩
    · right; right
      exact ⟨_, pools, Or.inr ⟨id, e, hc, rfl⟩, h1, h2, h3⟩
  · rw [heq] at hok ⊢
    rcases listing _ _ _ hok with ⟨pools, q, u, h1, h2, h3, h4⟩ | ⟨pools, h1, h2, h3⟩
    · right; left
      exact ⟨_, pools, q, u, Or.inl ⟨rfl, hc⟩, h1, h2, h3, h4⟩
    · right; right
      exact ⟨_, pools, Or.inl ⟨rfl, hc⟩, h1, h2, h3⟩

/-- A call never issues CreateNodePool when the listing it read has a pool of the name. -/
theorem getOrCreatePool_no_create_when_listed {σ : Type} (K : Constants) (c : OVHClient σ)
    (poolCache : GoMap) (s : σ) (name flavor zone : String)
    (nodeClass : OVHNodeClass) (nodeClaim : Option NodeClaim) (pools : List NodePool)
    (hl : Event.ListNodePools (.ok pools)
      ∈ (getOrCreatePool K c poolCache s name flavor zone nodeClass nodeClaim).calls)
    (hq : ∃ q, q ∈ pools ∧ q.Name = name) :
    ∀ e, e ∈ (getOrCreatePool K c poolCache s name flavor zone nodeClass nodeClaim).calls →
      e.isCreateCall = false := by
  have hfind : pools.find? (fun pool => pool.Name == name) ≠ none := by
    obtain ⟨q, hq1, hq2⟩ := hq
    intro h
    have := List.find?_eq_none.mp h q hq1
    simp [hq2] at this
  have listing : ∀ (cache0 : GoMap) (s0 : σ) (pre : List Event),
      (∀ e, e ∈ pre → e.isCreateCall = false ∧ ∀ l, e ≠ Event.ListNodePools l) →
      Event.ListNodePools (.ok pools)
        ∈ (listThenScaleOrCreate K c cache0 s0 pre name flavor zone nodeClass nodeClaim).calls →
      ∀ e, e ∈ (listThenScaleOrCreate K c cache0 s0 pre name flavor zone nodeClass nodeClaim).calls →
        e.isCreateCall = false := by
    intro cache0 s0 pre hpre hmem e he
    rcases listThenScaleOrCreate_cases K c cache0 s0 pre name flavor zone nodeClass nodeClaim with
      ⟨e1, s1, _, heq⟩ | ⟨pools1, s1, q, r, s2, _, hf, _, heq⟩ | ⟨pools1, s1, r, s2, _, hf, _, heq⟩
    · rw [heq] at he
      simp only [List.mem_append, List.mem_singleton] at he
      rcases he with he | he
      · exact (hpre e he).1
      · subst he; rfl
    · rw [heq] at he
      simp only [List.mem_append, List.mem_cons, List.mem_singleton, List.not_mem_nil, or_false] at he
      rcases he with he | he | he
      · exact (hpre e he).1
      · subst he; rfl
      · subst he; rfl
    · exfalso
      rw [heq] at hmem
      simp only [List.mem_append, List.mem_cons, List.mem_singleton, List.not_mem_nil, or_false] at hmem
      rcases hmem with hm | hm | hm
      · exact (hpre _ hm).2 _ rfl
      · simp only [Event.ListNodePools.injEq, Except.ok.injEq] at hm
        subst hm
        exact hfind hf
      · simp at hm
  rcases getOrCreatePool_cases K c poolCache s name flavor zone nodeClass nodeClaim with
    ⟨id, q, s1, r, s2, hc, _, _, heq⟩ | ⟨id, e, s1, hc, _, heq⟩ | ⟨hc, heq⟩
  · intro e he
    rw [heq] at he
    simp only [List.mem_cons, List.mem_singleton, List.not_mem_nil, or_false] at he
    rcases he with he | he
    · subst he; rfl
    · subst he; rfl
  · rw [heq] at hl ⊢
    refine listing _ _ _ ?_ hl
    intro e0 he0
    simp only [List.mem_singleton] at he0
    subst he0
    exact ⟨rfl, fun l h => by simp at h⟩
  · rw [heq] at hl ⊢
    exact listing _ _ _ (fun e0 he0 => by simp at he0) hl

/-! ## Sequential calls against a remote whose listing reflects creations -/

theorem Event.isCreateCall_of_isPoolCreation (e : Event) (h : e.isPoolCreation = true) :
    e.isCreateCall = true := by
  cases e <;> simp_all [Event.isPoolCreation, Event.isCreateCall]

theorem CreatedBefore.mono {σ : Type} {c : OVHClient σ} {name : String} {s s2 : σ}
    (h : CreatedBefore c name s) (hr : Relation.ReflTransGen (RemoteStep c) s s2) :
    CreatedBefore c name s2 := by
  obtain ⟨s0, req, p, s1, h1, h2, h3⟩ := h
  exact ⟨s0, req, p, s1, h1, h2, h3.trans hr⟩

theorem RemoteStep.of_get {σ : Type} {c : OVHClient σ} {s s1 : σ} {id : String}
    {r : Except ClientError NodePool} (h : c.GetNodePool s id = (r, s1)) : RemoteStep c s s1 := by
  have h2 := RemoteStep.get (c := c) s id
  rw [h] at h2; exact h2

theorem RemoteStep.of_list {σ : Type} {c : OVHClient σ} {s s1 : σ}
    {r : Except ClientError (List NodePool)} (h : c.ListNodePools s = (r, s1)) :
    RemoteStep c s s1 := by
  have h2 := RemoteStep.list (c := c) s
  rw [h] at h2; exact h2

theorem RemoteStep.of_update {σ : Type} {c : OVHClient σ} {s s1 : σ} {id : String}
    {req : UpdateNodePoolRequest} {r : Except ClientError NodePool}
    (h : c.UpdateNodePool s id req = (r, s1)) : RemoteStep c s s1 := by
  have h2 := RemoteStep.update (c := c) s id req
  rw [h] at h2; exact h2

theorem RemoteStep.of_create {σ : Type} {c : OVHClient σ} {s s1 : σ}
    {req : CreateNodePoolRequest} {r : Except ClientError NodePool}
    (h : c.CreateNodePool s req = (r, s1)) : RemoteStep c s s1 := by
  have h2 := RemoteStep.create (c := c) s req
  rw [h] at h2; exact h2

/-- What one run of the listing part contributes to a sequence of calls. -/
theorem listThenScaleOrCreate_seq_facts {σ : Type} (K : Constants) (c : OVHClient σ)
    (poolCache : GoMap) (s : σ) (pre : List Event) (name flavor zone : String)
    (nodeClass : OVHNodeClass) (nodeClaim : Option NodeClaim)
    (hpre : ∀ e, e ∈ pre → e.isPoolCreation = false) (hrefl : ListingReflectsCreations c) :
    Relation.ReflTransGen (RemoteStep c) s
        (listThenScaleOrCreate K c poolCache s pre name flavor zone nodeClass nodeClaim).remote
    ∧ ((listThenScaleOrCreate K c poolCache s pre name flavor zone nodeClass nodeClaim).calls.filter
        Event.isPoolCreation).length ≤ 1
    ∧ ((listThenScaleOrCreate K c poolCache s pre name flavor zone nodeClass nodeClaim).calls.filter
          Event.isPoolCreation ≠ [] →
        CreatedBefore c name
          (listThenScaleOrCreate K c poolCache s pre name flavor zone nodeClass nodeClaim).remote)
    ∧ (CreatedBefore c name s →
        (listThenScaleOrCreate K c poolCache s pre name flavor zone nodeClass nodeClaim).calls.filter
          Event.isPoolCreation = []) := by
  have hprefilter : pre.filter Event.isPoolCreation = [] := by
    rw [List.filter_eq_nil_iff]
    intro e he; simp [hpre e he]
  rcases listThenScaleOrCreate_cases K c poolCache s pre name flavor zone nodeClass nodeClaim with
    ⟨e1, s1, hl, heq⟩ | ⟨pools, s1, q, r, s2, hl, hf, hu, heq⟩ | ⟨pools, s1, r, s2, hl, hf, hcr, heq⟩
  · rw [heq]
    have hfil : (pre ++ [Event.ListNodePools (.error e1)]).filter Event.isPoolCreation = [] := by
      simp [List.filter_append, hprefilter, List.filter, Event.isPoolCreation]
    refine ⟨Relation.ReflTransGen.single (RemoteStep.of_list hl), ?_, ?_, ?_⟩
    · simp only [hfil]; simp
    · simp only [hfil]; intro h; exact absurd rfl h
    · intro _; exact hfil
  · rw [heq]
    have hfil : (pre ++ [Event.ListNodePools (.ok pools),
        Event.UpdateNodePool q.ID { DesiredNodes := int64Add q.DesiredNodes 1 } r]).filter
          Event.isPoolCreation = [] := by
      simp [List.filter_append, hprefilter, List.filter, Event.isPoolCreation]
    refine ⟨(Relation.ReflTransGen.single (RemoteStep.of_list hl)).tail (RemoteStep.of_update hu),
      ?_, ?_, ?_⟩
    · simp only [hfil]; simp
    · simp only [hfil]; intro h; exact absurd rfl h
    · intro _; exact hfil
  · rw [heq]
    have hreach : Relation.ReflTransGen (RemoteStep c) s s2 :=
      (Relation.ReflTransGen.single (RemoteStep.of_list hl)).tail (RemoteStep.of_create hcr)
    refine ⟨hreach, ?_, ?_, ?_⟩
    · cases r <;> simp [List.filter_append, hprefilter, List.filter, Event.isPoolCreation]
    · intro _
      cases r with
      | error e => simp [List.filter_append, hprefilter, List.filter, Event.isPoolCreation] at *
      | ok p =>
        exact ⟨s1, createRequest K name flavor zone nodeClass nodeClaim, p, s2, hcr, rfl,
          Relation.ReflTransGen.refl⟩
    · intro hcb
      exfalso
      obtain ⟨s0, req, p, s1c, h1, h2, h3⟩ := hcb
      obtain ⟨q, hq1, hq2⟩ := hrefl s0 req p s1c h1 s h3 pools s1 hl
      have := List.find?_eq_none.mp hf q hq1
      simp [hq2, h2] at this

/-- What one call of getOrCreatePool contributes to a sequence of calls. -/
theorem getOrCreatePool_seq_facts {σ : Type} (K : Constants) (c : OVHClient σ)
    (poolCache : GoMap) (s : σ) (name flavor zone : String)
    (nodeClass : OVHNodeClass) (nodeClaim : Option NodeClaim)
    (hrefl : ListingReflectsCreations c) :
    Relation.ReflTransGen (RemoteStep c) s
        (getOrCreatePool K c poolCache s name flavor zone nodeClass nodeClaim).remote
    ∧ ((getOrCreatePool K c poolCache s name flavor zone nodeClass nodeClaim).calls.filter
        Event.isPoolCreation).length ≤ 1
    ∧ ((getOrCreatePool K c poolCache s name flavor zone nodeClass nodeClaim).calls.filter
          Event.isPoolCreation ≠ [] →
        CreatedBefore c name
          (getOrCreatePool K c poolCache s name flavor zone nodeClass nodeClaim).remote)
    ∧ (CreatedBefore c name s →
        (getOrCreatePool K c poolCache s name flavor zone nodeClass nodeClaim).calls.filter
          Event.isPoolCreation = []) := by
  rcases getOrCreatePool_cases K c poolCache s name flavor zone nodeClass nodeClaim with
    ⟨id, q, s1, r, s2, hc, hg, hu, heq⟩ | ⟨id, e, s1, hc, hg, heq⟩ | ⟨hc, heq⟩
  · rw [heq]
    have hfil : ([Event.GetNodePool id (.ok q),
        Event.UpdateNodePool id { DesiredNodes := int64Add q.DesiredNodes 1 } r]).filter
          Event.isPoolCreation = [] := by
      simp [List.filter, Event.isPoolCreation]
    refine ⟨(Relation.ReflTransGen.single (RemoteStep.of_get hg)).tail (RemoteStep.of_update hu),
      ?_, ?_, ?_⟩
    · simp only [hfil]; simp
    · simp only [hfil]; intro h; exact absurd rfl h
    · intro _; exact hfil
  · rw [heq]
    have hstep : Relation.ReflTransGen (RemoteStep c) s s1 :=
      Relation.ReflTransGen.single (RemoteStep.of_get hg)
    obtain ⟨h1, h2, h3, h4⟩ := listThenScaleOrCreate_seq_facts K c (poolCache.delete name) s1
      [Event.GetNodePool id (.error e)] name flavor zone nodeClass nodeClaim
      (fun e0 he0 => by
        simp only [List.mem_singleton] at he0
        subst he0; rfl) hrefl
    exact ⟨hstep.trans h1, h2, h3, fun hcb => h4 (hcb.mono hstep)⟩
  · rw [heq]
    exact listThenScaleOrCreate_seq_facts K c poolCache s [] name flavor zone nodeClass nodeClaim
      (fun e0 he0 => by simp at he0) hrefl

/-- Sequential calls for one flavor and zone create at most one pool, and none
once a pool of the name has been created. -/
theorem getOrCreatePoolSeq_creations {σ : Type} (K : Constants) (c : OVHClient σ)
    (flavor zone : String) (hrefl : ListingReflectsCreations c) :
    ∀ (runs : List (OVHNodeClass × Option NodeClaim)) (poolCache : GoMap) (s : σ),
      ((getOrCreatePoolSeq K c flavor zone runs poolCache s).calls.filter
          Event.isPoolCreation).length ≤ 1
      ∧ (CreatedBefore c (poolName K flavor zone) s →
          (getOrCreatePoolSeq K c flavor zone runs poolCache s).calls.filter
            Event.isPoolCreation = []) := by
  intro runs
  induction runs with
  | nil => intro poolCache s; simp [getOrCreatePoolSeq]
  | cons run rest ih =>
    intro poolCache s
    obtain ⟨nodeClass, nodeClaim⟩ := run
    obtain ⟨h1, h2, h3, h4⟩ := getOrCreatePool_seq_facts K c poolCache s (poolName K flavor zone)
      flavor zone nodeClass nodeClaim hrefl
    obtain ⟨ih1, ih2⟩ := ih
      (getOrCreatePool K c poolCache s (poolName K flavor zone) flavor zone nodeClass nodeClaim).poolCache
      (getOrCreatePool K c poolCache s (poolName K flavor zone) flavor zone nodeClass nodeClaim).remote
    simp only [getOrCreatePoolSeq, List.filter_append, List.length_append]
    constructor
    · by_cases hnil : (getOrCreatePool K c poolCache s (poolName K flavor zone) flavor zone
          nodeClass nodeClaim).calls.filter Event.isPoolCreation = []
      · rw [hnil]; simpa using ih1
      · rw [ih2 (h3 hnil)]; simpa using h2
    · intro hcb
      rw [h4 hcb, ih2 (hcb.mono h1)]
      rfl

/-- The in-memory remote of the scenarios reflects creations in its listing. -/
theorem memClient_reflects : ListingReflectsCreations memClient := by
  intro s req p s1 hcr s2 hreach pools s3 hl
  have inv : ∀ t, Relation.ReflTransGen (RemoteStep memClient) s1 t →
      ∃ q, q ∈ t ∧ q.Name = req.Name := by
    intro t ht
    induction ht with
    | refl =>
      simp only [memClient, Prod.mk.injEq, Except.ok.injEq] at hcr
      refine ⟨p, ?_, ?_⟩
      · rw [← hcr.2]; simp [← hcr.1]
      · rw [← hcr.1]
    | tail _ hstep ih =>
      obtain ⟨q, hq1, hq2⟩ := ih
      cases hstep with
      | get id =>
        refine ⟨q, ?_, hq2⟩
        simp only [memClient]
        split <;> exact hq1
      | list => exact ⟨q, hq1, hq2⟩
      | update id ureq =>
        simp only [memClient]
        split
        · by_cases hid : (q.ID == id) = true
          · exact ⟨{ q with DesiredNodes := ureq.DesiredNodes },
              List.mem_map.mpr ⟨q, hq1, by simp [hid]⟩, hq2⟩
          · exact ⟨q, List.mem_map.mpr ⟨q, hq1, by simp [hid]⟩, hq2⟩
        · exact ⟨q, hq1, hq2⟩
      | create creq =>
        refine ⟨q, ?_, hq2⟩
        simp only [memClient]
        exact List.mem_append_left _ hq1
  obtain ⟨q, hq1, hq2⟩ := inv s2 hreach
  simp only [memClient, Prod.mk.injEq, Except.ok.injEq] at hl
  exact ⟨q, hl.1 ▸ hq1, hq2⟩

/-! ## getOrCreatePool: the cache is a hint -/

/-- An update that no listing precedes is an update of the cached ID, and a
successful read of that ID precedes it. -/
theorem getOrCreatePool_update_validated {σ : Type} (K : Constants) (c : OVHClient σ)
    (poolCache : GoMap) (s : σ) (name flavor zone : String)
    (nodeClass : OVHNodeClass) (nodeClaim : Option NodeClaim)
    (pre post : List Event) (id : String) (req : UpdateNodePoolRequest)
    (res : Except ClientError NodePool)
    (hsplit : (getOrCreatePool K c poolCache s name flavor zone nodeClass nodeClaim).calls
      = pre ++ Event.UpdateNodePool id req res :: post)
    (hnolist : ∀ l, Event.ListNodePools l ∉ pre) :
    poolCache.get? name = some id ∧ ∃ q, Event.GetNodePool id (.ok q) ∈ pre := by
  have listing : ∀ (cache0 : GoMap) (s0 : σ) (pre0 : List Event),
      (pre0 = [] ∨ ∃ i e, pre0 = [Event.GetNodePool i (.error e)]) →
      (listThenScaleOrCreate K c cache0 s0 pre0 name flavor zone nodeClass nodeClaim).calls
        = pre ++ Event.UpdateNodePool id req res :: post → False := by
    intro cache0 s0 pre0 hpre0 h
    rcases listThenScaleOrCreate_cases K c cache0 s0 pre0 name flavor zone nodeClass nodeClaim with
      ⟨e1, s1, _, heq⟩ | ⟨pools, s1, q, r, s2, _, _, _, heq⟩ | ⟨pools, s1, r, s2, _, _, _, heq⟩
    · rw [heq] at h
      rcases hpre0 with hp | ⟨i, e, hp⟩ <;> subst hp <;>
        rcases pre with _ | ⟨x, _ | ⟨y, _ | ⟨z, pre⟩⟩⟩ <;> simp at h
    · rw [heq] at h
      rcases hpre0 with hp | ⟨i, e, hp⟩ <;> subst hp <;>
        rcases pre with _ | ⟨x, _ | ⟨y, _ | ⟨z, pre⟩⟩⟩ <;> simp at h
      · exact hnolist (.ok pools) (by rw [← h.1]; simp)
      · exact hnolist (.ok pools) (by rw [← h.2.1]; simp)
    · rw [heq] at h
      rcases hpre0 with hp | ⟨i, e, hp⟩ <;> subst hp <;>
        rcases pre with _ | ⟨x, _ | ⟨y, _ | ⟨z, pre⟩⟩⟩ <;> simp at h
  rcases getOrCreatePool_cases K c poolCache s name flavor zone nodeClass nodeClaim with
    ⟨id0, q, s1, r, s2, hc, _, _, heq⟩ | ⟨id0, e, s1, hc, _, heq⟩ | ⟨hc, heq⟩
  · rw [heq] at hsplit
    rcases pre with _ | ⟨x, _ | ⟨y, pre⟩⟩ <;> simp at hsplit
    obtain ⟨h1, h2, _⟩ := hsplit
    subst h1
    rw [← h2.1]
    exact ⟨hc, q, by simp⟩
  · rw [heq] at hsplit
    exact (listing _ _ _ (Or.inr ⟨id0, e, rfl⟩) hsplit).elim
  · rw [heq] at hsplit
    exact (listing _ _ _ (Or.inl rfl) hsplit).elim

/-- Every ID that a call scales was confirmed by the remote in that call:
either the call opened with a successful read of it, or the listing reported
it under the pool name. -/
theorem getOrCreatePool_update_target {σ : Type} (K : Constants) (c : OVHClient σ)
    (poolCache : GoMap) (s : σ) (name flavor zone : String)
    (nodeClass : OVHNodeClass) (nodeClaim : Option NodeClaim)
    (id : String) (req : UpdateNodePoolRequest) (res : Except ClientError NodePool)
    (hmem : Event.UpdateNodePool id req res
      ∈ (getOrCreatePool K c poolCache s name flavor zone nodeClass nodeClaim).calls) :
    (∃ q, (getOrCreatePool K c poolCache s name flavor zone nodeClass nodeClaim).calls.head?
        = some (Event.GetNodePool id (.ok q)))
    ∨ (∃ pools q, Event.ListNodePools (.ok pools)
          ∈ (getOrCreatePool K c poolCache s name flavor zone nodeClass nodeClaim).calls ∧
        pools.find? (fun pool => pool.Name == name) = some q ∧ q.ID = id) := by
  have listing : ∀ (cache0 : GoMap) (s0 : σ) (pre0 : List Event),
      (pre0 = [] ∨ ∃ i e, pre0 = [Event.GetNodePool i (.error e)]) →
      Event.UpdateNodePool id req res
        ∈ (listThenScaleOrCreate K c cache0 s0 pre0 name flavor zone nodeClass nodeClaim).calls →
      ∃ pools q, Event.ListNodePools (.ok pools)
          ∈ (listThenScaleOrCreate K c cache0 s0 pre0 name flavor zone nodeClass nodeClaim).calls ∧
        pools.find? (fun pool => pool.Name == name) = some q ∧ q.ID = id := by
    intro cache0 s0 pre0 hpre0 h
    rcases listThenScaleOrCreate_cases K c cache0 s0 pre0 name flavor zone nodeClass nodeClaim with
      ⟨e1, s1, _, heq⟩ | ⟨pools, s1, q, r, s2, _, hf, _, heq⟩ | ⟨pools, s1, r, s2, _, _, _, heq⟩
    · rw [heq] at h
      rcases hpre0 with hp | ⟨i, e, hp⟩ <;> subst hp <;> simp at h
    · rw [heq] at h ⊢
      refine ⟨pools, q, by simp, hf, ?_⟩
      rcases hpre0 with hp | ⟨i, e, hp⟩ <;> subst hp <;> simp at h <;> exact h.1.symm
    · rw [heq] at h
      rcases hpre0 with hp | ⟨i, e, hp⟩ <;> subst hp <;> simp at h
  rcases getOrCreatePool_cases K c poolCache s name flavor zone nodeClass nodeClaim with
    ⟨id0, q, s1, r, s2, _, _, _, heq⟩ | ⟨id0, e, s1, _, _, heq⟩ | ⟨_, heq⟩
  · left
    rw [heq] at hmem ⊢
    simp at hmem
    exact ⟨q, by simp [hmem.1]⟩
  · right
    rw [heq] at hmem ⊢
    exact listing _ _ _ (Or.inr ⟨id0, e, rfl⟩) hmem
  · right
    rw [heq] at hmem ⊢
    exact listing _ _ _ (Or.inl rfl) hmem

/-- A stale cache entry: the read of the cached ID fails, the listing is
consulted next, and afterwards the cache holds for the name only what the
remote said in this call. -/
theorem getOrCreatePool_stale_entry {σ : Type} (K : Constants) (c : OVHClient σ)
    (poolCache : GoMap) (s : σ) (name flavor zone : String)
    (nodeClass : OVHNodeClass) (nodeClaim : Option NodeClaim)
    (id : String) (e : ClientError) (s1 : σ)
    (hc : poolCache.get? name = some id) (hg : c.GetNodePool s id = (.error e, s1)) :
    (∃ rest, (getOrCreatePool K c poolCache s name flavor zone nodeClass nodeClaim).calls
        = Event.GetNodePool id (.error e) :: Event.ListNodePools (c.ListNodePools s1).1 :: rest)
    ∧ (∀ e2 s2, c.ListNodePools s1 = (.error e2, s2) →
        (getOrCreatePool K c poolCache s name flavor zone nodeClass nodeClaim).result
          = .error (.wrapf "listing pools: " (.client e2)) ∧
        (getOrCreatePool K c poolCache s name flavor zone nodeClass nodeClaim).poolCache.get? name
          = none)
    ∧ (∀ id2,
        (getOrCreatePool K c poolCache s name flavor zone nodeClass nodeClaim).poolCache.get? name
          = some id2 →
        (∃ pools q, Event.ListNodePools (.ok pools)
            ∈ (getOrCreatePool K c poolCache s name flavor zone nodeClass nodeClaim).calls ∧
          pools.find? (fun pool => pool.Name == name) = some q ∧ q.ID = id2)
        ∨ (∃ req p, Event.CreateNodePool req (.ok p)
            ∈ (getOrCreatePool K c poolCache s name flavor zone nodeClass nodeClaim).calls ∧
          p.ID = id2)) := by
  have heq0 : getOrCreatePool K c poolCache s name flavor zone nodeClass nodeClaim
      = listThenScaleOrCreate K c (poolCache.delete name) s1 [.GetNodePool id (.error e)]
          name flavor zone nodeClass nodeClaim := by
    simp [getOrCreatePool, hc, hg]
  rw [heq0]
  rcases listThenScaleOrCreate_cases K c (poolCache.delete name) s1
      [.GetNodePool id (.error e)] name flavor zone nodeClass nodeClaim with
    ⟨e1, s2, hl, heq⟩ | ⟨pools, s2, q, r, s3, hl, hf, _, heq⟩ | ⟨pools, s2, r, s3, hl, hf, _, heq⟩
  · rw [heq]
    refine ⟨⟨[], by simp [hl]⟩, ?_, ?_⟩
    · intro e2 s2b h2
      rw [hl] at h2
      simp only [Prod.mk.injEq, Except.error.injEq] at h2
      rw [← h2.1]
      exact ⟨rfl, GoMap.get?_delete_self _ _⟩
    · intro id2 h
      simp only [GoMap.get?_delete_self] at h
      exact absurd h (by simp)
  · rw [heq]
    refine ⟨⟨_, by simp [hl]; rfl⟩, ?_, ?_⟩
    · intro e2 s2b h2
      rw [hl] at h2
      simp at h2
    · intro id2 h
      simp only [GoMap.get?_set_self, Option.some.injEq] at h
      left
      exact ⟨pools, q, by simp, hf, h⟩
  · rw [heq]
    refine ⟨⟨_, by simp [hl]; rfl⟩, ?_, ?_⟩
    · intro e2 s2b h2
      rw [hl] at h2
      simp at h2
    · intro id2 h
      cases r with
      | error e3 =>
        simp only [GoMap.get?_delete_self] at h
        exact absurd h (by simp)
      | ok p =>
        simp only [GoMap.get?_set_self, Option.some.injEq] at h
        right
        exact ⟨createRequest K name flavor zone nodeClass nodeClaim, p, by simp, h⟩

/-- After a successful call the cache maps the name to the pool that was
scaled or created. -/
theorem getOrCreatePool_cache_after_success {σ : Type} (K : Constants) (c : OVHClient σ)
    (poolCache : GoMap) (s : σ) (name flavor zone : String)
    (nodeClass : OVHNodeClass) (nodeClaim : Option NodeClaim) (p : NodePool)
    (hok : (getOrCreatePool K c poolCache s name flavor zone nodeClass nodeClaim).result = .ok p) :
    ∃ id,
      (getOrCreatePool K c poolCache s name flavor zone nodeClass nodeClaim).poolCache.get? name
        = some id ∧
      ((∃ req u, Event.UpdateNodePool id req (.ok u)
          ∈ (getOrCreatePool K c poolCache s name flavor zone nodeClass nodeClaim).calls)
       ∨ (∃ req, Event.CreateNodePool req (.ok p)
          ∈ (getOrCreatePool K c poolCache s name flavor zone nodeClass nodeClaim).calls ∧
          p.ID = id)) := by
  rcases getOrCreatePool_ok_shape K c poolCache s name flavor zone nodeClass nodeClaim p hok with
    ⟨id, q, u, hc, hcalls, _, hcache⟩ | ⟨pre, pools, q, u, _, hcalls, _, _, hcache⟩ |
    ⟨pre, pools, _, hcalls, _, hcache⟩
  · refine ⟨id, by rw [hcache]; exact hc,
      Or.inl ⟨{ DesiredNodes := int64Add q.DesiredNodes 1 }, u, ?_⟩⟩
    rw [hcalls]; simp
  · refine ⟨q.ID, hcache, Or.inl ⟨{ DesiredNodes := int64Add q.DesiredNodes 1 }, u, ?_⟩⟩
    rw [hcalls]; simp
  · refine ⟨p.ID, hcache, Or.inr ⟨createRequest K name flavor zone nodeClass nodeClaim, ?_, rfl⟩⟩
    rw [hcalls]; simp

/-! ## Delete -/

theorem GoMap.mem_of_get? (m : GoMap) (k v : String) (h : m.get? k = some v) : (k, v) ∈ m := by
  unfold GoMap.get? at h
  obtain ⟨l1, l2, hl, _⟩ := List.lookup_eq_some_iff.mp h
  rw [hl]; simp

theorem GoMap.get?_of_mem (m : GoMap) (hwf : m.WF) (k v : String) (h : (k, v) ∈ m) :
    m.get? k = some v := by
  unfold GoMap.get?
  unfold GoMap.WF at hwf
  induction m with
  | nil => simp at h
  | cons e m ih =>
    obtain ⟨a, b⟩ := e
    simp only [List.map_cons, List.nodup_cons] at hwf
    rw [List.lookup_cons]
    rcases List.mem_cons.mp h with h1 | h1
    · simp only [Prod.mk.injEq] at h1
      simp [h1.1, h1.2]
    · have hne : (k == a) = false := by
        simp only [beq_eq_false_iff_ne, ne_eq]
        intro hka
        exact hwf.1 (List.mem_map.mpr ⟨(k, v), h1, hka⟩)
      simp only [hne]
      exact ih hwf.2 h1

theorem GoMap.WF_delete (m : GoMap) (k : String) (hwf : m.WF) : (m.delete k).WF := by
  unfold GoMap.WF GoMap.delete at *
  exact (List.Nodup.sublist ((List.filter_sublist m).map Prod.fst) hwf)

theorem GoMap.WF_set (m : GoMap) (k v : String) (hwf : m.WF) : (m.set k v).WF := by
  have h1 := GoMap.WF_delete m k hwf
  unfold GoMap.WF GoMap.set at *
  simp only [List.map_cons, List.nodup_cons]
  refine ⟨?_, h1⟩
  intro hmem
  obtain ⟨e, he, hek⟩ := List.mem_map.mp hmem
  unfold GoMap.delete at he
  have := (List.mem_filter.mp he).2
  simp [hek] at this

/-- What the eviction loop of Delete does to a well-formed cache. -/
theorem evictPoolID_spec (poolCache : GoMap) (poolID : String) (hwf : poolCache.WF) :
    (∀ n id, id ≠ poolID →
      ((evictPoolID poolCache poolID).get? n = some id ↔ poolCache.get? n = some id))
    ∧ ((∃ n, poolCache.get? n = some poolID) →
        ∃ n0, poolCache.get? n0 = some poolID ∧ (evictPoolID poolCache poolID).get? n0 = none ∧
          ∀ n, n ≠ n0 → (evictPoolID poolCache poolID).get? n = poolCache.get? n)
    ∧ ((∀ n m, poolCache.get? n = some poolID → poolCache.get? m = some poolID → n = m) →
        ∀ n, (evictPoolID poolCache poolID).get? n ≠ some poolID)
    ∧ ((∀ n, poolCache.get? n ≠ some poolID) → evictPoolID poolCache poolID = poolCache) := by
  cases hf : poolCache.find? (fun e => e.2 == poolID) with
  | none =>
    have hev : evictPoolID poolCache poolID = poolCache := by simp [evictPoolID, hf]
    have hno : ∀ n, poolCache.get? n ≠ some poolID := by
      intro n hn
      have := List.find?_eq_none.mp hf (n, poolID) (GoMap.mem_of_get? _ _ _ hn)
      simp at this
    rw [hev]
    refine ⟨fun _ _ _ => Iff.rfl, ?_, fun _ => hno, fun _ => rfl⟩
    rintro ⟨n, hn⟩
    exact absurd hn (hno n)
  | some e =>
    have hev : evictPoolID poolCache poolID = poolCache.delete e.1 := by simp [evictPoolID, hf]
    have hmem : e ∈ poolCache := List.mem_of_find?_eq_some hf
    have hval : e.2 = poolID := by
      have := List.find?_some hf
      simpa using this
    have hget : poolCache.get? e.1 = some poolID := by
      have := GoMap.get?_of_mem poolCache hwf e.1 e.2 hmem
      rw [hval] at this; exact this
    rw [hev]
    refine ⟨?_, ?_, ?_, ?_⟩
    · intro n id hid
      by_cases hn : n = e.1
      · subst hn
        rw [GoMap.get?_delete_self, hget]
        constructor
        · intro h; simp at h
        · intro h
          simp only [Option.some.injEq] at h
          exact absurd h.symm hid
      · rw [GoMap.get?_delete_other _ _ _ hn]
    · intro _
      exact ⟨e.1, hget, GoMap.get?_delete_self _ _, fun n hn => GoMap.get?_delete_other _ _ _ hn⟩
    · intro huniq n
      by_cases hn : n = e.1
      · subst hn
        rw [GoMap.get?_delete_self]; simp
      · rw [GoMap.get?_delete_other _ _ _ hn]
        intro h
        exact hn (huniq n e.1 h hget)
    · intro hno
      exact absurd hget (hno e.1)

/-- The paths of Delete. -/
theorem Delete_cases {σ : Type} (K : Constants) (c : OVHClient σ) (poolCache : GoMap) (s : σ)
    (nodeClaim : NodeClaim) :
    (nodeClaim.Annotations.get (AnnotationOVHPoolID K) = "" ∧
      Delete K c poolCache s nodeClaim
        = { result := some (.nodeClaimNotFound (.errorf "no pool ID annotation")),
            poolCache := poolCache, remote := s, calls := [] })
    ∨ (nodeClaim.Annotations.get (AnnotationOVHPoolID K) ≠ "" ∧
        ((∃ e s1, c.GetNodePool s (nodeClaim.Annotations.get (AnnotationOVHPoolID K)) = (.error e, s1) ∧
          Delete K c poolCache s nodeClaim
            = { result := some (.nodeClaimNotFound (.wrapf "pool not found: " (.client e))),
                poolCache := poolCache, remote := s1,
                calls := [.GetNodePool (nodeClaim.Annotations.get (AnnotationOVHPoolID K)) (.error e)] })
        ∨ (∃ pool s1 r s2,
            c.GetNodePool s (nodeClaim.Annotations.get (AnnotationOVHPoolID K)) = (.ok pool, s1) ∧
            pool.DesiredNodes ≤ 1 ∧
            c.DeleteNodePool s1 (nodeClaim.Annotations.get (AnnotationOVHPoolID K)) = (r, s2) ∧
            Delete K c poolCache s nodeClaim
              = { result :=
                    (match r with
                     | some e => some (.wrapf "deleting pool: " (.client e))
                     | none => some (.nodeClaimNotFound (.errorf "instance terminated"))),
                  poolCache :=
                    (match r with
                     | some _ => poolCache
                     | none => evictPoolID poolCache
                        (nodeClaim.Annotations.get (AnnotationOVHPoolID K))),
                  remote := s2,
                  calls := [.GetNodePool (nodeClaim.Annotations.get (AnnotationOVHPoolID K)) (.ok pool),
                    .DeleteNodePool (nodeClaim.Annotations.get (AnnotationOVHPoolID K)) r] })
        ∨ (∃ pool s1 r s2,
            c.GetNodePool s (nodeClaim.Annotations.get (AnnotationOVHPoolID K)) = (.ok pool, s1) ∧
            1 < pool.DesiredNodes ∧
            c.UpdateNodePool s1 (nodeClaim.Annotations.get (AnnotationOVHPoolID K))
              { DesiredNodes := int64Sub pool.DesiredNodes 1 } = (r, s2) ∧
            Delete K c poolCache s nodeClaim
              = { result :=
                    (match r with
                     | .error e => some (.wrapf "scaling down pool: " (.client e))
                     | .ok _ => some (.nodeClaimNotFound (.errorf "instance terminated"))),
                  poolCache := poolCache, remote := s2,
                  calls := [.GetNodePool (nodeClaim.Annotations.get (AnnotationOVHPoolID K)) (.ok pool),
                    .UpdateNodePool (nodeClaim.Annotations.get (AnnotationOVHPoolID K))
                      { DesiredNodes := int64Sub pool.DesiredNodes 1 } r] }))) := by
  by_cases hid : nodeClaim.Annotations.get (AnnotationOVHPoolID K) = ""
  · left
    exact ⟨hid, by simp [Delete, hid]⟩
  · right
    refine ⟨hid, ?_⟩
    rcases hg : c.GetNodePool s (nodeClaim.Annotations.get (AnnotationOVHPoolID K)) with ⟨rg, s1⟩
    cases rg with
    | error e =>
      left
      exact ⟨e, s1, rfl, by simp [Delete, hid, hg]⟩
    | ok pool =>
      right
      by_cases hd : pool.DesiredNodes ≤ 1
      · left
        rcases hdel : c.DeleteNodePool s1 (nodeClaim.Annotations.get (AnnotationOVHPoolID K)) with ⟨r, s2⟩
        refine ⟨pool, s1, r, s2, rfl, hd, hdel, ?_⟩
        cases r <;> simp [Delete, hid, hg, hd, hdel]
      · right
        rcases hu : c.UpdateNodePool s1 (nodeClaim.Annotations.get (AnnotationOVHPoolID K))
          { DesiredNodes := int64Sub pool.DesiredNodes 1 } with ⟨r, s2⟩
        refine ⟨pool, s1, r, s2, rfl, by omega, hu, ?_⟩
        cases r <;> simp [Delete, hid, hg, hd, hu]

/-! ## The cache stays a well-formed map -/

theorem evictPoolID_WF (poolCache : GoMap) (poolID : String) (hwf : poolCache.WF) :
    (evictPoolID poolCache poolID).WF := by
  unfold evictPoolID
  split
  · exact GoMap.WF_delete _ _ hwf
  · exact hwf

theorem getOrCreatePool_WF {σ : Type} (K : Constants) (c : OVHClient σ)
    (poolCache : GoMap) (s : σ) (name flavor zone : String)
    (nodeClass : OVHNodeClass) (nodeClaim : Option NodeClaim) (hwf : poolCache.WF) :
    (getOrCreatePool K c poolCache s name flavor zone nodeClass nodeClaim).poolCache.WF := by
  have listing : ∀ (cache0 : GoMap) (s0 : σ) (pre : List Event), cache0.WF →
      (listThenScaleOrCreate K c cache0 s0 pre name flavor zone nodeClass nodeClaim).poolCache.WF := by
    intro cache0 s0 pre h0
    rcases listThenScaleOrCreate_cases K c cache0 s0 pre name flavor zone nodeClass nodeClaim with
      ⟨e1, s1, _, heq⟩ | ⟨pools, s1, q, r, s2, _, _, _, heq⟩ | ⟨pools, s1, r, s2, _, _, _, heq⟩
    · rw [heq]; exact h0
    · rw [heq]; exact GoMap.WF_set _ _ _ h0
    · rw [heq]
      cases r with
      | error e => exact h0
      | ok p => exact GoMap.WF_set _ _ _ h0
  rcases getOrCreatePool_cases K c poolCache s name flavor zone nodeClass nodeClaim with
    ⟨id, q, s1, r, s2, _, _, _, heq⟩ | ⟨id, e, s1, _, _, heq⟩ | ⟨_, heq⟩
  · rw [heq]; exact hwf
  · rw [heq]; exact listing _ _ _ (GoMap.WF_delete _ _ hwf)
  · rw [heq]; exact listing _ _ _ hwf

theorem Delete_WF {σ : Type} (K : Constants) (c : OVHClient σ) (poolCache : GoMap) (s : σ)
    (nodeClaim : NodeClaim) (hwf : poolCache.WF) :
    (Delete K c poolCache s nodeClaim).poolCache.WF := by
  rcases Delete_cases K c poolCache s nodeClaim with
    ⟨_, heq⟩ | ⟨_, ⟨e, s1, _, heq⟩ | ⟨pool, s1, r, s2, _, _, _, heq⟩ |
      ⟨pool, s1, r, s2, _, _, _, heq⟩⟩
  · rw [heq]; exact hwf
  · rw [heq]; exact hwf
  · rw [heq]
    cases r with
    | some e => exact hwf
    | none => exact evictPoolID_WF _ _ hwf
  · rw [heq]; exact hwf

/-! ## Transcripts are what the remote was asked -/

theorem replay_append {σ : Type} (c : OVHClient σ) (a b : List Event) (s : σ) :
    replay c s (a ++ b)
      = match replay c s a with
        | some s1 => replay c s1 b
        | none => none := by
  induction a generalizing s with
  | nil => rfl
  | cons e rest ih =>
    simp only [List.cons_append, replay]
    cases e.run c s with
    | none => rfl
    | some s1 => exact ih s1

theorem replay_append_of {σ : Type} (c : OVHClient σ) (a b : List Event) (s s1 s2 : σ)
    (ha : replay c s a = some s1) (hb : replay c s1 b = some s2) :
    replay c s (a ++ b) = some s2 := by
  rw [replay_append, ha]
  exact hb

theorem replay_get {σ : Type} (c : OVHClient σ) (s s1 : σ) (id : String)
    (r : Except ClientError NodePool) (rest : List Event) (h : c.GetNodePool s id = (r, s1)) :
    replay c s (.GetNodePool id r :: rest) = replay c s1 rest := by
  simp [replay, Event.run, h]

theorem replay_list {σ : Type} (c : OVHClient σ) (s s1 : σ)
    (r : Except ClientError (List NodePool)) (rest : List Event)
    (h : c.ListNodePools s = (r, s1)) :
    replay c s (.ListNodePools r :: rest) = replay c s1 rest := by
  simp [replay, Event.run, h]

theorem replay_create {σ : Type} (c : OVHClient σ) (s s1 : σ) (req : CreateNodePoolRequest)
    (r : Except ClientError NodePool) (rest : List Event)
    (h : c.CreateNodePool s req = (r, s1)) :
    replay c s (.CreateNodePool req r :: rest) = replay c s1 rest := by
  simp [replay, Event.run, h]

theorem replay_update {σ : Type} (c : OVHClient σ) (s s1 : σ) (id : String)
    (req : UpdateNodePoolRequest) (r : Except ClientError NodePool) (rest : List Event)
    (h : c.UpdateNodePool s id req = (r, s1)) :
    replay c s (.UpdateNodePool id req r :: rest) = replay c s1 rest := by
  simp [replay, Event.run, h]

theorem replay_delete {σ : Type} (c : OVHClient σ) (s s1 : σ) (id : String)
    (r : Option ClientError) (rest : List Event) (h : c.DeleteNodePool s id = (r, s1)) :
    replay c s (.DeleteNodePool id r :: rest) = replay c s1 rest := by
  simp [replay, Event.run, h]

theorem replay_nodes {σ : Type} (c : OVHClient σ) (s s1 : σ) (id : String)
    (r : Except ClientError (List Node)) (rest : List Event)
    (h : c.ListPoolNodes s id = (r, s1)) :
    replay c s (.ListPoolNodes id r :: rest) = replay c s1 rest := by
  simp [replay, Event.run, h]

/-- The transcript of the listing part of getOrCreatePool, after the calls of
the cache check, is what the remote was asked and answered. -/
theorem listThenScaleOrCreate_replay {σ : Type} (K : Constants) (c : OVHClient σ)
    (poolCache : GoMap) (s0 s : σ) (pre : List Event) (name flavor zone : String)
    (nodeClass : OVHNodeClass) (nodeClaim : Option NodeClaim)
    (hpre : replay c s0 pre = some s) :
    replay c s0 (listThenScaleOrCreate K c poolCache s pre name flavor zone nodeClass
        nodeClaim).calls
      = some (listThenScaleOrCreate K c poolCache s pre name flavor zone nodeClass
          nodeClaim).remote := by
  rcases listThenScaleOrCreate_cases K c poolCache s pre name flavor zone nodeClass nodeClaim with
    ⟨e, s1, hl, heq⟩ | ⟨pools, s1, q, r, s2, hl, hf, hu, heq⟩ | ⟨pools, s1, r, s2, hl, hf, hcr, heq⟩
  · rw [heq]
    exact replay_append_of c _ _ _ _ _ hpre (by rw [replay_list c s s1 _ _ hl]; rfl)
  · rw [heq]
    exact replay_append_of c _ _ _ _ _ hpre
      (by rw [replay_list c s s1 _ _ hl, replay_update c s1 s2 _ _ _ _ hu]; rfl)
  · rw [heq]
    exact replay_append_of c _ _ _ _ _ hpre
      (by rw [replay_list c s s1 _ _ hl, replay_create c s1 s2 _ _ _ hcr]; rfl)

/-- The transcript of getOrCreatePool is what the remote was asked and
answered, and the remote is left in the state after the last call. -/
theorem getOrCreatePool_replay {σ : Type} (K : Constants) (c : OVHClient σ)
    (poolCache : GoMap) (s : σ) (name flavor zone : String)
    (nodeClass : OVHNodeClass) (nodeClaim : Option NodeClaim) :
    replay c s (getOrCreatePool K c poolCache s name flavor zone nodeClass nodeClaim).calls
      = some (getOrCreatePool K c poolCache s name flavor zone nodeClass nodeClaim).remote := by
  rcases getOrCreatePool_cases K c poolCache s name flavor zone nodeClass nodeClaim with
    ⟨id, q, s1, r, s2, _, hg, hu, heq⟩ | ⟨id, e, s1, _, hg, heq⟩ | ⟨_, heq⟩
  · rw [heq, replay_get c s s1 _ _ _ hg, replay_update c s1 s2 _ _ _ _ hu]
    rfl
  · rw [heq]
    exact listThenScaleOrCreate_replay K c _ s s1 _ name flavor zone nodeClass nodeClaim
      (by rw [replay_get c s s1 _ _ _ hg]; rfl)
  · rw [heq]
    exact listThenScaleOrCreate_replay K c _ s s _ name flavor zone nodeClass nodeClaim rfl

/-- The transcript of a sequence of getOrCreatePool calls is what the remote
was asked and answered. -/
theorem getOrCreatePoolSeq_replay {σ : Type} (K : Constants) (c : OVHClient σ)
    (flavor zone : String) (runs : List (OVHNodeClass × Option NodeClaim)) :
    ∀ (poolCache : GoMap) (s : σ),
      replay c s (getOrCreatePoolSeq K c flavor zone runs poolCache s).calls
        = some (getOrCreatePoolSeq K c flavor zone runs poolCache s).remote := by
  induction runs with
  | nil => intro poolCache s; rfl
  | cons run rest ih =>
    intro poolCache s
    obtain ⟨nodeClass, nodeClaim⟩ := run
    simp only [getOrCreatePoolSeq]
    exact replay_append_of c _ _ _ _ _
      (getOrCreatePool_replay K c poolCache s _ flavor zone nodeClass nodeClaim) (ih _ _)

/-- The transcript of Delete is what the remote was asked and answered. -/
theorem Delete_replay {σ : Type} (K : Constants) (c : OVHClient σ) (poolCache : GoMap) (s : σ)
    (nodeClaim : NodeClaim) :
    replay c s (Delete K c poolCache s nodeClaim).calls
      = some (Delete K c poolCache s nodeClaim).remote := by
  rcases Delete_cases K c poolCache s nodeClaim with
    ⟨_, heq⟩ | ⟨_, ⟨e, s1, hg, heq⟩ | ⟨pool, s1, r, s2, hg, _, hdel, heq⟩ |
      ⟨pool, s1, r, s2, hg, _, hu, heq⟩⟩
  · rw [heq]; rfl
  · rw [heq, replay_get c s s1 _ _ _ hg]; rfl
  · rw [heq, replay_get c s s1 _ _ _ hg, replay_delete c s1 s2 _ _ _ hdel]
    cases r <;> rfl
  · rw [heq, replay_get c s s1 _ _ _ hg, replay_update c s1 s2 _ _ _ _ hu]
    cases r <;> rfl

/-- What Delete returns once the pool is read, by what the remote answers to
the delete or the scale-down. -/
theorem Delete_after_read {σ : Type} (K : Constants) (c : OVHClient σ) (poolCache : GoMap)
    (s : σ) (nodeClaim : NodeClaim) (pool : NodePool) (s1 : σ)
    (hid : nodeClaim.Annotations.get (AnnotationOVHPoolID K) ≠ "")
    (hget : c.GetNodePool s (nodeClaim.Annotations.get (AnnotationOVHPoolID K)) = (.ok pool, s1)) :
    (pool.DesiredNodes ≤ 1 →
      (Delete K c poolCache s nodeClaim).calls
        = [.GetNodePool (nodeClaim.Annotations.get (AnnotationOVHPoolID K)) (.ok pool),
           .DeleteNodePool (nodeClaim.Annotations.get (AnnotationOVHPoolID K))
             (c.DeleteNodePool s1 (nodeClaim.Annotations.get (AnnotationOVHPoolID K))).1]
      ∧ (Delete K c poolCache s nodeClaim).remote
        = (c.DeleteNodePool s1 (nodeClaim.Annotations.get (AnnotationOVHPoolID K))).2
      ∧ (Delete K c poolCache s nodeClaim).result
        = (match (c.DeleteNodePool s1 (nodeClaim.Annotations.get (AnnotationOVHPoolID K))).1 with
           | some e => some (.wrapf "deleting pool: " (.client e))
           | none => some (.nodeClaimNotFound (.errorf "instance terminated"))))
    ∧ (1 < pool.DesiredNodes →
      (Delete K c poolCache s nodeClaim).calls
        = [.GetNodePool (nodeClaim.Annotations.get (AnnotationOVHPoolID K)) (.ok pool),
           .UpdateNodePool (nodeClaim.Annotations.get (AnnotationOVHPoolID K))
             { DesiredNodes := int64Sub pool.DesiredNodes 1 }
             (c.UpdateNodePool s1 (nodeClaim.Annotations.get (AnnotationOVHPoolID K))
               { DesiredNodes := int64Sub pool.DesiredNodes 1 }).1]
      ∧ (Delete K c poolCache s nodeClaim).remote
        = (c.UpdateNodePool s1 (nodeClaim.Annotations.get (AnnotationOVHPoolID K))
            { DesiredNodes := int64Sub pool.DesiredNodes 1 }).2
      ∧ (Delete K c poolCache s nodeClaim).result
        = (match (c.UpdateNodePool s1 (nodeClaim.Annotations.get (AnnotationOVHPoolID K))
              { DesiredNodes := int64Sub pool.DesiredNodes 1 }).1 with
           | .error e => some (.wrapf "scaling down pool: " (.client e))
           | .ok _ => some (.nodeClaimNotFound (.errorf "instance terminated")))) := by
  rcases Delete_cases K c poolCache s nodeClaim with
    ⟨h0, _⟩ | ⟨_, ⟨e, s1b, hg, _⟩ | ⟨pool2, s1b, r, s2, hg, hd, hdel, heq⟩ |
      ⟨pool2, s1b, r, s2, hg, hd, hu, heq⟩⟩
  · exact absurd h0 hid
  · rw [hget] at hg
    simp at hg
  · rw [hget] at hg
    simp only [Prod.mk.injEq, Except.ok.injEq] at hg
    obtain ⟨hp, hs⟩ := hg
    subst hp; subst hs
    constructor
    · intro _
      rw [heq, hdel]
      exact ⟨rfl, rfl, rfl⟩
    · intro h; omega
  · rw [hget] at hg
    simp only [Prod.mk.injEq, Except.ok.injEq] at hg
    obtain ⟨hp, hs⟩ := hg
    subst hp; subst hs
    constructor
    · intro h; omega
    · intro _
      rw [heq, hu]
      exact ⟨rfl, rfl, rfl⟩

/-! ## getOrCreatePool against the answers of the remote -/

/-- What getOrCreatePool does once the cached pool ID has been read: it asks
the remote to scale that pool by one, and what it returns follows the answer. -/
theorem getOrCreatePool_after_read {σ : Type} (K : Constants) (c : OVHClient σ)
    (poolCache : GoMap) (s : σ) (name flavor zone : String)
    (nodeClass : OVHNodeClass) (nodeClaim : Option NodeClaim) (id : String) (q : NodePool)
    (s1 : σ) (hc : poolCache.get? name = some id) (hg : c.GetNodePool s id = (.ok q, s1)) :
    (getOrCreatePool K c poolCache s name flavor zone nodeClass nodeClaim).calls
        = [.GetNodePool id (.ok q),
           .UpdateNodePool id { DesiredNodes := int64Add q.DesiredNodes 1 }
             (c.UpdateNodePool s1 id { DesiredNodes := int64Add q.DesiredNodes 1 }).1]
    ∧ (getOrCreatePool K c poolCache s name flavor zone nodeClass nodeClaim).remote
        = (c.UpdateNodePool s1 id { DesiredNodes := int64Add q.DesiredNodes 1 }).2
    ∧ (∀ u, (c.UpdateNodePool s1 id { DesiredNodes := int64Add q.DesiredNodes 1 }).1 = .ok u →
        (getOrCreatePool K c poolCache s name flavor zone nodeClass nodeClaim).result
          = .ok { q with DesiredNodes := int64Add q.DesiredNodes 1 })
    ∧ (∀ e, (c.UpdateNodePool s1 id { DesiredNodes := int64Add q.DesiredNodes 1 }).1 = .error e →
        (getOrCreatePool K c poolCache s name flavor zone nodeClass nodeClaim).result
          = .error (.wrapf "scaling up pool: " (.client e))) := by
  rcases getOrCreatePool_cases K c poolCache s name flavor zone nodeClass nodeClaim with
    ⟨id2, q2, s1b, r, s2, hc2, hg2, hu, heq⟩ | ⟨id2, e, s1b, hc2, hg2, _⟩ | ⟨hc2, _⟩
  · rw [hc] at hc2
    simp only [Option.some.injEq] at hc2
    subst hc2
    rw [hg] at hg2
    simp only [Prod.mk.injEq, Except.ok.injEq] at hg2
    obtain ⟨hq, hs⟩ := hg2
    subst hq; subst hs
    rw [heq, hu]
    refine ⟨rfl, rfl, ?_, ?_⟩
    · intro u hr
      simp only at hr
      subst hr
      rfl
    · intro e hr
      simp only at hr
      subst hr
      rfl
  · rw [hc] at hc2
    simp only [Option.some.injEq] at hc2
    subst hc2
    rw [hg] at hg2
    simp at hg2
  · rw [hc] at hc2
    simp at hc2

/-- What the listing part of getOrCreatePool does once the remote has listed
its pools: it asks the remote to scale the first pool of the name by one, or,
if no listed pool has the name, to create the pool; what it returns follows
the answer. -/
theorem listThenScaleOrCreate_after_listing {σ : Type} (K : Constants) (c : OVHClient σ)
    (poolCache : GoMap) (s : σ) (pre : List Event) (name flavor zone : String)
    (nodeClass : OVHNodeClass) (nodeClaim : Option NodeClaim) (pools : List NodePool) (s1 : σ)
    (hl : c.ListNodePools s = (.ok pools, s1)) :
    (∀ q, pools.find? (fun pool => pool.Name == name) = some q →
      (listThenScaleOrCreate K c poolCache s pre name flavor zone nodeClass nodeClaim).calls
          = pre ++ [.ListNodePools (.ok pools),
             .UpdateNodePool q.ID { DesiredNodes := int64Add q.DesiredNodes 1 }
               (c.UpdateNodePool s1 q.ID { DesiredNodes := int64Add q.DesiredNodes 1 }).1]
      ∧ (listThenScaleOrCreate K c poolCache s pre name flavor zone nodeClass nodeClaim).remote
          = (c.UpdateNodePool s1 q.ID { DesiredNodes := int64Add q.DesiredNodes 1 }).2
      ∧ (∀ u, (c.UpdateNodePool s1 q.ID { DesiredNodes := int64Add q.DesiredNodes 1 }).1 = .ok u →
          (listThenScaleOrCreate K c poolCache s pre name flavor zone nodeClass nodeClaim).result
            = .ok { q with DesiredNodes := int64Add q.DesiredNodes 1 })
      ∧ (∀ e, (c.UpdateNodePool s1 q.ID { DesiredNodes := int64Add q.DesiredNodes 1 }).1
            = .error e →
          (listThenScaleOrCreate K c poolCache s pre name flavor zone nodeClass nodeClaim).result
            = .error (.wrapf "scaling up existing pool: " (.client e))))
    ∧ (pools.find? (fun pool => pool.Name == name) = none →
      (listThenScaleOrCreate K c poolCache s pre name flavor zone nodeClass nodeClaim).calls
          = pre ++ [.ListNodePools (.ok pools),
             .CreateNodePool (createRequest K name flavor zone nodeClass nodeClaim)
               (c.CreateNodePool s1 (createRequest K name flavor zone nodeClass nodeClaim)).1]
      ∧ (listThenScaleOrCreate K c poolCache s pre name flavor zone nodeClass nodeClaim).remote
          = (c.CreateNodePool s1 (createRequest K name flavor zone nodeClass nodeClaim)).2
      ∧ (∀ p, (c.CreateNodePool s1 (createRequest K name flavor zone nodeClass nodeClaim)).1
            = .ok p →
          (listThenScaleOrCreate K c poolCache s pre name flavor zone nodeClass nodeClaim).result
            = .ok p)
      ∧ (∀ e, (c.CreateNodePool s1 (createRequest K name flavor zone nodeClass nodeClaim)).1
            = .error e →
          (listThenScaleOrCreate K c poolCache s pre name flavor zone nodeClass nodeClaim).result
            = .error (.wrapf "creating pool: " (.client e)))) := by
  rcases listThenScaleOrCreate_cases K c poolCache s pre name flavor zone nodeClass nodeClaim with
    ⟨e, s1b, hl2, _⟩ | ⟨pools2, s1b, q2, r, s2, hl2, hf2, hu, heq⟩ |
      ⟨pools2, s1b, r, s2, hl2, hf2, hcr, heq⟩
  · rw [hl] at hl2
    simp at hl2
  · rw [hl] at hl2
    simp only [Prod.mk.injEq, Except.ok.injEq] at hl2
    obtain ⟨hp, hs⟩ := hl2
    subst hp; subst hs
    constructor
    · intro q hf
      rw [hf2] at hf
      simp only [Option.some.injEq] at hf
      subst hf
      rw [heq, hu]
      refine ⟨rfl, rfl, ?_, ?_⟩
      · intro u hr
        simp only at hr
        subst hr
        rfl
      · intro e hr
        simp only at hr
        subst hr
        rfl
    · intro hf
      rw [hf2] at hf
      simp at hf
  · rw [hl] at hl2
    simp only [Prod.mk.injEq, Except.ok.injEq] at hl2
    obtain ⟨hp, hs⟩ := hl2
    subst hp; subst hs
    constructor
    · intro q hf
      rw [hf2] at hf
      simp at hf
    · intro _
      rw [heq, hcr]
      refine ⟨rfl, rfl, ?_, ?_⟩
      · intro p hr
        simp only at hr
        subst hr
        rfl
      · intro e hr
        simp only at hr
        subst hr
        rfl

/-- When getOrCreatePool reaches the listing it is the listing part run from
there, up to the cache. -/
theorem getOrCreatePool_of_reaches {σ : Type} (K : Constants) (c : OVHClient σ)
    (poolCache : GoMap) (s : σ) (name flavor zone : String)
    (nodeClass : OVHNodeClass) (nodeClaim : Option NodeClaim) (pre : List Event) (s0 : σ)
    (h : ReachesListing c poolCache s name pre s0) :
    ∃ cache0, getOrCreatePool K c poolCache s name flavor zone nodeClass nodeClaim
      = listThenScaleOrCreate K c cache0 s0 pre name flavor zone nodeClass nodeClaim := by
  rcases h with ⟨hc, hpre, hs⟩ | ⟨id, e, hc, hg, hpre⟩
  · subst hpre; subst hs
    exact ⟨poolCache, by simp [getOrCreatePool, hc]⟩
  · subst hpre
    exact ⟨poolCache.delete name, by simp [getOrCreatePool, hc, hg]⟩

/-- A successful getOrCreatePool call, against the answers of the remote: the
read of the cached ID and the update, or the listing (after no call or after
the failed read of the cached ID) and the update or the creation, each call
answered by the remote as recorded, and the remote left as the mutating call
left it. -/
theorem getOrCreatePool_ok_answers {σ : Type} (K : Constants) (c : OVHClient σ)
    (poolCache : GoMap) (s : σ) (name flavor zone : String)
    (nodeClass : OVHNodeClass) (nodeClaim : Option NodeClaim) (p : NodePool)
    (hok : (getOrCreatePool K c poolCache s name flavor zone nodeClass nodeClaim).result = .ok p) :
    (∃ id q s1 u s2, poolCache.get? name = some id ∧ c.GetNodePool s id = (.ok q, s1) ∧
        c.UpdateNodePool s1 id { DesiredNodes := int64Add q.DesiredNodes 1 } = (.ok u, s2) ∧
        (getOrCreatePool K c poolCache s name flavor zone nodeClass nodeClaim).calls
          = [.GetNodePool id (.ok q),
             .UpdateNodePool id { DesiredNodes := int64Add q.DesiredNodes 1 } (.ok u)] ∧
        (getOrCreatePool K c poolCache s name flavor zone nodeClass nodeClaim).remote = s2 ∧
        p = { q with DesiredNodes := int64Add q.DesiredNodes 1 })
    ∨ (∃ pre s0 pools s1 q u s2, ReachesListing c poolCache s name pre s0 ∧
        c.ListNodePools s0 = (.ok pools, s1) ∧
        pools.find? (fun pool => pool.Name == name) = some q ∧
        c.UpdateNodePool s1 q.ID { DesiredNodes := int64Add q.DesiredNodes 1 } = (.ok u, s2) ∧
        (getOrCreatePool K c poolCache s name flavor zone nodeClass nodeClaim).calls
          = pre ++ [.ListNodePools (.ok pools),
             .UpdateNodePool q.ID { DesiredNodes := int64Add q.DesiredNodes 1 } (.ok u)] ∧
        (getOrCreatePool K c poolCache s name flavor zone nodeClass nodeClaim).remote = s2 ∧
        p = { q with DesiredNodes := int64Add q.DesiredNodes 1 })
    ∨ (∃ pre s0 pools s1 s2, ReachesListing c poolCache s name pre s0 ∧
        c.ListNodePools s0 = (.ok pools, s1) ∧
        pools.find? (fun pool => pool.Name == name) = none ∧
        c.CreateNodePool s1 (createRequest K name flavor zone nodeClass nodeClaim) = (.ok p, s2) ∧
        (getOrCreatePool K c poolCache s name flavor zone nodeClass nodeClaim).calls
          = pre ++ [.ListNodePools (.ok pools),
             .CreateNodePool (createRequest K name flavor zone nodeClass nodeClaim) (.ok p)] ∧
        (getOrCreatePool K c poolCache s name flavor zone nodeClass nodeClaim).remote = s2) := by
  have listing : ∀ (cache0 : GoMap) (s0 : σ) (pre : List Event),
      ReachesListing c poolCache s name pre s0 →
      getOrCreatePool K c poolCache s name flavor zone nodeClass nodeClaim
        = listThenScaleOrCreate K c cache0 s0 pre name flavor zone nodeClass nodeClaim →
      (∃ pre s0 pools s1 q u s2, ReachesListing c poolCache s name pre s0 ∧
        c.ListNodePools s0 = (.ok pools, s1) ∧
        pools.find? (fun pool => pool.Name == name) = some q ∧
        c.UpdateNodePool s1 q.ID { DesiredNodes := int64Add q.DesiredNodes 1 } = (.ok u, s2) ∧
        (getOrCreatePool K c poolCache s name flavor zone nodeClass nodeClaim).calls
          = pre ++ [.ListNodePools (.ok pools),
             .UpdateNodePool q.ID { DesiredNodes := int64Add q.DesiredNodes 1 } (.ok u)] ∧
        (getOrCreatePool K c poolCache s name flavor zone nodeClass nodeClaim).remote = s2 ∧
        p = { q with DesiredNodes := int64Add q.DesiredNodes 1 })
      ∨ (∃ pre s0 pools s1 s2, ReachesListing c poolCache s name pre s0 ∧
        c.ListNodePools s0 = (.ok pools, s1) ∧
        pools.find? (fun pool => pool.Name == name) = none ∧
        c.CreateNodePool s1 (createRequest K name flavor zone nodeClass nodeClaim) = (.ok p, s2) ∧
        (getOrCreatePool K c poolCache s name flavor zone nodeClass nodeClaim).calls
          = pre ++ [.ListNodePools (.ok pools),
             .CreateNodePool (createRequest K name flavor zone nodeClass nodeClaim) (.ok p)] ∧
        (getOrCreatePool K c poolCache s name flavor zone nodeClass nodeClaim).remote = s2) := by
    intro cache0 s0 pre hreach hsame
    rw [hsame] at hok ⊢
    rcases listThenScaleOrCreate_cases K c cache0 s0 pre name flavor zone nodeClass nodeClaim with
      ⟨e, s1, _, heq⟩ | ⟨pools, s1, q, r, s2, hl, hf, hu, heq⟩ |
        ⟨pools, s1, r, s2, hl, hf, hcr, heq⟩
    · rw [heq] at hok; simp at hok
    · rw [heq] at hok ⊢
      cases r with
      | error e => simp at hok
      | ok u =>
        left
        simp only [Except.ok.injEq] at hok
        exact ⟨pre, s0, pools, s1, q, u, s2, hreach, hl, hf, hu, rfl, rfl, hok.symm⟩
    · rw [heq] at hok ⊢
      cases r with
      | error e => simp at hok
      | ok p0 =>
        right
        simp only [Except.ok.injEq] at hok
        subst hok
        exact ⟨pre, s0, pools, s1, s2, hreach, hl, hf, hcr, rfl, rfl⟩
  rcases getOrCreatePool_cases K c poolCache s name flavor zone nodeClass nodeClaim with
    ⟨id, q, s1, r, s2, hc, hg, hu, heq⟩ | ⟨id, e, s1, hc, hg, heq⟩ | ⟨hc, heq⟩
  · left
    rw [heq] at hok ⊢
    cases r with
    | error e => simp at hok
    | ok u =>
      simp only [Except.ok.injEq] at hok
      exact ⟨id, q, s1, u, s2, hc, hg, hu, rfl, rfl, hok.symm⟩
  · right
    exact listing _ s1 _ (Or.inr ⟨id, e, hc, hg, rfl⟩) heq
  · right
    exact listing _ s _ (Or.inl ⟨hc, rfl, rfl⟩) heq

/-! ## The claims about the orchestrator -/

/-- C2: every successful getOrCreatePool call issues exactly one mutating
remote call, and the calls are those the remote answered.  If the remote
answers the read of the cached ID with a pool of desired count `d`, or (on a
cache miss or after the remote failed the read of the cached ID) the remote
lists a pool of that exact name with desired count `d`, getOrCreatePool asks
the remote for UpdateNodePool with `DesiredNodes = d + 1` (Go `int` addition,
which is `d + 1` for every `d` below the largest `int`) and, when the remote
accepts, returns the pool with `d + 1`; if the remote lists no pool of the
name it asks for CreateNodePool with the name, the flavor and
`DesiredNodes = DefaultDesiredNodes` and returns the pool the remote answers
with.  CreateNodePool is never issued when the listing contains a pool of the
name, so sequential calls for one flavor and zone against a remote whose
listing reflects earlier creations create at most one pool.  Replaying the
transcript on the remote reproduces every recorded answer and ends in the
state the call leaves the remote in. -/
theorem getOrCreatePool_single_mutation {σ : Type} (K : Constants) (c : OVHClient σ)
    (poolCache : GoMap) (s : σ) (name flavor zone : String)
    (nodeClass : OVHNodeClass) (nodeClaim : Option NodeClaim) :
    (∀ p, (getOrCreatePool K c poolCache s name flavor zone nodeClass nodeClaim).result = .ok p →
      ((getOrCreatePool K c poolCache s name flavor zone nodeClass nodeClaim).calls.filter
        Event.isMutating).length = 1 ∧
      ((∃ id q s1 u s2, poolCache.get? name = some id ∧
          c.GetNodePool s id = (.ok q, s1) ∧
          c.UpdateNodePool s1 id { DesiredNodes := int64Add q.DesiredNodes 1 } = (.ok u, s2) ∧
          (getOrCreatePool K c poolCache s name flavor zone nodeClass nodeClaim).calls
            = [.GetNodePool id (.ok q),
               .UpdateNodePool id { DesiredNodes := int64Add q.DesiredNodes 1 } (.ok u)] ∧
          (getOrCreatePool K c poolCache s name flavor zone nodeClass nodeClaim).remote = s2 ∧
          p.DesiredNodes = int64Add q.DesiredNodes 1)
       ∨ (∃ pre s0 pools s1 q u s2, ReachesListing c poolCache s name pre s0 ∧
          c.ListNodePools s0 = (.ok pools, s1) ∧
          c.UpdateNodePool s1 q.ID { DesiredNodes := int64Add q.DesiredNodes 1 } = (.ok u, s2) ∧
          (getOrCreatePool K c poolCache s name flavor zone nodeClass nodeClaim).calls
            = pre ++ [.ListNodePools (.ok pools),
               .UpdateNodePool q.ID { DesiredNodes := int64Add q.DesiredNodes 1 } (.ok u)] ∧
          (getOrCreatePool K c poolCache s name flavor zone nodeClass nodeClaim).remote = s2 ∧
          pools.find? (fun pool => pool.Name == name) = some q ∧ q.Name = name ∧
          p.DesiredNodes = int64Add q.DesiredNodes 1)
       ∨ (∃ pre s0 pools s1 s2, ReachesListing c poolCache s name pre s0 ∧
          c.ListNodePools s0 = (.ok pools, s1) ∧
          c.CreateNodePool s1 (createRequest K name flavor zone nodeClass nodeClaim)
            = (.ok p, s2) ∧
          (getOrCreatePool K c poolCache s name flavor zone nodeClass nodeClaim).calls
            = pre ++ [.ListNodePools (.ok pools),
               .CreateNodePool (createRequest K name flavor zone nodeClass nodeClaim) (.ok p)] ∧
          (getOrCreatePool K c poolCache s name flavor zone nodeClass nodeClaim).remote = s2 ∧
          (∀ q, q ∈ pools → q.Name ≠ name) ∧
          (createRequest K name flavor zone nodeClass nodeClaim).Name = name ∧
          (createRequest K name flavor zone nodeClass nodeClaim).FlavorName = flavor ∧
          (createRequest K name flavor zone nodeClass nodeClaim).DesiredNodes
            = K.DefaultDesiredNodes)))
    ∧ (∀ d : Int, IsInt64 d → d ≠ 2 ^ 63 - 1 → int64Add d 1 = d + 1)
    ∧ (∀ pools, Event.ListNodePools (.ok pools)
          ∈ (getOrCreatePool K c poolCache s name flavor zone nodeClass nodeClaim).calls →
        (∃ q, q ∈ pools ∧ q.Name = name) →
        ∀ e, e ∈ (getOrCreatePool K c poolCache s name flavor zone nodeClass nodeClaim).calls →
          e.isCreateCall = false)
    ∧ (ListingReflectsCreations c →
        ∀ (runs : List (OVHNodeClass × Option NodeClaim)) (cache0 : GoMap) (s0 : σ),
          ((getOrCreatePoolSeq K c flavor zone runs cache0 s0).calls.filter
            Event.isPoolCreation).length ≤ 1)
    ∧ (∀ id q s1, poolCache.get? name = some id → c.GetNodePool s id = (.ok q, s1) →
        (getOrCreatePool K c poolCache s name flavor zone nodeClass nodeClaim).calls
            = [.GetNodePool id (.ok q),
               .UpdateNodePool id { DesiredNodes := int64Add q.DesiredNodes 1 }
                 (c.UpdateNodePool s1 id { DesiredNodes := int64Add q.DesiredNodes 1 }).1]
        ∧ (getOrCreatePool K c poolCache s name flavor zone nodeClass nodeClaim).remote
            = (c.UpdateNodePool s1 id { DesiredNodes := int64Add q.DesiredNodes 1 }).2
        ∧ (∀ u, (c.UpdateNodePool s1 id { DesiredNodes := int64Add q.DesiredNodes 1 }).1
              = .ok u →
            (getOrCreatePool K c poolCache s name flavor zone nodeClass nodeClaim).result
              = .ok { q with DesiredNodes := int64Add q.DesiredNodes 1 })
        ∧ (∀ e, (c.UpdateNodePool s1 id { DesiredNodes := int64Add q.DesiredNodes 1 }).1
              = .error e →
            (getOrCreatePool K c poolCache s name flavor zone nodeClass nodeClaim).result
              = .error (.wrapf "scaling up pool: " (.client e))))
    ∧ (∀ pre s0 pools s1, ReachesListing c poolCache s name pre s0 →
        c.ListNodePools s0 = (.ok pools, s1) →
        (∀ q, pools.find? (fun pool => pool.Name == name) = some q →
          (getOrCreatePool K c poolCache s name flavor zone nodeClass nodeClaim).calls
              = pre ++ [.ListNodePools (.ok pools),
                 .UpdateNodePool q.ID { DesiredNodes := int64Add q.DesiredNodes 1 }
                   (c.UpdateNodePool s1 q.ID { DesiredNodes := int64Add q.DesiredNodes 1 }).1]
          ∧ (getOrCreatePool K c poolCache s name flavor zone nodeClass nodeClaim).remote
              = (c.UpdateNodePool s1 q.ID { DesiredNodes := int64Add q.DesiredNodes 1 }).2
          ∧ (∀ u, (c.UpdateNodePool s1 q.ID { DesiredNodes := int64Add q.DesiredNodes 1 }).1
                = .ok u →
              (getOrCreatePool K c poolCache s name flavor zone nodeClass nodeClaim).result
                = .ok { q with DesiredNodes := int64Add q.DesiredNodes 1 })
          ∧ (∀ e, (c.UpdateNodePool s1 q.ID { DesiredNodes := int64Add q.DesiredNodes 1 }).1
                = .error e →
              (getOrCreatePool K c poolCache s name flavor zone nodeClass nodeClaim).result
                = .error (.wrapf "scaling up existing pool: " (.client e))))
        ∧ (pools.find? (fun pool => pool.Name == name) = none →
          (getOrCreatePool K c poolCache s name flavor zone nodeClass nodeClaim).calls
              = pre ++ [.ListNodePools (.ok pools),
                 .CreateNodePool (createRequest K name flavor zone nodeClass nodeClaim)
                   (c.CreateNodePool s1
                     (createRequest K name flavor zone nodeClass nodeClaim)).1]
          ∧ (getOrCreatePool K c poolCache s name flavor zone nodeClass nodeClaim).remote
              = (c.CreateNodePool s1 (createRequest K name flavor zone nodeClass nodeClaim)).2
          ∧ (∀ p, (c.CreateNodePool s1
                (createRequest K name flavor zone nodeClass nodeClaim)).1 = .ok p →
              (getOrCreatePool K c poolCache s name flavor zone nodeClass nodeClaim).result
                = .ok p)
          ∧ (∀ e, (c.CreateNodePool s1
                (createRequest K name flavor zone nodeClass nodeClaim)).1 = .error e →
              (getOrCreatePool K c poolCache s name flavor zone nodeClass nodeClaim).result
                = .error (.wrapf "creating pool: " (.client e))))
        ∧ ((∃ q, q ∈ pools ∧ q.Name = name) →
          ∀ e, e ∈ (getOrCreatePool K c poolCache s name flavor zone nodeClass nodeClaim).calls →
            e.isCreateCall = false))
    ∧ replay c s (getOrCreatePool K c poolCache s name flavor zone nodeClass nodeClaim).calls
        = some (getOrCreatePool K c poolCache s name flavor zone nodeClass nodeClaim).remote
    ∧ (∀ (runs : List (OVHNodeClass × Option NodeClaim)) (cache0 : GoMap) (s0 : σ),
        replay c s0 (getOrCreatePoolSeq K c flavor zone runs cache0 s0).calls
          = some (getOrCreatePoolSeq K c flavor zone runs cache0 s0).remote) := by
  refine ⟨?_, int64Add_one_exact, ?_, ?_, ?_, ?_,
    getOrCreatePool_replay K c poolCache s name flavor zone nodeClass nodeClaim,
    getOrCreatePoolSeq_replay K c flavor zone⟩
  · intro p hok
    rcases getOrCreatePool_ok_answers K c poolCache s name flavor zone nodeClass nodeClaim p hok
      with ⟨id, q, s1, u, s2, hc, hg, hu, hcalls, hrem, hp⟩ |
        ⟨pre, s0, pools, s1, q, u, s2, hpre, hl, hf, hu, hcalls, hrem, hp⟩ |
        ⟨pre, s0, pools, s1, s2, hpre, hl, hf, hcr, hcalls, hrem⟩
    · refine ⟨?_, Or.inl ⟨id, q, s1, u, s2, hc, hg, hu, hcalls, hrem, by rw [hp]⟩⟩
      rw [hcalls]; simp [List.filter, Event.isMutating]
    · have hname : q.Name = name := by
        have := List.find?_some hf
        simpa using this
      refine ⟨?_, Or.inr (Or.inl ⟨pre, s0, pools, s1, q, u, s2, hpre, hl, hu, hcalls, hrem,
        hf, hname, by rw [hp]⟩)⟩
      rw [hcalls]
      rcases hpre with ⟨_, h1, _⟩ | ⟨id, e, _, _, h1⟩ <;> subst h1 <;>
        simp [List.filter, Event.isMutating]
    · refine ⟨?_, Or.inr (Or.inr ⟨pre, s0, pools, s1, s2, hpre, hl, hcr, hcalls, hrem, ?_,
        rfl, rfl, rfl⟩)⟩
      · rw [hcalls]
        rcases hpre with ⟨_, h1, _⟩ | ⟨id, e, _, _, h1⟩ <;> subst h1 <;>
          simp [List.filter, Event.isMutating]
      · intro q hq hqn
        have := List.find?_eq_none.mp hf q hq
        simp [hqn] at this
  · intro pools hl hq
    exact getOrCreatePool_no_create_when_listed K c poolCache s name flavor zone nodeClass
      nodeClaim pools hl hq
  · intro hrefl runs cache0 s0
    exact (getOrCreatePoolSeq_creations K c flavor zone hrefl runs cache0 s0).1
  · intro id q s1 hc hg
    exact getOrCreatePool_after_read K c poolCache s name flavor zone nodeClass nodeClaim id q s1
      hc hg
  · intro pre s0 pools s1 hreach hl
    obtain ⟨cache0, hsame⟩ := getOrCreatePool_of_reaches K c poolCache s name flavor zone
      nodeClass nodeClaim pre s0 hreach
    have h := listThenScaleOrCreate_after_listing K c cache0 s0 pre name flavor zone nodeClass
      nodeClaim pools s1 hl
    rw [hsame]
    refine ⟨h.1, h.2, ?_⟩
    rintro ⟨q, hq, hqn⟩ e he
    cases hf : pools.find? (fun pool => pool.Name == name) with
    | none =>
      have := List.find?_eq_none.mp hf q hq
      simp [hqn] at this
    | some q0 =>
      rw [(h.1 q0 hf).1] at he
      revert e
      rcases hreach with ⟨_, h1, _⟩ | ⟨id, e0, _, _, h1⟩ <;> subst h1 <;>
        simp [Event.isCreateCall]

/-- Witness for C2: against the in-memory remote, three sequential calls for
flavor `b3.8` in zone `gra7-a` create one pool; a call that finds the pool of
three nodes in the listing issues one mutating call, the update to four nodes,
which leaves the remote with a pool of four nodes; a call against the empty
remote issues the creation. -/
theorem getOrCreatePool_single_mutation_witness :
    ListingReflectsCreations memClient
    ∧ ((getOrCreatePoolSeq scenarioConstants memClient "b3.8" "gra7-a"
          [({}, none), ({}, none), ({}, none)] [] []).calls.filter Event.isPoolCreation).length ≤ 1
    ∧ (getOrCreatePool scenarioConstants memClient [] [scenarioPoolThree]
          "karpenter-b3-8-gra7-a" "b3.8" "gra7-a" {} none).result
        = .ok { scenarioPoolThree with DesiredNodes := 4 }
    ∧ ((getOrCreatePool scenarioConstants memClient [] [scenarioPoolThree]
          "karpenter-b3-8-gra7-a" "b3.8" "gra7-a" {} none).calls.filter
            Event.isMutating).length = 1
    ∧ (getOrCreatePool scenarioConstants memClient [] [scenarioPoolThree]
          "karpenter-b3-8-gra7-a" "b3.8" "gra7-a" {} none).calls
        = [.ListNodePools (.ok [scenarioPoolThree]),
           .UpdateNodePool "pool-0" { DesiredNodes := 4 }
             (.ok { scenarioPoolThree with DesiredNodes := 4 })]
    ∧ (getOrCreatePool scenarioConstants memClient [] [scenarioPoolThree]
          "karpenter-b3-8-gra7-a" "b3.8" "gra7-a" {} none).remote
        = [{ scenarioPoolThree with DesiredNodes := 4 }]
    ∧ (getOrCreatePool scenarioConstants memClient [] []
          "karpenter-b3-8-gra7-a" "b3.8" "gra7-a" {} none).calls
        = [.ListNodePools (.ok []),
           .CreateNodePool (createRequest scenarioConstants "karpenter-b3-8-gra7-a" "b3.8"
               "gra7-a" {} none)
             (memClient.CreateNodePool []
               (createRequest scenarioConstants "karpenter-b3-8-gra7-a" "b3.8" "gra7-a" {}
                 none)).1] :=
  ⟨memClient_reflects,
    (getOrCreatePool_single_mutation scenarioConstants memClient [] [] "karpenter-b3-8-gra7-a"
      "b3.8" "gra7-a" {} none).2.2.2.1 memClient_reflects _ _ _,
    by decide,
    ((getOrCreatePool_single_mutation scenarioConstants memClient [] [scenarioPoolThree]
      "karpenter-b3-8-gra7-a" "b3.8" "gra7-a" {} none).1
        { scenarioPoolThree with DesiredNodes := 4 } (by decide)).1,
    (((getOrCreatePool_single_mutation scenarioConstants memClient [] [scenarioPoolThree]
      "karpenter-b3-8-gra7-a" "b3.8" "gra7-a" {} none).2.2.2.2.2.1 [] [scenarioPoolThree]
        [scenarioPoolThree] [scenarioPoolThree] (Or.inl ⟨by decide, rfl, rfl⟩) rfl).1
          scenarioPoolThree (by decide)).1.trans (by decide),
    (((getOrCreatePool_single_mutation scenarioConstants memClient [] [scenarioPoolThree]
      "karpenter-b3-8-gra7-a" "b3.8" "gra7-a" {} none).2.2.2.2.2.1 [] [scenarioPoolThree]
        [scenarioPoolThree] [scenarioPoolThree] (Or.inl ⟨by decide, rfl, rfl⟩) rfl).1
          scenarioPoolThree (by decide)).2.1.trans (by decide),
    (((getOrCreatePool_single_mutation scenarioConstants memClient [] []
      "karpenter-b3-8-gra7-a" "b3.8" "gra7-a" {} none).2.2.2.2.2.1 [] [] [] []
        (Or.inl ⟨by decide, rfl, rfl⟩) rfl).2.1 (by decide)).1⟩

/-- C3: in getOrCreatePool the cached pool ID is never scaled without a
successful GetNodePool of that ID earlier in the same call: an update that no
listing precedes (the update of the ID found in the cache) has a successful
GetNodePool of that ID before it, and every ID that is scaled at all either
was read successfully by the first call or was reported under the pool name
by the listing.  When the read of the cached ID fails, ListNodePools is
consulted next and the stale entry is gone: if the listing fails the name is
no longer in the cache, and whatever the cache holds for the name afterwards
was reported by the remote in this call.  After every successful call the
cache maps the pool name to the ID of the pool that was scaled or created. -/
theorem getOrCreatePool_cache_is_hint {σ : Type} (K : Constants) (c : OVHClient σ)
    (poolCache : GoMap) (s : σ) (name flavor zone : String)
    (nodeClass : OVHNodeClass) (nodeClaim : Option NodeClaim) :
    (∀ (pre post : List Event) (id : String) (req : UpdateNodePoolRequest)
        (res : Except ClientError NodePool),
        (getOrCreatePool K c poolCache s name flavor zone nodeClass nodeClaim).calls
          = pre ++ Event.UpdateNodePool id req res :: post →
        (∀ l, Event.ListNodePools l ∉ pre) →
        poolCache.get? name = some id ∧ ∃ q, Event.GetNodePool id (.ok q) ∈ pre)
    ∧ (∀ (id : String) (req : UpdateNodePoolRequest) (res : Except ClientError NodePool),
        Event.UpdateNodePool id req res
          ∈ (getOrCreatePool K c poolCache s name flavor zone nodeClass nodeClaim).calls →
        (∃ q, (getOrCreatePool K c poolCache s name flavor zone nodeClass nodeClaim).calls.head?
            = some (Event.GetNodePool id (.ok q)))
        ∨ (∃ pools q, Event.ListNodePools (.ok pools)
              ∈ (getOrCreatePool K c poolCache s name flavor zone nodeClass nodeClaim).calls ∧
            pools.find? (fun pool => pool.Name == name) = some q ∧ q.ID = id))
    ∧ (∀ (id : String) (e : ClientError) (s1 : σ),
        poolCache.get? name = some id → c.GetNodePool s id = (.error e, s1) →
        (∃ rest, (getOrCreatePool K c poolCache s name flavor zone nodeClass nodeClaim).calls
            = Event.GetNodePool id (.error e) :: Event.ListNodePools (c.ListNodePools s1).1 :: rest)
        ∧ (∀ e2 s2, c.ListNodePools s1 = (.error e2, s2) →
            (getOrCreatePool K c poolCache s name flavor zone nodeClass nodeClaim).result
              = .error (.wrapf "listing pools: " (.client e2)) ∧
            (getOrCreatePool K c poolCache s name flavor zone nodeClass nodeClaim).poolCache.get? name
              = none)
        ∧ (∀ id2,
            (getOrCreatePool K c poolCache s name flavor zone nodeClass nodeClaim).poolCache.get? name
              = some id2 →
            (∃ pools q, Event.ListNodePools (.ok pools)
                ∈ (getOrCreatePool K c poolCache s name flavor zone nodeClass nodeClaim).calls ∧
              pools.find? (fun pool => pool.Name == name) = some q ∧ q.ID = id2)
            ∨ (∃ req p, Event.CreateNodePool req (.ok p)
                ∈ (getOrCreatePool K c poolCache s name flavor zone nodeClass nodeClaim).calls ∧
              p.ID = id2)))
    ∧ (∀ p, (getOrCreatePool K c poolCache s name flavor zone nodeClass nodeClaim).result = .ok p →
        ∃ id,
          (getOrCreatePool K c poolCache s name flavor zone nodeClass nodeClaim).poolCache.get? name
            = some id ∧
          ((∃ req u, Event.UpdateNodePool id req (.ok u)
              ∈ (getOrCreatePool K c poolCache s name flavor zone nodeClass nodeClaim).calls)
           ∨ (∃ req, Event.CreateNodePool req (.ok p)
              ∈ (getOrCreatePool K c poolCache s name flavor zone nodeClass nodeClaim).calls ∧
              p.ID = id))) :=
  ⟨fun pre post id req res h1 h2 =>
      getOrCreatePool_update_validated K c poolCache s name flavor zone nodeClass nodeClaim
        pre post id req res h1 h2,
    fun id req res hmem =>
      getOrCreatePool_update_target K c poolCache s name flavor zone nodeClass nodeClaim
        id req res hmem,
    fun id e s1 hc hg =>
      getOrCreatePool_stale_entry K c poolCache s name flavor zone nodeClass nodeClaim id e s1 hc hg,
    fun p hok =>
      getOrCreatePool_cache_after_success K c poolCache s name flavor zone nodeClass nodeClaim p hok⟩

/-- Witness for C3: with a cache entry naming a pool that no longer exists and
a remote that fails every call, the read fails, the listing fails, and the
name is no longer in the cache. -/
theorem getOrCreatePool_cache_is_hint_witness :
    GoMap.get? [("karpenter-b3-8-gra7-a", "pool-9")] "karpenter-b3-8-gra7-a" = some "pool-9"
    ∧ failingClient.GetNodePool () "pool-9" = (.error (.leaf "500 internal error"), ())
    ∧ failingClient.ListNodePools () = (.error (.leaf "500 internal error"), ())
    ∧ (getOrCreatePool scenarioConstants failingClient [("karpenter-b3-8-gra7-a", "pool-9")] ()
          "karpenter-b3-8-gra7-a" "b3.8" "gra7-a" {} none).result
        = .error (.wrapf "listing pools: " (.client (.leaf "500 internal error")))
    ∧ (getOrCreatePool scenarioConstants failingClient [("karpenter-b3-8-gra7-a", "pool-9")] ()
          "karpenter-b3-8-gra7-a" "b3.8" "gra7-a" {} none).poolCache.get? "karpenter-b3-8-gra7-a"
        = none :=
  ⟨by decide, rfl, rfl,
    ((getOrCreatePool_cache_is_hint scenarioConstants failingClient
      [("karpenter-b3-8-gra7-a", "pool-9")] () "karpenter-b3-8-gra7-a" "b3.8" "gra7-a" {} none).2.2.1
        "pool-9" (.leaf "500 internal error") () (by decide) rfl).2.1
        (.leaf "500 internal error") () rfl⟩

/-- C5: for every claim carrying a pool annotation whose pool read succeeds
with desired count `d`: if `d ≤ 1`, Delete issues DeleteNodePool for that pool
and no update, and when that call succeeds one cache entry mapping to the pool
ID is removed (so none is left when the entry was the only one) while entries
for other pool IDs are unchanged; if `d > 1`, Delete issues exactly one
UpdateNodePool with `DesiredNodes = d - 1`, no delete, and leaves the cache
unchanged. -/
theorem Delete_removes_or_scales_down {σ : Type} (K : Constants) (c : OVHClient σ)
    (poolCache : GoMap) (s : σ) (nodeClaim : NodeClaim) (poolID : String) (pool : NodePool)
    (s1 : σ)
    (hpid : nodeClaim.Annotations.get (AnnotationOVHPoolID K) = poolID)
    (hid : poolID ≠ "")
    (hget : c.GetNodePool s poolID = (.ok pool, s1)) :
    (pool.DesiredNodes ≤ 1 →
      (Delete K c poolCache s nodeClaim).calls
        = [.GetNodePool poolID (.ok pool), .DeleteNodePool poolID (c.DeleteNodePool s1 poolID).1]
      ∧ ((c.DeleteNodePool s1 poolID).1 = none → poolCache.WF →
          (∀ n id, id ≠ poolID →
            ((Delete K c poolCache s nodeClaim).poolCache.get? n = some id
              ↔ poolCache.get? n = some id))
          ∧ ((∃ n, poolCache.get? n = some poolID) →
              ∃ n0, poolCache.get? n0 = some poolID ∧
                (Delete K c poolCache s nodeClaim).poolCache.get? n0 = none ∧
                ∀ n, n ≠ n0 →
                  (Delete K c poolCache s nodeClaim).poolCache.get? n = poolCache.get? n)
          ∧ ((∀ n m, poolCache.get? n = some poolID → poolCache.get? m = some poolID → n = m) →
              ∀ n, (Delete K c poolCache s nodeClaim).poolCache.get? n ≠ some poolID)))
    ∧ (1 < pool.DesiredNodes →
      (Delete K c poolCache s nodeClaim).calls
        = [.GetNodePool poolID (.ok pool),
           .UpdateNodePool poolID { DesiredNodes := int64Sub pool.DesiredNodes 1 }
             (c.UpdateNodePool s1 poolID { DesiredNodes := int64Sub pool.DesiredNodes 1 }).1]
      ∧ (IsInt64 pool.DesiredNodes → int64Sub pool.DesiredNodes 1 = pool.DesiredNodes - 1)
      ∧ (Delete K c poolCache s nodeClaim).poolCache = poolCache) := by
  subst hpid
  rcases Delete_cases K c poolCache s nodeClaim with
    ⟨h0, _⟩ | ⟨_, ⟨e, s1b, hg, _⟩ | ⟨pool2, s1b, r, s2, hg, hd, hdel, heq⟩ |
      ⟨pool2, s1b, r, s2, hg, hd, hu, heq⟩⟩
  · exact absurd h0 hid
  · rw [hget] at hg; simp at hg
  · rw [hget] at hg
    simp only [Prod.mk.injEq, Except.ok.injEq] at hg
    obtain ⟨hp, hs⟩ := hg
    subst hp; subst hs
    constructor
    · intro _
      rw [heq, hdel]
      refine ⟨rfl, ?_⟩
      intro hnone hwf
      simp only at hnone
      subst hnone
      obtain ⟨e1, e2, e3, _⟩ := evictPoolID_spec poolCache
        (nodeClaim.Annotations.get (AnnotationOVHPoolID K)) hwf
      exact ⟨e1, e2, e3⟩
    · intro h; omega
  · rw [hget] at hg
    simp only [Prod.mk.injEq, Except.ok.injEq] at hg
    obtain ⟨hp, hs⟩ := hg
    subst hp; subst hs
    constructor
    · intro h; omega
    · intro _
      rw [heq, hu]
      exact ⟨rfl, fun h => int64Sub_one_exact _ h hd, rfl⟩

/-- Witness for C5: a claim bound to `pool-0`, whose desired count is 1, with
a cache of two entries. -/
theorem Delete_removes_or_scales_down_witness :
    scenarioClaim.Annotations.get (AnnotationOVHPoolID scenarioConstants) = "pool-0"
    ∧ "pool-0" ≠ ""
    ∧ memClient.GetNodePool [scenarioPoolOne] "pool-0" = (.ok scenarioPoolOne, [scenarioPoolOne])
    ∧ scenarioPoolOne.DesiredNodes ≤ 1
    ∧ GoMap.WF [("karpenter-b3-8-gra7-a", "pool-0"), ("karpenter-c3-16-gra7-a", "pool-1")]
    ∧ (Delete scenarioConstants memClient
          [("karpenter-b3-8-gra7-a", "pool-0"), ("karpenter-c3-16-gra7-a", "pool-1")]
          [scenarioPoolOne] scenarioClaim).calls
        = [.GetNodePool "pool-0" (.ok scenarioPoolOne), .DeleteNodePool "pool-0" none]
    ∧ (Delete scenarioConstants memClient
          [("karpenter-b3-8-gra7-a", "pool-0"), ("karpenter-c3-16-gra7-a", "pool-1")]
          [scenarioPoolOne] scenarioClaim).poolCache.get? "karpenter-c3-16-gra7-a"
        = some "pool-1" :=
  ⟨by decide, by decide, by decide, by decide, by decide,
    ((Delete_removes_or_scales_down scenarioConstants memClient
      [("karpenter-b3-8-gra7-a", "pool-0"), ("karpenter-c3-16-gra7-a", "pool-1")]
      [scenarioPoolOne] scenarioClaim "pool-0" scenarioPoolOne [scenarioPoolOne]
      (by decide) (by decide) (by decide)).1 (by decide)).1,
    ((((Delete_removes_or_scales_down scenarioConstants memClient
      [("karpenter-b3-8-gra7-a", "pool-0"), ("karpenter-c3-16-gra7-a", "pool-1")]
      [scenarioPoolOne] scenarioClaim "pool-0" scenarioPoolOne [scenarioPoolOne]
      (by decide) (by decide) (by decide)).1 (by decide)).2 (by decide) (by decide)).1
        "karpenter-c3-16-gra7-a" "pool-1" (by decide)).mpr (by decide)⟩

/-- C6: Delete never returns nil.  It returns a not-found-class error when the
pool annotation is missing or empty (without any remote call), when the pool
read fails (without any mutating call), and whenever the pool delete or the
scale-down succeeds; it returns an error that is not not-found-class exactly
when the remote delete or scale-down call fails: once the pool is read with
desired count `d`, Delete asks the remote to delete the pool (`d ≤ 1`) or to
scale it to `d - 1` (`d > 1`), and its error is not-found-class if the remote
answers with success and the wrapped error of the remote otherwise.  The
transcript is what the remote was asked and answered. -/
theorem Delete_error_class {σ : Type} (K : Constants) (c : OVHClient σ)
    (poolCache : GoMap) (s : σ) (nodeClaim : NodeClaim) (poolID : String)
    (hpid : nodeClaim.Annotations.get (AnnotationOVHPoolID K) = poolID) :
    (Delete K c poolCache s nodeClaim).result ≠ none
    ∧ ((nodeClaim.Annotations.get? (AnnotationOVHPoolID K) = none ∨
          nodeClaim.Annotations.get? (AnnotationOVHPoolID K) = some "") →
        IsNodeClaimNotFoundError (Delete K c poolCache s nodeClaim).result = true ∧
        (Delete K c poolCache s nodeClaim).calls = [] ∧
        (Delete K c poolCache s nodeClaim).remote = s)
    ∧ (poolID ≠ "" → ∀ e s1, c.GetNodePool s poolID = (.error e, s1) →
        IsNodeClaimNotFoundError (Delete K c poolCache s nodeClaim).result = true ∧
        (Delete K c poolCache s nodeClaim).calls.filter Event.isMutating = [] ∧
        (Delete K c poolCache s nodeClaim).calls = [.GetNodePool poolID (.error e)] ∧
        (Delete K c poolCache s nodeClaim).remote = s1)
    ∧ ((Event.DeleteNodePool poolID none ∈ (Delete K c poolCache s nodeClaim).calls ∨
          ∃ req u, Event.UpdateNodePool poolID req (.ok u)
            ∈ (Delete K c poolCache s nodeClaim).calls) →
        IsNodeClaimNotFoundError (Delete K c poolCache s nodeClaim).result = true)
    ∧ (IsNodeClaimNotFoundError (Delete K c poolCache s nodeClaim).result = false ↔
        ((∃ e, Event.DeleteNodePool poolID (some e) ∈ (Delete K c poolCache s nodeClaim).calls) ∨
          ∃ req e, Event.UpdateNodePool poolID req (.error e)
            ∈ (Delete K c poolCache s nodeClaim).calls))
    ∧ (poolID ≠ "" → ∀ pool s1, c.GetNodePool s poolID = (.ok pool, s1) →
        (pool.DesiredNodes ≤ 1 →
          (Delete K c poolCache s nodeClaim).calls
            = [.GetNodePool poolID (.ok pool),
               .DeleteNodePool poolID (c.DeleteNodePool s1 poolID).1]
          ∧ (Delete K c poolCache s nodeClaim).remote = (c.DeleteNodePool s1 poolID).2
          ∧ ((c.DeleteNodePool s1 poolID).1 = none →
              IsNodeClaimNotFoundError (Delete K c poolCache s nodeClaim).result = true)
          ∧ (∀ e, (c.DeleteNodePool s1 poolID).1 = some e →
              (Delete K c poolCache s nodeClaim).result
                = some (.wrapf "deleting pool: " (.client e))
              ∧ IsNodeClaimNotFoundError (Delete K c poolCache s nodeClaim).result = false))
        ∧ (1 < pool.DesiredNodes →
          (Delete K c poolCache s nodeClaim).calls
            = [.GetNodePool poolID (.ok pool),
               .UpdateNodePool poolID { DesiredNodes := int64Sub pool.DesiredNodes 1 }
                 (c.UpdateNodePool s1 poolID
                   { DesiredNodes := int64Sub pool.DesiredNodes 1 }).1]
          ∧ (Delete K c poolCache s nodeClaim).remote
            = (c.UpdateNodePool s1 poolID { DesiredNodes := int64Sub pool.DesiredNodes 1 }).2
          ∧ ((∃ u, (c.UpdateNodePool s1 poolID
                { DesiredNodes := int64Sub pool.DesiredNodes 1 }).1 = .ok u) →
              IsNodeClaimNotFoundError (Delete K c poolCache s nodeClaim).result = true)
          ∧ (∀ e, (c.UpdateNodePool s1 poolID
                { DesiredNodes := int64Sub pool.DesiredNodes 1 }).1 = .error e →
              (Delete K c poolCache s nodeClaim).result
                = some (.wrapf "scaling down pool: " (.client e))
              ∧ IsNodeClaimNotFoundError (Delete K c poolCache s nodeClaim).result = false)))
    ∧ (IsNodeClaimNotFoundError (Delete K c poolCache s nodeClaim).result = false ↔
        poolID ≠ "" ∧ ∃ pool s1, c.GetNodePool s poolID = (.ok pool, s1) ∧
          ((pool.DesiredNodes ≤ 1 ∧ ∃ e, (c.DeleteNodePool s1 poolID).1 = some e)
            ∨ (1 < pool.DesiredNodes ∧
                ∃ e, (c.UpdateNodePool s1 poolID
                  { DesiredNodes := int64Sub pool.DesiredNodes 1 }).1 = .error e)))
    ∧ replay c s (Delete K c poolCache s nodeClaim).calls
        = some (Delete K c poolCache s nodeClaim).remote := by
  subst hpid
  have hread : nodeClaim.Annotations.get (AnnotationOVHPoolID K) ≠ "" →
      ∀ pool s1, c.GetNodePool s (nodeClaim.Annotations.get (AnnotationOVHPoolID K))
          = (.ok pool, s1) →
        (pool.DesiredNodes ≤ 1 →
          (Delete K c poolCache s nodeClaim).calls
            = [.GetNodePool (nodeClaim.Annotations.get (AnnotationOVHPoolID K)) (.ok pool),
               .DeleteNodePool (nodeClaim.Annotations.get (AnnotationOVHPoolID K))
                 (c.DeleteNodePool s1 (nodeClaim.Annotations.get (AnnotationOVHPoolID K))).1]
          ∧ (Delete K c poolCache s nodeClaim).remote
            = (c.DeleteNodePool s1 (nodeClaim.Annotations.get (AnnotationOVHPoolID K))).2
          ∧ ((c.DeleteNodePool s1 (nodeClaim.Annotations.get (AnnotationOVHPoolID K))).1 = none →
              IsNodeClaimNotFoundError (Delete K c poolCache s nodeClaim).result = true)
          ∧ (∀ e, (c.DeleteNodePool s1
                (nodeClaim.Annotations.get (AnnotationOVHPoolID K))).1 = some e →
              (Delete K c poolCache s nodeClaim).result
                = some (.wrapf "deleting pool: " (.client e))
              ∧ IsNodeClaimNotFoundError (Delete K c poolCache s nodeClaim).result = false))
        ∧ (1 < pool.DesiredNodes →
          (Delete K c poolCache s nodeClaim).calls
            = [.GetNodePool (nodeClaim.Annotations.get (AnnotationOVHPoolID K)) (.ok pool),
               .UpdateNodePool (nodeClaim.Annotations.get (AnnotationOVHPoolID K))
                 { DesiredNodes := int64Sub pool.DesiredNodes 1 }
                 (c.UpdateNodePool s1 (nodeClaim.Annotations.get (AnnotationOVHPoolID K))
                   { DesiredNodes := int64Sub pool.DesiredNodes 1 }).1]
          ∧ (Delete K c poolCache s nodeClaim).remote
            = (c.UpdateNodePool s1 (nodeClaim.Annotations.get (AnnotationOVHPoolID K))
                { DesiredNodes := int64Sub pool.DesiredNodes 1 }).2
          ∧ ((∃ u, (c.UpdateNodePool s1 (nodeClaim.Annotations.get (AnnotationOVHPoolID K))
                { DesiredNodes := int64Sub pool.DesiredNodes 1 }).1 = .ok u) →
              IsNodeClaimNotFoundError (Delete K c poolCache s nodeClaim).result = true)
          ∧ (∀ e, (c.UpdateNodePool s1 (nodeClaim.Annotations.get (AnnotationOVHPoolID K))
                { DesiredNodes := int64Sub pool.DesiredNodes 1 }).1 = .error e →
              (Delete K c poolCache s nodeClaim).result
                = some (.wrapf "scaling down pool: " (.client e))
              ∧ IsNodeClaimNotFoundError (Delete K c poolCache s nodeClaim).result = false)) := by
    intro hne pool s1 hget
    obtain ⟨hdel, hupd⟩ := Delete_after_read K c poolCache s nodeClaim pool s1 hne hget
    constructor
    · intro hd
      obtain ⟨h1, h2, h3⟩ := hdel hd
      refine ⟨h1, h2, ?_, ?_⟩
      · intro hn
        rw [h3, hn]
        rfl
      · intro e he
        rw [h3, he]
        exact ⟨rfl, rfl⟩
    · intro hd
      obtain ⟨h1, h2, h3⟩ := hupd hd
      refine ⟨h1, h2, ?_, ?_⟩
      · rintro ⟨u, hu⟩
        rw [h3, hu]
        rfl
      · intro e he
        rw [h3, he]
        exact ⟨rfl, rfl⟩
  refine ⟨?_, ?_, ?_, ?_, ?_, hread, ?_, Delete_replay K c poolCache s nodeClaim⟩
  · rcases Delete_cases K c poolCache s nodeClaim with
      ⟨_, heq⟩ | ⟨_, ⟨e, s1, _, heq⟩ | ⟨pool, s1, r, s2, _, _, _, heq⟩ |
        ⟨pool, s1, r, s2, _, _, _, heq⟩⟩
    · rw [heq]; simp
    · rw [heq]; simp
    · rw [heq]; cases r <;> simp
    · rw [heq]; cases r <;> simp
  · intro hann
    rcases Delete_cases K c poolCache s nodeClaim with ⟨_, heq⟩ | ⟨hne, _⟩
    · rw [heq]
      exact ⟨rfl, rfl, rfl⟩
    · exfalso
      rcases hann with h | h <;> exact hne (by simp [GoMap.get, h])
  · intro hne e s1 hg
    rcases Delete_cases K c poolCache s nodeClaim with
      ⟨h0, _⟩ | ⟨_, ⟨e2, s1b, hg2, heq⟩ | ⟨pool, s1b, r, s2, hg2, _, _, _⟩ |
        ⟨pool, s1b, r, s2, hg2, _, _, _⟩⟩
    · exact absurd h0 hne
    · rw [hg] at hg2
      simp only [Prod.mk.injEq, Except.error.injEq] at hg2
      obtain ⟨he, hs⟩ := hg2
      subst he; subst hs
      rw [heq]
      exact ⟨rfl, by simp [Event.isMutating], rfl, rfl⟩
    · rw [hg] at hg2; simp at hg2
    · rw [hg] at hg2; simp at hg2
  · rcases Delete_cases K c poolCache s nodeClaim with
      ⟨_, heq⟩ | ⟨_, ⟨e, s1, _, heq⟩ | ⟨pool, s1, r, s2, _, _, _, heq⟩ |
        ⟨pool, s1, r, s2, _, _, _, heq⟩⟩
    · rw [heq]; simp
    · rw [heq]; simp [IsNodeClaimNotFoundError, CPError.IsNodeClaimNotFoundError]
    · rw [heq]
      cases r <;> simp [IsNodeClaimNotFoundError, CPError.IsNodeClaimNotFoundError]
    · rw [heq]
      cases r <;> simp [IsNodeClaimNotFoundError, CPError.IsNodeClaimNotFoundError]
  · rcases Delete_cases K c poolCache s nodeClaim with
      ⟨_, heq⟩ | ⟨_, ⟨e, s1, _, heq⟩ | ⟨pool, s1, r, s2, _, _, _, heq⟩ |
        ⟨pool, s1, r, s2, _, _, _, heq⟩⟩
    · rw [heq]; simp [IsNodeClaimNotFoundError, CPError.IsNodeClaimNotFoundError]
    · rw [heq]; simp [IsNodeClaimNotFoundError, CPError.IsNodeClaimNotFoundError]
    · rw [heq]
      cases r <;> simp [IsNodeClaimNotFoundError, CPError.IsNodeClaimNotFoundError]
    · rw [heq]
      cases r <;> simp [IsNodeClaimNotFoundError, CPError.IsNodeClaimNotFoundError]
  · constructor
    · intro hfalse
      rcases Delete_cases K c poolCache s nodeClaim with
        ⟨_, heq⟩ | ⟨hne, ⟨e, s1, _, heq⟩ | ⟨pool, s1, r, s2, hg, hd, hdel, heq⟩ |
          ⟨pool, s1, r, s2, hg, hd, hu, heq⟩⟩
      · rw [heq] at hfalse
        simp [IsNodeClaimNotFoundError, CPError.IsNodeClaimNotFoundError] at hfalse
      · rw [heq] at hfalse
        simp [IsNodeClaimNotFoundError, CPError.IsNodeClaimNotFoundError] at hfalse
      · refine ⟨hne, pool, s1, hg, Or.inl ⟨hd, ?_⟩⟩
        rw [heq] at hfalse
        cases r with
        | none => simp [IsNodeClaimNotFoundError, CPError.IsNodeClaimNotFoundError] at hfalse
        | some e => exact ⟨e, by rw [hdel]⟩
      · refine ⟨hne, pool, s1, hg, Or.inr ⟨hd, ?_⟩⟩
        rw [heq] at hfalse
        cases r with
        | ok u => simp [IsNodeClaimNotFoundError, CPError.IsNodeClaimNotFoundError] at hfalse
        | error e => exact ⟨e, by rw [hu]⟩
    · rintro ⟨hne, pool, s1, hg, ⟨hd, e, he⟩ | ⟨hd, e, he⟩⟩
      · exact (((hread hne pool s1 hg).1 hd).2.2.2 e he).2
      · exact (((hread hne pool s1 hg).2 hd).2.2.2 e he).2

/-- Witness for C6: a claim without annotation; claims bound to `pool-0`
against a remote whose every call fails, against a remote that reads the pool
and refuses to delete it, and against the in-memory remote, which deletes it;
a claim bound to `pool-3`, of three nodes, against a remote that refuses to
scale it down. -/
theorem Delete_error_class_witness :
    scenarioClaim.Annotations.get (AnnotationOVHPoolID scenarioConstants) = "pool-0"
    ∧ (Delete scenarioConstants failingClient [] () scenarioClaim).result ≠ none
    ∧ IsNodeClaimNotFoundError (Delete scenarioConstants failingClient [] () scenarioClaim).result
        = true
    ∧ IsNodeClaimNotFoundError
        (Delete scenarioConstants memClient [] [scenarioPoolThree] { Name := "bare" }).result
        = true
    ∧ IsNodeClaimNotFoundError (Delete scenarioConstants stuckClient [] () scenarioClaim).result
        = false
    ∧ IsNodeClaimNotFoundError
        (Delete scenarioConstants stuckClient [] () scenarioClaimThree).result = false
    ∧ IsNodeClaimNotFoundError
        (Delete scenarioConstants memClient [] [scenarioPoolOne] scenarioClaim).result = true
    ∧ (Delete scenarioConstants memClient [] [scenarioPoolOne] scenarioClaim).remote = [] :=
  ⟨by decide,
    (Delete_error_class scenarioConstants failingClient [] () scenarioClaim "pool-0"
      (by decide)).1,
    ((Delete_error_class scenarioConstants failingClient [] () scenarioClaim "pool-0"
      (by decide)).2.2.1 (by decide) (.leaf "500 internal error") () rfl).1,
    ((Delete_error_class scenarioConstants memClient [] [scenarioPoolThree] { Name := "bare" } ""
      (by decide)).2.1 (Or.inl (by decide))).1,
    ((((Delete_error_class scenarioConstants stuckClient [] () scenarioClaim "pool-0"
      (by decide)).2.2.2.2.2.1 (by decide) _ () rfl).1 (by decide)).2.2.2
        (.leaf "500 internal error") rfl).2,
    ((((Delete_error_class scenarioConstants stuckClient [] () scenarioClaimThree "pool-3"
      (by decide)).2.2.2.2.2.1 (by decide) _ () rfl).2 (by decide)).2.2.2
        (.leaf "500 internal error") rfl).2,
    (((Delete_error_class scenarioConstants memClient [] [scenarioPoolOne] scenarioClaim "pool-0"
      (by decide)).2.2.2.2.2.1 (by decide) scenarioPoolOne [scenarioPoolOne] (by decide)).1
        (by decide)).2.2.1 (by decide),
    ((((Delete_error_class scenarioConstants memClient [] [scenarioPoolOne] scenarioClaim "pool-0"
      (by decide)).2.2.2.2.2.1 (by decide) scenarioPoolOne [scenarioPoolOne] (by decide)).1
        (by decide)).2.1).trans (by decide)⟩

/-! ## The claims about the retry executor -/

/-- C7: for every `k` with `0 ≤ k ≤ MaxRetries`, if the wrapped call fails with
retryable errors on its first `k` invocations and succeeds with value `v` on
invocation `k + 1`, and the context is not cancelled during the waits,
retryableAPICall returns `(v, nil)` after exactly `k + 1` invocations, which
is at most `MaxRetries + 1`. -/
theorem retryableAPICall_succeeds_after_retries {T : Type} [Inhabited T] (config : RetryConfig)
    (operation : String) (fn : Nat → T × Option ClientError)
    (ctxDone : Nat → Option ClientError) (k : Nat) (v : T)
    (hk : (k : Int) ≤ config.MaxRetries)
    (hfail : ∀ i, i < k → isRetryableError (fn i).2 = true)
    (hsucc : fn k = (v, none))
    (hctx : ∀ i, i < k → ctxDone i = none) :
    retryableAPICall config operation fn ctxDone
        = { result := v, err := none, invocations := k + 1 }
    ∧ (((retryableAPICall config operation fn ctxDone).invocations : Int)
        ≤ config.MaxRetries + 1) := by
  have h := retry_success_after_failures config operation fn ctxDone k v hk hfail hsucc hctx
  refine ⟨h, ?_⟩
  rw [h]
  simp only
  omega

/-- Witness for C7: two retryable failures, then 7, under the default configuration. -/
theorem retryableAPICall_succeeds_after_retries_witness :
    ((2 : Nat) : Int) ≤ DefaultRetryConfig.MaxRetries
    ∧ (∀ i, i < 2 → isRetryableError (failsTwiceThenSucceeds i).2 = true)
    ∧ failsTwiceThenSucceeds 2 = (7, none)
    ∧ (∀ i, i < 2 → neverCancelled i = none)
    ∧ retryableAPICall DefaultRetryConfig "ListNodePools" failsTwiceThenSucceeds neverCancelled
        = { result := 7, err := none, invocations := 3 } :=
  ⟨by decide, by decide, by decide, by decide,
    (retryableAPICall_succeeds_after_retries DefaultRetryConfig "ListNodePools"
      failsTwiceThenSucceeds neverCancelled 2 7 (by decide) (by decide) (by decide)
      (by decide)).1⟩

/-- C8: for every retry configuration with `MaxRetries ≥ 0` and every call
whose first invocation fails with an error that isRetryableError classifies
as non-retryable, retryableAPICall and retryableVoidCall invoke the call
exactly once and return that error itself, unwrapped. -/
theorem retry_terminal_error_single_attempt {T : Type} [Inhabited T] (config : RetryConfig)
    (operation : String) (fn : Nat → T × Option ClientError) (fnVoid : Nat → Option ClientError)
    (ctxDone : Nat → Option ClientError) (e : ClientError)
    (h0 : 0 ≤ config.MaxRetries)
    (hterm : isRetryableError (some e) = false) :
    ((fn 0).2 = some e →
      (retryableAPICall config operation fn ctxDone).invocations = 1 ∧
      (retryableAPICall config operation fn ctxDone).err = some e ∧
      (retryableAPICall config operation fn ctxDone).result = (fn 0).1)
    ∧ (fnVoid 0 = some e →
      (retryableVoidCall config operation fnVoid ctxDone).invocations = 1 ∧
      (retryableVoidCall config operation fnVoid ctxDone).err = some e) := by
  constructor
  · intro herr
    rw [retry_terminal_error_once config operation fn ctxDone e h0 herr hterm]
    exact ⟨rfl, rfl, rfl⟩
  · intro herr
    rw [retryVoid_terminal_error_once config operation fnVoid ctxDone e h0 herr hterm]
    exact ⟨rfl, rfl⟩

/-- Witness for C8: a 404 answer is returned after one invocation. -/
theorem retry_terminal_error_single_attempt_witness :
    0 ≤ DefaultRetryConfig.MaxRetries
    ∧ isRetryableError (some (ClientError.leaf "getting node pool p1: HTTP 404")) = false
    ∧ (retryableAPICall DefaultRetryConfig "GetNodePool" failsTerminally neverCancelled).invocations
        = 1
    ∧ (retryableAPICall DefaultRetryConfig "GetNodePool" failsTerminally neverCancelled).err
        = some (.leaf "getting node pool p1: HTTP 404") :=
  ⟨by decide, by decide,
    ((retry_terminal_error_single_attempt DefaultRetryConfig "GetNodePool" failsTerminally
      (fun _ => none) neverCancelled (.leaf "getting node pool p1: HTTP 404") (by decide)
      (by decide)).1 rfl).1,
    ((retry_terminal_error_single_attempt DefaultRetryConfig "GetNodePool" failsTerminally
      (fun _ => none) neverCancelled (.leaf "getting node pool p1: HTTP 404") (by decide)
      (by decide)).1 rfl).2.1⟩

/-- C9: for every configuration with `MaxRetries ≥ 0`, if every invocation
fails with a retryable error and the context is not cancelled,
retryableAPICall invokes the call exactly `MaxRetries + 1` times and returns
an error that wraps the error of the last invocation and whose message is
`<operation> failed after <MaxRetries+1> retries: <last error>`; for no
behaviour of the call and the context is the call invoked more than
`MaxRetries + 1` times. -/
theorem retryableAPICall_exhausts_budget {T : Type} [Inhabited T] (config : RetryConfig)
    (operation : String) (fn : Nat → T × Option ClientError)
    (ctxDone : Nat → Option ClientError)
    (h0 : 0 ≤ config.MaxRetries)
    (hfail : ∀ i, isRetryableError (fn i).2 = true)
    (hctx : ∀ i, ctxDone i = none) :
    ((retryableAPICall config operation fn ctxDone).invocations : Int) = config.MaxRetries + 1
    ∧ (∃ last err, (fn config.MaxRetries.toNat).2 = some last ∧
        (retryableAPICall config operation fn ctxDone).err = some err ∧
        err.Unwrap = some last ∧
        err.Error = operation ++ " failed after " ++ formatInt (config.MaxRetries + 1)
          ++ " retries: " ++ last.Error)
    ∧ (∀ (fn2 : Nat → T × Option ClientError) (ctxDone2 : Nat → Option ClientError),
        ((retryableAPICall config operation fn2 ctxDone2).invocations : Int)
          ≤ config.MaxRetries + 1) := by
  have h := retry_exhausted config operation fn ctxDone h0 hfail hctx
  refine ⟨?_, ?_, ?_⟩
  · rw [h]; simp only; omega
  · cases hl : (fn config.MaxRetries.toNat).2 with
    | none =>
      have := isRetryableError_ne_none (hfail config.MaxRetries.toNat)
      exact absurd hl this
    | some last =>
      refine ⟨last, exhaustedError config operation (some last), rfl, ?_, rfl, rfl⟩
      rw [h, hl]
  · intro fn2 ctxDone2
    have hle := retryLoop_invocations_le config operation fn2 ctxDone2
      (config.MaxRetries + 1).toNat 0 default none
    unfold retryableAPICall
    omega

/-- Witness for C9: under the default configuration a call that always
answers `connection refused` is invoked four times. -/
theorem retryableAPICall_exhausts_budget_witness :
    0 ≤ DefaultRetryConfig.MaxRetries
    ∧ (∀ i, isRetryableError (failsAlways i).2 = true)
    ∧ (∀ i, neverCancelled i = none)
    ∧ ((retryableAPICall DefaultRetryConfig "ListNodePools" failsAlways
          neverCancelled).invocations : Int) = 4 :=
  ⟨by decide,
    fun _ => (by decide : isRetryableError (some (ClientError.leaf "connection refused")) = true),
    fun _ => rfl,
    (retryableAPICall_exhausts_budget DefaultRetryConfig "ListNodePools" failsAlways
      neverCancelled (by decide)
      (fun _ => (by decide : isRetryableError (some (ClientError.leaf "connection refused")) = true))
      (fun _ => rfl)).1⟩

/-- C10: if the context is cancelled while retryableAPICall is waiting out the
backoff that follows a retryable failure, it returns the cancellation error of
the context as its result and does not invoke the wrapped call again. -/
theorem retryableAPICall_cancelled_during_backoff {T : Type} [Inhabited T]
    (config : RetryConfig) (operation : String) (fn : Nat → T × Option ClientError)
    (ctxDone : Nat → Option ClientError) (k : Nat) (ctxErr : ClientError)
    (hk : (k : Int) < config.MaxRetries)
    (hprev : ∀ i, i < k → isRetryableError (fn i).2 = true ∧ ctxDone i = none)
    (hfail : isRetryableError (fn k).2 = true)
    (hcancel : ctxDone k = some ctxErr) :
    (retryableAPICall config operation fn ctxDone).err = some ctxErr
    ∧ (retryableAPICall config operation fn ctxDone).invocations = k + 1
    ∧ (retryableAPICall config operation fn ctxDone).result = (fn k).1 := by
  rw [retry_cancelled_in_wait config operation fn ctxDone k ctxErr hk hprev hfail hcancel]
  exact ⟨rfl, rfl, rfl⟩

/-- Witness for C10: cancellation during the wait after the second attempt. -/
theorem retryableAPICall_cancelled_during_backoff_witness :
    ((1 : Nat) : Int) < DefaultRetryConfig.MaxRetries
    ∧ (∀ i, i < 1 → isRetryableError (failsAlways i).2 = true ∧ cancelledInSecondWait i = none)
    ∧ isRetryableError (failsAlways 1).2 = true
    ∧ cancelledInSecondWait 1 = some (.leaf "context canceled")
    ∧ (retryableAPICall DefaultRetryConfig "ListNodePools" failsAlways
          cancelledInSecondWait).err = some (.leaf "context canceled")
    ∧ (retryableAPICall DefaultRetryConfig "ListNodePools" failsAlways
          cancelledInSecondWait).invocations = 2 :=
  ⟨by decide, by decide, by decide, by decide,
    (retryableAPICall_cancelled_during_backoff DefaultRetryConfig "ListNodePools" failsAlways
      cancelledInSecondWait 1 (.leaf "context canceled") (by decide) (by decide) (by decide)
      (by decide)).1,
    (retryableAPICall_cancelled_during_backoff DefaultRetryConfig "ListNodePools" failsAlways
      cancelledInSecondWait 1 (.leaf "context canceled") (by decide) (by decide) (by decide)
      (by decide)).2.1⟩

/-! ## Classification of errors -/

/-- C11: isRetryableError does not classify every 5xx server error as
retryable.  An error whose message carries the code 501, or the code 599, and
none of the substrings the function looks for is classified as terminal; the
codes the function looks for, such as 503 in the same message, are
classified as retryable. -/
theorem isRetryableError_misses_5xx_codes :
    isRetryableError (some (.leaf "listing node pools: HTTP Error 501: Not Implemented")) = false
    ∧ isRetryableError (some (.wrapf "listing node pools: " (.leaf "HTTP Error 599"))) = false
    ∧ isRetryableError (some (.leaf "listing node pools: HTTP Error 503: Not Implemented")) = true := by
  decide

/-! ## Backoff -/

theorem cappedBackoff_eq_min (attempt : Int) (config : RetryConfig) :
    cappedBackoff attempt config
      = min ((config.InitialBackoff : ℚ) * config.BackoffFactor ^ attempt) (config.MaxBackoff : ℚ) := by
  unfold cappedBackoff
  simp only []
  by_cases h : (config.InitialBackoff : ℚ) * config.BackoffFactor ^ attempt > (config.MaxBackoff : ℚ)
  · rw [if_pos h, min_eq_right (le_of_lt h)]
  · rw [if_neg h, min_eq_left (not_lt.mp h)]

theorem cappedBackoff_nonneg (attempt : Int) (config : RetryConfig)
    (hI : 0 ≤ config.InitialBackoff) (hM : 0 ≤ config.MaxBackoff) (hF : 1 ≤ config.BackoffFactor) :
    0 ≤ cappedBackoff attempt config := by
  rw [cappedBackoff_eq_min]
  have h1 : (0 : ℚ) ≤ (config.InitialBackoff : ℚ) := by exact_mod_cast hI
  have h2 : (0 : ℚ) ≤ (config.MaxBackoff : ℚ) := by exact_mod_cast hM
  have h3 : (0 : ℚ) ≤ config.BackoffFactor ^ attempt :=
    zpow_nonneg (le_trans zero_le_one hF) attempt
  exact le_min (mul_nonneg h1 h3) h2

theorem cappedBackoff_le_max (attempt : Int) (config : RetryConfig) :
    cappedBackoff attempt config ≤ (config.MaxBackoff : ℚ) := by
  rw [cappedBackoff_eq_min]
  exact min_le_right _ _

theorem cappedBackoff_mono (config : RetryConfig) (a b : Int) (hab : a ≤ b)
    (hI : 0 ≤ config.InitialBackoff) (hF : 1 ≤ config.BackoffFactor) :
    cappedBackoff a config ≤ cappedBackoff b config := by
  rw [cappedBackoff_eq_min, cappedBackoff_eq_min]
  have h1 : (0 : ℚ) ≤ (config.InitialBackoff : ℚ) := by exact_mod_cast hI
  have h2 : config.BackoffFactor ^ a ≤ config.BackoffFactor ^ b := zpow_le_zpow_right₀ hF hab
  exact min_le_min (mul_le_mul_of_nonneg_left h2 h1) (le_refl _)

theorem jitteredBackoff_band (attempt : Int) (config : RetryConfig) (draw : ℚ)
    (hI : 0 ≤ config.InitialBackoff) (hM : 0 ≤ config.MaxBackoff) (hF : 1 ≤ config.BackoffFactor)
    (hd0 : 0 ≤ draw) (hd1 : draw < 1) :
    (3 / 4 : ℚ) * cappedBackoff attempt config ≤ jitteredBackoff attempt config draw
    ∧ jitteredBackoff attempt config draw ≤ (5 / 4 : ℚ) * cappedBackoff attempt config := by
  have hb := cappedBackoff_nonneg attempt config hI hM hF
  unfold jitteredBackoff
  simp only []
  constructor
  · nlinarith [mul_nonneg hb hd0]
  · nlinarith [mul_nonneg hb (le_of_lt (sub_pos.mpr hd1))]

theorem truncateToInt_of_nonneg (x : ℚ) (hx : 0 ≤ x) :
    0 ≤ truncateToInt x ∧ (truncateToInt x : ℚ) ≤ x ∧ x - 1 < (truncateToInt x : ℚ) := by
  unfold truncateToInt
  rw [if_pos hx]
  refine ⟨Int.floor_nonneg.mpr hx, Int.floor_le x, ?_⟩
  have := Int.lt_floor_add_one x
  linarith

/-- A value from zero up to below 2^63 is converted to its truncation. -/
theorem toDuration_in_range (outOfRange : ℚ → Int) (x : ℚ) (hx : 0 ≤ x) (hlt : x < 2 ^ 63) :
    toDuration outOfRange x = ⌊x⌋ := by
  obtain ⟨t0, t1, _⟩ := truncateToInt_of_nonneg x hx
  have hfl : truncateToInt x = ⌊x⌋ := by
    unfold truncateToInt
    rw [if_pos hx]
  have hup : truncateToInt x < 2 ^ 63 := by
    have h1 : (truncateToInt x : ℚ) < ((2 ^ 63 : Int) : ℚ) := by
      push_cast
      linarith
    exact_mod_cast h1
  unfold toDuration
  rw [if_pos ⟨by omega, hup⟩, hfl]

/-- A value of 2^63 or more is outside the range of the conversion. -/
theorem toDuration_out_of_range (outOfRange : ℚ → Int) (x : ℚ) (hge : (2 : ℚ) ^ 63 ≤ x) :
    toDuration outOfRange x = outOfRange x := by
  have hx : 0 ≤ x := le_trans (by norm_num) hge
  have hfl : truncateToInt x = ⌊x⌋ := by
    unfold truncateToInt
    rw [if_pos hx]
  have hlow : (2 ^ 63 : Int) ≤ ⌊x⌋ := by
    rw [Int.le_floor]
    push_cast
    exact hge
  unfold toDuration
  rw [if_neg (by rw [hfl]; omega)]

/-- C12 (as amended): for every configuration with `InitialBackoff ≥ 0`,
`MaxBackoff ≥ 0` and `BackoffFactor ≥ 1`, every attempt `≥ 0` and every jitter
draw in `[0, 1)`, the value `backoff + jitter` that calculateBackoff computes
lies between 0.75 and 1.25 times
`b(attempt) = min(InitialBackoff * BackoffFactor^attempt, MaxBackoff)`, and
`b` is non-decreasing in the attempt (float arithmetic taken over the
rationals).  When that value is below 2^63, as it is whenever
`1.25 * MaxBackoff < 2^63`, the returned duration is the value truncated to
whole nanoseconds, so it is non-negative, greater than `0.75 * b(attempt) - 1`,
at most `1.25 * b(attempt)` and at most `1.25 * MaxBackoff`; from 2^63 on the
value is outside the range of a duration and the result is whatever the
platform makes of the conversion. -/
theorem calculateBackoff_within_truncated_band (outOfRange : ℚ → Int) (attempt : Int)
    (config : RetryConfig) (draw : ℚ)
    (hI : 0 ≤ config.InitialBackoff) (hM : 0 ≤ config.MaxBackoff) (hF : 1 ≤ config.BackoffFactor)
    (_ha : 0 ≤ attempt) (hd0 : 0 ≤ draw) (hd1 : draw < 1) :
    cappedBackoff attempt config
        = min ((config.InitialBackoff : ℚ) * config.BackoffFactor ^ attempt)
            (config.MaxBackoff : ℚ)
    ∧ (3 / 4 : ℚ) * cappedBackoff attempt config ≤ jitteredBackoff attempt config draw
    ∧ jitteredBackoff attempt config draw ≤ (5 / 4 : ℚ) * cappedBackoff attempt config
    ∧ (jitteredBackoff attempt config draw < 2 ^ 63 →
        calculateBackoff outOfRange attempt config draw = ⌊jitteredBackoff attempt config draw⌋
        ∧ 0 ≤ calculateBackoff outOfRange attempt config draw
        ∧ calculateBackoff outOfRange attempt config draw < 2 ^ 63
        ∧ (3 / 4 : ℚ) * cappedBackoff attempt config - 1
            < (calculateBackoff outOfRange attempt config draw : ℚ)
        ∧ (calculateBackoff outOfRange attempt config draw : ℚ)
            ≤ (5 / 4 : ℚ) * cappedBackoff attempt config
        ∧ (calculateBackoff outOfRange attempt config draw : ℚ)
            ≤ (5 / 4 : ℚ) * (config.MaxBackoff : ℚ))
    ∧ ((5 / 4 : ℚ) * (config.MaxBackoff : ℚ) < 2 ^ 63 →
        jitteredBackoff attempt config draw < 2 ^ 63)
    ∧ ((2 : ℚ) ^ 63 ≤ jitteredBackoff attempt config draw →
        calculateBackoff outOfRange attempt config draw
          = outOfRange (jitteredBackoff attempt config draw))
    ∧ ∀ later : Int, attempt ≤ later →
        cappedBackoff attempt config ≤ cappedBackoff later config := by
  obtain ⟨hlo, hhi⟩ := jitteredBackoff_band attempt config draw hI hM hF hd0 hd1
  have hb := cappedBackoff_nonneg attempt config hI hM hF
  have hx : 0 ≤ jitteredBackoff attempt config draw := by linarith
  have hmax := cappedBackoff_le_max attempt config
  refine ⟨cappedBackoff_eq_min attempt config, hlo, hhi, ?_, ?_, ?_, ?_⟩
  · intro hlt
    have hfl := toDuration_in_range outOfRange _ hx hlt
    have hc : calculateBackoff outOfRange attempt config draw
        = ⌊jitteredBackoff attempt config draw⌋ := hfl
    have h0 : 0 ≤ ⌊jitteredBackoff attempt config draw⌋ := Int.floor_nonneg.mpr hx
    have h1 : (⌊jitteredBackoff attempt config draw⌋ : ℚ) ≤ jitteredBackoff attempt config draw :=
      Int.floor_le _
    have h2 := Int.lt_floor_add_one (jitteredBackoff attempt config draw)
    have h3 : ⌊jitteredBackoff attempt config draw⌋ < 2 ^ 63 := by
      have : (⌊jitteredBackoff attempt config draw⌋ : ℚ) < ((2 ^ 63 : Int) : ℚ) := by
        push_cast
        linarith
      exact_mod_cast this
    rw [hc]
    refine ⟨rfl, h0, h3, ?_, ?_, ?_⟩
    · linarith
    · linarith
    · linarith
  · intro hcap
    linarith
  · intro hge
    exact toDuration_out_of_range outOfRange _ hge
  · intro later hl
    exact cappedBackoff_mono config attempt later hl hI hF

/-- Witness for C12: the default configuration, fourth attempt, draw one half. -/
theorem calculateBackoff_within_truncated_band_witness :
    0 ≤ DefaultRetryConfig.InitialBackoff ∧ 0 ≤ DefaultRetryConfig.MaxBackoff
    ∧ 1 ≤ DefaultRetryConfig.BackoffFactor ∧ (0 : Int) ≤ 3 ∧ (0 : ℚ) ≤ 1 / 2 ∧ (1 / 2 : ℚ) < 1
    ∧ (5 / 4 : ℚ) * (DefaultRetryConfig.MaxBackoff : ℚ) < 2 ^ 63
    ∧ (calculateBackoff outOfRangeAmd64 3 DefaultRetryConfig (1 / 2) : ℚ)
        ≤ (5 / 4 : ℚ) * (DefaultRetryConfig.MaxBackoff : ℚ) :=
  have hcap : (5 / 4 : ℚ) * (DefaultRetryConfig.MaxBackoff : ℚ) < 2 ^ 63 := by
    norm_num [DefaultRetryConfig]
  ⟨by decide, by decide, by norm_num [DefaultRetryConfig], by decide, by norm_num, by norm_num,
    hcap,
    ((calculateBackoff_within_truncated_band outOfRangeAmd64 3 DefaultRetryConfig (1 / 2)
      (by decide) (by decide) (by norm_num [DefaultRetryConfig]) (by decide) (by norm_num)
      (by norm_num)).2.2.2.1
      ((calculateBackoff_within_truncated_band outOfRangeAmd64 3 DefaultRetryConfig (1 / 2)
        (by decide) (by decide) (by norm_num [DefaultRetryConfig]) (by decide) (by norm_num)
        (by norm_num)).2.2.2.2.1 hcap)).2.2.2.2.2⟩

/-- Counterexample to C12 as stated: with an initial and maximal backoff of
one nanosecond, factor 1, attempt 0 and draw 0, `b(0)` is 1 and
calculateBackoff returns `time.Duration(0.75) = 0`, which is below
`0.75 * b(0)`, whatever the platform.  With the largest duration as initial
and maximal backoff and draw 3/4 the value is above 2^63, and on amd64 the
conversion yields the smallest duration, which is negative. -/
theorem calculateBackoff_below_band :
    0 ≤ nanosecondConfig.InitialBackoff ∧ 0 ≤ nanosecondConfig.MaxBackoff
    ∧ 1 ≤ nanosecondConfig.BackoffFactor ∧ (0 : ℚ) ≤ 0 ∧ (0 : ℚ) < 1
    ∧ cappedBackoff 0 nanosecondConfig = 1
    ∧ calculateBackoff outOfRangeAmd64 0 nanosecondConfig 0 = 0
    ∧ ¬ ((3 / 4 : ℚ) * cappedBackoff 0 nanosecondConfig
          ≤ (calculateBackoff outOfRangeAmd64 0 nanosecondConfig 0 : ℚ))
    ∧ 0 ≤ largestConfig.InitialBackoff ∧ 0 ≤ largestConfig.MaxBackoff
    ∧ 1 ≤ largestConfig.BackoffFactor ∧ (0 : ℚ) ≤ 3 / 4 ∧ (3 / 4 : ℚ) < 1
    ∧ calculateBackoff outOfRangeAmd64 0 largestConfig (3 / 4) = -(2 ^ 63)
    ∧ ¬ ((3 / 4 : ℚ) * cappedBackoff 0 largestConfig
          ≤ (calculateBackoff outOfRangeAmd64 0 largestConfig (3 / 4) : ℚ)) := by
  have hb : cappedBackoff 0 nanosecondConfig = 1 := by
    simp [cappedBackoff, nanosecondConfig]
  have hj : jitteredBackoff 0 nanosecondConfig 0 = 3 / 4 := by
    simp only [jitteredBackoff, hb]
    norm_num
  have hc : calculateBackoff outOfRangeAmd64 0 nanosecondConfig 0 = 0 := by
    unfold calculateBackoff
    rw [toDuration_in_range _ _ (by rw [hj]; norm_num) (by rw [hj]; norm_num), hj]
    norm_num
  have hbl : cappedBackoff 0 largestConfig = 9223372036854775807 := by
    simp [cappedBackoff, largestConfig]
  have hjl : jitteredBackoff 0 largestConfig (3 / 4) = 9223372036854775807 * (9 / 8) := by
    simp only [jitteredBackoff, hbl]
    norm_num
  have hcl : calculateBackoff outOfRangeAmd64 0 largestConfig (3 / 4) = -(2 ^ 63) := by
    unfold calculateBackoff
    rw [toDuration_out_of_range _ _ (by rw [hjl]; norm_num)]
    rfl
  refine ⟨by decide, by decide, by norm_num [nanosecondConfig], le_refl _, by norm_num, hb, hc,
    ?_, by decide, by decide, by norm_num [largestConfig], by norm_num, by norm_num, hcl, ?_⟩
  · rw [hb, hc]
    norm_num
  · rw [hbl, hcl]
    norm_num

/-! ## Provider IDs -/

theorem isPrefixOf_self_append (pre rest : List Char) : pre.isPrefixOf (pre ++ rest) = true := by
  induction pre with
  | nil => simp [List.isPrefixOf]
  | cons a as ih => simp [List.isPrefixOf, ih]

theorem TrimPrefix_of_not_HasPrefix (s pre : String) (h : HasPrefix s pre = false) :
    TrimPrefix s pre = s := by
  simp [TrimPrefix, h]

theorem TrimPrefix_append (pre rest : String) : TrimPrefix (pre ++ rest) pre = rest := by
  have h : HasPrefix (pre ++ rest) pre = true := by
    simp [HasPrefix, String.data_append, isPrefixOf_self_append]
  simp [TrimPrefix, h, String.data_append]

theorem TrimPrefix_self (pre : String) : TrimPrefix pre pre = "" := by
  have h := TrimPrefix_append pre ""
  simpa using h

theorem String.append_ne_right_of_ne_empty (pre rest : String) (h : pre ≠ "") :
    pre ++ rest ≠ rest := by
  intro heq
  have hlen := congrArg (fun t : String => t.data.length) heq
  simp only [String.data_append, List.length_append] at hlen
  have h0 : pre.data.length = 0 := by omega
  apply h
  have hd : pre.data = [] := List.length_eq_zero.mp h0
  cases pre
  simp_all

/-- The claim that nodeToNodeClaim builds for a node. -/
theorem nodeToNodeClaim_result {σ : Type} (K : Constants) (c : OVHClient σ) (poolCache : GoMap)
    (s : σ) (node : Node) (poolID : String) :
    ∃ claim, (nodeToNodeClaim K c poolCache s node poolID).result = .ok claim ∧
      claimIdentity claim = nodeIdentity K poolID node ∧
      claim.NodeName = node.Name ∧
      claim.Labels.get? LabelInstanceTypeStable = some node.Flavor ∧
      (∀ e, e ∈ (nodeToNodeClaim K c poolCache s node poolID).calls →
        ∃ r, e = Event.GetNodePool poolID r) := by
  refine ⟨_, rfl, rfl, rfl, rfl, ?_⟩
  intro e he
  simp only [nodeToNodeClaim, extractZoneFromPoolName] at he
  rcases hg : c.GetNodePool s poolID with ⟨r, s1⟩
  rw [hg] at he
  cases r with
  | error err =>
    simp only [List.mem_singleton] at he
    exact ⟨_, he⟩
  | ok pool =>
    by_cases hz : pool.AvailabilityZone = ""
    · simp only [hz, ne_eq, not_true_eq_false, if_false, List.mem_singleton] at he
      exact ⟨_, he⟩
    · simp only [hz, ne_eq, not_false_eq_true, if_true, List.mem_singleton] at he
      exact ⟨_, he⟩

/-! ## Get -/

/-- The scan of Get returns the claim of the first node with the instance ID
among the successful listings of the managed pools, and a not-found error
when there is none. -/
theorem getScan_spec {σ : Type} (K : Constants) (c : OVHClient σ) (poolCache : GoMap)
    (instanceID : String) :
    ∀ (pools : List NodePool) (s : σ),
      match firstNodeWithInstanceID instanceID (poolNodeListings K c pools s) with
      | some (pool, node) =>
        ∃ claim, (getScan K c poolCache instanceID pools s).result = .ok claim ∧
          claimIdentity claim = nodeIdentity K pool.ID node
      | none =>
        (getScan K c poolCache instanceID pools s).result
          = .error (.nodeClaimNotFound (.errorf "node not found")) := by
  intro pools
  induction pools with
  | nil => intro s; simp [poolNodeListings, firstNodeWithInstanceID, getScan]
  | cons pool rest ih =>
    intro s
    by_cases hp : HasPrefix pool.Name K.PoolNamePrefix = true
    · rcases hl : c.ListPoolNodes s pool.ID with ⟨r, s1⟩
      cases r with
      | error err =>
        have := ih s1
        simp only [poolNodeListings, hp, if_true, hl, firstNodeWithInstanceID, getScan,
          Bool.not_true, Bool.false_eq_true, if_false]
        exact this
      | ok nodes =>
        cases hf : nodes.find? (fun node => node.InstanceID == instanceID) with
        | some node =>
          simp only [poolNodeListings, hp, if_true, hl, firstNodeWithInstanceID, getScan,
            Bool.not_true, Bool.false_eq_true, if_false, hf]
          obtain ⟨claim, h1, h2, _⟩ := nodeToNodeClaim_result K c poolCache s1 node pool.ID
          exact ⟨claim, h1, h2⟩
        | none =>
          have := ih s1
          simp only [poolNodeListings, hp, if_true, hl, firstNodeWithInstanceID, getScan,
            Bool.not_true, Bool.false_eq_true, if_false, hf]
          exact this
    · have := ih s
      simp only [poolNodeListings, hp, if_false, getScan, Bool.not_eq_true] at this ⊢
      simp only [Bool.not_eq_true] at hp
      simp only [hp, Bool.not_false, if_true]
      exact this

/-- Only pools of the listing whose name has the prefix are asked for their nodes. -/
theorem poolNodeListings_mem {σ : Type} (K : Constants) (c : OVHClient σ) :
    ∀ (pools : List NodePool) (s : σ) (pool : NodePool) (r : Except ClientError (List Node)),
      (pool, r) ∈ poolNodeListings K c pools s →
      pool ∈ pools ∧ HasPrefix pool.Name K.PoolNamePrefix = true := by
  intro pools
  induction pools with
  | nil => intro s pool r h; simp [poolNodeListings] at h
  | cons p rest ih =>
    intro s pool r h
    by_cases hp : HasPrefix p.Name K.PoolNamePrefix = true
    · simp only [poolNodeListings, hp, if_true, List.mem_cons, Prod.mk.injEq] at h
      rcases h with ⟨h1, _⟩ | h
      · subst h1; exact ⟨List.mem_cons_self _ _, hp⟩
      · obtain ⟨h1, h2⟩ := ih _ pool r h
        exact ⟨List.mem_cons_of_mem _ h1, h2⟩
    · simp only [poolNodeListings, hp, if_false] at h
      obtain ⟨h1, h2⟩ := ih _ pool r h
      exact ⟨List.mem_cons_of_mem _ h1, h2⟩

/-- The first node with an instance ID: every successful listing before its
pool has no such node, and in the listing of its pool no node before it is
one. -/
theorem firstNodeWithInstanceID_some (instanceID : String) :
    ∀ (listings : List (NodePool × Except ClientError (List Node))) (pool : NodePool)
      (node : Node),
      firstNodeWithInstanceID instanceID listings = some (pool, node) →
      node.InstanceID = instanceID ∧
      ∃ before nodes after, listings = before ++ (pool, .ok nodes) :: after ∧
        (∀ p ns n, (p, Except.ok ns) ∈ before → n ∈ ns → n.InstanceID ≠ instanceID) ∧
        ∃ pre post, nodes = pre ++ node :: post ∧ ∀ n, n ∈ pre → n.InstanceID ≠ instanceID := by
  intro listings
  induction listings with
  | nil => intro pool node h; simp [firstNodeWithInstanceID] at h
  | cons l rest ih =>
    intro pool node h
    obtain ⟨p, r⟩ := l
    cases r with
    | error err =>
      simp only [firstNodeWithInstanceID] at h
      obtain ⟨h1, before, nodes, after, h2, h3, h4⟩ := ih pool node h
      refine ⟨h1, (p, .error err) :: before, nodes, after, by rw [h2]; rfl, ?_, h4⟩
      intro p2 ns n hmem hn
      simp only [List.mem_cons, Prod.mk.injEq] at hmem
      rcases hmem with ⟨_, hbad⟩ | hmem
      · simp at hbad
      · exact h3 p2 ns n hmem hn
    | ok ns0 =>
      cases hf : ns0.find? (fun node => node.InstanceID == instanceID) with
      | some found =>
        simp only [firstNodeWithInstanceID, hf, Option.some.injEq, Prod.mk.injEq] at h
        obtain ⟨hp, hn⟩ := h
        subst hp; subst hn
        obtain ⟨hprop, pre, post, hsplit, hpre⟩ := List.find?_eq_some.mp hf
        refine ⟨by simpa using hprop, [], ns0, rest, rfl, ?_, pre, post, hsplit, ?_⟩
        · intro p2 ns n hmem; simp at hmem
        · intro n hn
          have := hpre n hn
          simpa using this
      | none =>
        simp only [firstNodeWithInstanceID, hf] at h
        obtain ⟨h1, before, nodes, after, h2, h3, h4⟩ := ih pool node h
        refine ⟨h1, (p, .ok ns0) :: before, nodes, after, by rw [h2]; rfl, ?_, h4⟩
        intro p2 ns n hmem hn
        simp only [List.mem_cons, Prod.mk.injEq] at hmem
        rcases hmem with ⟨_, hns⟩ | hmem
        · simp only [Except.ok.injEq] at hns
          subst hns
          have := List.find?_eq_none.mp hf n hn
          simpa using this
        · exact h3 p2 ns n hmem hn

/-- No first node exists exactly when no successful listing has a node with
the instance ID. -/
theorem firstNodeWithInstanceID_none (instanceID : String) :
    ∀ (listings : List (NodePool × Except ClientError (List Node))),
      firstNodeWithInstanceID instanceID listings = none ↔
      ∀ p ns n, (p, Except.ok ns) ∈ listings → n ∈ ns → n.InstanceID ≠ instanceID := by
  intro listings
  induction listings with
  | nil => simp [firstNodeWithInstanceID]
  | cons l rest ih =>
    obtain ⟨p, r⟩ := l
    cases r with
    | error err =>
      simp only [firstNodeWithInstanceID, ih, List.mem_cons, Prod.mk.injEq]
      constructor
      · intro h p2 ns n hmem hn
        rcases hmem with ⟨_, hbad⟩ | hmem
        · simp at hbad
        · exact h p2 ns n hmem hn
      · intro h p2 ns n hmem hn
        exact h p2 ns n (Or.inr hmem) hn
    | ok ns0 =>
      cases hf : ns0.find? (fun node => node.InstanceID == instanceID) with
      | some found =>
        simp only [firstNodeWithInstanceID, hf]
        constructor
        · intro h; simp at h
        · intro h
          exfalso
          have hmem : found ∈ ns0 := List.mem_of_find?_eq_some hf
          have hprop := List.find?_some hf
          exact h p ns0 found (List.mem_cons_self _ _) hmem (by simpa using hprop)
      | none =>
        simp only [firstNodeWithInstanceID, hf, ih, List.mem_cons, Prod.mk.injEq]
        constructor
        · intro h p2 ns n hmem hn
          rcases hmem with ⟨_, hns⟩ | hmem
          · simp only [Except.ok.injEq] at hns
            subst hns
            have := List.find?_eq_none.mp hf n hn
            simpa using this
          · exact h p2 ns n hmem hn
        · intro h p2 ns n hmem hn
          exact h p2 ns n (Or.inr hmem) hn

/-- C13: for every provider ID that does not start with ProviderPrefix, and
for the provider ID equal to ProviderPrefix itself, Get returns a
not-found-class error without issuing any remote call. -/
theorem Get_rejects_foreign_provider_id {σ : Type} (K : Constants) (c : OVHClient σ)
    (poolCache : GoMap) (s : σ) (providerID : String)
    (h : HasPrefix providerID K.ProviderPrefix = false ∨ providerID = K.ProviderPrefix) :
    (∃ e, (Get K c poolCache s providerID).result = .error e ∧
      e.IsNodeClaimNotFoundError = true)
    ∧ (Get K c poolCache s providerID).calls = []
    ∧ (Get K c poolCache s providerID).remote = s := by
  have hguard : TrimPrefix providerID K.ProviderPrefix = ""
      ∨ TrimPrefix providerID K.ProviderPrefix = providerID := by
    rcases h with h | h
    · exact Or.inr (TrimPrefix_of_not_HasPrefix _ _ h)
    · rw [h]; exact Or.inl (TrimPrefix_self _)
  have hres : Get K c poolCache s providerID
      = { result := .error
            (.nodeClaimNotFound (.errorf ("invalid provider ID format: " ++ providerID))),
          remote := s, calls := [] } := by
    unfold Get
    simp only [if_pos hguard]
  rw [hres]
  exact ⟨⟨_, rfl, rfl⟩, rfl, rfl⟩

/-- Witness for C13: an ID without the prefix `openstack:///`. -/
theorem Get_rejects_foreign_provider_id_witness :
    (HasPrefix "abc123" scenarioConstants.ProviderPrefix = false
      ∨ "abc123" = scenarioConstants.ProviderPrefix)
    ∧ (Get scenarioConstants nodesClient [] () "abc123").calls = []
    ∧ (Get scenarioConstants nodesClient [] () "openstack:///").calls = [] :=
  ⟨Or.inl (by decide),
    (Get_rejects_foreign_provider_id scenarioConstants nodesClient [] () "abc123"
      (Or.inl (by decide))).2.1,
    (Get_rejects_foreign_provider_id scenarioConstants nodesClient [] () "openstack:///"
      (Or.inr (by decide))).2.1⟩

/-- C14: for every provider ID of the form `ProviderPrefix + id` with `id`
non-empty (and a non-empty prefix), when ListNodePools succeeds, Get returns a
claim if and only if some pool whose name starts with PoolNamePrefix and whose
node listing succeeds contains a node with `InstanceID = id`; the claim is
built from the first such node in pool order then node order and its
ProviderID equals the input provider ID; otherwise Get returns a
not-found-class error.  Pools without the prefix and pools whose node listing
fails are skipped. -/
theorem Get_finds_first_matching_node {σ : Type} (K : Constants) (c : OVHClient σ)
    (poolCache : GoMap) (s s1 : σ) (id : String) (pools : List NodePool)
    (hpfx : K.ProviderPrefix ≠ "") (hid : id ≠ "")
    (hlist : c.ListNodePools s = (.ok pools, s1)) :
    (match firstNodeWithInstanceID id (poolNodeListings K c pools s1) with
      | some (pool, node) =>
        ∃ claim, (Get K c poolCache s (K.ProviderPrefix ++ id)).result = .ok claim ∧
          claim.ProviderID = K.ProviderPrefix ++ id ∧
          claimIdentity claim = nodeIdentity K pool.ID node
      | none =>
        ∃ e, (Get K c poolCache s (K.ProviderPrefix ++ id)).result = .error e ∧
          e.IsNodeClaimNotFoundError = true)
    ∧ ((∃ claim, (Get K c poolCache s (K.ProviderPrefix ++ id)).result = .ok claim) ↔
        ∃ pool nodes node, (pool, Except.ok nodes) ∈ poolNodeListings K c pools s1 ∧
          node ∈ nodes ∧ node.InstanceID = id)
    ∧ (∀ pool r, (pool, r) ∈ poolNodeListings K c pools s1 →
        pool ∈ pools ∧ HasPrefix pool.Name K.PoolNamePrefix = true)
    ∧ (∀ pool node, firstNodeWithInstanceID id (poolNodeListings K c pools s1) = some (pool, node) →
        node.InstanceID = id ∧
        ∃ before nodes after,
          poolNodeListings K c pools s1 = before ++ (pool, .ok nodes) :: after ∧
          (∀ p ns n, (p, Except.ok ns) ∈ before → n ∈ ns → n.InstanceID ≠ id) ∧
          ∃ pre post, nodes = pre ++ node :: post ∧ ∀ n, n ∈ pre → n.InstanceID ≠ id) := by
  have htrim : TrimPrefix (K.ProviderPrefix ++ id) K.ProviderPrefix = id := TrimPrefix_append _ _
  have hne : ¬ (id = "" ∨ id = K.ProviderPrefix ++ id) := by
    rintro (h | h)
    · exact hid h
    · exact String.append_ne_right_of_ne_empty _ _ hpfx h.symm
  have hres : (Get K c poolCache s (K.ProviderPrefix ++ id)).result
      = (getScan K c poolCache id pools s1).result := by
    unfold Get
    simp only [htrim, if_neg hne, hlist]
  have hscan := getScan_spec K c poolCache id pools s1
  refine ⟨?_, ?_, poolNodeListings_mem K c pools s1, firstNodeWithInstanceID_some id _⟩
  · cases hf : firstNodeWithInstanceID id (poolNodeListings K c pools s1) with
    | none =>
      rw [hf] at hscan
      simp only [hres]
      exact ⟨_, hscan, rfl⟩
    | some pn =>
      obtain ⟨pool, node⟩ := pn
      rw [hf] at hscan
      obtain ⟨claim, h1, h2⟩ := hscan
      obtain ⟨hn, _⟩ := firstNodeWithInstanceID_some id _ pool node hf
      simp only [hres]
      refine ⟨claim, h1, ?_, h2⟩
      have h3 := congrArg (fun t => t.2.1) h2
      simp only [claimIdentity, nodeIdentity] at h3
      rw [h3, hn]
  · rw [hres]
    cases hf : firstNodeWithInstanceID id (poolNodeListings K c pools s1) with
    | none =>
      rw [hf] at hscan
      constructor
      · rintro ⟨claim, hc⟩
        rw [hscan] at hc; simp at hc
      · rintro ⟨pool, nodes, node, hm, hn, hi⟩
        exact absurd hi ((firstNodeWithInstanceID_none id _).mp hf pool nodes node hm hn)
    | some pn =>
      obtain ⟨pool, node⟩ := pn
      rw [hf] at hscan
      obtain ⟨claim, h1, _⟩ := hscan
      constructor
      · intro _
        obtain ⟨hn, before, nodes, after, hsplit, _, pre, post, hns, _⟩ :=
          firstNodeWithInstanceID_some id _ pool node hf
        exact ⟨pool, nodes, node, by rw [hsplit]; simp, by rw [hns]; simp, hn⟩
      · intro _
        exact ⟨claim, h1⟩

/-- Witness for C14: the node with instance ID `def456` is the second node of
the third pool; the second pool has no prefix and the listing of the first
fails. -/
theorem Get_finds_first_matching_node_witness :
    scenarioConstants.ProviderPrefix ≠ "" ∧ "def456" ≠ ""
    ∧ nodesClient.ListNodePools () = (.ok scenarioPoolList, ())
    ∧ ∃ claim, (Get scenarioConstants nodesClient [] () "openstack:///def456").result = .ok claim :=
  ⟨by decide, by decide, rfl,
    ((Get_finds_first_matching_node scenarioConstants nodesClient [] () () "def456"
      scenarioPoolList (by decide) (by decide) rfl).2.1).mpr
      ⟨{ ID := "p3", Name := "karpenter-c3-16-gra7-a" }, scenarioNodeList,
        { ID := "n2", InstanceID := "def456", Name := "node-2", Status := "READY", Flavor := "c3-16" },
        by decide, by decide, rfl⟩⟩

/-! ## List -/

theorem listedNodes_append (a b : List Event) :
    listedNodes (a ++ b) = listedNodes a ++ listedNodes b := by
  induction a with
  | nil => rfl
  | cons e rest ih =>
    cases e with
    | ListPoolNodes pid r =>
      cases r with
      | error err => simp [listedNodes, ih]
      | ok nodes => simp [listedNodes, ih]
    | _ => simp [listedNodes, ih]

theorem listedPoolIDs_append (a b : List Event) :
    listedPoolIDs (a ++ b) = listedPoolIDs a ++ listedPoolIDs b := by
  induction a with
  | nil => rfl
  | cons e rest ih => cases e <;> simp [listedPoolIDs, ih]

theorem listed_nil_of_reads (poolID : String) (l : List Event)
    (h : ∀ e, e ∈ l → ∃ r, e = Event.GetNodePool poolID r) :
    listedNodes l = [] ∧ listedPoolIDs l = [] := by
  induction l with
  | nil => exact ⟨rfl, rfl⟩
  | cons e rest ih =>
    obtain ⟨r, he⟩ := h e (List.mem_cons_self _ _)
    obtain ⟨h1, h2⟩ := ih (fun e0 he0 => h e0 (List.mem_cons_of_mem _ he0))
    subst he
    exact ⟨by simp [listedNodes, h1], by simp [listedPoolIDs, h2]⟩

theorem mem_listedNodes (l : List Event) (poolID : String) (node : Node) :
    (poolID, node) ∈ listedNodes l ↔
      ∃ nodes, Event.ListPoolNodes poolID (.ok nodes) ∈ l ∧ node ∈ nodes := by
  induction l with
  | nil => simp [listedNodes]
  | cons e rest ih =>
    cases e with
    | ListPoolNodes pid r =>
      cases r with
      | error err => simp [listedNodes, ih]
      | ok nodes =>
        simp only [listedNodes, List.mem_append, List.mem_map, Prod.mk.injEq, ih, List.mem_cons,
          Event.ListPoolNodes.injEq, Except.ok.injEq]
        constructor
        · rintro (⟨n, hn, hp, hnn⟩ | ⟨ns, hm, hn⟩)
          · subst hp; subst hnn
            exact ⟨nodes, Or.inl ⟨rfl, rfl⟩, hn⟩
          · exact ⟨ns, Or.inr hm, hn⟩
        · rintro ⟨ns, (⟨hp, hns⟩ | hm), hn⟩
          · subst hp; subst hns
            exact Or.inl ⟨node, hn, rfl, rfl⟩
          · exact Or.inr ⟨ns, hm, hn⟩
    | _ => simp [listedNodes, ih]

/-- The inner loop of List yields one claim per node, in node order, and lists
no pool. -/
theorem listNodes_spec {σ : Type} (K : Constants) (c : OVHClient σ) (poolCache : GoMap)
    (poolID : String) :
    ∀ (nodes : List Node) (s : σ),
      (listNodes K c poolCache poolID nodes s).result.map claimIdentity
        = nodes.map (nodeIdentity K poolID)
      ∧ listedNodes (listNodes K c poolCache poolID nodes s).calls = []
      ∧ listedPoolIDs (listNodes K c poolCache poolID nodes s).calls = [] := by
  intro nodes
  induction nodes with
  | nil => intro s; simp [listNodes, listedNodes, listedPoolIDs]
  | cons node rest ih =>
    intro s
    obtain ⟨claim, h1, h2, _, _, h5⟩ := nodeToNodeClaim_result K c poolCache s node poolID
    obtain ⟨i1, i2, i3⟩ := ih (nodeToNodeClaim K c poolCache s node poolID).remote
    obtain ⟨r1, r2⟩ := listed_nil_of_reads poolID _ h5
    simp only [listNodes, h1, List.map_cons, h2, i1, listedNodes_append, r1, i2,
      listedPoolIDs_append, r2, i3, List.append_nil, and_self]

/-- The outer loop of List yields the claims of the nodes that its successful
node listings reported, and asks every pool with the prefix for its nodes. -/
theorem listPools_spec {σ : Type} (K : Constants) (c : OVHClient σ) (poolCache : GoMap) :
    ∀ (pools : List NodePool) (s : σ),
      (listPools K c poolCache pools s).result.map claimIdentity
        = (listedNodes (listPools K c poolCache pools s).calls).map
            (fun pn => nodeIdentity K pn.1 pn.2)
      ∧ listedPoolIDs (listPools K c poolCache pools s).calls
        = (pools.filter (fun pool => HasPrefix pool.Name K.PoolNamePrefix)).map (fun pool => pool.ID) := by
  intro pools
  induction pools with
  | nil => intro s; simp [listPools, listedNodes, listedPoolIDs]
  | cons pool rest ih =>
    intro s
    by_cases hp : HasPrefix pool.Name K.PoolNamePrefix = true
    · have hfilter : (pool :: rest).filter (fun pool => HasPrefix pool.Name K.PoolNamePrefix)
          = pool :: rest.filter (fun pool => HasPrefix pool.Name K.PoolNamePrefix) :=
        List.filter_cons_of_pos hp
      rcases hl : c.ListPoolNodes s pool.ID with ⟨r, s1⟩
      cases r with
      | error err =>
        obtain ⟨i1, i2⟩ := ih s1
        simp only [listPools, hp, Bool.not_true, Bool.false_eq_true, if_false, hl, listedNodes,
          listedPoolIDs]
        refine ⟨i1, ?_⟩
        rw [i2, hfilter]; rfl
      | ok nodes =>
        obtain ⟨n1, n2, n3⟩ := listNodes_spec K c poolCache pool.ID nodes s1
        obtain ⟨i1, i2⟩ := ih (listNodes K c poolCache pool.ID nodes s1).remote
        simp only [listPools, hp, Bool.not_true, Bool.false_eq_true, if_false, hl, listedNodes,
          listedPoolIDs]
        constructor
        · rw [List.map_append, n1, i1, listedNodes_append, n2, List.nil_append, List.map_append,
            List.map_map]
          rfl
        · rw [listedPoolIDs_append, n3, List.nil_append, i2, hfilter]; rfl
    · have hfilter : (pool :: rest).filter (fun pool => HasPrefix pool.Name K.PoolNamePrefix)
          = rest.filter (fun pool => HasPrefix pool.Name K.PoolNamePrefix) :=
        List.filter_cons_of_neg hp
      obtain ⟨i1, i2⟩ := ih s
      have hp2 : HasPrefix pool.Name K.PoolNamePrefix = false := by simpa using hp
      simp only [listPools, hp2, Bool.not_false, if_true]
      exact ⟨i1, by rw [i2, hfilter]⟩

/-- The zone lookup of nodeToNodeClaim is one GetNodePool of the pool, answered
by the remote as recorded. -/
theorem nodeToNodeClaim_call {σ : Type} (K : Constants) (c : OVHClient σ) (poolCache : GoMap)
    (s : σ) (node : Node) (poolID : String) :
    (nodeToNodeClaim K c poolCache s node poolID).calls
        = [.GetNodePool poolID (c.GetNodePool s poolID).1]
    ∧ (nodeToNodeClaim K c poolCache s node poolID).remote = (c.GetNodePool s poolID).2 := by
  simp only [nodeToNodeClaim, extractZoneFromPoolName]
  rcases hg : c.GetNodePool s poolID with ⟨r, s1⟩
  cases r with
  | error err => exact ⟨rfl, rfl⟩
  | ok pool =>
    by_cases hz : pool.AvailabilityZone = ""
    · simp [hz]
    · simp [hz]

/-- The inner loop of List leaves the remote after one zone lookup per node,
and its transcript is what the remote was asked and answered. -/
theorem listNodes_remote {σ : Type} (K : Constants) (c : OVHClient σ) (poolCache : GoMap)
    (poolID : String) :
    ∀ (nodes : List Node) (s : σ),
      (listNodes K c poolCache poolID nodes s).remote = afterZoneLookups c poolID nodes s
      ∧ replay c s (listNodes K c poolCache poolID nodes s).calls
        = some (listNodes K c poolCache poolID nodes s).remote := by
  intro nodes
  induction nodes with
  | nil => intro s; exact ⟨rfl, rfl⟩
  | cons node rest ih =>
    intro s
    obtain ⟨claim, h1, _⟩ := nodeToNodeClaim_result K c poolCache s node poolID
    obtain ⟨hc, hr⟩ := nodeToNodeClaim_call K c poolCache s node poolID
    obtain ⟨i1, i2⟩ := ih (nodeToNodeClaim K c poolCache s node poolID).remote
    simp only [listNodes, h1, afterZoneLookups]
    constructor
    · rw [i1, hr]
    · refine replay_append_of c _ _ s _ _ ?_ i2
      rw [hc, replay_get c s _ poolID _ [] rfl, hr]
      rfl

/-- The outer loop of List yields the claims of the nodes that the remote
reports for the pools with the prefix, and its transcript is what the remote
was asked and answered. -/
theorem listPools_managed {σ : Type} (K : Constants) (c : OVHClient σ) (poolCache : GoMap) :
    ∀ (pools : List NodePool) (s : σ),
      (listPools K c poolCache pools s).result.map claimIdentity
        = (managedNodes K c pools s).map (fun pn => nodeIdentity K pn.1 pn.2)
      ∧ replay c s (listPools K c poolCache pools s).calls
        = some (listPools K c poolCache pools s).remote := by
  intro pools
  induction pools with
  | nil => intro s; exact ⟨rfl, rfl⟩
  | cons pool rest ih =>
    intro s
    by_cases hp : HasPrefix pool.Name K.PoolNamePrefix = true
    · rcases hl : c.ListPoolNodes s pool.ID with ⟨r, s1⟩
      cases r with
      | error err =>
        obtain ⟨i1, i2⟩ := ih s1
        simp only [listPools, managedNodes, hp, Bool.not_true, Bool.false_eq_true, if_false,
          if_true, hl]
        exact ⟨i1, by rw [replay_nodes c s s1 _ _ _ hl]; exact i2⟩
      | ok nodes =>
        obtain ⟨n1, _, _⟩ := listNodes_spec K c poolCache pool.ID nodes s1
        obtain ⟨m1, m2⟩ := listNodes_remote K c poolCache pool.ID nodes s1
        obtain ⟨i1, i2⟩ := ih (listNodes K c poolCache pool.ID nodes s1).remote
        simp only [listPools, managedNodes, hp, Bool.not_true, Bool.false_eq_true, if_false,
          if_true, hl]
        constructor
        · rw [List.map_append, n1, i1, List.map_append, List.map_map, m1]
          rfl
        · rw [replay_nodes c s s1 _ _ _ hl]
          exact replay_append_of c _ _ s1 _ _ m2 i2
    · have hp2 : HasPrefix pool.Name K.PoolNamePrefix = false := by simpa using hp
      simp only [listPools, managedNodes, hp2, Bool.not_false, if_true, Bool.false_eq_true,
        if_false]
      exact ih s

/-- C15: whenever ListNodePools succeeds, List returns a nil error and exactly
one claim per node of every pool whose name starts with PoolNamePrefix and
whose node listing succeeded, in pool order then node order: the claims are
those of the nodes that the remote reports through ListPoolNodes for the
pools with the prefix.  Pools without the prefix contribute nothing (their
nodes are not listed), and a pool whose node listing fails is skipped without
aborting the listing.  Replaying the transcript on the remote reproduces
every recorded answer and ends in the state List leaves the remote in. -/
theorem List_one_claim_per_listed_node {σ : Type} (K : Constants) (c : OVHClient σ)
    (poolCache : GoMap) (s s1 : σ) (pools : List NodePool)
    (hlist : c.ListNodePools s = (.ok pools, s1)) :
    ∃ claims, (CloudProvider.List K c poolCache s).result = .ok claims
      ∧ claims.map claimIdentity
          = (listedNodes (CloudProvider.List K c poolCache s).calls).map
              (fun pn => nodeIdentity K pn.1 pn.2)
      ∧ claims.length = (listedNodes (CloudProvider.List K c poolCache s).calls).length
      ∧ listedPoolIDs (CloudProvider.List K c poolCache s).calls
          = (pools.filter (fun pool => HasPrefix pool.Name K.PoolNamePrefix)).map
              (fun pool => pool.ID)
      ∧ (∀ poolID node, (poolID, node) ∈ listedNodes (CloudProvider.List K c poolCache s).calls ↔
          ∃ nodes, Event.ListPoolNodes poolID (.ok nodes)
              ∈ (CloudProvider.List K c poolCache s).calls ∧ node ∈ nodes)
      ∧ claims.map claimIdentity
          = (managedNodes K c pools s1).map (fun pn => nodeIdentity K pn.1 pn.2)
      ∧ claims.length = (managedNodes K c pools s1).length
      ∧ replay c s (CloudProvider.List K c poolCache s).calls
          = some (CloudProvider.List K c poolCache s).remote := by
  obtain ⟨h1, h2⟩ := listPools_spec K c poolCache pools s1
  obtain ⟨g1, g2⟩ := listPools_managed K c poolCache pools s1
  have heq : CloudProvider.List K c poolCache s
      = { result := .ok (listPools K c poolCache pools s1).result,
          remote := (listPools K c poolCache pools s1).remote,
          calls := .ListNodePools (.ok pools) :: (listPools K c poolCache pools s1).calls } := by
    simp only [CloudProvider.List, hlist]
  rw [heq]
  refine ⟨_, rfl, ?_, ?_, ?_, fun poolID node => mem_listedNodes _ poolID node, g1, ?_, ?_⟩
  · simpa [listedNodes] using h1
  · have := congrArg List.length h1
    simpa [listedNodes] using this
  · simpa [listedPoolIDs] using h2
  · have := congrArg List.length g1
    simpa using this
  · rw [replay_list c s s1 _ _ hlist]
    exact g2

/-- Witness for C15: of three pools one is foreign and one cannot be listed;
the remote reports two nodes for the third, and they yield two claims, named
after the nodes. -/
theorem List_one_claim_per_listed_node_witness :
    nodesClient.ListNodePools () = (.ok scenarioPoolList, ())
    ∧ managedNodes scenarioConstants nodesClient scenarioPoolList ()
        = scenarioNodeList.map (fun node => ("p3", node))
    ∧ (∃ claims, (CloudProvider.List scenarioConstants nodesClient [] ()).result = .ok claims
        ∧ claims.length = 2
        ∧ claims.map (fun claim => claim.Name) = ["node-1", "node-2"])
    ∧ listedPoolIDs (CloudProvider.List scenarioConstants nodesClient [] ()).calls = ["p1", "p3"] := by
  obtain ⟨claims, h1, _, _, h4, _, h6, h7, _⟩ :=
    List_one_claim_per_listed_node scenarioConstants nodesClient [] () () scenarioPoolList rfl
  refine ⟨rfl, by decide, ⟨claims, h1, ?_, ?_⟩, ?_⟩
  · rw [h7]; decide
  · have := congrArg (List.map (fun i : String × String × GoMap => i.1)) h6
    simp only [List.map_map] at this
    exact this.trans (by decide)
  · rw [h4]; decide

/-! ## IsDrifted -/

/-- C16: when the node class resolves, the claim carries a non-empty pool
annotation and the pool read succeeds, IsDrifted returns
`MonthlyBillingChanged` if and only if the MonthlyBilled of the pool differs
from that of the node class (also when anti-affinity differs too),
`AntiAffinityChanged` if and only if billing agrees and AntiAffinity differs,
and the empty reason if and only if both agree; the error is nil. -/
theorem IsDrifted_reason {σ : Type} (K : Constants) (c : OVHClient σ) (kubeClient : KubeClient)
    (s s1 : σ) (nodeClaim : NodeClaim) (nodeClass : OVHNodeClass) (pool : NodePool)
    (hclass : resolveNodeClass kubeClient nodeClaim = .ok nodeClass)
    (hid : nodeClaim.Annotations.get (AnnotationOVHPoolID K) ≠ "")
    (hget : c.GetNodePool s (nodeClaim.Annotations.get (AnnotationOVHPoolID K)) = (.ok pool, s1)) :
    ((IsDrifted K c kubeClient s nodeClaim).result.1 = "MonthlyBillingChanged"
        ↔ pool.MonthlyBilled ≠ nodeClass.Spec.MonthlyBilled)
    ∧ ((IsDrifted K c kubeClient s nodeClaim).result.1 = "AntiAffinityChanged"
        ↔ pool.MonthlyBilled = nodeClass.Spec.MonthlyBilled
          ∧ pool.AntiAffinity ≠ nodeClass.Spec.AntiAffinity)
    ∧ ((IsDrifted K c kubeClient s nodeClaim).result.1 = ""
        ↔ pool.MonthlyBilled = nodeClass.Spec.MonthlyBilled
          ∧ pool.AntiAffinity = nodeClass.Spec.AntiAffinity)
    ∧ (IsDrifted K c kubeClient s nodeClaim).result.2 = none := by
  unfold IsDrifted
  simp only [hclass, hid, if_false, hget]
  by_cases hb : pool.MonthlyBilled = nodeClass.Spec.MonthlyBilled
  · by_cases ha : pool.AntiAffinity = nodeClass.Spec.AntiAffinity
    · simp [hb, ha]
    · simp [hb, ha]
  · by_cases ha : pool.AntiAffinity = nodeClass.Spec.AntiAffinity
    · simp [hb, ha]
    · simp [hb, ha]

/-- Witness for C16: the pool has neither monthly billing nor anti-affinity,
the node class has both; the billing reason is reported. -/
theorem IsDrifted_reason_witness :
    resolveNodeClass scenarioKube scenarioClaim
        = .ok { Name := "", Spec := { MonthlyBilled := true, AntiAffinity := true } }
    ∧ scenarioClaim.Annotations.get (AnnotationOVHPoolID scenarioConstants) ≠ ""
    ∧ memClient.GetNodePool [scenarioPoolThree]
          (scenarioClaim.Annotations.get (AnnotationOVHPoolID scenarioConstants))
        = (.ok scenarioPoolThree, [scenarioPoolThree])
    ∧ (IsDrifted scenarioConstants memClient scenarioKube [scenarioPoolThree] scenarioClaim).result.1
        = "MonthlyBillingChanged" :=
  ⟨by decide, by decide, by decide,
    (IsDrifted_reason scenarioConstants memClient scenarioKube [scenarioPoolThree]
      [scenarioPoolThree] scenarioClaim
      { Name := "", Spec := { MonthlyBilled := true, AntiAffinity := true } } scenarioPoolThree
      (by decide) (by decide) (by decide)).1.mpr (by decide)⟩

/-- C17: IsDrifted never returns a non-nil error: when the node class cannot
be resolved, when the pool annotation is missing or empty, or when the pool
read fails, it returns the empty drift reason with a nil error. -/
theorem IsDrifted_never_errors {σ : Type} (K : Constants) (c : OVHClient σ)
    (kubeClient : KubeClient) (s : σ) (nodeClaim : NodeClaim) :
    (IsDrifted K c kubeClient s nodeClaim).result.2 = none
    ∧ (∀ e, resolveNodeClass kubeClient nodeClaim = .error e →
        (IsDrifted K c kubeClient s nodeClaim).result = ("", none) ∧
        (IsDrifted K c kubeClient s nodeClaim).calls = [])
    ∧ ((nodeClaim.Annotations.get? (AnnotationOVHPoolID K) = none ∨
          nodeClaim.Annotations.get? (AnnotationOVHPoolID K) = some "") →
        (IsDrifted K c kubeClient s nodeClaim).result = ("", none) ∧
        (IsDrifted K c kubeClient s nodeClaim).calls = [])
    ∧ (∀ e s1, c.GetNodePool s (nodeClaim.Annotations.get (AnnotationOVHPoolID K)) = (.error e, s1) →
        (IsDrifted K c kubeClient s nodeClaim).result = ("", none)) := by
  unfold IsDrifted
  cases hclass : resolveNodeClass kubeClient nodeClaim with
  | error e0 => simp
  | ok nodeClass =>
    by_cases hid : nodeClaim.Annotations.get (AnnotationOVHPoolID K) = ""
    · simp [hid]
    · have hann : ¬ (nodeClaim.Annotations.get? (AnnotationOVHPoolID K) = none ∨
          nodeClaim.Annotations.get? (AnnotationOVHPoolID K) = some "") := by
        rintro (h | h) <;> exact hid (by simp [GoMap.get, h])
      rcases hg : c.GetNodePool s (nodeClaim.Annotations.get (AnnotationOVHPoolID K)) with ⟨r, s1⟩
      cases r with
      | error e1 => simp [hid, hann, hg]
      | ok pool =>
        by_cases hb : pool.MonthlyBilled = nodeClass.Spec.MonthlyBilled
        · by_cases ha : pool.AntiAffinity = nodeClass.Spec.AntiAffinity
          · simp [hid, hann, hg, hb, ha]
          · simp [hid, hann, hg, hb, ha]
        · simp [hid, hann, hg, hb]

/-- Witness for C17: a claim whose node class does not exist. -/
theorem IsDrifted_never_errors_witness :
    resolveNodeClass emptyKube scenarioClaim = .error (.kube true "ovhnodeclass  not found")
    ∧ (IsDrifted scenarioConstants memClient emptyKube [scenarioPoolThree] scenarioClaim).result
        = ("", none) :=
  ⟨by decide,
    ((IsDrifted_never_errors scenarioConstants memClient emptyKube [scenarioPoolThree]
      scenarioClaim).2.1 (.kube true "ovhnodeclass  not found") (by decide)).1⟩

/-! ## Pricing -/

theorem refreshCacheIfNeeded_fresh (p : PricingClient) (clock : Clock)
    (fetch : Except ClientError PricingCatalog)
    (hcat : p.catalog ≠ none) (hfresh : clock.check - p.lastRefresh ≤ p.cacheTTL) :
    refreshCacheIfNeeded p clock fetch = (none, p) := by
  unfold refreshCacheIfNeeded
  have h : ¬ (p.catalog = none ∨ clock.check - p.lastRefresh > p.cacheTTL) := by
    rintro (h | h)
    · exact hcat h
    · omega
  simp only [h, not_false_eq_true, if_true]

theorem lookupFlavorPrice_eq_first (m : PriceMap) (flavorName region : String) :
    lookupFlavorPrice m flavorName region
      = match firstPresentPrice m (flavorPriceKeys flavorName region) with
        | some price => price
        | none => estimatePrice flavorName := by
  unfold lookupFlavorPrice firstPresentPrice flavorPriceKeys
  simp only [List.findSome?]
  cases m.get? flavorName with
  | some v => rfl
  | none =>
    simp only []
    cases m.get? (ToLower region ++ "." ++ flavorName) with
    | some v => rfl
    | none =>
      simp only []
      cases m.get? ("instance-" ++ flavorName ++ "." ++ ToLower region ++ ".hour.consumption") with
      | some v => rfl
      | none =>
        simp only []
        cases m.get? ("instance-" ++ flavorName ++ ".hour.consumption") with
        | some v => rfl
        | none => rfl

/-- C18: with a fresh cache holding price map `m`, GetFlavorPrice returns the
value of the first key present in `m` among, in this order, `f`,
`lower(region) + "." + f`,
`"instance-" + f + "." + lower(region) + ".hour.consumption"` and
`"instance-" + f + ".hour.consumption"`, and the static estimate for `f` when
none is present; the cache is left as it is.  For `m` with the keys `b3-8`,
`gra7.b3-8` and `instance-c3-16.gra7.hour.consumption`, the price of `b3-8` in
`GRA7` is `m["b3-8"]` and the price of `c3-16` in `GRA7` is
`m["instance-c3-16.gra7.hour.consumption"]`. -/
theorem GetFlavorPrice_lookup_order (p : PricingClient) (clock : Clock)
    (fetch : Except ClientError PricingCatalog) (f region : String)
    (hcat : p.catalog ≠ none) (hfresh : clock.check - p.lastRefresh ≤ p.cacheTTL) :
    GetFlavorPrice p clock fetch f region
        = (((match firstPresentPrice p.flavorPrices (flavorPriceKeys f region) with
              | some price => price
              | none => estimatePrice f), none), p)
    ∧ flavorPriceKeys f region
        = [f, ToLower region ++ "." ++ f,
           "instance-" ++ f ++ "." ++ ToLower region ++ ".hour.consumption",
           "instance-" ++ f ++ ".hour.consumption"]
    ∧ (∀ (p1 p2 p3 : ℚ),
        (∀ k, p.flavorPrices.get? k
            = if k = "b3-8" then some p1
              else if k = "gra7.b3-8" then some p2
              else if k = "instance-c3-16.gra7.hour.consumption" then some p3
              else none) →
        (GetFlavorPrice p clock fetch "b3-8" "GRA7").1 = (p1, none) ∧
        (GetFlavorPrice p clock fetch "c3-16" "GRA7").1 = (p3, none)) := by
  have hfreshEq := refreshCacheIfNeeded_fresh p clock fetch hcat hfresh
  have hget : ∀ g r, GetFlavorPrice p clock fetch g r
      = ((lookupFlavorPrice p.flavorPrices g r, none), p) := by
    intro g r
    unfold GetFlavorPrice
    rw [hfreshEq]
  refine ⟨?_, rfl, ?_⟩
  · rw [hget, lookupFlavorPrice_eq_first]
  · intro p1 p2 p3 hm
    have hlow : ToLower "GRA7" = "gra7" := by decide
    constructor
    · rw [hget]
      simp only [lookupFlavorPrice, hm, if_true]
    · rw [hget]
      have e1 : ¬ ("c3-16" : String) = "b3-8" := by decide
      have e2 : ¬ ("c3-16" : String) = "gra7.b3-8" := by decide
      have e3 : ¬ ("c3-16" : String) = "instance-c3-16.gra7.hour.consumption" := by decide
      have k2 : ("gra7" : String) ++ "." ++ "c3-16" = "gra7.c3-16" := by decide
      have e4 : ¬ ("gra7.c3-16" : String) = "b3-8" := by decide
      have e5 : ¬ ("gra7.c3-16" : String) = "gra7.b3-8" := by decide
      have e6 : ¬ ("gra7.c3-16" : String) = "instance-c3-16.gra7.hour.consumption" := by decide
      have k3 : ("instance-" : String) ++ "c3-16" ++ "." ++ "gra7" ++ ".hour.consumption"
          = "instance-c3-16.gra7.hour.consumption" := by decide
      have e7 : ¬ ("instance-c3-16.gra7.hour.consumption" : String) = "b3-8" := by decide
      have e8 : ¬ ("instance-c3-16.gra7.hour.consumption" : String) = "gra7.b3-8" := by decide
      simp only [lookupFlavorPrice, hm, hlow, e1, e2, e3, k2, e4, e5, e6, k3, e7, e8, if_false,
        if_true]

/-- Witness for C18: a fresh cache with the three entries of the example. -/
theorem GetFlavorPrice_lookup_order_witness :
    freshPricing.catalog ≠ none
    ∧ (5 : Int) - freshPricing.lastRefresh ≤ freshPricing.cacheTTL
    ∧ (GetFlavorPrice freshPricing { check := 5, recheck := 5, stamp := 5 }
          (.error (.leaf "unreachable")) "b3-8" "GRA7").1 = (5, none)
    ∧ (GetFlavorPrice freshPricing { check := 5, recheck := 5, stamp := 5 }
          (.error (.leaf "unreachable")) "c3-16" "GRA7").1 = (7, none) := by
  have h := (GetFlavorPrice_lookup_order freshPricing { check := 5, recheck := 5, stamp := 5 }
    (.error (.leaf "unreachable")) "b3-8" "GRA7" (by decide) (by decide)).2.2 5 6 7
    (by
      intro k
      by_cases h1 : k = "b3-8"
      · subst h1; rfl
      · by_cases h2 : k = "gra7.b3-8"
        · subst h2; rfl
        · by_cases h3 : k = "instance-c3-16.gra7.hour.consumption"
          · subst h3; rfl
          · have n1 : (k == "b3-8") = false := by simpa using h1
            have n2 : (k == "gra7.b3-8") = false := by simpa using h2
            have n3 : (k == "instance-c3-16.gra7.hour.consumption") = false := by simpa using h3
            simp only [freshPricing, PriceMap.get?, List.lookup, n1, n2, n3, h1, h2, h3, if_false])
  exact ⟨by decide, by decide, h.1, h.2⟩

/-- C19: GetFlavorPrice returns a nil error for every flavor, region and cache
state; when the cache refresh fails (which it does whenever the cache is
empty or stale and the catalog cannot be fetched) it returns the static
estimate for the flavor, which is the table price for a flavor of the table
and the generic estimate 0.10 otherwise, whatever the stale cache holds for
the flavor; and for a flavor unknown to both cache and table it returns the
generic estimate. -/
theorem GetFlavorPrice_never_fails (p : PricingClient) (clock : Clock)
    (fetch : Except ClientError PricingCatalog) (f region : String) :
    (GetFlavorPrice p clock fetch f region).1.2 = none
    ∧ (∀ err, (refreshCacheIfNeeded p clock fetch).1 = some err →
        (GetFlavorPrice p clock fetch f region).1.1 = estimatePrice f)
    ∧ (∀ err,
        (p.catalog = none ∨
          (clock.check - p.lastRefresh > p.cacheTTL ∧ clock.recheck - p.lastRefresh > p.cacheTTL)) →
        fetch = .error err → (refreshCacheIfNeeded p clock fetch).1 = some err)
    ∧ (∀ v, estimateTable.get? f = some v → estimatePrice f = v)
    ∧ (estimateTable.get? f = none → estimatePrice f = 0.10)
    ∧ (estimateTable.get? f = none →
        (∀ k, k ∈ flavorPriceKeys f region →
          (refreshCacheIfNeeded p clock fetch).2.flavorPrices.get? k = none) →
        (GetFlavorPrice p clock fetch f region).1.1 = 0.10) := by
  have hest : estimateTable.get? f = none → estimatePrice f = 0.10 := by
    intro h; simp only [estimatePrice, h]
  refine ⟨?_, ?_, ?_, ?_, hest, ?_⟩
  · unfold GetFlavorPrice
    rcases refreshCacheIfNeeded p clock fetch with ⟨r, p1⟩
    cases r <;> rfl
  · intro err h
    unfold GetFlavorPrice
    rcases hr : refreshCacheIfNeeded p clock fetch with ⟨r, p1⟩
    rw [hr] at h
    simp only at h
    subst h
    rfl
  · intro err hstale hfetch
    subst hfetch
    unfold refreshCacheIfNeeded refreshCache
    rcases hstale with h | ⟨h1, h2⟩
    · simp [h]
    · have hn : ¬ (clock.recheck - p.lastRefresh ≤ p.cacheTTL) := by omega
      simp [h1, hn]
  · intro v h; simp only [estimatePrice, h]
  · intro htable hkeys
    unfold GetFlavorPrice
    rcases hr : refreshCacheIfNeeded p clock fetch with ⟨r, p1⟩
    rw [hr] at hkeys
    cases r with
    | some err => exact hest htable
    | none =>
      simp only [lookupFlavorPrice_eq_first]
      have hnone : firstPresentPrice p1.flavorPrices (flavorPriceKeys f region) = none := by
        unfold firstPresentPrice
        rw [List.findSome?_eq_none_iff]
        intro k hk
        exact hkeys k hk
      rw [hnone]
      exact hest htable

/-- Witness for C19: a stale cache that holds the price 5 for `b3-8`; the fetch
fails and the table price of `b3-8` is returned. -/
theorem GetFlavorPrice_never_fails_witness :
    (refreshCacheIfNeeded stalePricing
        { check := 21600000000001, recheck := 21600000000001, stamp := 21600000000002 }
        (.error (.leaf "fetching pricing catalog: timeout"))).1
      = some (.leaf "fetching pricing catalog: timeout")
    ∧ stalePricing.flavorPrices.get? "b3-8" = some 5
    ∧ (GetFlavorPrice stalePricing
        { check := 21600000000001, recheck := 21600000000001, stamp := 21600000000002 }
        (.error (.leaf "fetching pricing catalog: timeout")) "b3-8" "GRA7").1.1
      = estimatePrice "b3-8"
    ∧ estimatePrice "b3-8" = 0.0340 :=
  ⟨by decide, by rfl,
    (GetFlavorPrice_never_fails stalePricing
      { check := 21600000000001, recheck := 21600000000001, stamp := 21600000000002 }
      (.error (.leaf "fetching pricing catalog: timeout")) "b3-8" "GRA7").2.1
      (.leaf "fetching pricing catalog: timeout") (by decide),
    by rfl⟩

/-! ## Create -/

theorem GoMap.get?_set_other (m : GoMap) (k v n : String) (h : n ≠ k) :
    (m.set k v).get? n = m.get? n := by
  have h2 : (n == k) = false := by simpa using h
  have h3 := GoMap.get?_delete_other m k n h
  unfold GoMap.set GoMap.get? at *
  rw [List.lookup_cons, h2]
  exact h3

theorem String.append_left_cancel (g a b : String) (h : g ++ a = g ++ b) : a = b := by
  have hd := congrArg String.data h
  simp only [String.data_append] at hd
  have := List.append_cancel_left hd
  cases a; cases b
  simp_all

theorem annotation_keys_distinct (K : Constants) :
    AnnotationOVHPoolID K ≠ AnnotationOVHNodeID K
    ∧ AnnotationOVHPoolID K ≠ AnnotationOVHNodeName K
    ∧ AnnotationOVHNodeID K ≠ AnnotationOVHNodeName K := by
  refine ⟨?_, ?_, ?_⟩ <;>
  · intro h
    have := String.append_left_cancel _ _ _ h
    revert this
    decide

/-- The annotations, labels and status of the response of Create. -/
theorem createdClaim_spec (K : Constants) (instanceTypes : List InstanceType)
    (nodeClaim : NodeClaim) (flavor zone : String) (pool : NodePool) (node : Node) :
    (createdClaim K instanceTypes nodeClaim flavor zone pool node).ProviderID
        = K.ProviderPrefix ++ node.InstanceID
    ∧ (createdClaim K instanceTypes nodeClaim flavor zone pool node).Annotations.get?
        (AnnotationOVHPoolID K) = some pool.ID
    ∧ (createdClaim K instanceTypes nodeClaim flavor zone pool node).Annotations.get?
        (AnnotationOVHNodeID K) = some node.ID
    ∧ (createdClaim K instanceTypes nodeClaim flavor zone pool node).Annotations.get?
        (AnnotationOVHNodeName K) = some node.Name
    ∧ (createdClaim K instanceTypes nodeClaim flavor zone pool node).Labels.get?
        LabelInstanceTypeStable = some flavor
    ∧ (createdClaim K instanceTypes nodeClaim flavor zone pool node).Labels.get?
        LabelTopologyZone = some zone
    ∧ (createdClaim K instanceTypes nodeClaim flavor zone pool node).Labels.get?
        CapacityTypeLabelKey = some CapacityTypeOnDemand
    ∧ (createdClaim K instanceTypes nodeClaim flavor zone pool node).Capacity
        = (match instanceTypes.find? (fun it => it.Name == flavor) with
           | some it => it.Capacity
           | none => [])
    ∧ (∀ k, k ≠ AnnotationOVHPoolID K → k ≠ AnnotationOVHNodeID K → k ≠ AnnotationOVHNodeName K →
        (createdClaim K instanceTypes nodeClaim flavor zone pool node).Annotations.get? k
          = nodeClaim.Annotations.get? k)
    ∧ (∀ k, k ≠ LabelInstanceTypeStable → k ≠ LabelTopologyZone → k ≠ CapacityTypeLabelKey →
        (createdClaim K instanceTypes nodeClaim flavor zone pool node).Labels.get? k
          = nodeClaim.Labels.get? k)
    ∧ (createdClaim K instanceTypes nodeClaim flavor zone pool node).Name = nodeClaim.Name
    ∧ (createdClaim K instanceTypes nodeClaim flavor zone pool node).NodeClassRefName
        = nodeClaim.NodeClassRefName
    ∧ (createdClaim K instanceTypes nodeClaim flavor zone pool node).Requirements
        = nodeClaim.Requirements
    ∧ (createdClaim K instanceTypes nodeClaim flavor zone pool node).Taints = nodeClaim.Taints
    ∧ (createdClaim K instanceTypes nodeClaim flavor zone pool node).NodeName
        = nodeClaim.NodeName := by
  obtain ⟨d1, d2, d3⟩ := annotation_keys_distinct K
  have l1 : LabelInstanceTypeStable ≠ LabelTopologyZone := by decide
  have l2 : LabelInstanceTypeStable ≠ CapacityTypeLabelKey := by decide
  have l3 : LabelTopologyZone ≠ CapacityTypeLabelKey := by decide
  refine ⟨rfl, ?_, ?_, ?_, ?_, ?_, ?_, ?_, ?_, ?_, rfl, rfl, rfl, rfl, rfl⟩
  · simp only [createdClaim]
    rw [GoMap.get?_set_other _ _ _ _ d2, GoMap.get?_set_other _ _ _ _ d1, GoMap.get?_set_self]
  · simp only [createdClaim]
    rw [GoMap.get?_set_other _ _ _ _ d3, GoMap.get?_set_self]
  · simp only [createdClaim]
    rw [GoMap.get?_set_self]
  · simp only [createdClaim]
    rw [GoMap.get?_set_other _ _ _ _ l2, GoMap.get?_set_other _ _ _ _ l1, GoMap.get?_set_self]
  · simp only [createdClaim]
    rw [GoMap.get?_set_other _ _ _ _ l3, GoMap.get?_set_self]
  · simp only [createdClaim]
    rw [GoMap.get?_set_self]
  · simp only [createdClaim, getInstanceType, getCapacityForFlavor]
    cases instanceTypes.find? (fun it => it.Name == flavor) <;> rfl
  · intro k h1 h2 h3
    simp only [createdClaim]
    rw [GoMap.get?_set_other _ _ _ _ h3, GoMap.get?_set_other _ _ _ _ h2,
      GoMap.get?_set_other _ _ _ _ h1]
  · intro k h1 h2 h3
    simp only [createdClaim]
    rw [GoMap.get?_set_other _ _ _ _ h3, GoMap.get?_set_other _ _ _ _ h2,
      GoMap.get?_set_other _ _ _ _ h1]

/-- A successful Create went through every stage and returns the response
built from the pool and the node. -/
theorem Create_ok_stages {σ : Type} (K : Constants) (c : OVHClient σ) (kubeClient : KubeClient)
    (instanceTypes : List InstanceType) (poolCache : GoMap) (s : σ) (nodeClaim : NodeClaim)
    (schedule : WaitSchedule) (created : NodeClaim)
    (hok : (Create K c kubeClient instanceTypes poolCache s nodeClaim schedule).result
      = .ok created) :
    ∃ nodeClass flavor pool node,
      resolveNodeClass kubeClient nodeClaim = .ok nodeClass ∧
      selectFlavor nodeClaim = .ok flavor ∧
      (getOrCreatePool K c poolCache s (poolName K flavor (selectZone c nodeClaim)) flavor
        (selectZone c nodeClaim) nodeClass (some nodeClaim)).result = .ok pool ∧
      (waitForNewNode c pool.ID pool.CurrentNodes schedule.ending schedule.ticks
        (getOrCreatePool K c poolCache s (poolName K flavor (selectZone c nodeClaim)) flavor
          (selectZone c nodeClaim) nodeClass (some nodeClaim)).remote).result = .ok node ∧
      created = createdClaim K instanceTypes nodeClaim flavor (selectZone c nodeClaim) pool node := by
  unfold Create at hok
  cases hclass : resolveNodeClass kubeClient nodeClaim with
  | error err =>
    rw [hclass] at hok
    by_cases hnf : err.IsNotFound = true
    · simp [hnf] at hok
    · simp [hnf] at hok
  | ok nodeClass =>
    rw [hclass] at hok
    by_cases hready : conditionIsFalse (readyCondition nodeClass) = true
    · simp [hready] at hok
    · simp only [hready, Bool.false_eq_true, if_false] at hok
      cases hflavor : selectFlavor nodeClaim with
      | error err => rw [hflavor] at hok; simp at hok
      | ok flavor =>
        rw [hflavor] at hok
        simp only at hok
        cases hpool : (getOrCreatePool K c poolCache s (poolName K flavor (selectZone c nodeClaim))
            flavor (selectZone c nodeClaim) nodeClass (some nodeClaim)).result with
        | error err => rw [hpool] at hok; simp at hok
        | ok pool =>
          rw [hpool] at hok
          simp only at hok
          cases hnode : (waitForNewNode c pool.ID pool.CurrentNodes schedule.ending schedule.ticks
              (getOrCreatePool K c poolCache s (poolName K flavor (selectZone c nodeClaim)) flavor
                (selectZone c nodeClaim) nodeClass (some nodeClaim)).remote).result with
          | error err => rw [hnode] at hok; simp at hok
          | ok node =>
            rw [hnode] at hok
            simp only [Except.ok.injEq] at hok
            exact ⟨nodeClass, flavor, pool, node, rfl, rfl, hpool, hnode, hok.symm⟩

/-- C20: on success Create returns a copy of the request whose provider ID is
ProviderPrefix followed by the InstanceID of the found node, whose annotations
pool-id, node-id and node-name are the pool ID, the node ID and the node name,
whose labels instance-type, zone and capacity-type are the resolved flavor,
the resolved zone and on-demand, and whose capacity is that of the instance
type named by the flavor (empty when no such instance type exists); every
other annotation and label of the request is unchanged, and so are its name,
node class reference, requirements and taints. -/
theorem Create_response {σ : Type} (K : Constants) (c : OVHClient σ) (kubeClient : KubeClient)
    (instanceTypes : List InstanceType) (poolCache : GoMap) (s : σ) (nodeClaim : NodeClaim)
    (schedule : WaitSchedule) (created : NodeClaim)
    (hok : (Create K c kubeClient instanceTypes poolCache s nodeClaim schedule).result
      = .ok created) :
    ∃ nodeClass flavor pool node,
      resolveNodeClass kubeClient nodeClaim = .ok nodeClass ∧
      selectFlavor nodeClaim = .ok flavor ∧
      (getOrCreatePool K c poolCache s (poolName K flavor (selectZone c nodeClaim)) flavor
        (selectZone c nodeClaim) nodeClass (some nodeClaim)).result = .ok pool ∧
      (waitForNewNode c pool.ID pool.CurrentNodes schedule.ending schedule.ticks
        (getOrCreatePool K c poolCache s (poolName K flavor (selectZone c nodeClaim)) flavor
          (selectZone c nodeClaim) nodeClass (some nodeClaim)).remote).result = .ok node ∧
      created.ProviderID = K.ProviderPrefix ++ node.InstanceID ∧
      created.Annotations.get? (AnnotationOVHPoolID K) = some pool.ID ∧
      created.Annotations.get? (AnnotationOVHNodeID K) = some node.ID ∧
      created.Annotations.get? (AnnotationOVHNodeName K) = some node.Name ∧
      created.Labels.get? LabelInstanceTypeStable = some flavor ∧
      created.Labels.get? LabelTopologyZone = some (selectZone c nodeClaim) ∧
      created.Labels.get? CapacityTypeLabelKey = some CapacityTypeOnDemand ∧
      created.Capacity
        = (match instanceTypes.find? (fun it => it.Name == flavor) with
           | some it => it.Capacity
           | none => []) ∧
      (∀ k, k ≠ AnnotationOVHPoolID K → k ≠ AnnotationOVHNodeID K → k ≠ AnnotationOVHNodeName K →
        created.Annotations.get? k = nodeClaim.Annotations.get? k) ∧
      (∀ k, k ≠ LabelInstanceTypeStable → k ≠ LabelTopologyZone → k ≠ CapacityTypeLabelKey →
        created.Labels.get? k = nodeClaim.Labels.get? k) ∧
      created.Name = nodeClaim.Name ∧
      created.NodeClassRefName = nodeClaim.NodeClassRefName ∧
      created.Requirements = nodeClaim.Requirements ∧
      created.Taints = nodeClaim.Taints := by
  obtain ⟨nodeClass, flavor, pool, node, h1, h2, h3, h4, h5⟩ :=
    Create_ok_stages K c kubeClient instanceTypes poolCache s nodeClaim schedule created hok
  obtain ⟨p1, p2, p3, p4, p5, p6, p7, p8, p9, p10, p11, p12, p13, p14, _⟩ :=
    createdClaim_spec K instanceTypes nodeClaim flavor (selectZone c nodeClaim) pool node
  subst h5
  exact ⟨nodeClass, flavor, pool, node, h1, h2, h3, h4, p1, p2, p3, p4, p5, p6, p7, p8, p9, p10,
    p11, p12, p13, p14⟩

/-- Witness for C20: a request for `b3-8` in `gra7-a` against an empty remote
whose first node listing reports a ready node. -/
theorem Create_response_witness :
    (Create scenarioConstants provisionClient scenarioKube [] [] [] scenarioRequest
        { ticks := 1, ending := .timeout }).result = .ok scenarioCreated
    ∧ ∃ flavor, selectFlavor scenarioRequest = .ok flavor ∧
        scenarioCreated.Labels.get? LabelInstanceTypeStable = some flavor :=
  ⟨by decide,
    match Create_response scenarioConstants provisionClient scenarioKube [] [] []
        scenarioRequest { ticks := 1, ending := .timeout } scenarioCreated (by decide) with
    | ⟨_, flavor, _, _, _, h2, _, _, _, _, _, _, h9, _⟩ => ⟨flavor, h2, h9⟩⟩

/-! ## The wait for a node -/

/-- The method waitForNewNode is the loop of `waitStep` over the branches of
its schedule. -/
theorem waitForNewNode_eq_waitLoop {σ : Type} (c : OVHClient σ) (poolID : String)
    (previousCount : Int) (ending : WaitEnding) (ticks : Nat) (s : σ) :
    waitLoop c poolID s (WaitSchedule.events { ticks := ticks, ending := ending })
      = (some (waitForNewNode c poolID previousCount ending ticks s).result,
         (waitForNewNode c poolID previousCount ending ticks s).remote) := by
  induction ticks generalizing s with
  | zero =>
    cases ending <;>
      simp [WaitSchedule.events, WaitEnding.event, waitLoop, waitStep, waitForNewNode]
  | succ n ih =>
    have hev : WaitSchedule.events { ticks := n + 1, ending := ending }
        = .tick :: WaitSchedule.events { ticks := n, ending := ending } := by
      simp [WaitSchedule.events, List.replicate_succ]
    rw [hev]
    simp only [waitLoop, waitStep, waitForNewNode]
    rcases hl : c.ListPoolNodes s poolID with ⟨res, s1⟩
    cases res with
    | error err => simpa using ih s1
    | ok nodes =>
      cases hf : nodes.find? (fun node => node.Status == "READY" && node.InstanceID != "") with
      | some node => simp [hf]
      | none => simpa [hf] using ih s1

/-- While no listing holds a ready node, the loop of waitForNewNode returns
nothing but the timeout error or the error of the context. -/
theorem waitLoop_without_ready {σ : Type} (c : OVHClient σ) (poolID : String)
    (hnever : ∀ s nodes, (c.ListPoolNodes s poolID).1 = .ok nodes →
      ∀ node ∈ nodes, ¬ (node.Status = "READY" ∧ node.InstanceID ≠ ""))
    (events : List WaitEvent) (s : σ) :
    (waitLoop c poolID s events).1 = none
    ∨ (waitLoop c poolID s events).1 = some (.error (.errorf "timeout waiting for new node"))
    ∨ ∃ ctxErr, (waitLoop c poolID s events).1 = some (.error (.client ctxErr)) := by
  induction events generalizing s with
  | nil => left; rfl
  | cons e rest ih =>
    cases e with
    | cancel ctxErr => right; right; exact ⟨ctxErr, by simp [waitLoop, waitStep]⟩
    | timeout => right; left; simp [waitLoop, waitStep]
    | tick =>
      simp only [waitLoop, waitStep]
      rcases hl : c.ListPoolNodes s poolID with ⟨res, s1⟩
      cases res with
      | error err => simpa using ih s1
      | ok nodes =>
        have hnone : nodes.find? (fun node => node.Status == "READY" && node.InstanceID != "")
            = none := by
          rw [List.find?_eq_none]
          intro node hmem
          have := hnever s nodes (by rw [hl]) node hmem
          simpa using this
        simpa [hnone] using ih s1

/-- While no listing holds a ready node, waitForNewNode ends with the error of
its ending, whatever the number of ticks before it. -/
theorem waitForNewNode_without_ready {σ : Type} (c : OVHClient σ) (poolID : String)
    (previousCount : Int)
    (hnever : ∀ s nodes, (c.ListPoolNodes s poolID).1 = .ok nodes →
      ∀ node ∈ nodes, ¬ (node.Status = "READY" ∧ node.InstanceID ≠ ""))
    (ending : WaitEnding) (ticks : Nat) (s : σ) :
    (waitForNewNode c poolID previousCount ending ticks s).result
      = (match ending with
         | .cancelled ctxErr => .error (.client ctxErr)
         | .timeout => .error (.errorf "timeout waiting for new node")) := by
  induction ticks generalizing s with
  | zero => cases ending <;> simp [waitForNewNode]
  | succ n ih =>
    simp only [waitForNewNode]
    rcases hl : c.ListPoolNodes s poolID with ⟨res, s1⟩
    cases res with
    | error err => simpa using ih s1
    | ok nodes =>
      have hnone : nodes.find? (fun node => node.Status == "READY" && node.InstanceID != "")
          = none := by
        rw [List.find?_eq_none]
        intro node hmem
        have := hnever s nodes (by rw [hl]) node hmem
        simpa using this
      simpa [hnone] using ih s1

/-- C21: as a step function over the branches cancel, timeout and tick,
waitForNewNode returns the error of the context on cancel, the error
`timeout waiting for new node` on timeout, and the first ready node (status
`READY`, instance ID not empty) on a tick whose listing succeeds and holds
one; a tick whose listing fails or holds no ready node returns nothing and
leaves the loop running.  The method is the loop of this step function over
the ticks of its schedule and its ending.  Hence, when no listing ever holds
a ready node, the loop returns nothing but the timeout error or the error of
the context, and the method ends with the error of its ending. -/
theorem waitForNewNode_step_outcomes {σ : Type} (c : OVHClient σ) (poolID : String)
    (previousCount : Int) :
    (∀ s ctxErr, waitStep c poolID s (.cancel ctxErr) = (some (.error (.client ctxErr)), s)) ∧
    (∀ s, waitStep c poolID s .timeout
      = (some (.error (.errorf "timeout waiting for new node")), s)) ∧
    (∀ s nodes, (c.ListPoolNodes s poolID).1 = .ok nodes →
      (∃ node ∈ nodes, node.Status = "READY" ∧ node.InstanceID ≠ "") →
      ∃ node, nodes.find? Node.isReady = some node ∧
        waitStep c poolID s .tick = (some (.ok node), (c.ListPoolNodes s poolID).2)) ∧
    (∀ s err, (c.ListPoolNodes s poolID).1 = .error err →
      waitStep c poolID s .tick = (none, (c.ListPoolNodes s poolID).2)) ∧
    (∀ s nodes, (c.ListPoolNodes s poolID).1 = .ok nodes →
      (∀ node ∈ nodes, ¬ (node.Status = "READY" ∧ node.InstanceID ≠ "")) →
      waitStep c poolID s .tick = (none, (c.ListPoolNodes s poolID).2)) ∧
    (∀ ending ticks s,
      waitLoop c poolID s (WaitSchedule.events { ticks := ticks, ending := ending })
        = (some (waitForNewNode c poolID previousCount ending ticks s).result,
           (waitForNewNode c poolID previousCount ending ticks s).remote)) ∧
    ((∀ s nodes, (c.ListPoolNodes s poolID).1 = .ok nodes →
        ∀ node ∈ nodes, ¬ (node.Status = "READY" ∧ node.InstanceID ≠ "")) →
      (∀ events s,
        (waitLoop c poolID s events).1 = none
        ∨ (waitLoop c poolID s events).1
            = some (.error (.errorf "timeout waiting for new node"))
        ∨ ∃ ctxErr, (waitLoop c poolID s events).1 = some (.error (.client ctxErr))) ∧
      (∀ ending ticks s,
        (waitForNewNode c poolID previousCount ending ticks s).result
          = (match ending with
             | .cancelled ctxErr => .error (.client ctxErr)
             | .timeout => .error (.errorf "timeout waiting for new node")))) := by
  have hfun : (fun node : Node => node.Status == "READY" && node.InstanceID != "")
      = Node.isReady := rfl
  refine ⟨fun _ _ => rfl, fun _ => rfl, ?_, ?_, ?_, ?_, ?_⟩
  · intro s nodes hl hex
    rcases hc : c.ListPoolNodes s poolID with ⟨res, s1⟩
    rw [hc] at hl
    simp only at hl
    subst hl
    cases hf : nodes.find? Node.isReady with
    | none =>
      exfalso
      rw [List.find?_eq_none] at hf
      obtain ⟨node, hmem, h1, h2⟩ := hex
      exact hf node hmem (by simp [Node.isReady, h1, h2])
    | some node =>
      refine ⟨node, rfl, ?_⟩
      simp only [waitStep, hc, hfun, hf]
  · intro s err hl
    rcases hc : c.ListPoolNodes s poolID with ⟨res, s1⟩
    rw [hc] at hl
    simp only at hl
    subst hl
    simp only [waitStep, hc]
  · intro s nodes hl hno
    rcases hc : c.ListPoolNodes s poolID with ⟨res, s1⟩
    rw [hc] at hl
    simp only at hl
    subst hl
    have hnone : nodes.find? Node.isReady = none := by
      rw [List.find?_eq_none]
      intro node hmem
      have := hno node hmem
      simpa [Node.isReady] using this
    simp only [waitStep, hc, hfun, hnone]
  · intro ending ticks s
    exact waitForNewNode_eq_waitLoop c poolID previousCount ending ticks s
  · intro hnever
    exact ⟨fun events s => waitLoop_without_ready c poolID hnever events s,
      fun ending ticks s =>
        waitForNewNode_without_ready c poolID previousCount hnever ending ticks s⟩

/-- Witness for C21: against the in-memory remote, whose node listings are
empty, three ticks end with the timeout error or the error of the context;
against a remote whose listing holds a ready node the tick returns it, and
against a failing remote the tick returns nothing. -/
theorem waitForNewNode_step_outcomes_witness :
    (waitForNewNode memClient "pool-0" 0 .timeout 3 []).result
      = .error (.errorf "timeout waiting for new node")
    ∧ (waitForNewNode memClient "pool-0" 0 (.cancelled (.leaf "context canceled")) 3 []).result
      = .error (.client (.leaf "context canceled"))
    ∧ (∃ node, [scenarioReadyNode].find? Node.isReady = some node ∧
        waitStep provisionClient "pool-0" [] .tick
          = (some (.ok node), (provisionClient.ListPoolNodes [] "pool-0").2))
    ∧ waitStep failingClient "pool-0" () .tick
      = (none, (failingClient.ListPoolNodes () "pool-0").2) :=
  have hnever : ∀ (s : List NodePool) (nodes : List Node),
      (memClient.ListPoolNodes s "pool-0").1 = .ok nodes →
      ∀ node ∈ nodes, ¬ (node.Status = "READY" ∧ node.InstanceID ≠ "") := by
    intro s nodes h node hmem
    simp only [memClient, Except.ok.injEq] at h
    subst h
    simp at hmem
  ⟨((waitForNewNode_step_outcomes memClient "pool-0" 0).2.2.2.2.2.2 hnever).2 .timeout 3 [],
   ((waitForNewNode_step_outcomes memClient "pool-0" 0).2.2.2.2.2.2 hnever).2
      (.cancelled (.leaf "context canceled")) 3 [],
   (waitForNewNode_step_outcomes provisionClient "pool-0" 0).2.2.1 [] _ rfl
      ⟨_, List.mem_singleton.mpr rfl, by decide, by decide⟩,
   (waitForNewNode_step_outcomes failingClient "pool-0" 0).2.2.2.1 () _ rfl⟩

/-! ## The instance catalog -/

/-- The loop of buildInstanceTypesFromCapabilities appends to what it has. -/
theorem foldl_appendFromCapability (A : ResourceList → ResourceList → ResourceList)
    (capFlavors : List KubeFlavorCapability) (acc : List InstanceType) :
    capFlavors.foldl (appendFromCapability A) acc
      = acc ++ (capFlavors.filter (fun cf => cf.State == "available" && cf.VCPUs != 0)).map
          (fun cf => buildInstanceType A cf.toFlavor true) := by
  induction capFlavors generalizing acc with
  | nil => simp
  | cons cf rest ih =>
    rw [List.foldl_cons, ih]
    by_cases hs : cf.State = "available"
    · by_cases hv : cf.VCPUs = 0
      · simp [appendFromCapability, hs, hv]
      · simp [appendFromCapability, hs, hv]
    · simp [appendFromCapability, hs]

/-- The records of buildInstanceTypesFromCapabilities: one for each capability
in state `available` with a vCPU count other than zero, in input order, built
with the RAM read in GiB. -/
theorem buildInstanceTypesFromCapabilities_eq
    (A : ResourceList → ResourceList → ResourceList) (capFlavors : List KubeFlavorCapability) :
    buildInstanceTypesFromCapabilities A capFlavors
      = (capFlavors.filter (fun cf => cf.State == "available" && cf.VCPUs != 0)).map
          (fun cf => buildInstanceType A cf.toFlavor true) := by
  simp [buildInstanceTypesFromCapabilities, foldl_appendFromCapability]

/-- The loop of buildInstanceTypesFromClusterFlavors appends to what it has. -/
theorem foldl_appendFromClusterFlavor (A : ResourceList → ResourceList → ResourceList)
    (flavors : List Flavor) (acc : List InstanceType) :
    flavors.foldl (appendFromClusterFlavor A) acc
      = acc ++ (flavors.filter (fun f => f.VCPUs != 0)).map
          (fun f => buildInstanceType A f false) := by
  induction flavors generalizing acc with
  | nil => simp
  | cons f rest ih =>
    rw [List.foldl_cons, ih]
    by_cases hv : f.VCPUs = 0
    · simp [appendFromClusterFlavor, hv]
    · simp [appendFromClusterFlavor, hv]

/-- The records of buildInstanceTypesFromClusterFlavors: one for each flavor
with a vCPU count other than zero, in input order, built with the RAM read in
MiB. -/
theorem buildInstanceTypesFromClusterFlavors_eq
    (A : ResourceList → ResourceList → ResourceList) (flavors : List Flavor) :
    buildInstanceTypesFromClusterFlavors A flavors
      = (flavors.filter (fun f => f.VCPUs != 0)).map (fun f => buildInstanceType A f false) := by
  simp [buildInstanceTypesFromClusterFlavors, foldl_appendFromClusterFlavor]

/-- The name of the record that buildInstanceType builds is the flavor name. -/
theorem buildInstanceType_Name (A : ResourceList → ResourceList → ResourceList)
    (flavor : Flavor) (ramInGiB : Bool) :
    (buildInstanceType A flavor ramInGiB).Name = flavor.Name := by
  simp [buildInstanceType]

/-- The memory capacity of the record that buildInstanceType builds. -/
theorem buildInstanceType_memory (A : ResourceList → ResourceList → ResourceList)
    (flavor : Flavor) (ramInGiB : Bool) :
    (buildInstanceType A flavor ramInGiB).memory
      = some (if ramInGiB then quantityGi flavor.RAM else quantityMi flavor.RAM) := by
  have h1 : (ResourceMemory == ResourceCPU) = false := by decide
  have h2 : (ResourceMemory == ResourceMemory) = true := by decide
  by_cases hg : flavor.GPUs > 0 <;>
    simp [buildInstanceType, InstanceType.memory, hg, List.lookup, h1, h2]

/-- The cap leaves a number of magnitude at most `maxAllowed` as it is. -/
theorem capQuantity_of_abs_le (amount : ℚ) (h : |amount| ≤ maxAllowed) :
    capQuantity amount = amount := by
  have h1 := (abs_le.mp h).1
  have h2 := (abs_le.mp h).2
  unfold capQuantity
  rw [if_neg (not_lt.mpr h2), if_neg (not_lt.mpr h1)]

/-- A whole number of GiB below 2^33 in magnitude is a quantity of that many
times 2^30 bytes. -/
theorem quantityGi_exact (n : Int) (h : |n| < 2 ^ 33) : quantityGi n = (n : ℚ) * 2 ^ 30 := by
  apply capQuantity_of_abs_le
  have h1 : |n| ≤ 2 ^ 33 - 1 := by omega
  have h2 : |(n : ℚ)| ≤ 2 ^ 33 - 1 := by
    have : ((|n| : Int) : ℚ) ≤ ((2 ^ 33 - 1 : Int) : ℚ) := by exact_mod_cast h1
    rw [Int.cast_abs] at this
    norm_num at this ⊢
    exact this
  rw [abs_mul, abs_of_pos (by norm_num : (0 : ℚ) < 2 ^ 30)]
  unfold maxAllowed
  nlinarith

/-- A whole number of MiB below 2^43 in magnitude is a quantity of that many
times 2^20 bytes. -/
theorem quantityMi_exact (n : Int) (h : |n| < 2 ^ 43) : quantityMi n = (n : ℚ) * 2 ^ 20 := by
  apply capQuantity_of_abs_le
  have h1 : |n| ≤ 2 ^ 43 - 1 := by omega
  have h2 : |(n : ℚ)| ≤ 2 ^ 43 - 1 := by
    have : ((|n| : Int) : ℚ) ≤ ((2 ^ 43 - 1 : Int) : ℚ) := by exact_mod_cast h1
    rw [Int.cast_abs] at this
    norm_num at this ⊢
    exact this
  rw [abs_mul, abs_of_pos (by norm_num : (0 : ℚ) < 2 ^ 20)]
  unfold maxAllowed
  nlinarith

/-- C22 (amended): for every flavor with RAM value r, buildInstanceType
reports a memory capacity of r * 2^30 bytes when the RAM is read in GiB and
the magnitude of r is below 2^33, and of r * 2^20 bytes when the RAM is read
in MiB and the magnitude of r is below 2^43.  Every record of
buildInstanceTypesFromCapabilities is built with the RAM of its capability
read in GiB, and every record of buildInstanceTypesFromClusterFlavors with
the RAM of its flavor read in MiB. -/
theorem buildInstanceType_memory_units (A : ResourceList → ResourceList → ResourceList) :
    (∀ flavor : Flavor, |flavor.RAM| < 2 ^ 33 →
      (buildInstanceType A flavor true).memory = some ((flavor.RAM : ℚ) * 2 ^ 30)) ∧
    (∀ flavor : Flavor, |flavor.RAM| < 2 ^ 43 →
      (buildInstanceType A flavor false).memory = some ((flavor.RAM : ℚ) * 2 ^ 20)) ∧
    (∀ capFlavors : List KubeFlavorCapability,
      buildInstanceTypesFromCapabilities A capFlavors
        = (capFlavors.filter (fun cf => cf.State == "available" && cf.VCPUs != 0)).map
            (fun cf => buildInstanceType A cf.toFlavor true)) ∧
    (∀ capFlavors : List KubeFlavorCapability,
      ∀ it ∈ buildInstanceTypesFromCapabilities A capFlavors,
        ∃ cf ∈ capFlavors, it.Name = cf.Name ∧
          (|cf.RAM| < 2 ^ 33 → it.memory = some ((cf.RAM : ℚ) * 2 ^ 30))) ∧
    (∀ flavors : List Flavor,
      buildInstanceTypesFromClusterFlavors A flavors
        = (flavors.filter (fun f => f.VCPUs != 0)).map
            (fun f => buildInstanceType A f false)) ∧
    (∀ flavors : List Flavor,
      ∀ it ∈ buildInstanceTypesFromClusterFlavors A flavors,
        ∃ f ∈ flavors, it.Name = f.Name ∧
          (|f.RAM| < 2 ^ 43 → it.memory = some ((f.RAM : ℚ) * 2 ^ 20))) := by
  have hGi : ∀ flavor : Flavor, |flavor.RAM| < 2 ^ 33 →
      (buildInstanceType A flavor true).memory = some ((flavor.RAM : ℚ) * 2 ^ 30) := by
    intro flavor h
    rw [buildInstanceType_memory, if_pos rfl, quantityGi_exact _ h]
  have hMi : ∀ flavor : Flavor, |flavor.RAM| < 2 ^ 43 →
      (buildInstanceType A flavor false).memory = some ((flavor.RAM : ℚ) * 2 ^ 20) := by
    intro flavor h
    rw [buildInstanceType_memory, if_neg (by simp), quantityMi_exact _ h]
  refine ⟨hGi, hMi, buildInstanceTypesFromCapabilities_eq A, ?_,
    buildInstanceTypesFromClusterFlavors_eq A, ?_⟩
  · intro capFlavors it hit
    rw [buildInstanceTypesFromCapabilities_eq, List.mem_map] at hit
    obtain ⟨cf, hcf, rfl⟩ := hit
    exact ⟨cf, (List.mem_filter.mp hcf).1, buildInstanceType_Name A _ true,
      fun h => hGi cf.toFlavor h⟩
  · intro flavors it hit
    rw [buildInstanceTypesFromClusterFlavors_eq, List.mem_map] at hit
    obtain ⟨f, hf, rfl⟩ := hit
    exact ⟨f, (List.mem_filter.mp hf).1, buildInstanceType_Name A _ false, fun h => hMi f h⟩

/-- Witness for C22: 8 GiB from the capabilities endpoint and 8192 MiB from the
cluster-scoped endpoint are both 8589934592 bytes. -/
theorem buildInstanceType_memory_units_witness :
    (buildInstanceType scenarioAllocatable scenarioCapability.toFlavor true).memory
      = some (((8 : Int) : ℚ) * 2 ^ 30)
    ∧ (buildInstanceType scenarioAllocatable scenarioFlavor false).memory
      = some (((8192 : Int) : ℚ) * 2 ^ 20) :=
  ⟨(buildInstanceType_memory_units scenarioAllocatable).1 scenarioCapability.toFlavor
      (by decide),
   (buildInstanceType_memory_units scenarioAllocatable).2.1 scenarioFlavor (by decide)⟩

/-- Counterexample to C22 as stated: for a flavor of 2^33 GiB the memory
capacity is the largest quantity, 2^63 - 1 bytes, and not 2^33 * 2^30 bytes. -/
theorem buildInstanceType_memory_capped :
    (buildInstanceType scenarioAllocatable hugeFlavor true).memory
      = some (9223372036854775807 : ℚ)
    ∧ (buildInstanceType scenarioAllocatable hugeFlavor true).memory
      ≠ some (((8589934592 : Int) : ℚ) * 2 ^ 30) := by
  have h : (buildInstanceType scenarioAllocatable hugeFlavor true).memory
      = some (9223372036854775807 : ℚ) := by
    rw [buildInstanceType_memory, if_pos rfl]
    norm_num [quantityGi, capQuantity, maxAllowed, hugeFlavor]
  refine ⟨h, ?_⟩
  rw [h]
  norm_num

/-! ## The node template of a new pool -/

/-- The tag loop leaves a key alone that is not a tag key. -/
theorem foldl_set_get?_of_not_mem (tags labels : GoMap) (k : String)
    (h : k ∉ tags.map Prod.fst) :
    (tags.foldl (fun acc kv => acc.set kv.1 kv.2) labels).get? k = labels.get? k := by
  induction tags generalizing labels with
  | nil => rfl
  | cons e rest ih =>
    simp only [List.map_cons, List.mem_cons, not_or] at h
    rw [List.foldl_cons, ih _ h.2, GoMap.get?_set_other _ _ _ _ h.1]

/-- The tag loop stores every tag of a map without duplicate keys. -/
theorem foldl_set_get?_of_mem (tags : GoMap) (hwf : tags.WF) (labels : GoMap) (k v : String)
    (h : (k, v) ∈ tags) :
    (tags.foldl (fun acc kv => acc.set kv.1 kv.2) labels).get? k = some v := by
  induction tags generalizing labels with
  | nil => simp at h
  | cons e rest ih =>
    unfold GoMap.WF at hwf
    simp only [List.map_cons, List.nodup_cons] at hwf
    rw [List.foldl_cons]
    rcases List.mem_cons.mp h with heq | hmem
    · subst heq
      rw [foldl_set_get?_of_not_mem _ _ _ hwf.1]
      exact GoMap.get?_set_self _ _ _
    · exact ih hwf.2 _ hmem

/-- The labels of the node template: every tag of the node class with its
value, and under each of the six standard keys that is not a tag key the
standard value. -/
theorem templateLabels_spec (flavor zone : String) (nodeClass : OVHNodeClass)
    (nodeClaim : Option NodeClaim) :
    (nodeClass.Spec.Tags.WF → ∀ k v, (k, v) ∈ nodeClass.Spec.Tags →
      (templateLabels flavor zone nodeClass nodeClaim).get? k = some v) ∧
    (∀ k v, k ∉ nodeClass.Spec.Tags.map Prod.fst →
      (k, v) ∈ [(LabelInstanceTypeStable, flavor), (LabelTopologyZone, zone),
        (CapacityTypeLabelKey, CapacityTypeOnDemand), (LabelArchStable, ArchitectureAmd64),
        (LabelOSStable, Linux), ("managed-by", "karpenter")] →
      (templateLabels flavor zone nodeClass nodeClaim).get? k = some v) := by
  constructor
  · intro hwf k v hmem
    unfold templateLabels
    exact foldl_set_get?_of_mem _ hwf _ k v hmem
  · intro k v hk hmem
    unfold templateLabels
    simp only
    rw [foldl_set_get?_of_not_mem _ _ _ hk]
    have hbase : ∀ base : GoMap,
        base.get? k = some v → k ≠ NodePoolLabelKey →
        (match nodeClaim with
          | some nc =>
            match nc.Labels.get? NodePoolLabelKey with
            | some nodePoolName => base.set NodePoolLabelKey nodePoolName
            | none => base
          | none => base).get? k = some v := by
      intro base hb hne
      cases nodeClaim with
      | none => exact hb
      | some nc =>
        cases hl : nc.Labels.get? NodePoolLabelKey with
        | none => simpa [hl] using hb
        | some n =>
          simp only [hl]
          rw [GoMap.get?_set_other _ _ _ _ hne]
          exact hb
    simp only [List.mem_cons, Prod.mk.injEq, List.mem_singleton, List.not_mem_nil,
      or_false] at hmem
    rcases hmem with ⟨rfl, rfl⟩ | ⟨rfl, rfl⟩ | ⟨rfl, rfl⟩ | ⟨rfl, rfl⟩ | ⟨rfl, rfl⟩ | ⟨rfl, rfl⟩
    all_goals
      apply hbase _ _ (by decide)
      repeat
        first
          | exact GoMap.get?_set_self _ _ _
          | rw [GoMap.get?_set_other _ _ _ _ (by decide)]

/-- Every pool-creation request that getOrCreatePool sends is the request
built from its arguments. -/
theorem getOrCreatePool_creation_request {σ : Type} (K : Constants) (c : OVHClient σ)
    (poolCache : GoMap) (s : σ) (name flavor zone : String) (nodeClass : OVHNodeClass)
    (nodeClaim : Option NodeClaim) (req : CreateNodePoolRequest)
    (res : Except ClientError NodePool)
    (h : Event.CreateNodePool req res
      ∈ (getOrCreatePool K c poolCache s name flavor zone nodeClass nodeClaim).calls) :
    req = createRequest K name flavor zone nodeClass nodeClaim := by
  have hlist : ∀ (cache : GoMap) (s0 : σ) (pre : List Event),
      Event.CreateNodePool req res ∉ pre →
      Event.CreateNodePool req res
        ∈ (listThenScaleOrCreate K c cache s0 pre name flavor zone nodeClass nodeClaim).calls →
      req = createRequest K name flavor zone nodeClass nodeClaim := by
    intro cache s0 pre hpre hmem
    rcases listThenScaleOrCreate_cases K c cache s0 pre name flavor zone nodeClass nodeClaim with
      ⟨e, s1, _, heq⟩ | ⟨pools, s1, q, r, s2, _, _, _, heq⟩ | ⟨pools, s1, r, s2, _, _, _, heq⟩
    · rw [heq] at hmem
      simp at hmem
      exact absurd hmem hpre
    · rw [heq] at hmem
      simp at hmem
      exact absurd hmem hpre
    · rw [heq] at hmem
      simp only [List.mem_append, List.mem_cons, List.mem_singleton, List.not_mem_nil,
        or_false] at hmem
      rcases hmem with hmem | hmem | hmem
      · exact absurd hmem hpre
      · cases hmem
      · injection hmem with h1 _
  rcases getOrCreatePool_cases K c poolCache s name flavor zone nodeClass nodeClaim with
    ⟨id, q, s1, r, s2, _, _, _, heq⟩ | ⟨id, e, s1, _, _, heq⟩ | ⟨_, heq⟩
  · rw [heq] at h
    simp at h
  · rw [heq] at h
    exact hlist _ _ _ (by simp) h
  · rw [heq] at h
    exact hlist _ _ _ (by simp) h

/-- C23 (amended): for every node class, whose tag map has no key twice as
every Go map, and every request, the template of every pool-creation request
that getOrCreatePool sends contains every user-supplied tag with its value,
and maps each of the keys instance-type, zone, capacity-type, architecture,
OS and `managed-by` that is not the key of a tag to the flavor, the zone,
on-demand, amd64, linux and `karpenter`; the template taints are the
taints of the request in order. -/
theorem getOrCreatePool_template {σ : Type} (K : Constants) (c : OVHClient σ)
    (poolCache : GoMap) (s : σ) (name flavor zone : String) (nodeClass : OVHNodeClass)
    (nodeClaim : NodeClaim) (req : CreateNodePoolRequest) (res : Except ClientError NodePool)
    (hwf : nodeClass.Spec.Tags.WF)
    (h : Event.CreateNodePool req res
      ∈ (getOrCreatePool K c poolCache s name flavor zone nodeClass (some nodeClaim)).calls) :
    ∃ template, req.Template = some template ∧
      (∀ k v, (k, v) ∈ nodeClass.Spec.Tags → template.Metadata.Labels.get? k = some v) ∧
      (∀ k v, k ∉ nodeClass.Spec.Tags.map Prod.fst →
        (k, v) ∈ [(LabelInstanceTypeStable, flavor), (LabelTopologyZone, zone),
          (CapacityTypeLabelKey, CapacityTypeOnDemand), (LabelArchStable, ArchitectureAmd64),
          (LabelOSStable, Linux), ("managed-by", "karpenter")] →
        template.Metadata.Labels.get? k = some v) ∧
      template.Spec.Taints = nodeClaim.Taints := by
  have hreq := getOrCreatePool_creation_request K c poolCache s name flavor zone nodeClass
    (some nodeClaim) req res h
  subst hreq
  obtain ⟨htags, hstd⟩ := templateLabels_spec flavor zone nodeClass (some nodeClaim)
  exact ⟨_, rfl, htags hwf, hstd, by simp [templateTaints]⟩

/-- Witness for C23: the request sent for a tainted claim under a node class
with the tag `team`. -/
theorem getOrCreatePool_template_witness :
    ∃ template, taggedCreateRequest.Template = some template ∧
      template.Metadata.Labels.get? "team" = some "ops" ∧
      template.Metadata.Labels.get? LabelInstanceTypeStable = some "b3-8" ∧
      template.Metadata.Labels.get? "managed-by" = some "karpenter" ∧
      template.Spec.Taints = taintedRequest.Taints :=
  match getOrCreatePool_template scenarioConstants memClient [] [] "karpenter-b3-8-gra7-a"
      "b3-8" "gra7-a" taggedNodeClass taintedRequest taggedCreateRequest
      (memClient.CreateNodePool [] taggedCreateRequest).1 (by decide) (by decide) with
  | ⟨template, h1, h2, h3, h4⟩ =>
    ⟨template, h1, h2 "team" "ops" (by decide),
      h3 LabelInstanceTypeStable "b3-8" (by decide) (by decide),
      h3 "managed-by" "karpenter" (by decide) (by decide), h4⟩

/-- Counterexample to C23 as stated: under a node class with the tag
`managed-by`, the template of the request that getOrCreatePool sends maps
`managed-by` to the value of the tag and not to `karpenter`. -/
theorem getOrCreatePool_tag_replaces_label :
    Event.CreateNodePool overridingCreateRequest
        (memClient.CreateNodePool [] overridingCreateRequest).1
      ∈ (getOrCreatePool scenarioConstants memClient [] [] "karpenter-b3-8-gra7-a" "b3-8"
          "gra7-a" overridingNodeClass (some taintedRequest)).calls
    ∧ overridingCreateRequest.Template.map (fun t => t.Metadata.Labels.get? "managed-by")
      = some (some "ops")
    ∧ overridingCreateRequest.Template.map (fun t => t.Metadata.Labels.get? "managed-by")
      ≠ some (some "karpenter") := by
  decide

/-! ## Flavor and zone of a request -/

/-- The search of selectFlavor and selectZone for a key: it finds the first
requirement with that key and a value, or there is none. -/
theorem firstRequirement_cases (key : String) (reqs : List NodeSelectorRequirement) :
    (∃ pre req post v vs, reqs = pre ++ req :: post ∧
        (∀ r ∈ pre, ¬ (r.Key = key ∧ r.Values ≠ [])) ∧
        req.Key = key ∧ req.Values = v :: vs ∧
        reqs.find? (fun req => req.Key == key && decide (req.Values.length > 0)) = some req)
    ∨ ((∀ r ∈ reqs, ¬ (r.Key = key ∧ r.Values ≠ [])) ∧
        reqs.find? (fun req => req.Key == key && decide (req.Values.length > 0)) = none) := by
  have hp : ∀ r : NodeSelectorRequirement,
      (r.Key == key && decide (r.Values.length > 0)) = true ↔ (r.Key = key ∧ r.Values ≠ []) := by
    intro r
    simp [List.length_pos]
  cases hf : reqs.find? (fun req => req.Key == key && decide (req.Values.length > 0)) with
  | none =>
    right
    refine ⟨?_, rfl⟩
    intro r hr
    have := List.find?_eq_none.mp hf r hr
    exact fun h => this ((hp r).mpr h)
  | some req =>
    left
    obtain ⟨hreq, pre, post, hsplit, hpre⟩ := List.find?_eq_some.mp hf
    have hk := (hp req).mp hreq
    obtain ⟨v, vs, hv⟩ := List.exists_cons_of_ne_nil hk.2
    refine ⟨pre, req, post, v, vs, hsplit, ?_, hk.1, hv, rfl⟩
    intro r hr h
    have h1 := hpre r hr
    have h2 := (hp r).mpr h
    simp [h2] at h1

/-- C24: Create resolves the flavor as the first value of the first
requirement whose key is the instance-type label and whose value list is not
empty; selectFlavor fails, with `no instance type requirement found`, exactly
when there is no such requirement, and Create then fails with that error
behind `selecting flavor: ` once the node class is resolved and not unready.
The zone is the first value of the first requirement whose key is the zone
label and whose value list is not empty, and the lower-cased region followed
by `-a` when there is no such requirement.  With a flavor resolved, Create
goes on to getOrCreatePool with that flavor, that zone and their pool name. -/
theorem Create_resolves_flavor_and_zone {σ : Type} (K : Constants) (c : OVHClient σ)
    (kubeClient : KubeClient) (instanceTypes : List InstanceType) (poolCache : GoMap) (s : σ)
    (nodeClaim : NodeClaim) (schedule : WaitSchedule) :
    ((∃ pre req post v vs, nodeClaim.Requirements = pre ++ req :: post ∧
        (∀ r ∈ pre, ¬ (r.Key = LabelInstanceTypeStable ∧ r.Values ≠ [])) ∧
        req.Key = LabelInstanceTypeStable ∧ req.Values = v :: vs ∧
        selectFlavor nodeClaim = .ok v)
      ∨ ((∀ r ∈ nodeClaim.Requirements, ¬ (r.Key = LabelInstanceTypeStable ∧ r.Values ≠ [])) ∧
        selectFlavor nodeClaim = .error (.errorf "no instance type requirement found"))) ∧
    ((∃ err, selectFlavor nodeClaim = .error err)
      ↔ ∀ r ∈ nodeClaim.Requirements, ¬ (r.Key = LabelInstanceTypeStable ∧ r.Values ≠ [])) ∧
    ((∃ pre req post v vs, nodeClaim.Requirements = pre ++ req :: post ∧
        (∀ r ∈ pre, ¬ (r.Key = LabelTopologyZone ∧ r.Values ≠ [])) ∧
        req.Key = LabelTopologyZone ∧ req.Values = v :: vs ∧
        selectZone c nodeClaim = v)
      ∨ ((∀ r ∈ nodeClaim.Requirements, ¬ (r.Key = LabelTopologyZone ∧ r.Values ≠ [])) ∧
        selectZone c nodeClaim = ToLower c.region ++ "-a")) ∧
    (∀ nodeClass, resolveNodeClass kubeClient nodeClaim = .ok nodeClass →
      conditionIsFalse (readyCondition nodeClass) = false →
      (((Create K c kubeClient instanceTypes poolCache s nodeClaim schedule).result
          = .error (.wrapf "selecting flavor: " (.errorf "no instance type requirement found"))
        ↔ ∀ r ∈ nodeClaim.Requirements, ¬ (r.Key = LabelInstanceTypeStable ∧ r.Values ≠ [])) ∧
      (∀ flavor, selectFlavor nodeClaim = .ok flavor →
        (getOrCreatePool K c poolCache s (poolName K flavor (selectZone c nodeClaim)) flavor
            (selectZone c nodeClaim) nodeClass (some nodeClaim)).calls
          <+: (Create K c kubeClient instanceTypes poolCache s nodeClaim schedule).calls))) := by
  have hflavor : (∃ pre req post v vs, nodeClaim.Requirements = pre ++ req :: post ∧
        (∀ r ∈ pre, ¬ (r.Key = LabelInstanceTypeStable ∧ r.Values ≠ [])) ∧
        req.Key = LabelInstanceTypeStable ∧ req.Values = v :: vs ∧
        selectFlavor nodeClaim = .ok v)
      ∨ ((∀ r ∈ nodeClaim.Requirements, ¬ (r.Key = LabelInstanceTypeStable ∧ r.Values ≠ [])) ∧
        selectFlavor nodeClaim = .error (.errorf "no instance type requirement found")) := by
    rcases firstRequirement_cases LabelInstanceTypeStable nodeClaim.Requirements with
      ⟨pre, req, post, v, vs, h1, h2, h3, h4, h5⟩ | ⟨h1, h2⟩
    · left
      exact ⟨pre, req, post, v, vs, h1, h2, h3, h4, by simp [selectFlavor, h5, h4]⟩
    · right
      exact ⟨h1, by simp [selectFlavor, h2]⟩
  have hiff : (∃ err, selectFlavor nodeClaim = .error err)
      ↔ ∀ r ∈ nodeClaim.Requirements, ¬ (r.Key = LabelInstanceTypeStable ∧ r.Values ≠ []) := by
    constructor
    · rintro ⟨err, herr⟩
      rcases hflavor with ⟨pre, req, post, v, vs, _, _, _, _, h5⟩ | ⟨h1, _⟩
      · rw [h5] at herr
        cases herr
      · exact h1
    · intro hno
      rcases hflavor with ⟨pre, req, post, v, vs, h1, _, h3, h4, _⟩ | ⟨_, h2⟩
      · exact absurd ⟨h3, by simp [h4]⟩ (hno req (by simp [h1]))
      · exact ⟨_, h2⟩
  refine ⟨hflavor, hiff, ?_, ?_⟩
  · rcases firstRequirement_cases LabelTopologyZone nodeClaim.Requirements with
      ⟨pre, req, post, v, vs, h1, h2, h3, h4, h5⟩ | ⟨h1, h2⟩
    · left
      exact ⟨pre, req, post, v, vs, h1, h2, h3, h4, by simp [selectZone, h5, h4]⟩
    · right
      exact ⟨h1, by simp [selectZone, h2]⟩
  · intro nodeClass hclass hready
    constructor
    · constructor
      · intro hres
        apply hiff.mp
        cases hsel : selectFlavor nodeClaim with
        | error err => exact ⟨err, rfl⟩
        | ok flavor =>
          exfalso
          unfold Create at hres
          simp only [hclass, hready, hsel, Bool.false_eq_true, if_false] at hres
          split at hres
          · simp at hres
          · split at hres
            · simp at hres
            · simp at hres
      · intro hno
        rcases hflavor with ⟨pre, req, post, v, vs, h1, _, h3, h4, _⟩ | ⟨_, h2⟩
        · exact absurd ⟨h3, by simp [h4]⟩ (hno req (by simp [h1]))
        · unfold Create
          simp [hclass, hready, h2]
    · intro flavor hsel
      unfold Create
      simp only [hclass, hready, hsel, Bool.false_eq_true, if_false]
      split
      · exact List.prefix_refl _
      · split
        · exact List.prefix_append _ _
        · exact List.prefix_append _ _

/-- Witness for C24: a request without requirements fails in Create with the
error of selectFlavor, and a request for `b3-8` in `gra7-a` goes on to
getOrCreatePool. -/
theorem Create_resolves_flavor_and_zone_witness :
    (Create scenarioConstants memClient scenarioKube [] [] [] emptyRequest
        { ticks := 1, ending := .timeout }).result
      = .error (.wrapf "selecting flavor: " (.errorf "no instance type requirement found"))
    ∧ (getOrCreatePool scenarioConstants memClient [] []
          (poolName scenarioConstants "b3-8" (selectZone memClient scenarioRequest)) "b3-8"
          (selectZone memClient scenarioRequest) scenarioNodeClass (some scenarioRequest)).calls
        <+: (Create scenarioConstants memClient scenarioKube [] [] [] scenarioRequest
          { ticks := 1, ending := .timeout }).calls :=
  ⟨((Create_resolves_flavor_and_zone scenarioConstants memClient scenarioKube [] [] []
        emptyRequest { ticks := 1, ending := .timeout }).2.2.2 scenarioNodeClass rfl
        (by decide)).1.mpr (by simp [emptyRequest]),
   ((Create_resolves_flavor_and_zone scenarioConstants memClient scenarioKube [] [] []
        scenarioRequest { ticks := 1, ending := .timeout }).2.2.2 scenarioNodeClass rfl
        (by decide)).2 "b3-8" (by decide)⟩

/-- C25 (amended): from the capabilities endpoint, every flavor in state
`available` with a vCPU count other than zero yields exactly one record
carrying its name, in input order, and no other flavor yields a record.  From
the cluster-scoped endpoint, every available flavor with a vCPU count other
than zero yields a record carrying its name, in input order (whichever field
is read as availability), exactly the records of a listing whose flavors are
all available are those of its flavors with a vCPU count other than zero, and
no record is produced for a flavor with a vCPU count of zero. -/
theorem buildInstanceTypes_one_record_per_flavor
    (A : ResourceList → ResourceList → ResourceList) :
    (∀ capFlavors : List KubeFlavorCapability,
      (buildInstanceTypesFromCapabilities A capFlavors).map (fun it => it.Name)
        = (capFlavors.filter (fun cf => cf.State == "available" && cf.VCPUs != 0)).map
            (fun cf => cf.Name)) ∧
    (∀ (available : Flavor → Bool) (flavors : List Flavor),
      ((flavors.filter (fun f => available f && f.VCPUs != 0)).map (fun f => f.Name)).Sublist
        ((buildInstanceTypesFromClusterFlavors A flavors).map (fun it => it.Name))) ∧
    (∀ (available : Flavor → Bool) (flavors : List Flavor),
      (∀ f ∈ flavors, available f = true) →
      (buildInstanceTypesFromClusterFlavors A flavors).map (fun it => it.Name)
        = (flavors.filter (fun f => available f && f.VCPUs != 0)).map (fun f => f.Name)) ∧
    (∀ flavors : List Flavor, ∀ it ∈ buildInstanceTypesFromClusterFlavors A flavors,
      ∃ f ∈ flavors, f.VCPUs ≠ 0 ∧ it.Name = f.Name) := by
  have hname : ∀ flavors : List Flavor,
      (buildInstanceTypesFromClusterFlavors A flavors).map (fun it => it.Name)
        = (flavors.filter (fun f => f.VCPUs != 0)).map (fun f => f.Name) := by
    intro flavors
    rw [buildInstanceTypesFromClusterFlavors_eq, List.map_map]
    apply List.map_congr_left
    intro f _
    exact buildInstanceType_Name A f false
  refine ⟨?_, ?_, ?_, ?_⟩
  · intro capFlavors
    rw [buildInstanceTypesFromCapabilities_eq, List.map_map]
    apply List.map_congr_left
    intro cf _
    exact buildInstanceType_Name A cf.toFlavor true
  · intro available flavors
    rw [hname]
    apply List.Sublist.map
    have hsub : flavors.filter (fun f => available f && f.VCPUs != 0)
        = (flavors.filter (fun f => f.VCPUs != 0)).filter (fun f => available f) := by
      rw [List.filter_filter]
    rw [hsub]
    exact List.filter_sublist _
  · intro available flavors hall
    rw [hname]
    congr 1
    apply List.filter_congr
    intro f hf
    simp [hall f hf]
  · intro flavors it hit
    rw [buildInstanceTypesFromClusterFlavors_eq, List.mem_map] at hit
    obtain ⟨f, hf, rfl⟩ := hit
    obtain ⟨hmem, hv⟩ := List.mem_filter.mp hf
    exact ⟨f, hmem, by simpa using hv, buildInstanceType_Name A f false⟩

/-- Witness for C25: a cluster listing of two available flavors, one of them
without CPU information. -/
theorem buildInstanceTypes_one_record_per_flavor_witness :
    (buildInstanceTypesFromClusterFlavors scenarioAllocatable
        [scenarioFlavor, cpulessFlavor]).map (fun it => it.Name)
      = ([scenarioFlavor, cpulessFlavor].filter
          (fun f => f.Available && f.VCPUs != 0)).map (fun f => f.Name) :=
  (buildInstanceTypes_one_record_per_flavor scenarioAllocatable).2.2.1
    (fun f => f.Available) [scenarioFlavor, cpulessFlavor] (by decide)

/-- Counterexample to C25 as stated: an available flavor without CPU
information yields no record from either endpoint, and a cluster flavor that
is not available yields one. -/
theorem buildInstanceTypes_skips_available_flavor :
    buildInstanceTypesFromCapabilities scenarioAllocatable [cpulessCapability] = []
    ∧ buildInstanceTypesFromClusterFlavors scenarioAllocatable [cpulessFlavor] = []
    ∧ (buildInstanceTypesFromClusterFlavors scenarioAllocatable [unavailableFlavor]).map
        (fun it => it.Name) = ["c3-16"] := by
  refine ⟨?_, ?_, ?_⟩
  · rw [buildInstanceTypesFromCapabilities_eq]
    decide
  · rw [buildInstanceTypesFromClusterFlavors_eq]
    decide
  · rw [buildInstanceTypesFromClusterFlavors_eq]
    decide

/-! ## Catalog prices -/

/-- What extractFlavorPrices does with a qualifying pricing: it stores the
price divided by 100000000 under the flavor key, then under the plan code. -/
theorem extractPricing_qualifying (planCode : String) (prices : PriceMap)
    (pricing : PricingDetail)
    (hhourly : (Contains pricing.Duration "P1H" || Contains pricing.Description "hour"
      || pricing.Interval == 1) = true)
    (hcons : pricing.Capacities.any (fun cap => cap == "consumption") = true)
    (hprice : pricing.Price > 0) (hflavor : extractFlavorFromPlanCode planCode ≠ "") :
    extractPricing planCode prices pricing
      = (prices.set (extractFlavorFromPlanCode planCode)
            ((pricing.Price : ℚ) / 100000000)).set planCode
          ((pricing.Price : ℚ) / 100000000) := by
  unfold extractPricing
  simp only [hhourly, hcons, hprice, decide_True, Bool.and_self, if_true, ne_eq, hflavor,
    not_false_eq_true]

/-- What extractFlavorPrices does with any other pricing: nothing. -/
theorem extractPricing_skipped (planCode : String) (prices : PriceMap)
    (pricing : PricingDetail)
    (h : ¬ ((Contains pricing.Duration "P1H" || Contains pricing.Description "hour"
        || pricing.Interval == 1) = true
      ∧ pricing.Capacities.any (fun cap => cap == "consumption") = true
      ∧ pricing.Price > 0 ∧ extractFlavorFromPlanCode planCode ≠ "")) :
    extractPricing planCode prices pricing = prices := by
  unfold extractPricing
  by_cases h1 : (Contains pricing.Duration "P1H" || Contains pricing.Description "hour"
      || pricing.Interval == 1) = true
  · by_cases h2 : pricing.Capacities.any (fun cap => cap == "consumption") = true
    · by_cases h3 : pricing.Price > 0
      · have h4 : extractFlavorFromPlanCode planCode = "" := by
          by_contra h4
          exact h ⟨h1, h2, h3, h4⟩
        simp [h4]
      · simp [h3]
    · simp [h2]
  · simp [h1]

/-- C26: for the catalog entry `instance-b3-8.gra7.hour.consumption` with the
price 1000000, which the comment on `PricingDetail.Price` reads as 1.00 EUR,
extractFlavorPrices stores 0.01 under the flavor key and under the plan code:
it divides by 100000000 and not by 1000000. -/
theorem extractFlavorPrices_divisor :
    extractFlavorPrices microCatalog
      = [("instance-b3-8.gra7.hour.consumption", (1 : ℚ) / 100), ("b3-8", (1 : ℚ) / 100)]
    ∧ (extractFlavorPrices microCatalog).get? "b3-8" ≠ some ((1000000 : ℚ) / 1000000) := by
  have hlower : ToLower "instance-b3-8.gra7.hour.consumption"
      = "instance-b3-8.gra7.hour.consumption" := by decide
  have hcontains : Contains "instance-b3-8.gra7.hour.consumption" "instance" = true := by
    decide
  have hflavor : extractFlavorFromPlanCode "instance-b3-8.gra7.hour.consumption" = "b3-8" := by
    decide
  have h : extractFlavorPrices microCatalog
      = [("instance-b3-8.gra7.hour.consumption", (1 : ℚ) / 100), ("b3-8", (1 : ℚ) / 100)] := by
    simp only [extractFlavorPrices, microCatalog, List.foldl_cons, List.foldl_nil, extractAddon,
      hlower, hcontains, Bool.not_true, Bool.false_eq_true, if_false]
    rw [extractPricing_qualifying _ _ _ (by decide) (by decide) (by decide)
      (by rw [hflavor]; decide), hflavor]
    have hne : (("b3-8", (1000000 : ℚ) / 100000000).1
        != "instance-b3-8.gra7.hour.consumption") = true := by decide
    simp only [PriceMap.set, List.filter_nil, List.filter_cons, hne, if_true]
    norm_num
  refine ⟨h, ?_⟩
  rw [h]
  have hk : ("b3-8" == "instance-b3-8.gra7.hour.consumption") = false := by decide
  simp only [PriceMap.get?, List.lookup, hk]
  norm_num

/-! ## The node that a wait returns -/

/-- The count of nodes before the scale-up plays no part in waitForNewNode. -/
theorem waitForNewNode_previousCount {σ : Type} (c : OVHClient σ) (poolID : String)
    (n m : Int) (ending : WaitEnding) (ticks : Nat) (s : σ) :
    waitForNewNode c poolID n ending ticks s = waitForNewNode c poolID m ending ticks s := by
  induction ticks generalizing s with
  | zero => cases ending <;> rfl
  | succ k ih =>
    simp only [waitForNewNode, ih]

/-- A tick whose listing holds a ready node returns the first one. -/
theorem waitForNewNode_first_ready {σ : Type} (c : OVHClient σ) (poolID : String)
    (previousCount : Int) (ending : WaitEnding) (ticks : Nat) (s : σ) (nodes : List Node)
    (node : Node) (hl : (c.ListPoolNodes s poolID).1 = .ok nodes)
    (hf : nodes.find? Node.isReady = some node) :
    (waitForNewNode c poolID previousCount ending (ticks + 1) s).result = .ok node := by
  have hfun : (fun node : Node => node.Status == "READY" && node.InstanceID != "")
      = Node.isReady := rfl
  simp only [waitForNewNode]
  rcases hc : c.ListPoolNodes s poolID with ⟨res, s1⟩
  rw [hc] at hl
  simp only at hl
  subst hl
  simp only [hfun, hf]

/-- A tick whose listing fails or holds no ready node hands over to the next
tick. -/
theorem waitForNewNode_next_tick {σ : Type} (c : OVHClient σ) (poolID : String)
    (previousCount : Int) (ending : WaitEnding) (ticks : Nat) (s : σ)
    (h : (∃ err, (c.ListPoolNodes s poolID).1 = .error err)
      ∨ ∃ nodes, (c.ListPoolNodes s poolID).1 = .ok nodes ∧ nodes.find? Node.isReady = none) :
    (waitForNewNode c poolID previousCount ending (ticks + 1) s).result
      = (waitForNewNode c poolID previousCount ending ticks (c.ListPoolNodes s poolID).2).result := by
  have hfun : (fun node : Node => node.Status == "READY" && node.InstanceID != "")
      = Node.isReady := rfl
  simp only [waitForNewNode]
  rcases hc : c.ListPoolNodes s poolID with ⟨res, s1⟩
  rw [hc] at h
  rcases h with ⟨err, he⟩ | ⟨nodes, hn, hf⟩
  · simp only at he
    subst he
    rfl
  · simp only at hn
    subst hn
    simp only [hfun, hf]

/-- When every listing of the pool starts with one ready node, a wait that
returns a node returns that one. -/
theorem waitForNewNode_head_ready {σ : Type} (c : OVHClient σ) (poolID : String)
    (previousCount : Int) (ending : WaitEnding) (ticks : Nat) (s : σ) (node found : Node)
    (hstatus : node.Status = "READY") (hid : node.InstanceID ≠ "")
    (hlist : ∀ s, ∃ rest, (c.ListPoolNodes s poolID).1 = .ok (node :: rest))
    (h : (waitForNewNode c poolID previousCount ending ticks s).result = .ok found) :
    found = node := by
  cases ticks with
  | zero => cases ending <;> simp [waitForNewNode] at h
  | succ k =>
    obtain ⟨rest, hl⟩ := hlist s
    have hf : (node :: rest).find? Node.isReady = some node := by
      apply List.find?_cons_of_pos
      simp [Node.isReady, hstatus, hid]
    rw [waitForNewNode_first_ready c poolID previousCount ending k s _ node hl hf] at h
    injection h with h
    exact h.symm

/-- A successful Create on a pool whose listings all start with one ready node
returns the provider ID of that node. -/
theorem Create_provider_of_head_ready {σ : Type} (K : Constants) (c : OVHClient σ)
    (kubeClient : KubeClient) (instanceTypes : List InstanceType) (poolCache : GoMap) (s : σ)
    (nodeClaim : NodeClaim) (schedule : WaitSchedule) (created : NodeClaim) (node : Node)
    (poolID : String) (hstatus : node.Status = "READY") (hid : node.InstanceID ≠ "")
    (hok : (Create K c kubeClient instanceTypes poolCache s nodeClaim schedule).result
      = .ok created)
    (hpool : created.Annotations.get? (AnnotationOVHPoolID K) = some poolID)
    (hlist : ∀ s, ∃ rest, (c.ListPoolNodes s poolID).1 = .ok (node :: rest)) :
    created.ProviderID = K.ProviderPrefix ++ node.InstanceID := by
  obtain ⟨nodeClass, flavor, pool, found, _, _, _, hwait, hcreated⟩ :=
    Create_ok_stages K c kubeClient instanceTypes poolCache s nodeClaim schedule created hok
  obtain ⟨p1, p2, _⟩ :=
    createdClaim_spec K instanceTypes nodeClaim flavor (selectZone c nodeClaim) pool found
  subst hcreated
  rw [p2] at hpool
  injection hpool with hpool
  rw [hpool] at hwait
  rw [p1, waitForNewNode_head_ready c poolID _ _ _ _ node found hstatus hid hlist hwait]

/-- C27: the result of waitForNewNode does not depend on its previousCount
argument.  A tick whose listing succeeds and holds a ready node (status
`READY`, instance ID not empty) returns the first such node in list order,
and a tick whose listing fails or holds none hands over to the next tick, so
the node returned is the first ready node of the first listing that holds
one, whether or not it was in the pool before the scale-up.  Hence two
successive successful Create calls that land on one pool, every listing of
which starts with the same ready node, return claims with the same provider
ID, that of this node. -/
theorem waitForNewNode_returns_first_ready {σ : Type} (K : Constants) (c : OVHClient σ) :
    (∀ poolID n m ending ticks s,
      waitForNewNode c poolID n ending ticks s = waitForNewNode c poolID m ending ticks s) ∧
    (∀ poolID previousCount ending ticks s nodes node,
      (c.ListPoolNodes s poolID).1 = .ok nodes → nodes.find? Node.isReady = some node →
      (waitForNewNode c poolID previousCount ending (ticks + 1) s).result = .ok node) ∧
    (∀ poolID previousCount ending ticks s,
      ((∃ err, (c.ListPoolNodes s poolID).1 = .error err)
        ∨ ∃ nodes, (c.ListPoolNodes s poolID).1 = .ok nodes ∧
            nodes.find? Node.isReady = none) →
      (waitForNewNode c poolID previousCount ending (ticks + 1) s).result
        = (waitForNewNode c poolID previousCount ending ticks
            (c.ListPoolNodes s poolID).2).result) ∧
    (∀ (kubeClient : KubeClient) (instanceTypes : List InstanceType) (poolCache : GoMap)
      (s : σ) (first second : NodeClaim) (schedule1 schedule2 : WaitSchedule)
      (created1 created2 : NodeClaim) (node : Node) (poolID : String),
      node.Status = "READY" → node.InstanceID ≠ "" →
      (Create K c kubeClient instanceTypes poolCache s first schedule1).result = .ok created1 →
      (Create K c kubeClient instanceTypes
        (Create K c kubeClient instanceTypes poolCache s first schedule1).poolCache
        (Create K c kubeClient instanceTypes poolCache s first schedule1).remote
        second schedule2).result = .ok created2 →
      created1.Annotations.get? (AnnotationOVHPoolID K) = some poolID →
      created2.Annotations.get? (AnnotationOVHPoolID K) = some poolID →
      (∀ s, ∃ rest, (c.ListPoolNodes s poolID).1 = .ok (node :: rest)) →
      created1.ProviderID = K.ProviderPrefix ++ node.InstanceID
        ∧ created2.ProviderID = created1.ProviderID) := by
  refine ⟨fun poolID n m ending ticks s => waitForNewNode_previousCount c poolID n m ending ticks s,
    fun poolID pc ending ticks s nodes node hl hf =>
      waitForNewNode_first_ready c poolID pc ending ticks s nodes node hl hf,
    fun poolID pc ending ticks s h => waitForNewNode_next_tick c poolID pc ending ticks s h, ?_⟩
  intro kubeClient instanceTypes poolCache s first second schedule1 schedule2 created1 created2
    node poolID hstatus hid hok1 hok2 hp1 hp2 hlist
  have h1 := Create_provider_of_head_ready K c kubeClient instanceTypes poolCache s first
    schedule1 created1 node poolID hstatus hid hok1 hp1 hlist
  have h2 := Create_provider_of_head_ready K c kubeClient instanceTypes _ _ second
    schedule2 created2 node poolID hstatus hid hok2 hp2 hlist
  exact ⟨h1, by rw [h2, h1]⟩

/-- Witness for C27: two successive requests for `b3-8` in `gra7-a` against a
remote whose listing of `pool-0` always starts with the ready node `n1`; the
second call only scales the pool, and both claims carry the provider ID of
`n1`. -/
theorem waitForNewNode_returns_first_ready_witness :
    scenarioCreated.ProviderID = "openstack:///" ++ scenarioReadyNode.InstanceID
    ∧ secondCreated.ProviderID = scenarioCreated.ProviderID :=
  (waitForNewNode_returns_first_ready scenarioConstants provisionClient).2.2.2
    scenarioKube [] [] [] scenarioRequest secondRequest { ticks := 1, ending := .timeout }
    { ticks := 1, ending := .timeout } scenarioCreated secondCreated scenarioReadyNode "pool-0"
    (by decide) (by decide) (by decide) (by decide) (by decide) (by decide)
    (fun _ => ⟨[], rfl⟩)

/-! ## Pool names of different pairs -/

theorem splitScan_ne_nil (c : Char) (cs : List Char) : splitScan [c] 0 cs ≠ [] := by
  induction cs with
  | nil => simp [splitScan]
  | cons x cs ih =>
    unfold splitScan
    by_cases h : [c].isPrefixOf (x :: cs) = true
    · simp [h]
    · simp only [h, Bool.false_eq_true, if_false]
      cases hs : splitScan [c] 0 cs with
      | nil => simp
      | cons p ps => simp

theorem splitScan_sep (c : Char) (cs : List Char) :
    splitScan [c] 0 (c :: cs) = [] :: splitScan [c] 0 cs := by
  rw [splitScan]
  simp [List.isPrefixOf]

theorem splitScan_other (c x : Char) (cs : List Char) (h : x ≠ c) :
    ∃ p ps, splitScan [c] 0 cs = p :: ps ∧ splitScan [c] 0 (x :: cs) = (x :: p) :: ps := by
  have hpre : [c].isPrefixOf (x :: cs) = false := by
    simp [List.isPrefixOf, Ne.symm h]
  cases hs : splitScan [c] 0 cs with
  | nil => exact absurd hs (splitScan_ne_nil c cs)
  | cons p ps =>
    refine ⟨p, ps, rfl, ?_⟩
    rw [splitScan]
    simp [hpre, hs]

/-- Joining the parts of a split gives the text back. -/
theorem joinChars_splitScan (c : Char) (cs : List Char) :
    joinChars c (splitScan [c] 0 cs) = cs := by
  induction cs with
  | nil => simp [splitScan, joinChars]
  | cons x cs ih =>
    by_cases h : x = c
    · subst h
      rw [splitScan_sep]
      cases hs : splitScan [x] 0 cs with
      | nil => exact absurd hs (splitScan_ne_nil x cs)
      | cons p ps =>
        rw [hs] at ih
        simp [joinChars, ih]
    · obtain ⟨p, ps, hs, hx⟩ := splitScan_other c x cs h
      rw [hx]
      rw [hs] at ih
      cases ps with
      | nil =>
        simp only [joinChars] at ih ⊢
        rw [ih]
      | cons q rest =>
        simp only [joinChars] at ih ⊢
        rw [← ih]
        simp

/-- No part of a split holds the separator. -/
theorem splitScan_free (c : Char) (cs : List Char) : ∀ p ∈ splitScan [c] 0 cs, c ∉ p := by
  induction cs with
  | nil => simp [splitScan]
  | cons x cs ih =>
    by_cases h : x = c
    · subst h
      rw [splitScan_sep]
      intro p hp
      rcases List.mem_cons.mp hp with rfl | hp
      · simp
      · exact ih p hp
    · obtain ⟨p, ps, hs, hx⟩ := splitScan_other c x cs h
      rw [hx]
      rw [hs] at ih
      intro q hq
      rcases List.mem_cons.mp hq with rfl | hq
      · intro hmem
        rcases List.mem_cons.mp hmem with heq | hmem
        · exact h heq.symm
        · exact ih p (List.mem_cons_self _ _) hmem
      · exact ih q (List.mem_cons_of_mem _ hq)

/-- A text without the separator is its own single part. -/
theorem splitScan_of_free (c : Char) (p : List Char) (h : c ∉ p) : splitScan [c] 0 p = [p] := by
  induction p with
  | nil => simp [splitScan]
  | cons x xs ih =>
    have hx : x ≠ c := fun heq => h (by simp [heq])
    have hxs : c ∉ xs := fun hmem => h (List.mem_cons_of_mem _ hmem)
    obtain ⟨q, qs, hs, hsplit⟩ := splitScan_other c x xs hx
    rw [ih hxs] at hs
    injection hs with h1 h2
    subst h1 h2
    exact hsplit

/-- A text that starts with a part without the separator, followed by the
separator, splits into that part and the parts of the rest. -/
theorem splitScan_free_append (c : Char) (p rest : List Char) (h : c ∉ p) :
    splitScan [c] 0 (p ++ c :: rest) = p :: splitScan [c] 0 rest := by
  induction p with
  | nil => simpa using splitScan_sep c rest
  | cons x xs ih =>
    have hx : x ≠ c := fun heq => h (by simp [heq])
    have hxs : c ∉ xs := fun hmem => h (List.mem_cons_of_mem _ hmem)
    obtain ⟨q, qs, hs, hsplit⟩ := splitScan_other c x (xs ++ c :: rest) hx
    rw [ih hxs] at hs
    injection hs with h1 h2
    subst h1 h2
    simpa using hsplit

/-- Splitting the join of parts without the separator gives the parts back. -/
theorem splitScan_joinChars (c : Char) (parts : List (List Char)) (hne : parts ≠ [])
    (hfree : ∀ p ∈ parts, c ∉ p) : splitScan [c] 0 (joinChars c parts) = parts := by
  induction parts with
  | nil => exact absurd rfl hne
  | cons p rest ih =>
    cases rest with
    | nil =>
      simp only [joinChars]
      exact splitScan_of_free c p (hfree p (List.mem_cons_self _ _))
    | cons q rest2 =>
      simp only [joinChars]
      rw [splitScan_free_append c p _ (hfree p (List.mem_cons_self _ _))]
      rw [ih (by simp) (fun r hr => hfree r (List.mem_cons_of_mem _ hr))]

/-- The join of two lists of parts. -/
theorem joinChars_append (c : Char) (xs ys : List (List Char)) (hx : xs ≠ []) (hy : ys ≠ []) :
    joinChars c (xs ++ ys) = joinChars c xs ++ c :: joinChars c ys := by
  induction xs with
  | nil => exact absurd rfl hx
  | cons p rest ih =>
    cases rest with
    | nil =>
      cases ys with
      | nil => exact absurd rfl hy
      | cons y ys2 => simp [joinChars]
    | cons q rest2 =>
      have := ih (by simp)
      rw [List.cons_append] at this
      show joinChars c (p :: q :: (rest2 ++ ys)) = _
      rw [joinChars, this, joinChars]
      simp

/-- The parts of two texts with the separator between them. -/
theorem splitScan_append_sep (c : Char) (a b : List Char) :
    splitScan [c] 0 (a ++ c :: b) = splitScan [c] 0 a ++ splitScan [c] 0 b := by
  have ha := joinChars_splitScan c a
  have hb := joinChars_splitScan c b
  have hj := joinChars_append c (splitScan [c] 0 a) (splitScan [c] 0 b)
    (splitScan_ne_nil c a) (splitScan_ne_nil c b)
  rw [ha, hb] at hj
  rw [← hj]
  apply splitScan_joinChars
  · simp [splitScan_ne_nil]
  · intro p hp
    rcases List.mem_append.mp hp with hp | hp
    · exact splitScan_free c a p hp
    · exact splitScan_free c b p hp

/-! ## Split and Join at `-` -/

theorem Split_dash (s : String) :
    Split s "-" = (splitScan ['-'] 0 s.data).map String.mk := by
  have h : ("-" : String).data = ['-'] := rfl
  simp [Split, h]

theorem joinChars_merge (c : Char) (p q : List Char) (rest : List (List Char)) :
    joinChars c ((p ++ c :: q) :: rest) = p ++ c :: joinChars c (q :: rest) := by
  cases rest with
  | nil => simp [joinChars]
  | cons r rest2 => simp [joinChars]

theorem Join_foldl_data (p : String) (ps : List String) :
    (ps.foldl (fun acc q => acc ++ "-" ++ q) p).data
      = joinChars '-' (p.data :: ps.map String.data) := by
  induction ps generalizing p with
  | nil => simp [joinChars]
  | cons q rest ih =>
    rw [List.foldl_cons, ih]
    have h : (p ++ "-" ++ q).data = p.data ++ '-' :: q.data := by
      simp [String.data_append]
    rw [h, joinChars_merge]
    cases rest with
    | nil => simp [joinChars]
    | cons r rest2 => simp [joinChars]

/-- The characters of a join at `-`. -/
theorem Join_dash_data (parts : List String) :
    (Join parts "-").data = joinChars '-' (parts.map String.data) := by
  cases parts with
  | nil => simp [Join, joinChars]
  | cons p ps => simp only [Join, Join_foldl_data, List.map_cons]

/-- The characters of the join of some of the parts of a split. -/
theorem Join_dash_mk_data (parts : List (List Char)) :
    (Join (parts.map String.mk) "-").data = joinChars '-' parts := by
  rw [Join_dash_data, List.map_map]
  congr 1
  induction parts with
  | nil => rfl
  | cons p ps ih => simp [ih]

/-- The fallback on a cache with one entry: the last four segments of the
cached name, or nothing when it has fewer. -/
theorem zoneFromCache_single (name id : String) :
    (zoneFromCache [(name, id)] id).data
      = if (splitScan ['-'] 0 name.data).length ≥ 4
        then joinChars '-' ((splitScan ['-'] 0 name.data).drop
          ((splitScan ['-'] 0 name.data).length - 4))
        else [] := by
  simp only [zoneFromCache, beq_self_eq_true, if_true, Split_dash, List.length_map]
  by_cases h : (splitScan ['-'] 0 name.data).length ≥ 4
  · simp only [h, if_true]
    rw [← List.map_drop, Join_dash_mk_data]
  · simp only [h, if_false]

/-- The characters of the pool name of a flavor in a zone. -/
theorem poolName_data (K : Constants) (flavor zone : String) (hz : zone ≠ "") :
    (poolName K flavor zone).data
      = (K.PoolNamePrefix ++ ReplaceAll flavor "." "-").data ++ '-' :: zone.data := by
  simp only [poolName, hz, ne_eq, not_false_eq_true, if_true, String.data_append]
  simp

/-- The last segment of a text that ends with `b` ends with the last segment
of `b`. -/
theorem splitScan_append_getLast (c : Char) (a b : List Char) :
    ∃ u l, (splitScan [c] 0 b).getLast? = some l ∧
      (splitScan [c] 0 (a ++ b)).getLast? = some (u ++ l) := by
  induction a with
  | nil =>
    cases hs : (splitScan [c] 0 b).getLast? with
    | none =>
      rw [List.getLast?_eq_none_iff] at hs
      exact absurd hs (splitScan_ne_nil c b)
    | some l => exact ⟨[], l, rfl, by simpa using hs⟩
  | cons x xs ih =>
    obtain ⟨u, l, hl, hlast⟩ := ih
    by_cases hx : x = c
    · subst hx
      refine ⟨u, l, hl, ?_⟩
      rw [List.cons_append, splitScan_sep]
      cases hs : splitScan [x] 0 (xs ++ b) with
      | nil => exact absurd hs (splitScan_ne_nil x _)
      | cons p ps =>
        rw [hs] at hlast
        rw [List.getLast?_cons_cons]
        exact hlast
    · obtain ⟨p, ps, hs, hsplit⟩ := splitScan_other c x (xs ++ b) hx
      rw [List.cons_append, hsplit]
      rw [hs] at hlast
      cases ps with
      | nil =>
        simp only [List.getLast?_singleton, Option.some.injEq] at hlast
        refine ⟨x :: u, l, hl, ?_⟩
        simp [hlast]
      | cons q qs =>
        rw [List.getLast?_cons_cons] at hlast
        refine ⟨u, l, hl, ?_⟩
        rw [List.getLast?_cons_cons]
        exact hlast

/-- The segments of a pool name are those of the prefix with the sanitized
flavor, then those of the zone. -/
theorem poolName_segments (K : Constants) (flavor zone : String) (hz : zone ≠ "") :
    splitScan ['-'] 0 (poolName K flavor zone).data
      = splitScan ['-'] 0 (K.PoolNamePrefix ++ ReplaceAll flavor "." "-").data
        ++ splitScan ['-'] 0 zone.data := by
  rw [poolName_data K flavor zone hz, splitScan_append_sep]

/-- The fallback gives the zone back when the zone has four segments. -/
theorem zoneFromCache_of_four (K : Constants) (flavor zone id : String) (hz : zone ≠ "")
    (h4 : (Split zone "-").length = 4) :
    zoneFromCache [(poolName K flavor zone, id)] id = zone := by
  rw [Split_dash, List.length_map] at h4
  apply String.ext
  rw [zoneFromCache_single, poolName_segments K flavor zone hz, List.length_append, h4]
  have hge : (splitScan ['-'] 0 (K.PoolNamePrefix ++ ReplaceAll flavor "." "-").data).length + 4
      ≥ 4 := by omega
  rw [if_pos hge, Nat.add_sub_cancel, List.drop_left, joinChars_splitScan]

/-- The fallback gives the zone back only when the zone has four segments. -/
theorem four_of_zoneFromCache (K : Constants) (flavor zone id : String) (hz : zone ≠ "")
    (h : zoneFromCache [(poolName K flavor zone, id)] id = zone) :
    (Split zone "-").length = 4 := by
  have hd := congrArg String.data h
  rw [zoneFromCache_single] at hd
  have hzd : zone.data ≠ [] := by
    intro he
    apply hz
    apply String.ext
    rw [he]
  by_cases hlen : (splitScan ['-'] 0 (poolName K flavor zone).data).length ≥ 4
  · rw [if_pos hlen] at hd
    have hfree : ∀ p ∈ (splitScan ['-'] 0 (poolName K flavor zone).data).drop
        ((splitScan ['-'] 0 (poolName K flavor zone).data).length - 4), '-' ∉ p :=
      fun p hp => splitScan_free '-' _ p (List.mem_of_mem_drop hp)
    have hl : ((splitScan ['-'] 0 (poolName K flavor zone).data).drop
        ((splitScan ['-'] 0 (poolName K flavor zone).data).length - 4)).length = 4 := by
      rw [List.length_drop]
      omega
    have hne : (splitScan ['-'] 0 (poolName K flavor zone).data).drop
        ((splitScan ['-'] 0 (poolName K flavor zone).data).length - 4) ≠ [] := by
      intro he
      rw [he] at hl
      simp at hl
    have hs := splitScan_joinChars '-' _ hne hfree
    rw [hd] at hs
    rw [Split_dash, List.length_map, hs, hl]
  · rw [if_neg hlen] at hd
    exact absurd hd.symm hzd

/-- The fallback on the pool name of a flavor in zone `gra7-a`: nothing, or a
text that ends with the last segment of the sanitized flavor and `-gra7-a`. -/
theorem zoneFromCache_gra7a (K : Constants) (flavor id : String) :
    zoneFromCache [(poolName K flavor "gra7-a", id)] id = ""
    ∨ ∃ u l, (Split (ReplaceAll flavor "." "-") "-").getLast? = some l ∧
        zoneFromCache [(poolName K flavor "gra7-a", id)] id = u ++ l ++ "-gra7-a" := by
  have hz : ("gra7-a" : String) ≠ "" := by decide
  have hZ : splitScan ['-'] 0 ("gra7-a" : String).data = [['g', 'r', 'a', '7'], ['a']] := by
    decide
  have hseg := poolName_segments K flavor "gra7-a" hz
  rw [hZ] at hseg
  have hdata := zoneFromCache_single (poolName K flavor "gra7-a") id
  rw [hseg, List.length_append] at hdata
  obtain ⟨u, l, hl, hlast⟩ := splitScan_append_getLast '-' K.PoolNamePrefix.data
    (ReplaceAll flavor "." "-").data
  rw [← String.data_append] at hlast
  generalize splitScan ['-'] 0 (K.PoolNamePrefix ++ ReplaceAll flavor "." "-").data = A
    at hdata hlast
  have hsegl : (Split (ReplaceAll flavor "." "-") "-").getLast? = some (String.mk l) := by
    rw [Split_dash, List.getLast?_map, hl]
    rfl
  by_cases hA : A.length ≥ 2
  · right
    have hge : A.length + [['g', 'r', 'a', '7'], ['a']].length ≥ 4 := by
      simp only [List.length_cons, List.length_nil]
      omega
    rw [if_pos hge] at hdata
    have hdrop : (A ++ [['g', 'r', 'a', '7'], ['a']]).drop
        (A.length + [['g', 'r', 'a', '7'], ['a']].length - 4)
        = A.drop (A.length - 2) ++ [['g', 'r', 'a', '7'], ['a']] := by
      have he : A.length + [['g', 'r', 'a', '7'], ['a']].length - 4 = A.length - 2 := by
        simp only [List.length_cons, List.length_nil]
        omega
      rw [he, List.drop_append_of_le_length (by omega)]
    rw [hdrop] at hdata
    have hlen2 : (A.drop (A.length - 2)).length = 2 := by
      rw [List.length_drop]
      omega
    obtain ⟨x, y, hxy⟩ : ∃ x y, A.drop (A.length - 2) = [x, y] := by
      match hm : A.drop (A.length - 2), hlen2 with
      | [x, y], _ => exact ⟨x, y, rfl⟩
    have hy : y = u ++ l := by
      have h1 : (A.drop (A.length - 2)).getLast? = A.getLast? := by
        rw [List.getLast?_drop, if_neg (by omega)]
      rw [hxy, hlast] at h1
      simpa using h1
    rw [hxy, hy] at hdata
    refine ⟨String.mk (x ++ '-' :: u), String.mk l, hsegl, ?_⟩
    apply String.ext
    rw [hdata]
    simp [joinChars, String.data_append]
  · left
    have hlt : ¬ (A.length + [['g', 'r', 'a', '7'], ['a']].length ≥ 4) := by
      simp only [List.length_cons, List.length_nil]
      omega
    rw [if_neg hlt] at hdata
    apply String.ext
    rw [hdata]

/-- C30: for every flavor and every zone that is not empty, when the cache
maps only the pool name of the flavor in the zone to the pool ID, the
cache-name fallback of extractZoneFromPoolName, which joins the last four
`-`-separated segments of the cached name, returns the zone if and only if
the zone has exactly four `-`-separated segments.  For the zone `gra7-a`, the
default zone of region `GRA7`, it returns a text other than the zone: the
empty string, or a text that ends with the last segment of the sanitized
flavor followed by `-gra7-a`.  The fallback is what extractZoneFromPoolName
returns when the pool read fails or reports no zone. -/
theorem zoneFromCache_recovers_zone {σ : Type} (K : Constants) (c : OVHClient σ)
    (flavor id : String) :
    (∀ zone, zone ≠ "" →
      (zoneFromCache [(poolName K flavor zone, id)] id = zone
        ↔ (Split zone "-").length = 4)) ∧
    (ToLower "GRA7" ++ "-a" = "gra7-a"
      ∧ zoneFromCache [(poolName K flavor "gra7-a", id)] id ≠ "gra7-a"
      ∧ (zoneFromCache [(poolName K flavor "gra7-a", id)] id = ""
        ∨ ∃ u l, (Split (ReplaceAll flavor "." "-") "-").getLast? = some l ∧
            zoneFromCache [(poolName K flavor "gra7-a", id)] id = u ++ l ++ "-gra7-a")) ∧
    (∀ (poolCache : GoMap) (s : σ) err s1, c.GetNodePool s id = (.error err, s1) →
      (extractZoneFromPoolName c poolCache s id).result = zoneFromCache poolCache id) ∧
    (∀ (poolCache : GoMap) (s : σ) pool s1, c.GetNodePool s id = (.ok pool, s1) →
      pool.AvailabilityZone = "" →
      (extractZoneFromPoolName c poolCache s id).result = zoneFromCache poolCache id) := by
  refine ⟨?_, ⟨by decide, ?_, zoneFromCache_gra7a K flavor id⟩, ?_, ?_⟩
  · intro zone hz
    exact ⟨four_of_zoneFromCache K flavor zone id hz, zoneFromCache_of_four K flavor zone id hz⟩
  · intro h
    have h4 := four_of_zoneFromCache K flavor "gra7-a" id (by decide) h
    revert h4
    decide
  · intro poolCache s err s1 hg
    simp [extractZoneFromPoolName, hg]
  · intro poolCache s pool s1 hg hzone
    simp [extractZoneFromPoolName, hg, hzone]

/-- Witness for C30: the zone `eu-west-par-a` has four segments and is
recovered from the cached name; against a failing remote the fallback is what
extractZoneFromPoolName returns. -/
theorem zoneFromCache_recovers_zone_witness :
    zoneFromCache [(poolName scenarioConstants "b3-8" "eu-west-par-a", "pool-0")] "pool-0"
      = "eu-west-par-a"
    ∧ (extractZoneFromPoolName failingClient
        [(poolName scenarioConstants "b3-8" "gra7-a", "pool-0")] () "pool-0").result
      = zoneFromCache [(poolName scenarioConstants "b3-8" "gra7-a", "pool-0")] "pool-0" :=
  ⟨((zoneFromCache_recovers_zone scenarioConstants failingClient "b3-8" "pool-0").1
      "eu-west-par-a" (by decide)).mpr (by decide),
   (zoneFromCache_recovers_zone scenarioConstants failingClient "b3-8" "pool-0").2.2.1
      [(poolName scenarioConstants "b3-8" "gra7-a", "pool-0")] () _ _ rfl⟩

/-! ## The price map of a catalog -/

theorem PriceMap.lookup_filter_other (m : PriceMap) (k n : String) (h : n ≠ k) :
    List.lookup n (m.filter (fun e => e.1 != k)) = List.lookup n m := by
  induction m with
  | nil => rfl
  | cons e rest ih =>
    obtain ⟨a, b⟩ := e
    by_cases h1 : a = k
    · rw [List.filter_cons_of_neg (by simp [h1]), List.lookup_cons]
      have h2 : (n == a) = false := by simp [h1, h]
      simp only [h2]
      exact ih
    · rw [List.filter_cons_of_pos (by simp [h1]), List.lookup_cons, List.lookup_cons]
      cases (n == a)
      · exact ih
      · rfl

theorem PriceMap.get?_set (m : PriceMap) (k : String) (v : ℚ) (n : String) :
    (m.set k v).get? n = if n = k then some v else m.get? n := by
  unfold PriceMap.set PriceMap.get?
  by_cases h : n = k
  · subst h
    simp [List.lookup]
  · have h2 : (n == k) = false := by simpa using h
    rw [List.lookup_cons, h2, if_neg h]
    exact PriceMap.lookup_filter_other m k n h

/-- Where a key stands after an entry was stored. -/
theorem storeEntry_get? (m : PriceMap) (e : String × Int) (k : String) :
    (storeEntry m e).get? k
      = if (extractFlavorFromPlanCode e.1 == k || e.1 == k) = true
        then some ((e.2 : ℚ) / 100000000) else m.get? k := by
  unfold storeEntry
  rw [PriceMap.get?_set, PriceMap.get?_set]
  by_cases h1 : k = e.1
  · simp [h1]
  · by_cases h2 : k = extractFlavorFromPlanCode e.1
    · simp [h2]
    · have h1' : ¬ e.1 = k := fun h => h1 h.symm
      have h2' : ¬ extractFlavorFromPlanCode e.1 = k := fun h => h2 h.symm
      simp [h1, h2, h1', h2']

/-- The body of the inner loop of extractFlavorPrices stores a qualifying
pricing and passes over any other. -/
theorem extractPricing_eq (planCode : String) (prices : PriceMap) (pricing : PricingDetail) :
    extractPricing planCode prices pricing
      = if qualifies planCode pricing = true then storeEntry prices (planCode, pricing.Price)
        else prices := by
  by_cases hq : qualifies planCode pricing = true
  · rw [if_pos hq]
    simp only [qualifies, Bool.and_eq_true, decide_eq_true_eq, bne_iff_ne, ne_eq] at hq
    obtain ⟨⟨⟨h1, h2⟩, h3⟩, h4⟩ := hq
    rw [extractPricing_qualifying planCode prices pricing h1 h2 h3 h4]
    rfl
  · rw [if_neg hq]
    apply extractPricing_skipped
    rintro ⟨h1, h2, h3, h4⟩
    apply hq
    simp only [qualifies, Bool.and_eq_true, decide_eq_true_eq, bne_iff_ne, ne_eq]
    exact ⟨⟨⟨h1, h2⟩, h3⟩, h4⟩

theorem foldl_extractPricing (planCode : String) (pricings : List PricingDetail)
    (prices : PriceMap) :
    pricings.foldl (extractPricing planCode) prices
      = ((pricings.filter (qualifies planCode)).map
          (fun pricing => (planCode, pricing.Price))).foldl storeEntry prices := by
  induction pricings generalizing prices with
  | nil => rfl
  | cons pr rest ih =>
    rw [List.foldl_cons, ih, extractPricing_eq]
    by_cases hq : qualifies planCode pr = true
    · rw [if_pos hq, List.filter_cons_of_pos hq, List.map_cons, List.foldl_cons]
    · rw [if_neg hq, List.filter_cons_of_neg hq]

theorem extractAddon_eq (prices : PriceMap) (addon : PricingAddon) :
    extractAddon prices addon = (addonEntries addon).foldl storeEntry prices := by
  unfold extractAddon addonEntries
  by_cases hc : Contains (ToLower addon.PlanCode) "instance" = true
  · simp only [hc, Bool.not_true, Bool.false_eq_true, if_false, if_true]
    exact foldl_extractPricing _ _ _
  · simp [hc]

theorem foldl_extractAddon (addons : List PricingAddon) (prices : PriceMap) :
    addons.foldl extractAddon prices
      = (addons.flatMap addonEntries).foldl storeEntry prices := by
  induction addons generalizing prices with
  | nil => rfl
  | cons a rest ih =>
    rw [List.foldl_cons, ih, extractAddon_eq, List.flatMap_cons, List.foldl_append]

/-- The price map of a catalog is what storing its qualifying entries in
order gives. -/
theorem extractFlavorPrices_eq (catalog : PricingCatalog) :
    extractFlavorPrices catalog = (qualifyingEntries catalog).foldl storeEntry [] := by
  unfold extractFlavorPrices qualifyingEntries
  exact foldl_extractAddon _ _

theorem foldl_storeEntry_get? (entries : List (String × Int)) (m : PriceMap) (k : String) :
    (entries.foldl storeEntry m).get? k
      = match entries.reverse.find?
            (fun e => extractFlavorFromPlanCode e.1 == k || e.1 == k) with
        | some e => some ((e.2 : ℚ) / 100000000)
        | none => m.get? k := by
  induction entries generalizing m with
  | nil => rfl
  | cons e rest ih =>
    rw [List.foldl_cons, ih, List.reverse_cons, List.find?_append]
    cases hf : rest.reverse.find?
        (fun e => extractFlavorFromPlanCode e.1 == k || e.1 == k) with
    | some e2 => rfl
    | none =>
      simp only [Option.none_or, storeEntry_get?]
      by_cases hp : (extractFlavorFromPlanCode e.1 == k || e.1 == k) = true
      · simp [hp]
      · simp [hp]

/-- The value under a key of the price map of a catalog is the stored price
of the last qualifying entry whose flavor key or plan code is the key. -/
theorem extractFlavorPrices_get? (catalog : PricingCatalog) (k : String) :
    (extractFlavorPrices catalog).get? k
      = ((qualifyingEntries catalog).reverse.find?
          (fun e => extractFlavorFromPlanCode e.1 == k || e.1 == k)).map
          (fun e => (e.2 : ℚ) / 100000000) := by
  rw [extractFlavorPrices_eq, foldl_storeEntry_get?]
  cases (qualifyingEntries catalog).reverse.find?
      (fun e => extractFlavorFromPlanCode e.1 == k || e.1 == k) with
  | some e => rfl
  | none => rfl

/-! ## Flavor keys -/

theorem Char.toLower_toLower (c : Char) : c.toLower.toLower = c.toLower := by
  by_cases h : c.toNat ≥ 65 ∧ c.toNat ≤ 90
  · have hc : Char.ofNat c.toNat = c := Char.ofNat_toNat c
    obtain ⟨h1, h2⟩ := h
    generalize c.toNat = n at hc h1 h2
    subst hc
    interval_cases n <;> rfl
  · have hl : c.toLower = c := by
      unfold Char.toLower
      simp only [h, if_false]
    rw [hl, hl]

/-- Lower-casing twice is lower-casing once. -/
theorem ToLower_ToLower (s : String) : ToLower (ToLower s) = ToLower s := by
  unfold ToLower
  simp only [List.map_map]
  congr 1
  apply List.map_congr_left
  intro c _
  exact Char.toLower_toLower c

theorem Split_dot (s : String) :
    Split s "." = (splitScan ['.'] 0 s.data).map String.mk := by
  have h : (".": String).data = ['.'] := rfl
  simp [Split, h]

/-- The flavor key of a plan code: the text before the first `.` of the
lower-cased plan code without its prefix `instance-`. -/
theorem extractFlavorFromPlanCode_spec (planCode : String) :
    ∃ p ps, splitScan ['.'] 0 (TrimPrefix (ToLower planCode) "instance-").data = p :: ps ∧
      extractFlavorFromPlanCode planCode = String.mk p := by
  cases hs : splitScan ['.'] 0 (TrimPrefix (ToLower planCode) "instance-").data with
  | nil => exact absurd hs (splitScan_ne_nil _ _)
  | cons p ps =>
    refine ⟨p, ps, rfl, ?_⟩
    simp [extractFlavorFromPlanCode, Split_dot, hs]

/-- A flavor key holds no `.`. -/
theorem extractFlavorFromPlanCode_free (planCode : String) :
    '.' ∉ (extractFlavorFromPlanCode planCode).data := by
  obtain ⟨p, ps, hs, hf⟩ := extractFlavorFromPlanCode_spec planCode
  rw [hf]
  exact splitScan_free '.' _ p (by rw [hs]; exact List.mem_cons_self _ _)

/-- The flavor key of a lower-case plan code `instance-` + f + `.` + rest,
with no `.` in f, is f. -/
theorem extractFlavorFromPlanCode_catalog_key (f rest : String) (hdot : '.' ∉ f.data)
    (hlower : ToLower ("instance-" ++ (f ++ "." ++ rest)) = "instance-" ++ (f ++ "." ++ rest)) :
    extractFlavorFromPlanCode ("instance-" ++ (f ++ "." ++ rest)) = f := by
  obtain ⟨p, ps, hs, hf⟩ := extractFlavorFromPlanCode_spec ("instance-" ++ (f ++ "." ++ rest))
  rw [hlower, TrimPrefix_append] at hs
  have hd : (f ++ "." ++ rest).data = f.data ++ '.' :: rest.data := by
    simp [String.data_append]
  rw [hd, splitScan_free_append '.' f.data rest.data hdot] at hs
  injection hs with h1 _
  rw [hf, ← h1]

/-- Every qualifying entry of a catalog carries a lower-cased plan code that
contains `instance` and has a flavor key. -/
theorem qualifyingEntries_mem (catalog : PricingCatalog) (e : String × Int)
    (h : e ∈ qualifyingEntries catalog) :
    ToLower e.1 = e.1 ∧ Contains e.1 "instance" = true ∧ extractFlavorFromPlanCode e.1 ≠ "" := by
  unfold qualifyingEntries at h
  obtain ⟨addon, _, he⟩ := List.mem_flatMap.mp h
  unfold addonEntries at he
  by_cases hc : Contains (ToLower addon.PlanCode) "instance" = true
  · rw [if_pos hc] at he
    obtain ⟨pricing, hp, rfl⟩ := List.mem_map.mp he
    have hq := (List.mem_filter.mp hp).2
    simp only [qualifies, Bool.and_eq_true, bne_iff_ne, ne_eq] at hq
    exact ⟨ToLower_ToLower _, hc, hq.2⟩
  · rw [if_neg hc] at he
    simp at he

theorem find?_congr_mem {α : Type} (l : List α) (p q : α → Bool)
    (h : ∀ x ∈ l, p x = q x) : l.find? p = l.find? q := by
  induction l with
  | nil => rfl
  | cons a rest ih =>
    have ha := h a (List.mem_cons_self _ _)
    have hrest := ih (fun x hx => h x (List.mem_cons_of_mem _ hx))
    rw [List.find?_cons, List.find?_cons, ha, hrest]

/-- A catalog-style key in the price map of a catalog comes from a qualifying
entry whose flavor key is the flavor of the key. -/
theorem catalog_key_entry (catalog : PricingCatalog) (f rest : String) (hdot : '.' ∉ f.data)
    (h : ((extractFlavorPrices catalog).get? ("instance-" ++ (f ++ "." ++ rest))).isSome) :
    ∃ e ∈ qualifyingEntries catalog, extractFlavorFromPlanCode e.1 = f := by
  rw [extractFlavorPrices_get?] at h
  cases hf : (qualifyingEntries catalog).reverse.find?
      (fun e => extractFlavorFromPlanCode e.1 == "instance-" ++ (f ++ "." ++ rest)
        || e.1 == "instance-" ++ (f ++ "." ++ rest)) with
  | none =>
    rw [hf] at h
    simp at h
  | some e =>
    have hmem : e ∈ qualifyingEntries catalog :=
      List.mem_reverse.mp (List.mem_of_find?_eq_some hf)
    have hp := List.find?_some hf
    simp only [Bool.or_eq_true, beq_iff_eq] at hp
    refine ⟨e, hmem, ?_⟩
    rcases hp with hp | hp
    · exfalso
      have hfree := extractFlavorFromPlanCode_free e.1
      rw [hp] at hfree
      apply hfree
      simp [String.data_append]
    · obtain ⟨hlow, _, _⟩ := qualifyingEntries_mem catalog e hmem
      rw [hp] at hlow ⊢
      exact extractFlavorFromPlanCode_catalog_key f rest hdot hlow

/-- The key of a flavor that has a qualifying entry is in the price map. -/
theorem flavor_key_entry (catalog : PricingCatalog) (f : String)
    (h : ∃ e ∈ qualifyingEntries catalog, extractFlavorFromPlanCode e.1 = f) :
    ∃ e, (qualifyingEntries catalog).reverse.find?
        (fun e => extractFlavorFromPlanCode e.1 == f || e.1 == f) = some e := by
  obtain ⟨e, hmem, hf⟩ := h
  cases hfind : (qualifyingEntries catalog).reverse.find?
      (fun e => extractFlavorFromPlanCode e.1 == f || e.1 == f) with
  | some e2 => exact ⟨e2, rfl⟩
  | none =>
    exfalso
    have := List.find?_eq_none.mp hfind e (List.mem_reverse.mpr hmem)
    simp [hf] at this

/-- C29 (amended): for every catalog, every flavor name f without `.` and
every region text r, if the price map of extractFlavorPrices holds the key
`instance-` + f + `.` + r + `.hour.consumption` or the key
`instance-` + f + `.hour.consumption`, it holds the key f too; GetFlavorPrice
on a fresh cache with that map answers f from strategy 1, in every region,
with the stored price of the last qualifying catalog entry whose flavor key or
plan code is f; when f does not contain `instance`, that is the last
qualifying entry whose flavor key is f, whatever its region. -/
theorem extractFlavorPrices_serves_flavor_key (catalog : PricingCatalog) (f r : String)
    (hdot : '.' ∉ f.data)
    (hpresent :
      ((extractFlavorPrices catalog).get?
          ("instance-" ++ f ++ "." ++ r ++ ".hour.consumption")).isSome
      ∨ ((extractFlavorPrices catalog).get? ("instance-" ++ f ++ ".hour.consumption")).isSome) :
    ∃ e, (qualifyingEntries catalog).reverse.find?
          (fun e => extractFlavorFromPlanCode e.1 == f || e.1 == f) = some e ∧
      (extractFlavorPrices catalog).get? f = some ((e.2 : ℚ) / 100000000) ∧
      (∀ (p : PricingClient) (clock : Clock) (fetch : Except ClientError PricingCatalog)
        (region : String), p.catalog ≠ none → clock.check - p.lastRefresh ≤ p.cacheTTL →
        p.flavorPrices = extractFlavorPrices catalog →
        GetFlavorPrice p clock fetch f region = (((e.2 : ℚ) / 100000000, none), p)) ∧
      (Contains f "instance" = false →
        (qualifyingEntries catalog).reverse.find?
          (fun e => extractFlavorFromPlanCode e.1 == f) = some e) := by
  have hentry : ∃ e ∈ qualifyingEntries catalog, extractFlavorFromPlanCode e.1 = f := by
    rcases hpresent with h | h
    · have hk : "instance-" ++ f ++ "." ++ r ++ ".hour.consumption"
          = "instance-" ++ (f ++ "." ++ (r ++ ".hour.consumption")) := by
        simp only [String.append_assoc]
      rw [hk] at h
      exact catalog_key_entry catalog f _ hdot h
    · have hk : "instance-" ++ f ++ ".hour.consumption"
          = "instance-" ++ (f ++ "." ++ "hour.consumption") := by
        have h2 : (".hour.consumption" : String) = "." ++ "hour.consumption" := by decide
        rw [h2]
        simp only [String.append_assoc]
      rw [hk] at h
      exact catalog_key_entry catalog f _ hdot h
  obtain ⟨e, hfind⟩ := flavor_key_entry catalog f hentry
  have hget : (extractFlavorPrices catalog).get? f = some ((e.2 : ℚ) / 100000000) := by
    rw [extractFlavorPrices_get?, hfind]
    rfl
  refine ⟨e, hfind, hget, ?_, ?_⟩
  · intro p clock fetch region hcat hfresh hmap
    unfold GetFlavorPrice
    rw [refreshCacheIfNeeded_fresh p clock fetch hcat hfresh]
    simp only [lookupFlavorPrice, hmap, hget]
  · intro hno
    rw [← hfind]
    apply find?_congr_mem
    intro x hx
    have hxmem : x ∈ qualifyingEntries catalog := List.mem_reverse.mp hx
    obtain ⟨_, hc, _⟩ := qualifyingEntries_mem catalog x hxmem
    have hne : (x.1 == f) = false := by
      rw [beq_eq_false_iff_ne]
      intro heq
      rw [heq, hno] at hc
      cases hc
    rw [hne, Bool.or_false]

/-- Witness for C29: the catalog with the one entry
`instance-b3-8.gra7.hour.consumption`; the price of `b3-8` is served from the
key `b3-8`. -/
theorem extractFlavorPrices_serves_flavor_key_witness :
    ∃ e : String × Int,
      (extractFlavorPrices microCatalog).get? "b3-8" = some ((e.2 : ℚ) / 100000000) ∧
      GetFlavorPrice microPricing { check := 5, recheck := 5, stamp := 5 }
          (.error (.leaf "unreachable")) "b3-8" "GRA7"
        = (((e.2 : ℚ) / 100000000, none), microPricing) :=
  match extractFlavorPrices_serves_flavor_key microCatalog "b3-8" "gra7" (by decide)
      (Or.inl (by rw [extractFlavorPrices_get?]; decide)) with
  | ⟨e, _, h2, h3, _⟩ =>
    ⟨e, h2, h3 microPricing { check := 5, recheck := 5, stamp := 5 }
      (.error (.leaf "unreachable")) "GRA7" (by decide) (by decide) rfl⟩

/-- Counterexample to C29 as stated: in the catalog with the entries
`instance-instance-x.gra.hour.consumption` (stored price 1) and `instance-x`
(stored price 2), the strategy 3 key of the flavor `instance-x` in region
`gra` is present and GetFlavorPrice answers 2, the price of the entry of
flavor `x` whose plan code is `instance-x`, while the last qualifying entry
for the flavor `instance-x` has the stored price 1. -/
theorem GetFlavorPrice_plan_code_collision :
    ((extractFlavorPrices collidingCatalog).get?
        ("instance-" ++ "instance-x" ++ "." ++ "gra" ++ ".hour.consumption")).isSome = true
    ∧ (GetFlavorPrice collidingPricing { check := 5, recheck := 5, stamp := 5 }
        (.error (.leaf "unreachable")) "instance-x" "GRA").1 = (2, none)
    ∧ (qualifyingEntries collidingCatalog).reverse.find?
        (fun e => extractFlavorFromPlanCode e.1 == "instance-x")
      = some ("instance-instance-x.gra.hour.consumption", 100000000)
    ∧ (((100000000 : Int) : ℚ) / 100000000 ≠ 2) := by
  refine ⟨by rw [extractFlavorPrices_get?]; decide, ?_, by decide, by norm_num⟩
  have hfind : (qualifyingEntries collidingCatalog).reverse.find?
      (fun e => extractFlavorFromPlanCode e.1 == "instance-x" || e.1 == "instance-x")
      = some ("instance-x", 200000000) := by decide
  have hget : (extractFlavorPrices collidingCatalog).get? "instance-x" = some 2 := by
    rw [extractFlavorPrices_get?, hfind]
    norm_num
  unfold GetFlavorPrice
  rw [refreshCacheIfNeeded_fresh collidingPricing _ _ (by decide) (by decide)]
  simp only [lookupFlavorPrice]
  have hmap : collidingPricing.flavorPrices = extractFlavorPrices collidingCatalog := rfl
  rw [hmap, hget]

end OVH
